import Mathlib

/-!
# GravityCoin service-node overlay: payment voting, ranking and registry

A shallow embedding of the xnode payment-vote validation
(`xnode-payments.cpp`), the deterministic ranking (`xnodeman.cpp`) and the
registry record life cycle (`xnode.cpp`, `xnodeman.cpp`).

Conventions of the embedding:
* C++ `int`, `int64_t` and `CAmount` values are `Int`, `uint256` and
  `uint32_t` values are `Nat`; container sizes are far below `2^31`, so
  `GetVoteCount()` and `size()` do not wrap.
* an out-parameter together with a `bool` result becomes an `Option` or a
  pair; a method that mutates `*this` returns the new object.
* everything the code reads from other subsystems (clock, chain state,
  UTXO set, sporks, sync flags, signature verification) is a field of `Env`.
-/

namespace GravityCoin

/-! ## Primitive types -/

/-- Output reference `COutPoint`: transaction id and output index. -/
structure COutPoint where
  hash : Nat
  n : Nat
deriving DecidableEq, Repr

/-- Script bytes. -/
abbrev CScript := List Nat

/-- Transaction output. -/
structure CTxOut where
  nValue : Int
  scriptPubKey : CScript
deriving DecidableEq, Repr

/-- Transaction; only the outputs are read by the payee validation. -/
structure CTransaction where
  vout : List CTxOut
deriving DecidableEq, Repr

/-- Public key bytes (`CPubKey`). -/
abbrev CPubKey := List Nat

/-- Network address and port (`CService`). -/
structure CService where
  ip : Nat
  port : Nat
deriving DecidableEq, Repr

/-- Transaction input `CTxIn`; a record is keyed by `prevout`. -/
structure CTxIn where
  prevout : COutPoint
  scriptSig : CScript
  nSequence : Nat
deriving DecidableEq, Repr

/-- Unspent outputs of one transaction (`CCoins`): a spent (null) output is
`none`; `nHeight` is the height of the block that holds the transaction. -/
structure CCoins where
  vout : List (Option CTxOut)
  nHeight : Int
deriving DecidableEq, Repr

/-- Network selected by `Params().NetworkIDString()` (`chainparams.cpp`). -/
inductive Network where
  | MAIN
  | TESTNET
  | REGTEST
deriving DecidableEq, Repr

/-- IP part of an address (`CNetAddr`). -/
abbrev CNetAddr := Nat

/-- Inventory kinds announced by `RelayInv` (spec §6). -/
inductive InvType where
  | MSG_XNODE_ANNOUNCE
  | MSG_XNODE_PING
  | MSG_XNODE_PAYMENT_VOTE
  | MSG_XNODE_PAYMENT_BLOCK
  | MSG_XNODE_VERIFY
deriving DecidableEq, Repr

/-- Finite map `std::map<K, V>` read through `count`, `find` and `operator[]`. -/
abbrev FMap (K V : Type) := K → Option V

/-- The empty map. -/
def FMap.empty {K V : Type} : FMap K V := fun _ => none

/-- Member test `m.count(k)`. -/
def FMap.count {K V : Type} (m : FMap K V) (k : K) : Bool := (m k).isSome

/-- Assignment `m[k] = v`. -/
def FMap.set {K V : Type} [DecidableEq K] (m : FMap K V) (k : K) (v : V) : FMap K V :=
  fun k1 => if k1 = k then some v else m k1

/-- Call `m.insert(make_pair(k, v))`: an existing entry is kept. -/
def FMap.insert {K V : Type} [DecidableEq K] (m : FMap K V) (k : K) (v : V) : FMap K V :=
  fun k1 => if k1 = k then (match m k with | some v0 => some v0 | none => some v) else m k1

/-- Call `m.erase(k)`. -/
def FMap.erase {K V : Type} [DecidableEq K] (m : FMap K V) (k : K) : FMap K V :=
  fun k1 => if k1 = k then none else m k1

/-- An erase-if loop over the whole map: entries satisfying `drop` are removed. -/
def FMap.eraseIf {K V : Type} (m : FMap K V) (drop : K → V → Bool) : FMap K V :=
  fun k => match m k with
    | some v => if drop k v then none else some v
    | none => none

/-- Replacement of the element at position `i` of a vector by `f` of it
(a write through a pointer into the vector); out of range changes nothing. -/
def updateAt {α : Type} (l : List α) (i : Nat) (f : α → α) : List α :=
  match l, i with
  | [], _ => []
  | a :: rest, 0 => f a :: rest
  | a :: rest, i + 1 => a :: updateAt rest i f

/-! ## Spork identifiers (`spork.h`) -/

/-- Flag id `SPORK_1_VERSION_ON`. -/
def SPORK_1_VERSION_ON : Int := 10001

/-- Flag id `SPORK_4_XNODE_PAYMENT_START`. -/
def SPORK_4_XNODE_PAYMENT_START : Int := 10004

/-- Flag id `SPORK_5_XNODE_PAYMENT_ENFORCEMENT`. -/
def SPORK_5_XNODE_PAYMENT_ENFORCEMENT : Int := 10005

/-! ## Payment votes (`xnode-payments.h`, `xnode-payments.cpp`) -/

/-- Number of votes a payee needs before it is enforced (`xnode-payments.h:19`). -/
def MNPAYMENTS_SIGNATURES_REQUIRED : Int := 6

/-- Number of top-ranked nodes that may vote (`xnode-payments.h:20`). -/
def MNPAYMENTS_SIGNATURES_TOTAL : Int := 10

/-- Class `CXnodePayee`: a payee script and the hashes of the votes for it. -/
structure CXnodePayee where
  scriptPubKey : CScript
  vecVoteHashes : List Nat
deriving DecidableEq, Repr

/-- Accessor `CXnodePayee::GetPayee`. -/
def CXnodePayee.GetPayee (p : CXnodePayee) : CScript := p.scriptPubKey

/-- Accessor `CXnodePayee::GetVoteCount`: `vecVoteHashes.size()`. -/
def CXnodePayee.GetVoteCount (p : CXnodePayee) : Int := p.vecVoteHashes.length

/-- Class `CXnodeBlockPayees`: the tally of one block height. -/
structure CXnodeBlockPayees where
  nBlockHeight : Int
  vecPayees : List CXnodePayee
deriving DecidableEq, Repr

/-- Loop of `CXnodeBlockPayees::GetBestPayee`: the running pair
`(payeeRet, nVotes)`, replaced whenever a payee has strictly more votes. -/
def bestPayeeScan (vecPayees : List CXnodePayee) (init : CScript × Int) : CScript × Int :=
  vecPayees.foldl
    (fun acc payee =>
      if payee.GetVoteCount > acc.2 then (payee.GetPayee, payee.GetVoteCount) else acc)
    init

/-- Method `CXnodeBlockPayees::GetBestPayee` (`xnode-payments.cpp:360`):
`none` is the `false` result, `some payeeRet` the `true` result. -/
def CXnodeBlockPayees.GetBestPayee (B : CXnodeBlockPayees) : Option CScript :=
  if B.vecPayees.length = 0 then none
  else
    let r := bestPayeeScan B.vecPayees ([], -1)
    if r.2 > -1 then some r.1 else none

/-- First loop of `CXnodeBlockPayees::IsTransactionValid`: the largest vote
count, starting from `nMaxSignatures = 0`. -/
def maxSignatures (vecPayees : List CXnodePayee) : Int :=
  vecPayees.foldl
    (fun nMaxSignatures payee =>
      if payee.GetVoteCount ≥ nMaxSignatures then payee.GetVoteCount else nMaxSignatures)
    0

/-- Inner loop of `CXnodeBlockPayees::IsTransactionValid`: some output of the
transaction carries the payee script and exactly `nXnodePayment`. -/
def hasRequiredPayment (nXnodePayment : Int) (payee : CXnodePayee) (vout : List CTxOut) :
    Bool :=
  vout.any (fun txout =>
    decide (payee.GetPayee = txout.scriptPubKey) && decide (nXnodePayment = txout.nValue))

/-- Second loop of `CXnodeBlockPayees::IsTransactionValid` with its two exits:
`return true` as soon as a payee with enough votes is paid, and after the loop
`if (!hasValidPayee) return true; ... return false`. -/
def scanPayees (nXnodePayment : Int) (vout : List CTxOut) :
    List CXnodePayee → Bool → Bool
  | [], hasValidPayee => !hasValidPayee
  | payee :: rest, hasValidPayee =>
    if payee.GetVoteCount ≥ MNPAYMENTS_SIGNATURES_REQUIRED then
      if hasRequiredPayment nXnodePayment payee vout then true
      else scanPayees nXnodePayment vout rest true
    else scanPayees nXnodePayment vout rest hasValidPayee

/-- Method `CXnodeBlockPayees::IsTransactionValid` (`xnode-payments.cpp:394`).
`GetXnodePayment` is defined outside the sources at hand and is a parameter. -/
def CXnodeBlockPayees.IsTransactionValid (GetXnodePayment : Int → Int)
    (B : CXnodeBlockPayees) (txNew : CTransaction) : Bool :=
  let nXnodePayment := GetXnodePayment B.nBlockHeight
  let nMaxSignatures := maxSignatures B.vecPayees
  if nMaxSignatures < MNPAYMENTS_SIGNATURES_REQUIRED then true
  else scanPayees nXnodePayment txNew.vout B.vecPayees false

/-- Class `CXnodePaymentVote`: one vote of a ranked node for a payee. -/
structure CXnodePaymentVote where
  vinXnode : CTxIn
  nBlockHeight : Int
  payee : CScript
  vchSig : List Nat
deriving DecidableEq, Repr

/-- Class `CXnodePayments`: the stored votes, the per-height tallies and the
height of the last vote of each voter. -/
structure CXnodePayments where
  mapXnodePaymentVotes : FMap Nat CXnodePaymentVote
  mapXnodeBlocks : FMap Int CXnodeBlockPayees
  mapXnodesLastVote : FMap COutPoint Int

/-- Method `CXnodePayments::CanVote` (`xnode-payments.cpp:80`): the result and
the updated object. -/
def CXnodePayments.CanVote (p : CXnodePayments) (outXnode : COutPoint) (nBlockHeight : Int) :
    Bool × CXnodePayments :=
  if p.mapXnodesLastVote.count outXnode && decide (p.mapXnodesLastVote outXnode = some nBlockHeight)
  then (false, p)
  else (true, { p with mapXnodesLastVote := p.mapXnodesLastVote.set outXnode nBlockHeight })

/-- Method `CXnodePayments::IsTransactionValid` (`xnode-payments.cpp:478`). -/
def CXnodePayments.IsTransactionValid (GetXnodePayment : Int → Int) (p : CXnodePayments)
    (txNew : CTransaction) (nBlockHeight : Int) : Bool :=
  match p.mapXnodeBlocks nBlockHeight with
  | some blockPayees => blockPayees.IsTransactionValid GetXnodePayment txNew
  | none => true

/-- A run of `CanVote` calls, oldest first: the results in order and the
final object. -/
def CXnodePayments.CanVoteSeq (p : CXnodePayments) :
    List (COutPoint × Int) → List Bool × CXnodePayments
  | [] => ([], p)
  | (o, h) :: rest =>
    let r := p.CanVote o h
    let rs := CXnodePayments.CanVoteSeq r.2 rest
    (r.1 :: rs.1, rs.2)

/-! ## Registry records (`xnode.cpp`; `xnode.h` is not among the sources) -/

/-- Activity state of a record (`nActiveState`), the eight states named in
`CXnode::StateToString` (`xnode.cpp:321`). -/
inductive XnodeState where
  | XNODE_PRE_ENABLED
  | XNODE_ENABLED
  | XNODE_EXPIRED
  | XNODE_OUTPOINT_SPENT
  | XNODE_UPDATE_REQUIRED
  | XNODE_WATCHDOG_EXPIRED
  | XNODE_NEW_START_REQUIRED
  | XNODE_POSE_BAN
deriving DecidableEq, Repr

export XnodeState (XNODE_PRE_ENABLED XNODE_ENABLED XNODE_EXPIRED XNODE_OUTPOINT_SPENT
  XNODE_UPDATE_REQUIRED XNODE_WATCHDOG_EXPIRED XNODE_NEW_START_REQUIRED XNODE_POSE_BAN)

/-- Class `CXnodePing`: liveness message of a record. -/
structure CXnodePing where
  vin : CTxIn
  blockHash : Nat
  sigTime : Int
  vchSig : List Nat
deriving DecidableEq, Repr

/-- The null outpoint of `COutPoint()`: zero hash, index `(uint32_t) -1`. -/
def COutPoint.null : COutPoint := { hash := 0, n := 4294967295 }

/-- Default input `CTxIn()`. -/
def CTxIn.null : CTxIn := { prevout := COutPoint.null, scriptSig := [], nSequence := 4294967295 }

/-- Modelled from the spec: the empty ping `CXnodePing()` of xnode.h (absent
from the sources), the value a record holds before any ping was seen. -/
def CXnodePing.empty : CXnodePing :=
  { vin := CTxIn.null, blockHash := 0, sigTime := 0, vchSig := [] }

/-- Class `CXnode`: one record of the registry, with the fields initialised by
the constructors at `xnode.cpp:20-102`. -/
structure CXnode where
  vin : CTxIn
  addr : CService
  pubKeyCollateralAddress : CPubKey
  pubKeyXnode : CPubKey
  lastPing : CXnodePing
  vchSig : List Nat
  sigTime : Int
  nLastDsq : Int
  nTimeLastChecked : Int
  nTimeLastPaid : Int
  nTimeLastWatchdogVote : Int
  nActiveState : XnodeState
  nCacheCollateralBlock : Int
  nBlockLastPaid : Int
  nProtocolVersion : Int
  nPoSeBanScore : Int
  nPoSeBanHeight : Int
  fAllowMixingTx : Bool
  fUnitTest : Bool
deriving DecidableEq, Repr

/-- Class `CXnodeBroadcast`: an announcement, a `CXnode` plus the recovery flag. -/
structure CXnodeBroadcast extends CXnode where
  fRecovery : Bool
deriving DecidableEq, Repr

/-- Modelled from the spec: constructor `CXnodeBroadcast(const CXnode&)` of
xnode.h (absent): the announcement of a stored record, not flagged recovery. -/
def CXnodeBroadcast.ofXnode (mn : CXnode) : CXnodeBroadcast :=
  { toCXnode := mn, fRecovery := false }

/-- Constructor `CXnode(const CXnodeBroadcast&)` (`xnode.cpp:83`). -/
def CXnode.ofBroadcast (mnb : CXnodeBroadcast) : CXnode :=
  { vin := mnb.vin
    addr := mnb.addr
    pubKeyCollateralAddress := mnb.pubKeyCollateralAddress
    pubKeyXnode := mnb.pubKeyXnode
    lastPing := mnb.lastPing
    vchSig := mnb.vchSig
    sigTime := mnb.sigTime
    nLastDsq := 0
    nTimeLastChecked := 0
    nTimeLastPaid := 0
    nTimeLastWatchdogVote := mnb.sigTime
    nActiveState := mnb.nActiveState
    nCacheCollateralBlock := 0
    nBlockLastPaid := 0
    nProtocolVersion := mnb.nProtocolVersion
    nPoSeBanScore := 0
    nPoSeBanHeight := 0
    fAllowMixingTx := true
    fUnitTest := false }

/-- Modelled from the spec: verification message `CXnodeVerification` of
xnode.h (absent), with the fields of the `MNVERIFY` payload (spec §6). -/
structure CXnodeVerification where
  vin1 : CTxIn
  vin2 : CTxIn
  addr : CService
  nonce : Int
  nBlockHeight : Int
  vchSig1 : List Nat
  vchSig2 : List Nat
deriving DecidableEq, Repr

/-- Modelled from the spec: state test `CXnode::IsOutpointSpent` of xnode.h (absent). -/
def CXnode.IsOutpointSpent (mn : CXnode) : Bool := decide (mn.nActiveState = XNODE_OUTPOINT_SPENT)

/-- Modelled from the spec: state test `CXnode::IsPoSeBanned` of xnode.h (absent). -/
def CXnode.IsPoSeBanned (mn : CXnode) : Bool := decide (mn.nActiveState = XNODE_POSE_BAN)

/-- Modelled from the spec: state test `CXnode::IsEnabled` of xnode.h (absent). -/
def CXnode.IsEnabled (mn : CXnode) : Bool := decide (mn.nActiveState = XNODE_ENABLED)

/-- Modelled from the spec: state test `CXnode::IsExpired` of xnode.h (absent). -/
def CXnode.IsExpired (mn : CXnode) : Bool := decide (mn.nActiveState = XNODE_EXPIRED)

/-- Modelled from the spec: state test `CXnode::IsWatchdogExpired` of xnode.h (absent). -/
def CXnode.IsWatchdogExpired (mn : CXnode) : Bool :=
  decide (mn.nActiveState = XNODE_WATCHDOG_EXPIRED)

/-- Modelled from the spec: state test `CXnode::IsNewStartRequired` of xnode.h (absent). -/
def CXnode.IsNewStartRequired (mn : CXnode) : Bool :=
  decide (mn.nActiveState = XNODE_NEW_START_REQUIRED)

/-- Modelled from the spec: state test `CXnode::IsUpdateRequired` of xnode.h (absent). -/
def CXnode.IsUpdateRequired (mn : CXnode) : Bool :=
  decide (mn.nActiveState = XNODE_UPDATE_REQUIRED)

/-- Method `CXnode::IsValidForPayment` (`xnode.cpp:287`). -/
def CXnode.IsValidForPayment (mn : CXnode) : Bool := decide (mn.nActiveState = XNODE_ENABLED)

/-- Modelled from the spec: `XNODE_MIN_MNP_SECONDS` of xnode.h (absent),
`MIN_PING_INTERVAL` = 10 minutes (spec §4.4). -/
def XNODE_MIN_MNP_SECONDS : Int := 10 * 60

/-- Modelled from the spec: `XNODE_EXPIRATION_SECONDS` of xnode.h (absent),
`EXPIRATION` = 65 minutes (spec §4.4). -/
def XNODE_EXPIRATION_SECONDS : Int := 65 * 60

/-- Modelled from the spec: `XNODE_NEW_START_REQUIRED_SECONDS` of xnode.h
(absent), `NEW_START_REQUIRED` = 3 hours (spec §4.4). -/
def XNODE_NEW_START_REQUIRED_SECONDS : Int := 180 * 60

/-- Modelled from the spec: `XNODE_POSE_BAN_MAX_SCORE` of xnode.h (absent),
`POSE_BAN_MAX` = 5 (spec §4.4). -/
def XNODE_POSE_BAN_MAX_SCORE : Int := 5

/-- Modelled from the spec: `CXnode::IsPingedWithin(nSeconds, nTimeToCheckAt)`
of xnode.h (absent). Spec §4.4 expires a record "when now − last_ping.sign_time
> EXPIRATION"; the record counts as pinged within `nSeconds` of
`nTimeToCheckAt` when that difference does not exceed `nSeconds`. -/
def CXnode.IsPingedWithin (mn : CXnode) (nSeconds : Int) (nTimeToCheckAt : Int) : Bool :=
  decide (nTimeToCheckAt - mn.lastPing.sigTime ≤ nSeconds)

/-- Modelled from the spec: `CXnode::DecreasePoSeBanScore` of xnode.h (absent);
after the ban period the "score is decremented" (spec §4.4), and the score is
an "integer in [0, POSE_BAN_MAX]" (spec §3): a positive score is lowered by
one, another score is left. -/
def CXnode.DecreasePoSeBanScore (mn : CXnode) : CXnode :=
  if mn.nPoSeBanScore > 0 then { mn with nPoSeBanScore := mn.nPoSeBanScore - 1 } else mn

/-- Modelled from the spec: `CXnode::IncreasePoSeBanScore` of xnode.h (absent);
the other records of a shared address "have their `pose_score` incremented on
every sweep" (spec §4.5), and the score is an "integer in [0, POSE_BAN_MAX]"
(spec §3): a score below `XNODE_POSE_BAN_MAX_SCORE` is raised by one, another
score is left. -/
def CXnode.IncreasePoSeBanScore (mn : CXnode) : CXnode :=
  if mn.nPoSeBanScore < XNODE_POSE_BAN_MAX_SCORE then
    { mn with nPoSeBanScore := mn.nPoSeBanScore + 1 }
  else mn

/-! ## The manager and the other global objects -/

/-- Class `CXnodeIndex` (`xnodeman.h:26`): forward and reverse index. A
`std::map<CTxIn,int>` finds its keys through `operator<` of `CTxIn`, which
compares the outpoints (see `CTxIn.lt`): two inputs with one outpoint are one
key, so the forward map is read by outpoint. -/
structure CXnodeIndex where
  nSize : Int
  mapIndex : FMap COutPoint Int
  mapReverseIndex : FMap Int CTxIn

/-- Constructor `CXnodeIndex::CXnodeIndex` and `CXnodeIndex::Clear` (`xnodeman.cpp:38,75`). -/
def CXnodeIndex.Clear : CXnodeIndex :=
  { nSize := 0, mapIndex := FMap.empty, mapReverseIndex := FMap.empty }

/-- Method `CXnodeIndex::AddXnodeVIN` (`xnodeman.cpp:63`). -/
def CXnodeIndex.AddXnodeVIN (ix : CXnodeIndex) (vinXnode : CTxIn) : CXnodeIndex :=
  if ix.mapIndex.count vinXnode.prevout then ix
  else
    let nNextIndex := ix.nSize
    { nSize := ix.nSize + 1
      mapIndex := ix.mapIndex.set vinXnode.prevout nNextIndex
      mapReverseIndex := ix.mapReverseIndex.set nNextIndex vinXnode }

/-- Accessor `CXnodeIndex::GetSize` (`xnodeman.h:50`). -/
def CXnodeIndex.GetSize (ix : CXnodeIndex) : Int := ix.nSize

/-- Method `CXnodeIndex::Get` (`xnodeman.cpp:44`): `none` is the result
`false`, `some vinXnode` the result `true` with the input written out. -/
def CXnodeIndex.Get (ix : CXnodeIndex) (nIndex : Int) : Option CTxIn :=
  match ix.mapReverseIndex nIndex with
  | none => none
  | some vinXnode => some vinXnode

/-- Method `CXnodeIndex::GetXnodeIndex` (`xnodeman.cpp:54`). -/
def CXnodeIndex.GetXnodeIndex (ix : CXnodeIndex) (vinXnode : CTxIn) : Int :=
  match ix.mapIndex vinXnode.prevout with
  | none => -1
  | some nIndex => nIndex

/-- Class `CXnodeMan` (`xnodeman.h:71`). `mWeAskedForXnodeListEntry` is keyed by
the pair (outpoint, peer); the recovery replies are kept in key order, the
order in which `CheckAndRemove` walks them. -/
structure CXnodeMan where
  pCurrentBlockIndex : Option Int
  vXnodes : List CXnode
  mAskedUsForXnodeList : FMap CNetAddr Int
  mWeAskedForXnodeList : FMap CNetAddr Int
  mWeAskedForXnodeListEntry : FMap (COutPoint × CNetAddr) Int
  mWeAskedForVerification : FMap CNetAddr CXnodeVerification
  mMnbRecoveryRequests : FMap Nat (Int × List CNetAddr)
  mMnbRecoveryGoodReplies : List (Nat × List CXnodeBroadcast)
  listScheduledMnbRequestConnections : List (CService × Nat)
  nLastIndexRebuildTime : Int
  indexXnodes : CXnodeIndex
  indexXnodesOld : CXnodeIndex
  fIndexRebuilt : Bool
  fXnodesAdded : Bool
  fXnodesRemoved : Bool
  nLastWatchdogVoteTime : Int
  mapSeenXnodeBroadcast : FMap Nat (Int × CXnodeBroadcast)
  mapSeenXnodePing : FMap Nat CXnodePing
  mapSeenXnodeVerification : FMap Nat CXnodeVerification
  nDsqCount : Int

/-- Class `CActiveXnode` (`activexnode.h:23`): the controller of the own node. -/
structure CActiveXnode where
  eType : Nat
  fPingerEnabled : Bool
  pubKeyXnode : CPubKey
  vin : CTxIn
  service : CService
  nState : Int

/-- Modelled from the spec: the asset identifiers of xnode-sync.h (absent), the
six values named in `CXnodeSync::GetAssetName` (`xnode-sync.cpp:150`); spec
§4.8 calls `MNW` the votes asset. -/
inductive XnodeSyncAsset where
  | XNODE_SYNC_FAILED
  | XNODE_SYNC_INITIAL
  | XNODE_SYNC_SPORKS
  | XNODE_SYNC_LIST
  | XNODE_SYNC_MNW
  | XNODE_SYNC_FINISHED
deriving DecidableEq, Repr

export XnodeSyncAsset (XNODE_SYNC_FAILED XNODE_SYNC_INITIAL XNODE_SYNC_SPORKS XNODE_SYNC_LIST
  XNODE_SYNC_MNW XNODE_SYNC_FINISHED)

/-- Class `CXnodeSync`: the members written by `Reset`, `Fail` and
`SwitchToNextAsset` (`xnode-sync.cpp:136-200`). -/
structure CXnodeSync where
  nRequestedXnodeAssets : XnodeSyncAsset
  nRequestedXnodeAttempt : Int
  nTimeAssetSyncStarted : Int
  nTimeLastXnodeList : Int
  nTimeLastPaymentVote : Int
  nTimeLastGovernanceItem : Int
  nTimeLastFailure : Int
  nCountFailures : Int
deriving DecidableEq, Repr

/-- The function-local statics of `CXnodeSync::IsBlockchainSynced`
(`xnode-sync.cpp:48-51`). `nTimeLastProcess` is `none` until the first call
initialises it with `GetTime()`; `nSkipped` is only logged and is counted
without the bound of `int`. -/
structure CXnodeSyncStatics where
  fBlockchainSynced : Bool
  nTimeLastProcess : Option Int
  nSkipped : Int
  fFirstBlockAccepted : Bool
deriving DecidableEq, Repr

/-- The statics of `CXnodeSync::IsBlockchainSynced` before its first call. -/
def CXnodeSyncStatics.init : CXnodeSyncStatics :=
  { fBlockchainSynced := false, nTimeLastProcess := none, nSkipped := 0,
    fFirstBlockAccepted := false }

/-- The global objects `mnodeman`, `mnpayments`, `activeXnode` and `xnodeSync`,
the inventory announced through `RelayInv`, oldest first, and the statics of
`CXnodeSync::IsBlockchainSynced`. -/
structure State where
  mnodeman : CXnodeMan
  mnpayments : CXnodePayments
  activeXnode : CActiveXnode
  xnodeSync : CXnodeSync
  vRelayed : List (InvType × Nat)
  syncStatics : CXnodeSyncStatics

/-! ## The environment -/

/-- Everything the overlay reads from the rest of the node. The values are
fixed for the duration of one call. Constants and helpers declared in headers
that are not among the sources, and about which the spec is silent, are
fields as well. -/
structure Env where
  /-- Wall clock `GetTime()`. -/
  GetTime : Int
  /-- Network-adjusted clock `GetAdjustedTime()`. -/
  GetAdjustedTime : Int
  /-- Result of `ShutdownRequested()`. -/
  ShutdownRequested : Bool
  /-- Lookup `pcoinsTip->GetCoins(txid, coins)`. -/
  GetCoins : Nat → Option CCoins
  /-- Height of the active chain, `chainActive.Height()`. -/
  chainHeight : Int
  /-- Block time of `chainActive[h]`. -/
  chainBlockTime : Int → Int
  /-- Lookup `GetBlockHash(hash, nBlockHeight)`. -/
  GetBlockHash : Int → Option Nat
  /-- Lookup `mapBlockIndex.find(hash)`: `none` when absent, `some none` for a
  null index pointer, `some (some h)` for a block at height `h`. -/
  mapBlockIndex : Nat → Option (Option Int)
  /-- Block hash filled in by `GetTransaction(txid, ..., hashBlock, true)`. -/
  GetTransactionBlock : Nat → Nat
  /-- Flag test `sporkManager.IsSporkActive(id)`. -/
  IsSporkActive : Int → Bool
  /-- Result of `xnodeSync.IsSynced()`. -/
  IsSynced : Bool
  /-- Result of `xnodeSync.IsXnodeListSynced()`. -/
  IsXnodeListSynced : Bool
  /-- Result of `xnodeSync.IsWinnersListSynced()`. -/
  IsWinnersListSynced : Bool
  /-- Constant `PROTOCOL_VERSION`. -/
  PROTOCOL_VERSION : Int
  /-- Constant `MIN_PEER_PROTO_VERSION`. -/
  MIN_PEER_PROTO_VERSION : Int
  /-- Global `fXNode`: this node runs as a service node. -/
  fXNode : Bool
  /-- Network of `Params()`. -/
  network : Network
  /-- Consensus parameter `nXnodeMinimumConfirmations`. -/
  nXnodeMinimumConfirmations : Int
  /-- Collateral value `XNODE_COIN_REQUIRED * COIN`. -/
  nCollateralValue : Int
  /-- Constant `XNODE_CHECK_SECONDS`. -/
  XNODE_CHECK_SECONDS : Int
  /-- Constant `XNODE_MIN_MNB_SECONDS`. -/
  XNODE_MIN_MNB_SECONDS : Int
  /-- Constant `XNODE_WATCHDOG_MAX_SECONDS`. -/
  XNODE_WATCHDOG_MAX_SECONDS : Int
  /-- Helper `CXnode::IsBroadcastedWithin(nSeconds)` of xnode.h. -/
  IsBroadcastedWithin : CXnode → Int → Bool
  /-- Helper `CXnode::IsValidStateForAutoStart(nActiveState)` of xnode.h. -/
  IsValidStateForAutoStart : XnodeState → Bool
  /-- Signature check `darkSendSigner.VerifyMessage(pubkey, vchSig, strMessage, strError)`. -/
  VerifyMessage : CPubKey → List Nat → String → Bool
  /-- Ownership check `darkSendSigner.IsVinAssociatedWithPubkey(vin, pubkey)`. -/
  IsVinAssociatedWithPubkey : CTxIn → CPubKey → Bool
  /-- Text `addr.ToString()`. -/
  strService : CService → String
  /-- Text `pubkey.GetID().ToString()`. -/
  strKeyID : CPubKey → String
  /-- Text `vin.ToString()`. -/
  strTxIn : CTxIn → String
  /-- Text `hash.ToString()`. -/
  strHash : Nat → String
  /-- Script `GetScriptForDestination(pubkey.GetID())`. -/
  GetScriptForDestination : CPubKey → CScript
  /-- Address tests `addr.IsIPv4() && IsReachable(addr) && addr.IsRoutable()`. -/
  IsRoutableIPv4 : CService → Bool
  /-- Digest `CHashWriter::GetHash()` of the values written to the stream. -/
  Hash : List Nat → Nat
  /-- Compact form `arith_uint256::GetCompact(false)`, widened to `int64_t`. -/
  GetCompact : Nat → Int
  /-- Identity `CXnodeBroadcast::GetHash()` of xnode.h. -/
  GetHashMnb : CXnodeBroadcast → Nat
  /-- Identity `CXnodePing::GetHash()` of xnode.h. -/
  GetHashMnp : CXnodePing → Nat
  /-- Expiry test `CXnodePing::IsExpired()` of xnode.h. -/
  PingIsExpired : CXnodePing → Bool
  /-- Random draw `GetRandInt(nMax)`. -/
  GetRandInt : Int → Int
  /-- Block payment `GetXnodePayment(nHeight)` of main.cpp. -/
  GetXnodePayment : Int → Int
  /-- The call `activeXnode.ManageState()` that the registry code makes
  (`xnode.cpp:129`, `xnodeman.cpp:1557`), as a function of the global state. The
  controller is defined after the registry code it calls; `Env.withController`
  puts the embedded controller in this place. -/
  ManageState : State → State
  /-- Global `fLiteMode`. -/
  fLiteMode : Bool
  /-- Global `fTestNet`. -/
  fTestNet : Bool
  /-- Helper `CXnode::IsPoSeVerified()` of xnode.h. -/
  IsPoSeVerified : CXnode → Bool
  /-- Text `prevout.ToStringShort()`. -/
  strPrevout : COutPoint → String
  /-- Text `ScriptToAsmStr(script)`. -/
  ScriptToAsmStr : CScript → String
  /-- Lookup `netfulfilledman.HasFulfilledRequest(addr, strRequest)`. -/
  HasFulfilledRequest : CService → String → Bool
  /-- Signing `darkSendSigner.SignMessage(strMessage, vchSig, activeXnode.keyXnode)`:
  the signature, `none` when signing fails. -/
  SignMessage : String → Option (List Nat)
  /-- Identity `CXnodeVerification::GetHash()` of xnode.h. -/
  GetHashMnv : CXnodeVerification → Nat
  /-- Command name `NetMsgType::MNVERIFY` (protocol.cpp). -/
  MNVERIFY : String
  /-- Helper `GetInputAge(vin)` of main.cpp: the number of confirmations of the
  input, `-1` when its coins are not known. -/
  GetInputAge : CTxIn → Int
  /-- Test `chainActive.Tip() != NULL`. -/
  hasChainTip : Bool
  /-- Member `pCurrentBlockIndex` of `xnodeSync`: height and block time of the
  tip, `none` for a null pointer. -/
  syncBlockIndex : Option (Int × Int)
  /-- Global `pindexBestHeader`: height and block time of the best header,
  `none` for a null pointer. -/
  pindexBestHeader : Option (Int × Int)
  /-- Global `fImporting`. -/
  fImporting : Bool
  /-- Global `fReindex`. -/
  fReindex : Bool
  /-- Constant `XNODE_SYNC_ENOUGH_PEERS` of xnode-sync.h. -/
  XNODE_SYNC_ENOUGH_PEERS : Nat
  /-- Global `fCheckpointsEnabled`. -/
  fCheckpointsEnabled : Bool
  /-- Value `Checkpoints::GetTotalBlocksEstimate(Params().Checkpoints())`. -/
  GetTotalBlocksEstimate : Int
  /-- The peers of `CopyNodeVector()` in order, each with what
  `GetNodeStateStats` gives for it: `none` when it fails, else `nCommonHeight`
  and `nSyncHeight`. -/
  vNodesStats : List (Option (Int × Int))
  /-- Value `Params().MaxTipAge()`. -/
  MaxTipAge : Int

/-- Method `CXnodeSync::Reset` (`xnode-sync.cpp:141`). -/
def CXnodeSync.Reset (e : Env) (_x : CXnodeSync) : CXnodeSync :=
  { nRequestedXnodeAssets := XNODE_SYNC_INITIAL
    nRequestedXnodeAttempt := 0
    nTimeAssetSyncStarted := e.GetTime
    nTimeLastXnodeList := e.GetTime
    nTimeLastPaymentVote := e.GetTime
    nTimeLastGovernanceItem := e.GetTime
    nTimeLastFailure := 0
    nCountFailures := 0 }

/-- Constructor `CXnodeSync() { Reset(); }`: every member is set by `Reset`. -/
def CXnodeSync.init (e : Env) : CXnodeSync :=
  CXnodeSync.Reset e
    { nRequestedXnodeAssets := XNODE_SYNC_INITIAL, nRequestedXnodeAttempt := 0,
      nTimeAssetSyncStarted := 0, nTimeLastXnodeList := 0, nTimeLastPaymentVote := 0,
      nTimeLastGovernanceItem := 0, nTimeLastFailure := 0, nCountFailures := 0 }

/-- Method `CXnodeSync::Fail` (`xnode-sync.cpp:136`). -/
def CXnodeSync.Fail (e : Env) (x : CXnodeSync) : CXnodeSync :=
  { x with nTimeLastFailure := e.GetTime, nRequestedXnodeAssets := XNODE_SYNC_FAILED }

/-- Modelled from the spec: constant `XNODE_SYNC_TICK_SECONDS` of xnode-sync.h
(absent); the sync tick is 6 seconds (spec §4.8). -/
def XNODE_SYNC_TICK_SECONDS : Int := 6

/-- Modelled from the spec: `CXnodeSync::IsSynced` of xnode-sync.h (absent);
the asset sequence ends with `FINISHED` (spec §4.8). -/
def CXnodeSync.IsSynced (x : CXnodeSync) : Bool :=
  decide (x.nRequestedXnodeAssets = XNODE_SYNC_FINISHED)

/-- Method `CXnodeSync::CheckNodeHeight(pnode, false)` (`xnode-sync.cpp:20`) for
a tip at height `nHeight` and the statistics of the peer. -/
def CXnodeSync.CheckNodeHeight (nHeight : Int) (stats : Option (Int × Int)) : Bool :=
  match stats with
  | none => false
  | some (nCommonHeight, nSyncHeight) =>
    if nCommonHeight = -1 ∨ nSyncHeight = -1 then false
    else if nHeight - 1 > nCommonHeight then false
    else if nHeight < nSyncHeight - 1 then false
    else true

/-- The loop over the peers in `CXnodeSync::IsBlockchainSynced`
(`xnode-sync.cpp:108-121`) from the count `nNodesAtSameHeight`: whether it
returns true. -/
def CXnodeSync.enoughPeersLoop (nHeight : Int) (nEnough : Nat) :
    List (Option (Int × Int)) → Nat → Bool
  | [], _ => false
  | stats :: rest, nNodesAtSameHeight =>
    if !CXnodeSync.CheckNodeHeight nHeight stats then
      CXnodeSync.enoughPeersLoop nHeight nEnough rest nNodesAtSameHeight
    else if nNodesAtSameHeight + 1 ≥ nEnough then true
    else CXnodeSync.enoughPeersLoop nHeight nEnough rest (nNodesAtSameHeight + 1)

/-- Method `CXnodeSync::IsBlockchainSynced(fBlockAccepted)`
(`xnode-sync.cpp:47`): the result and the global state after the call, in
which the statics and, after a pause of more than 60 minutes, the sync object
are written. -/
def CXnodeSync.IsBlockchainSynced (e : Env) (fBlockAccepted : Bool) (s : State) :
    Bool × State :=
  let nTimeLastProcess := s.syncStatics.nTimeLastProcess.getD e.GetTime
  let s1 : State :=
    if e.GetTime - nTimeLastProcess > 60 * 60 then
      { s with xnodeSync := CXnodeSync.Reset e s.xnodeSync, syncStatics := { s.syncStatics with fBlockchainSynced := false, nTimeLastProcess := some nTimeLastProcess } }
    else { s with syncStatics := { s.syncStatics with nTimeLastProcess := some nTimeLastProcess } }
  match e.syncBlockIndex, e.pindexBestHeader with
  | some tip, some header =>
    if e.fImporting || e.fReindex then (false, s1)
    else if fBlockAccepted && !s1.xnodeSync.IsSynced then
      (false, { s1 with syncStatics := { s1.syncStatics with fFirstBlockAccepted := true, fBlockchainSynced := false, nTimeLastProcess := some e.GetTime } })
    else if !fBlockAccepted && decide (e.network ≠ Network.REGTEST) &&
        decide (e.GetTime - nTimeLastProcess < XNODE_SYNC_TICK_SECONDS) then
      (s1.syncStatics.fBlockchainSynced,
        { s1 with syncStatics := { s1.syncStatics with nSkipped := s1.syncStatics.nSkipped + 1 } })
    else
      let s2 : State :=
        { s1 with syncStatics := { s1.syncStatics with nTimeLastProcess := some e.GetTime, nSkipped := 0 } }
      if s2.syncStatics.fBlockchainSynced then (true, s2)
      else if e.fCheckpointsEnabled && decide (tip.1 < e.GetTotalBlocksEstimate) then (false, s2)
      else if decide (e.vNodesStats.length ≥ e.XNODE_SYNC_ENOUGH_PEERS) &&
          CXnodeSync.enoughPeersLoop tip.1 e.XNODE_SYNC_ENOUGH_PEERS e.vNodesStats 0 then
        (true, { s2 with syncStatics := { s2.syncStatics with fBlockchainSynced := true } })
      else if !s2.syncStatics.fFirstBlockAccepted then (false, s2)
      else
        let nMaxBlockTime := max tip.2 header.2
        let fSynced := decide (header.1 - tip.1 < 24 * 6) &&
          decide (e.GetTime - nMaxBlockTime < e.MaxTipAge)
        (fSynced, { s2 with syncStatics := { s2.syncStatics with fBlockchainSynced := fSynced } })
  | _, _ => (false, s1)

/-- Text of the `std::runtime_error` thrown by `SwitchToNextAsset`. -/
def switchFromFailedError : String :=
  "Can\x27t switch to next asset from failed, should use Reset() first!"

/-- Method `CXnodeSync::SwitchToNextAsset` (`xnode-sync.cpp:171`): the exception
thrown, if any, and the object after the call. The `throw` precedes every
assignment; `ClearFulfilledRequests` writes to `netfulfilledman` only. -/
def CXnodeSync.SwitchToNextAsset (e : Env) (x : CXnodeSync) : Option String × CXnodeSync :=
  match x.nRequestedXnodeAssets with
  | XNODE_SYNC_FAILED => (some switchFromFailedError, x)
  | asset =>
    let x1 : CXnodeSync :=
      match asset with
      | XNODE_SYNC_INITIAL => { x with nRequestedXnodeAssets := XNODE_SYNC_SPORKS }
      | XNODE_SYNC_SPORKS =>
        { x with nTimeLastXnodeList := e.GetTime, nRequestedXnodeAssets := XNODE_SYNC_LIST }
      | XNODE_SYNC_LIST =>
        { x with nTimeLastPaymentVote := e.GetTime, nRequestedXnodeAssets := XNODE_SYNC_MNW }
      | XNODE_SYNC_MNW =>
        { x with nTimeLastGovernanceItem := e.GetTime,
                 nRequestedXnodeAssets := XNODE_SYNC_FINISHED }
      | _ => x
    (none, { x1 with nRequestedXnodeAttempt := 0, nTimeAssetSyncStarted := e.GetTime })

/-- Method `CXnodePayments::GetMinXnodePaymentsProto` (`xnode-payments.cpp:151`). -/
def GetMinXnodePaymentsProto (e : Env) : Int :=
  if e.IsSporkActive SPORK_1_VERSION_ON then e.PROTOCOL_VERSION else e.MIN_PEER_PROTO_VERSION

/-- Function `IsBlockPayeeValid` (`xnode-payments.cpp:35`). -/
def IsBlockPayeeValid (e : Env) (mnpayments : CXnodePayments) (txNew : CTransaction)
    (nBlockHeight : Int) (_blockReward : Int) : Bool :=
  if !e.IsSporkActive SPORK_4_XNODE_PAYMENT_START then true
  else if !e.IsSynced then true
  else if mnpayments.IsTransactionValid e.GetXnodePayment txNew nBlockHeight then true
  else if e.IsSporkActive SPORK_5_XNODE_PAYMENT_ENFORCEMENT && e.IsSynced then false
  else true

/-! ## Ranking (`xnodeman.cpp`) -/

/-- Modelled from the spec: the order of outpoints by which ranking ties are
broken ("break ties by outpoint", spec §4.5); `operator<` of `COutPoint` is
declared outside the sources: transaction id first, then output index. -/
def COutPoint.lt (a b : COutPoint) : Bool :=
  decide (a.hash < b.hash ∨ (a.hash = b.hash ∧ a.n < b.n))

/-- Modelled from the spec: `operator<` of `CTxIn`, declared outside the
sources, compares the outpoints ("break ties by outpoint", spec §4.5). -/
def CTxIn.lt (a b : CTxIn) : Bool := a.prevout.lt b.prevout

/-- Comparator `CompareScoreMN` (`xnodeman.cpp:29`). -/
def CompareScoreMN (t1 t2 : Int × CXnode) : Bool :=
  if t1.1 ≠ t2.1 then decide (t1.1 < t2.1) else t1.2.vin.lt t2.2.vin

/-- Comparator `CompareLastPaidBlock` (`xnodeman.cpp:20`). -/
def CompareLastPaidBlock (t1 t2 : Int × CXnode) : Bool :=
  if t1.1 ≠ t2.1 then decide (t1.1 < t2.1) else t1.2.vin.lt t2.2.vin

/-- Library call `std::sort(first, last, comp)`: the range in ascending order
of `comp`, computed here by insertion. -/
def stdSort {α : Type} (comp : α → α → Bool) (l : List α) : List α :=
  l.insertionSort (fun a b => comp b a = false)

/-- Call `sort(v.rbegin(), v.rend(), comp)`: the reversed range is sorted
ascending, so the vector itself ends in descending order. -/
def stdSortReversed {α : Type} (comp : α → α → Bool) (v : List α) : List α :=
  (stdSort comp v.reverse).reverse

/-- Method `CXnode::CalculateScore` (`xnode.cpp:145`): the distance between the
digest of the block hash and the digest of the block hash followed by
`prevout.hash + prevout.n` (256-bit arithmetic). -/
def CXnode.CalculateScore (e : Env) (mn : CXnode) (blockHash : Nat) : Nat :=
  let aux := (mn.vin.prevout.hash + mn.vin.prevout.n) % 2 ^ 256
  let hash2 := e.Hash [blockHash]
  let hash3 := e.Hash [blockHash, aux]
  if hash3 > hash2 then hash3 - hash2 else hash2 - hash3

/-- Body of the first loop of `CXnodeMan::GetXnodeRank`: `none` for a record
skipped by `continue`, otherwise the pair pushed on `vecXnodeScores`. -/
def rankEntry (e : Env) (blockHash : Nat) (nMinProtocol : Int) (fOnlyActive : Bool)
    (mn : CXnode) : Option (Int × CXnode) :=
  if mn.nProtocolVersion < nMinProtocol then none
  else if fOnlyActive then
    (if !mn.IsEnabled then none
     else some (e.GetCompact (mn.CalculateScore e blockHash), mn))
  else
    (if !mn.IsValidForPayment then none
     else some (e.GetCompact (mn.CalculateScore e blockHash), mn))

/-- First loop of `CXnodeMan::GetXnodeRank`: the scored records that pass the
protocol and activity filters, in vector order. -/
def rankCandidates (e : Env) (blockHash : Nat) (nMinProtocol : Int) (fOnlyActive : Bool)
    (vXnodes : List CXnode) : List (Int × CXnode) :=
  vXnodes.filterMap (rankEntry e blockHash nMinProtocol fOnlyActive)

/-- Last loop of `CXnodeMan::GetXnodeRank`: the 1-based position of the first
entry with the given outpoint, counting on from `nRank`; `-1` when absent. -/
def rankScan (prevout : COutPoint) : List (Int × CXnode) → Int → Int
  | [], _ => -1
  | scorePair :: rest, nRank =>
    if scorePair.2.vin.prevout = prevout then nRank + 1 else rankScan prevout rest (nRank + 1)

/-- Method `CXnodeMan::GetXnodeRank` (`xnodeman.cpp:731`). -/
def CXnodeMan.GetXnodeRank (e : Env) (m : CXnodeMan) (vin : CTxIn) (nBlockHeight : Int)
    (nMinProtocol : Int) (fOnlyActive : Bool) : Int :=
  match e.GetBlockHash nBlockHeight with
  | none => -1
  | some blockHash =>
    let vecXnodeScores := rankCandidates e blockHash nMinProtocol fOnlyActive m.vXnodes
    rankScan vin.prevout (stdSortReversed CompareScoreMN vecXnodeScores) 0

/-- Last loop of `CXnodeMan::GetXnodeRanks`: every entry paired with its rank,
counting on from `nRank`. -/
def ranksLoop : List (Int × CXnode) → Int → List (Int × CXnode)
  | [], _ => []
  | s :: rest, nRank => (nRank + 1, s.2) :: ranksLoop rest (nRank + 1)

/-- Method `CXnodeMan::GetXnodeRanks` (`xnodeman.cpp:766`): the enabled records
of sufficient protocol with their ranks, best first. -/
def CXnodeMan.GetXnodeRanks (e : Env) (m : CXnodeMan) (nBlockHeight : Int) (nMinProtocol : Int) :
    List (Int × CXnode) :=
  match e.GetBlockHash nBlockHeight with
  | none => []
  | some blockHash =>
    let vecXnodeScores := m.vXnodes.filterMap (fun mn =>
      if decide (mn.nProtocolVersion < nMinProtocol) || !mn.IsEnabled then none
      else some (e.GetCompact (mn.CalculateScore e blockHash), mn))
    ranksLoop (stdSortReversed CompareScoreMN vecXnodeScores) 0

/-- Constructor `CXnode::CXnode()` (`xnode.cpp:20`). -/
def CXnode.init (e : Env) : CXnode :=
  { vin := CTxIn.null
    addr := { ip := 0, port := 0 }
    pubKeyCollateralAddress := []
    pubKeyXnode := []
    lastPing := CXnodePing.empty
    vchSig := []
    sigTime := e.GetAdjustedTime
    nLastDsq := 0
    nTimeLastChecked := 0
    nTimeLastPaid := 0
    nTimeLastWatchdogVote := 0
    nActiveState := XNODE_ENABLED
    nCacheCollateralBlock := 0
    nBlockLastPaid := 0
    nProtocolVersion := e.PROTOCOL_VERSION
    nPoSeBanScore := 0
    nPoSeBanHeight := 0
    fAllowMixingTx := true
    fUnitTest := false }

/-- Constructor `CXnodeMan::CXnodeMan()` (`xnodeman.cpp:99`). -/
def CXnodeMan.init : CXnodeMan :=
  { pCurrentBlockIndex := none
    vXnodes := []
    mAskedUsForXnodeList := FMap.empty
    mWeAskedForXnodeList := FMap.empty
    mWeAskedForXnodeListEntry := FMap.empty
    mWeAskedForVerification := FMap.empty
    mMnbRecoveryRequests := FMap.empty
    mMnbRecoveryGoodReplies := []
    listScheduledMnbRequestConnections := []
    nLastIndexRebuildTime := 0
    indexXnodes := CXnodeIndex.Clear
    indexXnodesOld := CXnodeIndex.Clear
    fIndexRebuilt := false
    fXnodesAdded := false
    fXnodesRemoved := false
    nLastWatchdogVoteTime := 0
    mapSeenXnodeBroadcast := FMap.empty
    mapSeenXnodePing := FMap.empty
    mapSeenXnodeVerification := FMap.empty
    nDsqCount := 0 }

/-! ## Record checks (`xnode.cpp`) -/

/-- The record behind a pointer `CXnode*` into `vXnodes`, given by its position. -/
def State.getXnode (s : State) (i : Nat) : Option CXnode := s.mnodeman.vXnodes[i]?

/-- A write through a pointer `CXnode*` into `vXnodes`. -/
def State.modifyXnode (s : State) (i : Nat) (f : CXnode → CXnode) : State :=
  { s with mnodeman := { s.mnodeman with vXnodes := updateAt s.mnodeman.vXnodes i f } }

/-- Modelled from the spec: `CXnodeSync::AddedXnodeList` of xnode-sync.h
(absent): the last-progress time of the list asset is refreshed (spec §4.8). -/
def State.AddedXnodeList (e : Env) (s : State) : State :=
  { s with xnodeSync := { s.xnodeSync with nTimeLastXnodeList := e.GetTime } }

/-- Call `RelayInv(CInv(type, hash))`. -/
def State.RelayInv (s : State) (type : InvType) (hash : Nat) : State :=
  { s with vRelayed := s.vRelayed ++ [(type, hash)] }

/-- The unspent output an outpoint refers to, with the height of its
transaction; `none` when `GetCoins` fails, the index is out of range or the
output is null (the test at `xnode.cpp:179` and `xnode.cpp:656`). -/
def Env.getUTXO (e : Env) (prevout : COutPoint) : Option (CTxOut × Int) :=
  match e.GetCoins prevout.hash with
  | none => none
  | some coins =>
    if prevout.n ≥ coins.vout.length then none
    else match coins.vout[prevout.n]? with
      | some (some txout) => some (txout, coins.nHeight)
      | _ => none

/-- Method `CXnodeMan::IsWatchdogActive` (`xnodeman.cpp:1636`). -/
def CXnodeMan.IsWatchdogActive (e : Env) (m : CXnodeMan) : Bool :=
  decide (e.GetTime - m.nLastWatchdogVoteTime ≤ e.XNODE_WATCHDOG_MAX_SECONDS)

/-- Last step of `CXnode::Check` (`xnode.cpp:269-280`): `PRE_ENABLED` until the
last ping is `XNODE_MIN_MNP_SECONDS` younger than the announcement, else `ENABLED`. -/
def CXnode.CheckEnabled (mn : CXnode) : CXnode :=
  if mn.lastPing.sigTime - mn.sigTime < XNODE_MIN_MNP_SECONDS then
    { mn with nActiveState := XNODE_PRE_ENABLED }
  else { mn with nActiveState := XNODE_ENABLED }

/-- Second half of `CXnode::Check` (`xnode.cpp:205-280`): protocol, ping age and
watchdog decide the new state. -/
def CXnode.CheckState (e : Env) (s : State) (mn : CXnode) : CXnode :=
  let fOurXnode := e.fXNode && decide (s.activeXnode.pubKeyXnode = mn.pubKeyXnode)
  let fRequireUpdate := decide (mn.nProtocolVersion < GetMinXnodePaymentsProto e)
  if fRequireUpdate then { mn with nActiveState := XNODE_UPDATE_REQUIRED }
  else
    let fWaitForPing :=
      !e.IsXnodeListSynced && !mn.IsPingedWithin XNODE_MIN_MNP_SECONDS e.GetAdjustedTime
    if fWaitForPing && !fOurXnode &&
        (mn.IsExpired || mn.IsWatchdogExpired || mn.IsNewStartRequired) then mn
    else if !fWaitForPing || fOurXnode then
      if !mn.IsPingedWithin XNODE_NEW_START_REQUIRED_SECONDS e.GetAdjustedTime then
        { mn with nActiveState := XNODE_NEW_START_REQUIRED }
      else
        let fWatchdogActive := e.IsSynced && s.mnodeman.IsWatchdogActive e
        let fWatchdogExpired := fWatchdogActive &&
          decide (e.GetTime - mn.nTimeLastWatchdogVote > e.XNODE_WATCHDOG_MAX_SECONDS)
        if fWatchdogExpired then { mn with nActiveState := XNODE_WATCHDOG_EXPIRED }
        else if !mn.IsPingedWithin XNODE_EXPIRATION_SECONDS e.GetAdjustedTime then
          { mn with nActiveState := XNODE_EXPIRED }
        else mn.CheckEnabled
    else mn.CheckEnabled

/-- Method `CXnode::Check(fForce)` (`xnode.cpp:160`). `lockMain` is the outcome
of `TRY_LOCK(cs_main, lockMain)`; it is `true` whenever the caller already
holds `cs_main`. The state `s` is read only (`mnodeman.size()`,
`mnodeman.IsWatchdogActive()`, `activeXnode.pubKeyXnode`). -/
def CXnode.Check (e : Env) (s : State) (lockMain : Bool) (fForce : Bool) (mn : CXnode) : CXnode :=
  if e.ShutdownRequested then mn
  else if !fForce && decide (e.GetTime - mn.nTimeLastChecked < e.XNODE_CHECK_SECONDS) then mn
  else
    let mn1 := { mn with nTimeLastChecked := e.GetTime }
    if mn1.IsOutpointSpent then mn1
    else if !mn1.fUnitTest && !lockMain then mn1
    else if !mn1.fUnitTest && (e.getUTXO mn1.vin.prevout).isNone then
      { mn1 with nActiveState := XNODE_OUTPOINT_SPENT }
    else
      let nHeight : Int := if mn1.fUnitTest then 0 else e.chainHeight
      if mn1.IsPoSeBanned then
        if nHeight < mn1.nPoSeBanHeight then mn1
        else CXnode.CheckState e s mn1.DecreasePoSeBanScore
      else if mn1.nPoSeBanScore ≥ XNODE_POSE_BAN_MAX_SCORE then
        { mn1 with nActiveState := XNODE_POSE_BAN
                   nPoSeBanHeight := nHeight + s.mnodeman.vXnodes.length }
      else CXnode.CheckState e s mn1

/-- Call `pmn->Check(fForce)` on the record at position `i`, made while
`cs_main` is held. -/
def State.CheckAt (e : Env) (fForce : Bool) (i : Nat) (s : State) : State :=
  s.modifyXnode i (CXnode.Check e s true fForce)

/-! ## Pings (`xnode.cpp`) -/

/-- Method `CXnodePing::SimpleCheck` (`xnode.cpp:799`): the result and `nDos`. -/
def CXnodePing.SimpleCheck (e : Env) (mnp : CXnodePing) : Bool × Int :=
  if mnp.sigTime > e.GetAdjustedTime + 60 * 60 then (false, 1)
  else if (e.mapBlockIndex mnp.blockHash).isNone then (false, 0)
  else (true, 0)

/-- Method `CXnodePing::CheckSignature` (`xnode.cpp:786`): the result and `nDos`. -/
def CXnodePing.CheckSignature (e : Env) (mnp : CXnodePing) (pubKeyXnode : CPubKey) : Bool × Int :=
  let strMessage := e.strTxIn mnp.vin ++ e.strHash mnp.blockHash ++ toString mnp.sigTime
  if !e.VerifyMessage pubKeyXnode mnp.vchSig strMessage then (false, 33) else (true, 0)

/-- Block-age test of `CXnodePing::CheckAndUpdate` (`xnode.cpp:852`): the block
of the ping lies more than 24 blocks below the tip. -/
def CXnodePing.blockTooOld (e : Env) (mnp : CXnodePing) : Bool :=
  match e.mapBlockIndex mnp.blockHash with
  | some (some nHeight) => decide (nHeight < e.chainHeight - 24)
  | _ => false

/-- Statement `mapSeenXnodeBroadcast[hash].second.lastPing = mnp`, made when
the hash is present. -/
def CXnodeMan.setSeenLastPing (m : CXnodeMan) (hash : Nat) (mnp : CXnodePing) : CXnodeMan :=
  match m.mapSeenXnodeBroadcast hash with
  | some seen =>
    let mnb : CXnodeBroadcast := { seen.2 with lastPing := mnp }
    { m with mapSeenXnodeBroadcast := m.mapSeenXnodeBroadcast.set hash (seen.1, mnb) }
  | none => m

/-- Method `CXnodePing::CheckAndUpdate(pmn, fFromNewBroadcast, nDos)`
(`xnode.cpp:824`): the result with `nDos`, and the new global state. `pmn` is
the position of the record in `vXnodes`, `none` for `NULL`. -/
def CXnodePing.CheckAndUpdate (e : Env) (mnp : CXnodePing) (pmn : Option Nat)
    (fFromNewBroadcast : Bool) (s : State) : (Bool × Int) × State :=
  let simple := mnp.SimpleCheck e
  if !simple.1 then ((false, simple.2), s)
  else
    match pmn with
    | none => ((false, 0), s)
    | some i =>
      match s.getXnode i with
      | none => ((false, 0), s)
      | some mn =>
        if !fFromNewBroadcast && mn.IsUpdateRequired then ((false, 0), s)
        else if !fFromNewBroadcast && mn.IsNewStartRequired then ((false, 0), s)
        else if mnp.blockTooOld e then ((false, 0), s)
        else if mn.IsPingedWithin (XNODE_MIN_MNP_SECONDS - 60) mnp.sigTime then ((false, 0), s)
        else
          let sig := mnp.CheckSignature e mn.pubKeyXnode
          if !sig.1 then ((false, sig.2), s)
          else
            let s1 :=
              if !e.IsXnodeListSynced &&
                  !mn.IsPingedWithin (XNODE_EXPIRATION_SECONDS / 2) e.GetAdjustedTime
              then s.AddedXnodeList e else s
            let s2 := s1.modifyXnode i (fun pmn => { pmn with lastPing := mnp })
            let hash := e.GetHashMnb (CXnodeBroadcast.ofXnode { mn with lastPing := mnp })
            let s3 := { s2 with mnodeman := s2.mnodeman.setSeenLastPing hash mnp }
            let s4 := s3.CheckAt e true i
            match s4.getXnode i with
            | none => ((false, 0), s4)
            | some mn4 =>
              if !mn4.IsEnabled then ((false, 0), s4)
              else ((true, 0), s4.RelayInv InvType.MSG_XNODE_PING (e.GetHashMnp mnp))
/-! ## Announcements (`xnode.cpp`) -/

/-- Default port of the main network (`chainparams.cpp:105`). -/
def mainnetDefaultPort : Nat := 29100

/-- Constructor `CXnodeBroadcast()`, the value `operator[]` stores for a
missing key of `mapSeenXnodeBroadcast`. -/
def CXnodeBroadcast.init (e : Env) : CXnodeBroadcast :=
  { toCXnode := CXnode.init e, fRecovery := false }

/-- Method `CXnode::IsValidNetAddr(addrIn)` (`xnode.cpp:296`). -/
def CXnode.IsValidNetAddr (e : Env) (addrIn : CService) : Bool :=
  decide (e.network = Network.REGTEST) || e.IsRoutableIPv4 addrIn

/-- Method `CXnodeBroadcast::CheckSignature` (`xnode.cpp:730`): the result and `nDos`. -/
def CXnodeBroadcast.CheckSignature (e : Env) (mnb : CXnodeBroadcast) : Bool × Int :=
  let strMessage := e.strService mnb.addr ++ toString mnb.sigTime ++
    e.strKeyID mnb.pubKeyCollateralAddress ++ e.strKeyID mnb.pubKeyXnode ++
    toString mnb.nProtocolVersion
  if !e.VerifyMessage mnb.pubKeyCollateralAddress mnb.vchSig strMessage then (false, 100)
  else (true, 0)

/-- Method `CXnodeBroadcast::SimpleCheck` (`xnode.cpp:523`): the result with
`nDos`, and the announcement, whose state the method may set to `EXPIRED`. -/
def CXnodeBroadcast.SimpleCheck (e : Env) (mnb : CXnodeBroadcast) :
    (Bool × Int) × CXnodeBroadcast :=
  if !CXnode.IsValidNetAddr e mnb.addr then ((false, 0), mnb)
  else if mnb.sigTime > e.GetAdjustedTime + 60 * 60 then ((false, 1), mnb)
  else
    let fEmpty := decide (mnb.lastPing = CXnodePing.empty)
    let ping := mnb.lastPing.SimpleCheck e
    let nDos : Int := if fEmpty then 0 else ping.2
    let mnb1 : CXnodeBroadcast :=
      if fEmpty || !ping.1 then { mnb with nActiveState := XNODE_EXPIRED } else mnb
    if mnb1.nProtocolVersion < GetMinXnodePaymentsProto e then ((false, nDos), mnb1)
    else if (e.GetScriptForDestination mnb1.pubKeyCollateralAddress).length ≠ 25 then
      ((false, 100), mnb1)
    else if (e.GetScriptForDestination mnb1.pubKeyXnode).length ≠ 25 then ((false, 100), mnb1)
    else if !mnb1.vin.scriptSig.isEmpty then ((false, 100), mnb1)
    else if e.network = Network.MAIN then
      (if mnb1.addr.port ≠ mainnetDefaultPort then ((false, nDos), mnb1)
       else ((true, nDos), mnb1))
    else if mnb1.addr.port = mainnetDefaultPort then ((false, nDos), mnb1)
    else ((true, nDos), mnb1)

/-- Assignments at `xnode.cpp:111-118` of `CXnode::UpdateFromNewBroadcast`: the
record takes over the announcement and its PoSe data are reset. -/
def CXnode.takeBroadcast (mnb : CXnodeBroadcast) (pmn : CXnode) : CXnode :=
  { pmn with pubKeyXnode := mnb.pubKeyXnode
             sigTime := mnb.sigTime
             vchSig := mnb.vchSig
             nProtocolVersion := mnb.nProtocolVersion
             addr := mnb.addr
             nPoSeBanScore := 0
             nPoSeBanHeight := 0
             nTimeLastChecked := 0 }

/-- Lines `xnode.cpp:119-123` of `CXnode::UpdateFromNewBroadcast`: the ping of
the announcement becomes the last ping of the record at position `i`, and is
entered in `mapSeenXnodePing`, when it is empty or passes `CheckAndUpdate`. -/
def CXnode.takeBroadcastPing (e : Env) (i : Nat) (mnb : CXnodeBroadcast) (s1 : State) : State :=
  let ping : Bool × State :=
    if mnb.lastPing = CXnodePing.empty then (true, s1)
    else
      let r := mnb.lastPing.CheckAndUpdate e (some i) true s1
      (r.1.1, r.2)
  if ping.1 then
    let s21 := ping.2.modifyXnode i (fun pmn => { pmn with lastPing := mnb.lastPing })
    let seenPing :=
      s21.mnodeman.mapSeenXnodePing.insert (e.GetHashMnp mnb.lastPing) mnb.lastPing
    { s21 with mnodeman := { s21.mnodeman with mapSeenXnodePing := seenPing } }
  else ping.2

/-- Method `CXnode::UpdateFromNewBroadcast(mnb)` (`xnode.cpp:108`) on the record
at position `i`: the result and the new global state. -/
def CXnode.UpdateFromNewBroadcast (e : Env) (i : Nat) (mnb : CXnodeBroadcast) (s : State) :
    Bool × State :=
  match s.getXnode i with
  | none => (false, s)
  | some mn =>
    if decide (mnb.sigTime ≤ mn.sigTime) && !mnb.fRecovery then (false, s)
    else
      let s1 := s.modifyXnode i (CXnode.takeBroadcast mnb)
      let s2 := CXnode.takeBroadcastPing e i mnb s1
      if e.fXNode && decide (mnb.pubKeyXnode = s2.activeXnode.pubKeyXnode) then
        let s3 := s2.modifyXnode i (fun pmn =>
          { pmn with nPoSeBanScore := -XNODE_POSE_BAN_MAX_SCORE })
        if mnb.nProtocolVersion = e.PROTOCOL_VERSION then (true, e.ManageState s3)
        else (false, s3)
      else (true, s2)

/-- Method `CXnodeBroadcast::Update(pmn, nDos)` (`xnode.cpp:583`) for the record
at position `i`: the result with `nDos`, and the new global state. -/
def CXnodeBroadcast.Update (e : Env) (mnb : CXnodeBroadcast) (i : Nat) (s : State) :
    (Bool × Int) × State :=
  match s.getXnode i with
  | none => ((false, 0), s)
  | some pmn =>
    if decide (pmn.sigTime = mnb.sigTime) && !mnb.fRecovery then ((false, 0), s)
    else if pmn.sigTime > mnb.sigTime then ((false, 0), s)
    else
      let s1 := s.CheckAt e false i
      match s1.getXnode i with
      | none => ((false, 0), s1)
      | some pmn1 =>
        if pmn1.IsPoSeBanned then ((false, 0), s1)
        else if pmn1.pubKeyCollateralAddress ≠ mnb.pubKeyCollateralAddress then ((false, 33), s1)
        else
          let sig := mnb.CheckSignature e
          if !sig.1 then ((false, sig.2), s1)
          else if !e.IsBroadcastedWithin pmn1 e.XNODE_MIN_MNB_SECONDS ||
              (e.fXNode && decide (mnb.pubKeyXnode = s1.activeXnode.pubKeyXnode)) then
            let r := CXnode.UpdateFromNewBroadcast e i mnb s1
            let s2 :=
              if r.1 then
                (r.2.CheckAt e false i).RelayInv InvType.MSG_XNODE_ANNOUNCE (e.GetHashMnb mnb)
              else r.2
            ((true, 0), s2.AddedXnodeList e)
          else ((true, 0), s1)

/-- Statement `mnodeman.mapSeenXnodeBroadcast.erase(hash)`. -/
def State.eraseSeenBroadcast (s : State) (hash : Nat) : State :=
  let seen := s.mnodeman.mapSeenXnodeBroadcast.erase hash
  { s with mnodeman := { s.mnodeman with mapSeenXnodeBroadcast := seen } }

/-- Method `CXnodeBroadcast::CheckOutpoint(nDos)` (`xnode.cpp:634`): the result
with `nDos` (`nDosIn` on entry), and the new global state. `lockMain` is the
outcome of `TRY_LOCK(cs_main, lockMain)`. -/
def CXnodeBroadcast.CheckOutpoint (e : Env) (lockMain : Bool) (mnb : CXnodeBroadcast)
    (nDosIn : Int) (s : State) : (Bool × Int) × State :=
  if e.fXNode && decide (mnb.vin.prevout = s.activeXnode.vin.prevout) &&
      decide (mnb.pubKeyXnode = s.activeXnode.pubKeyXnode) then ((false, nDosIn), s)
  else
    let sig := mnb.CheckSignature e
    if !sig.1 then ((false, sig.2), s)
    else if !lockMain then ((false, 0), s.eraseSeenBroadcast (e.GetHashMnb mnb))
    else
      match e.getUTXO mnb.vin.prevout with
      | none => ((false, 0), s)
      | some (txout, nCoinsHeight) =>
        if txout.nValue ≠ e.nCollateralValue then ((false, 0), s)
        else if e.chainHeight - nCoinsHeight + 1 < e.nXnodeMinimumConfirmations then
          ((false, 0), s.eraseSeenBroadcast (e.GetHashMnb mnb))
        else if !e.IsVinAssociatedWithPubkey mnb.vin mnb.pubKeyCollateralAddress then
          ((false, 33), s)
        else
          match e.mapBlockIndex (e.GetTransactionBlock mnb.vin.prevout.hash) with
          | some (some nMNHeight) =>
            if e.chainBlockTime (nMNHeight + e.nXnodeMinimumConfirmations - 1) > mnb.sigTime then
              ((false, 0), s)
            else ((true, 0), s)
          | _ => ((true, 0), s)
/-! ## The manager (`xnodeman.cpp`) -/

/-- Constant `MAX_EXPECTED_INDEX_SIZE` (`xnodeman.h:82`). -/
def MAX_EXPECTED_INDEX_SIZE : Int := 30000

/-- Constant `MIN_INDEX_REBUILD_TIME` (`xnodeman.h:85`). -/
def MIN_INDEX_REBUILD_TIME : Int := 3600

/-- Constant `MAX_POSE_BLOCKS` (`xnodeman.h:96`). -/
def MAX_POSE_BLOCKS : Int := 10

/-- Constant `MNB_RECOVERY_QUORUM_TOTAL` (`xnodeman.h:98`). -/
def MNB_RECOVERY_QUORUM_TOTAL : Nat := 10

/-- Constant `MNB_RECOVERY_QUORUM_REQUIRED` (`xnodeman.h:99`). -/
def MNB_RECOVERY_QUORUM_REQUIRED : Nat := 6

/-- Constant `MNB_RECOVERY_MAX_ASK_ENTRIES` (`xnodeman.h:100`). -/
def MNB_RECOVERY_MAX_ASK_ENTRIES : Int := 10

/-- Constant `MNB_RECOVERY_WAIT_SECONDS` (`xnodeman.h:101`). -/
def MNB_RECOVERY_WAIT_SECONDS : Int := 60

/-- Constant `MNB_RECOVERY_RETRY_SECONDS` (`xnodeman.h:102`). -/
def MNB_RECOVERY_RETRY_SECONDS : Int := 3 * 60 * 60

/-- Loop of `CXnodeMan::Find(const CTxIn&)`: the position of the first record
with the given outpoint. -/
def findXnode (prevout : COutPoint) : List CXnode → Option Nat
  | [] => none
  | mn :: rest =>
    if mn.vin.prevout = prevout then some 0
    else match findXnode prevout rest with
      | some i => some (i + 1)
      | none => none

/-- Method `CXnodeMan::Find(const CTxIn &vin)` (`xnodeman.cpp:458`): the
position of the record found, `none` for `NULL`. -/
def CXnodeMan.Find (m : CXnodeMan) (vin : CTxIn) : Option Nat := findXnode vin.prevout m.vXnodes

/-- Method `CXnodeMan::Add` (`xnodeman.cpp:121`): the result and the new manager. -/
def CXnodeMan.Add (m : CXnodeMan) (mn : CXnode) : Bool × CXnodeMan :=
  match m.Find mn.vin with
  | none =>
    (true, { m with vXnodes := m.vXnodes ++ [mn]
                    indexXnodes := m.indexXnodes.AddXnodeVIN mn.vin
                    fXnodesAdded := true })
  | some _ => (false, m)

/-- Method `CXnodeMan::Clear` (`xnodeman.cpp:365`). -/
def CXnodeMan.Clear (m : CXnodeMan) : CXnodeMan :=
  { m with vXnodes := []
           mAskedUsForXnodeList := FMap.empty
           mWeAskedForXnodeList := FMap.empty
           mWeAskedForXnodeListEntry := FMap.empty
           mapSeenXnodeBroadcast := FMap.empty
           mapSeenXnodePing := FMap.empty
           nDsqCount := 0
           nLastWatchdogVoteTime := 0
           indexXnodes := CXnodeIndex.Clear
           indexXnodesOld := CXnodeIndex.Clear }

/-- Read `mapSeenXnodeBroadcast[hash]`: `operator[]` first stores the default
pair `(0, CXnodeBroadcast())` under a missing key. -/
def State.touchSeenBroadcast (e : Env) (s : State) (hash : Nat) : State :=
  let seen := s.mnodeman.mapSeenXnodeBroadcast.insert hash (0, CXnodeBroadcast.init e)
  { s with mnodeman := { s.mnodeman with mapSeenXnodeBroadcast := seen } }

/-- The value read by `mapSeenXnodeBroadcast[hash].second`. -/
def State.seenBroadcastAt (e : Env) (s : State) (hash : Nat) : CXnodeBroadcast :=
  match s.mnodeman.mapSeenXnodeBroadcast hash with
  | some seen => seen.2
  | none => CXnodeBroadcast.init e

/-- Method `CXnodeMan::UpdateXnodeList` (`xnodeman.cpp:1454`). -/
def CXnodeMan.UpdateXnodeList (e : Env) (mnb : CXnodeBroadcast) (s : State) : State :=
  let seenPing := s.mnodeman.mapSeenXnodePing.insert (e.GetHashMnp mnb.lastPing) mnb.lastPing
  let seenMnb := s.mnodeman.mapSeenXnodeBroadcast.insert (e.GetHashMnb mnb) (e.GetTime, mnb)
  let m1 : CXnodeMan :=
    { s.mnodeman with mapSeenXnodePing := seenPing, mapSeenXnodeBroadcast := seenMnb }
  let s1 : State := { s with mnodeman := m1 }
  match s1.mnodeman.Find mnb.vin with
  | none =>
    let added := s1.mnodeman.Add (CXnode.ofBroadcast mnb)
    let s2 := { s1 with mnodeman := added.2 }
    if added.1 then s2.AddedXnodeList e else s2
  | some i =>
    match s1.getXnode i with
    | none => s1
    | some pmn =>
      let oldKey := e.GetHashMnb (CXnodeBroadcast.ofXnode pmn)
      let mnbOld := s1.seenBroadcastAt e oldKey
      let s2 := s1.touchSeenBroadcast e oldKey
      let r := CXnode.UpdateFromNewBroadcast e i mnb s2
      if r.1 then (r.2.AddedXnodeList e).eraseSeenBroadcast (e.GetHashMnb mnbOld) else r.2

/-- Statement `mMnbRecoveryGoodReplies[hash].push_back(mnb)` on the replies
kept in key order. -/
def pushReply (hash : Nat) (mnb : CXnodeBroadcast) :
    List (Nat × List CXnodeBroadcast) → List (Nat × List CXnodeBroadcast)
  | [] => [(hash, [mnb])]
  | (k, v) :: rest =>
    if hash < k then (hash, [mnb]) :: (k, v) :: rest
    else if hash = k then (k, v ++ [mnb]) :: rest
    else (k, v) :: pushReply hash mnb rest

/-- Branch of `CXnodeMan::CheckMnbAndUpdateXnodeList` for an announcement whose
hash is already in `mapSeenXnodeBroadcast` (`xnodeman.cpp:1493-1523`). -/
def CXnodeMan.seenMnb (e : Env) (pfrom : Option CNetAddr) (mnb : CXnodeBroadcast) (hash : Nat)
    (s : State) : State :=
  match s.mnodeman.mapSeenXnodeBroadcast hash with
  | none => s
  | some seen =>
    let s1 : State :=
      if e.GetTime - seen.1 > XNODE_NEW_START_REQUIRED_SECONDS - XNODE_MIN_MNP_SECONDS * 2 then
        let seenMnb := s.mnodeman.mapSeenXnodeBroadcast.set hash (e.GetTime, seen.2)
        State.AddedXnodeList e { s with mnodeman := { s.mnodeman with mapSeenXnodeBroadcast := seenMnb } }
      else s
    match pfrom with
    | none => s1
    | some addr =>
      match s1.mnodeman.mMnbRecoveryRequests hash with
      | none => s1
      | some req =>
        if e.GetTime < req.1 then
          if addr ∈ req.2 then
            let requests := s1.mnodeman.mMnbRecoveryRequests.set hash (req.1, req.2.erase addr)
            let s2 : State := { s1 with mnodeman := { s1.mnodeman with mMnbRecoveryRequests := requests } }
            if mnb.lastPing.sigTime > seen.2.lastPing.sigTime then
              let mnTemp := (CXnode.ofBroadcast mnb).Check e s2 true false
              if e.IsValidStateForAutoStart mnTemp.nActiveState then
                let replies := pushReply hash mnb s2.mnodeman.mMnbRecoveryGoodReplies
                { s2 with mnodeman := { s2.mnodeman with mMnbRecoveryGoodReplies := replies } }
              else s2
            else s2
          else s1
        else s1

/-- End of `CXnodeMan::CheckMnbAndUpdateXnodeList` (`xnodeman.cpp:1547-1571`):
the outpoint check, the insertion and the relay. -/
def CXnodeMan.addCheckedMnb (e : Env) (mnb : CXnodeBroadcast) (nDos : Int) (s : State) :
    (Bool × Int) × State :=
  let outpoint := mnb.CheckOutpoint e true nDos s
  if outpoint.1.1 then
    let s1 : State := { outpoint.2 with mnodeman := (outpoint.2.mnodeman.Add mnb.toCXnode).2 }
    let s2 := s1.AddedXnodeList e
    if e.fXNode && decide (mnb.pubKeyXnode = s2.activeXnode.pubKeyXnode) then
      let mnb1 : CXnodeBroadcast := { mnb with nPoSeBanScore := -XNODE_POSE_BAN_MAX_SCORE }
      if mnb1.nProtocolVersion = e.PROTOCOL_VERSION then
        ((true, outpoint.1.2),
          (e.ManageState s2).RelayInv InvType.MSG_XNODE_ANNOUNCE (e.GetHashMnb mnb1))
      else ((false, outpoint.1.2), s2)
    else ((true, outpoint.1.2), s2.RelayInv InvType.MSG_XNODE_ANNOUNCE (e.GetHashMnb mnb))
  else ((false, outpoint.1.2), outpoint.2)

/-- Method `CXnodeMan::CheckMnbAndUpdateXnodeList(pfrom, mnb, nDos)`
(`xnodeman.cpp:1482`): the result with `nDos`, and the new global state.
`pfrom` is the address of the sending peer, `none` for `NULL`. -/
def CXnodeMan.CheckMnbAndUpdateXnodeList (e : Env) (pfrom : Option CNetAddr)
    (mnbIn : CXnodeBroadcast) (s : State) : (Bool × Int) × State :=
  let hash := e.GetHashMnb mnbIn
  if s.mnodeman.mapSeenXnodeBroadcast.count hash && !mnbIn.fRecovery then
    ((true, 0), CXnodeMan.seenMnb e pfrom mnbIn hash s)
  else
    let seenMnb := s.mnodeman.mapSeenXnodeBroadcast.insert hash (e.GetTime, mnbIn)
    let s1 : State := { s with mnodeman := { s.mnodeman with mapSeenXnodeBroadcast := seenMnb } }
    let simple := mnbIn.SimpleCheck e
    let mnb := simple.2
    if !simple.1.1 then ((false, simple.1.2), s1)
    else
      match s1.mnodeman.Find mnb.vin with
      | none => CXnodeMan.addCheckedMnb e mnb simple.1.2 s1
      | some i =>
        match s1.getXnode i with
        | none => CXnodeMan.addCheckedMnb e mnb simple.1.2 s1
        | some pmn =>
          let oldKey := e.GetHashMnb (CXnodeBroadcast.ofXnode pmn)
          let mnbOld := s1.seenBroadcastAt e oldKey
          let s2 := s1.touchSeenBroadcast e oldKey
          let updated := mnb.Update e i s2
          if !updated.1.1 then ((false, updated.1.2), updated.2)
          else
            let s3 :=
              if hash ≠ e.GetHashMnb mnbOld then updated.2.eraseSeenBroadcast (e.GetHashMnb mnbOld)
              else updated.2
            CXnodeMan.addCheckedMnb e mnb updated.1.2 s3
/-- Method `CXnodeMan::Check` (`xnodeman.cpp:166`): every record is checked,
unforced, while `cs_main` is held. What a record's `Check` reads of the global
objects (`mnodeman.size()`, the watchdog time, the active node's key) is not
written by the `Check` of another record, so each one reads it from `s`. -/
def CXnodeMan.Check (e : Env) (s : State) : State :=
  { s with mnodeman := { s.mnodeman with
      vXnodes := s.mnodeman.vXnodes.map (CXnode.Check e s true false) } }

/-- Loop at `xnodeman.cpp:226` of `CXnodeMan::CheckAndRemove`: while fewer than
`MNB_RECOVERY_QUORUM_TOTAL` peers are chosen, every ranked record whose address
was not asked about this outpoint is added to `setRequested` and scheduled.
The result is `(setRequested, listScheduledMnbRequestConnections, fAskedForMnbRecovery)`. -/
def askLoop (m : CXnodeMan) (prevout : COutPoint) (hash : Nat) :
    List (Int × CXnode) → List CNetAddr → List (CService × Nat) → Bool →
    List CNetAddr × List (CService × Nat) × Bool
  | [], setRequested, scheduled, fAsked => (setRequested, scheduled, fAsked)
  | rank :: rest, setRequested, scheduled, fAsked =>
    if setRequested.length < MNB_RECOVERY_QUORUM_TOTAL then
      if (m.mWeAskedForXnodeListEntry (prevout, rank.2.addr.ip)).isSome then
        askLoop m prevout hash rest setRequested scheduled fAsked
      else
        let setRequested1 :=
          if rank.2.addr.ip ∈ setRequested then setRequested
          else setRequested ++ [rank.2.addr.ip]
        askLoop m prevout hash rest setRequested1 (scheduled ++ [(rank.2.addr, hash)]) true
    else (setRequested, scheduled, fAsked)

/-- Local variables of the removal loop of `CXnodeMan::CheckAndRemove`: the
manager being updated, `vecXnodeRanks` and `nAskForMnbRecovery`. -/
structure SweepState where
  m : CXnodeMan
  vecXnodeRanks : List (Int × CXnode)
  nAskForMnbRecovery : Int

/-- Removal loop of `CXnodeMan::CheckAndRemove` (`xnodeman.cpp:195-244`).
`kept` are the records before the iterator, `it :: rest` those from the
iterator on; a record in state `OUTPOINT_SPENT` is erased, for the others a
recovery request may be scheduled. -/
def sweepLoop (e : Env) : List CXnode → List CXnode → SweepState → SweepState
  | kept, [], st => { st with m := { st.m with vXnodes := kept } }
  | kept, it :: rest, st =>
    let hash := e.GetHashMnb (CXnodeBroadcast.ofXnode it)
    if it.IsOutpointSpent then
      let seen := st.m.mapSeenXnodeBroadcast.erase hash
      let asked := st.m.mWeAskedForXnodeListEntry.eraseIf
        (fun key _ => decide (key.1 = it.vin.prevout))
      let m1 : CXnodeMan :=
        { st.m with mapSeenXnodeBroadcast := seen, mWeAskedForXnodeListEntry := asked,
                    vXnodes := kept ++ rest, fXnodesRemoved := true }
      sweepLoop e kept rest { st with m := m1 }
    else
      let fAsk := st.m.pCurrentBlockIndex.isSome && decide (st.nAskForMnbRecovery > 0) &&
        e.IsSynced && it.IsNewStartRequired && !st.m.mMnbRecoveryRequests.count hash
      if fAsk then
        let ranks :=
          if st.vecXnodeRanks.isEmpty then
            let nRandomBlockHeight := e.GetRandInt (st.m.pCurrentBlockIndex.getD 0)
            ({ st.m with vXnodes := kept ++ it :: rest }).GetXnodeRanks e nRandomBlockHeight 0
          else st.vecXnodeRanks
        let asked := askLoop st.m it.vin.prevout hash ranks []
          st.m.listScheduledMnbRequestConnections false
        let requests := st.m.mMnbRecoveryRequests.set hash
          (e.GetTime + MNB_RECOVERY_WAIT_SECONDS, asked.1)
        let m1 : CXnodeMan :=
          { st.m with listScheduledMnbRequestConnections := asked.2.1,
                      mMnbRecoveryRequests := requests }
        let nAsk := if asked.2.2 then st.nAskForMnbRecovery - 1 else st.nAskForMnbRecovery
        sweepLoop e (kept ++ [it]) rest
          { m := m1, vecXnodeRanks := ranks, nAskForMnbRecovery := nAsk }
      else sweepLoop e (kept ++ [it]) rest st

/-- Statement `mMnbRecoveryGoodReplies.erase(it)` for the entry with key `hash`. -/
def State.eraseReplies (s : State) (hash : Nat) : State :=
  let replies := s.mnodeman.mMnbRecoveryGoodReplies.filter (fun r => decide (r.1 ≠ hash))
  { s with mnodeman := { s.mnodeman with mMnbRecoveryGoodReplies := replies } }

/-- Loop at `xnodeman.cpp:249-265` of `CXnodeMan::CheckAndRemove` over the
entries of `mMnbRecoveryGoodReplies`: once the waiting time of the request is
over, a quorum of replies has the first reply reprocessed as a recovery
announcement, and the entry is erased. -/
def repliesLoop (e : Env) : List (Nat × List CXnodeBroadcast) → State → State
  | [], s => s
  | (hash, replies) :: rest, s =>
    let nTimeRequest : Int :=
      match s.mnodeman.mMnbRecoveryRequests hash with
      | some req => req.1
      | none => 0
    let requests := s.mnodeman.mMnbRecoveryRequests.insert hash (0, [])
    let s1 : State := { s with mnodeman := { s.mnodeman with mMnbRecoveryRequests := requests } }
    if nTimeRequest < e.GetTime then
      let s2 : State :=
        if replies.length ≥ MNB_RECOVERY_QUORUM_REQUIRED then
          match replies with
          | mnb :: _ =>
            (CXnodeMan.CheckMnbAndUpdateXnodeList e none { mnb with fRecovery := true } s1).2
          | [] => s1
        else s1
      repliesLoop e rest (s2.eraseReplies hash)
    else repliesLoop e rest s1

/-- Second block of `CXnodeMan::CheckAndRemove` (`xnodeman.cpp:267-353`): the
expired entries of the request maps and of the seen maps are erased. The two
loops that read `pCurrentBlockIndex->nHeight` change nothing while the pointer
is null. -/
def CXnodeMan.eraseExpired (e : Env) (m : CXnodeMan) : CXnodeMan :=
  let requests := m.mMnbRecoveryRequests.eraseIf
    (fun _ req => decide (e.GetTime - req.1 > MNB_RECOVERY_RETRY_SECONDS))
  let askedUs := m.mAskedUsForXnodeList.eraseIf (fun _ t => decide (t < e.GetTime))
  let weAsked := m.mWeAskedForXnodeList.eraseIf (fun _ t => decide (t < e.GetTime))
  let weAskedEntry := m.mWeAskedForXnodeListEntry.eraseIf (fun _ t => decide (t < e.GetTime))
  let verification :=
    match m.pCurrentBlockIndex with
    | some nHeight => m.mWeAskedForVerification.eraseIf
        (fun _ mnv => decide (mnv.nBlockHeight < nHeight - MAX_POSE_BLOCKS))
    | none => m.mWeAskedForVerification
  let seenPing := m.mapSeenXnodePing.eraseIf (fun _ mnp => e.PingIsExpired mnp)
  let seenVerification :=
    match m.pCurrentBlockIndex with
    | some nHeight => m.mapSeenXnodeVerification.eraseIf
        (fun _ mnv => decide (mnv.nBlockHeight < nHeight - MAX_POSE_BLOCKS))
    | none => m.mapSeenXnodeVerification
  { m with mMnbRecoveryRequests := requests, mAskedUsForXnodeList := askedUs,
           mWeAskedForXnodeList := weAsked, mWeAskedForXnodeListEntry := weAskedEntry,
           mWeAskedForVerification := verification, mapSeenXnodePing := seenPing,
           mapSeenXnodeVerification := seenVerification }

/-- Method `CXnodeMan::CheckAndRebuildXnodeIndex` (`xnodeman.cpp:1599`). -/
def CXnodeMan.CheckAndRebuildXnodeIndex (e : Env) (m : CXnodeMan) : CXnodeMan :=
  if e.GetTime - m.nLastIndexRebuildTime < MIN_INDEX_REBUILD_TIME then m
  else if m.indexXnodes.nSize ≤ MAX_EXPECTED_INDEX_SIZE then m
  else if m.indexXnodes.nSize ≤ (m.vXnodes.length : Int) then m
  else
    let index := m.vXnodes.foldl (fun ix mn => ix.AddXnodeVIN mn.vin) CXnodeIndex.Clear
    { m with indexXnodesOld := m.indexXnodes, indexXnodes := index,
             fIndexRebuilt := true, nLastIndexRebuildTime := e.GetTime }

/-- Method `CXnodeMan::NotifyXnodeUpdates` (`xnodeman.cpp:1723`): both change
flags are cleared. -/
def CXnodeMan.NotifyXnodeUpdates (m : CXnodeMan) : CXnodeMan :=
  { m with fXnodesAdded := false, fXnodesRemoved := false }

/-- First block of `CXnodeMan::CheckAndRemove` up to the end of the removal
loop (`xnodeman.cpp:186-244`): all records are checked and the spent ones erased. -/
def CXnodeMan.removeSpent (e : Env) (s : State) : State :=
  let s1 := CXnodeMan.Check e s
  let st := sweepLoop e [] s1.mnodeman.vXnodes
    { m := s1.mnodeman, vecXnodeRanks := [], nAskForMnbRecovery := MNB_RECOVERY_MAX_ASK_ENTRIES }
  { s1 with mnodeman := st.m }

/-- Method `CXnodeMan::CheckAndRemove` (`xnodeman.cpp:177`). -/
def CXnodeMan.CheckAndRemove (e : Env) (s : State) : State :=
  if !e.IsXnodeListSynced then s
  else
    let s2 := CXnodeMan.removeSpent e s
    let s3 := repliesLoop e s2.mnodeman.mMnbRecoveryGoodReplies s2
    let s4 : State := { s3 with mnodeman := s3.mnodeman.eraseExpired e }
    let s5 : State :=
      if s4.mnodeman.fXnodesRemoved then
        { s4 with mnodeman := s4.mnodeman.CheckAndRebuildXnodeIndex e }
      else s4
    if s5.mnodeman.fXnodesRemoved then { s5 with mnodeman := s5.mnodeman.NotifyXnodeUpdates }
    else s5

/-! ## Notions used in the statements -/

/-- The announcement carried by a record: outpoint input, collateral key, announce
time, address, node key, signature and protocol version. -/
def CXnode.announce (mn : CXnode) :
    CTxIn × CPubKey × Int × CService × CPubKey × List Nat × Int :=
  (mn.vin, mn.pubKeyCollateralAddress, mn.sigTime, mn.addr, mn.pubKeyXnode, mn.vchSig,
    mn.nProtocolVersion)

/-- The announcements of the registry in vector order. -/
def State.announces (s : State) : List (CTxIn × CPubKey × Int × CService × CPubKey × List Nat × Int) :=
  s.mnodeman.vXnodes.map CXnode.announce

/-- The collateral outpoints of the registry in vector order. -/
def State.outpoints (s : State) : List COutPoint :=
  s.mnodeman.vXnodes.map (fun mn => mn.vin.prevout)

/-- Registry invariant: no two records of `vXnodes` have the same collateral
outpoint `vin.prevout`. -/
def State.UniqueOutpoints (s : State) : Prop := s.outpoints.Nodup

/-- The registry of `s2` extends the registry of `s1`: the outpoints of `s1`
are still there, in the same order, followed by those of the records added. -/
def State.Extends (s2 s1 : State) : Prop := ∃ added, s2.outpoints = s1.outpoints ++ added

/-- The call `activeXnode.ManageState()` removes or reorders no record and
keeps the outpoints pairwise distinct. The embedded controller has this
property (`withController_keepsRegistry`): it reaches the registry only
through `CheckXnode`, `UpdateXnodeList` and `SetXnodeLastPing`. -/
def Env.ManageStateKeepsRegistry (e : Env) : Prop :=
  ∀ s : State, (e.ManageState s).Extends s ∧
    (s.UniqueOutpoints → (e.ManageState s).UniqueOutpoints)

/-- The registry of `s2` grew out of the registry of `s1`: it extends it, and
its outpoints are pairwise distinct if those of `s1` were. -/
def State.Grows (s2 s1 : State) : Prop :=
  s2.Extends s1 ∧ (s1.UniqueOutpoints → s2.UniqueOutpoints)

/-- The announcement of a record after `CXnode.takeBroadcast mnb`: input and
collateral key stay, the other five parts are those of `mnb`. -/
def announceTake (mnb : CXnodeBroadcast)
    (a : CTxIn × CPubKey × Int × CService × CPubKey × List Nat × Int) :
    CTxIn × CPubKey × Int × CService × CPubKey × List Nat × Int :=
  (a.1, a.2.1, mnb.sigTime, mnb.addr, mnb.pubKeyXnode, mnb.vchSig, mnb.nProtocolVersion)

/-- The PoSe score of a record lies between `-XNODE_POSE_BAN_MAX_SCORE` and
`XNODE_POSE_BAN_MAX_SCORE`. -/
def CXnode.ScoreInRange (mn : CXnode) : Prop :=
  -XNODE_POSE_BAN_MAX_SCORE ≤ mn.nPoSeBanScore ∧ mn.nPoSeBanScore ≤ XNODE_POSE_BAN_MAX_SCORE

/-- Registry invariant: the PoSe score of every record of `vXnodes` is in range. -/
def State.ScoresInRange (s : State) : Prop := ∀ mn ∈ s.mnodeman.vXnodes, mn.ScoreInRange

/-- The PoSe score of `r1` is the one of `r`, or the one of `r` after
`DecreasePoSeBanScore`, after `IncreasePoSeBanScore`, or after both in this
order. -/
def CXnode.ScoreNear (r r1 : CXnode) : Prop :=
  r1.nPoSeBanScore = r.nPoSeBanScore
  ∨ r1.nPoSeBanScore = r.DecreasePoSeBanScore.nPoSeBanScore
  ∨ r1.nPoSeBanScore = r.IncreasePoSeBanScore.nPoSeBanScore
  ∨ r1.nPoSeBanScore = r.DecreasePoSeBanScore.IncreasePoSeBanScore.nPoSeBanScore

/-- The place of an asset in the linear sequence INITIAL, SPORKS, LIST, MNW
(votes), FINISHED of spec §4.8; `FAILED` is not in the sequence. -/
def XnodeSyncAsset.position : XnodeSyncAsset → Option Nat
  | XNODE_SYNC_FAILED => none
  | XNODE_SYNC_INITIAL => some 0
  | XNODE_SYNC_SPORKS => some 1
  | XNODE_SYNC_LIST => some 2
  | XNODE_SYNC_MNW => some 3
  | XNODE_SYNC_FINISHED => some 4

/-- The assets after each of `n` successive calls of `SwitchToNextAsset`,
oldest first, with the attempt counters left by the calls; the run stops at a
call that throws. -/
def switchRun (e : Env) : Nat → CXnodeSync → List (XnodeSyncAsset × Int)
  | 0, _ => []
  | n + 1, x =>
    match x.SwitchToNextAsset e with
    | (some _, _) => []
    | (none, x1) => (x1.nRequestedXnodeAssets, x1.nRequestedXnodeAttempt) :: switchRun e n x1

/-- Exponent step of a binary32 rounding: the number of low bits of `m` that do
not fit in the 24-bit significand (`m` below `2^128`, the binary32 range). -/
def binary32Shift (m : Nat) : Nat :=
  ((List.range 105).find? (fun s => decide (m / 2 ^ s < 2 ^ 24))).getD 105

/-- Rounding to `float` (IEEE 754 binary32, round to nearest, ties to even) of
a non-negative value given as a multiple `m` of a fixed power of two: the
multiple of the rounded value. The rounding is the one of the `int` to `float`
conversion and of the `float` product in `mnodeman.size() * nStorageCoeff`. -/
def roundBinary32 (m : Nat) : Nat :=
  let s := binary32Shift m
  if s = 0 then m
  else
    let q := m / 2 ^ s
    let r := m % 2 ^ s
    let half := 2 ^ (s - 1)
    let q1 := if r > half ∨ (r = half ∧ q % 2 = 1) then q + 1 else q
    q1 * 2 ^ s

/-- Method `CXnodePayments::GetStorageLimit` (`xnode-payments.cpp:789`) for
`mnodeman.size() = nSize`: `std::max(int(nSize * nStorageCoeff), nMinBlocksToStore)`
with the members `const float nStorageCoeff = 1.25` and `nMinBlocksToStore =
5000` (`xnode-payments.h:165-177`). `nSize` is converted to `float`, the
product with 1.25 = 5/4 is a `float`, here in quarters, and `int(...)`
truncates. -/
def CXnodePayments.GetStorageLimit (nSize : Nat) : Int :=
  let fSize := roundBinary32 nSize
  let quarters := roundBinary32 (5 * fSize)
  max ((quarters / 4 : Nat) : Int) 5000

/-! ## Peers and message handlers (`xnodeman.cpp`, `xnode-payments.cpp`) -/

/-- Message handed to `pnode->PushMessage`: a `DSEG` request for one entry or a
`MNVERIFY` message. -/
inductive NetMsg where
  | DSEG (vin : CTxIn)
  | MNVERIFY (mnv : CXnodeVerification)
deriving DecidableEq, Repr

/-- Peer object `CNode`: the members the handlers touch, the score added
through `Misbehaving(pnode->GetId(), howmuch)` and the messages pushed to the
peer, oldest first. -/
structure CNode where
  addr : CService
  nVersion : Int
  setAskFor : List Nat
  nMisbehavior : Int
  vSendMsg : List NetMsg
deriving DecidableEq, Repr

/-- Call `Misbehaving(pnode->GetId(), howmuch)`. -/
def CNode.Misbehaving (pnode : CNode) (howmuch : Int) : CNode :=
  { pnode with nMisbehavior := pnode.nMisbehavior + howmuch }

/-- Call `pnode->PushMessage(...)`. -/
def CNode.PushMessage (pnode : CNode) (msg : NetMsg) : CNode :=
  { pnode with vSendMsg := pnode.vSendMsg ++ [msg] }

/-- Statement `pfrom->setAskFor.erase(hash)`. -/
def CNode.eraseAskFor (pnode : CNode) (hash : Nat) : CNode :=
  { pnode with setAskFor := pnode.setAskFor.filter (fun h => decide (h ≠ hash)) }

/-- Constant `DSEG_UPDATE_SECONDS` (`xnodeman.h:98`). -/
def DSEG_UPDATE_SECONDS : Int := 3 * 60 * 60

/-- Method `CXnodeMan::AskForMN` (`xnodeman.cpp:137`): the peer and the manager
after the call; `pnode` is `none` for `NULL`. -/
def CXnodeMan.AskForMN (e : Env) (pnode : Option CNode) (vin : CTxIn) (m : CXnodeMan) :
    Option CNode × CXnodeMan :=
  match pnode with
  | none => (none, m)
  | some node =>
    let asked := m.mWeAskedForXnodeListEntry.set (vin.prevout, node.addr.ip)
      (e.GetTime + DSEG_UPDATE_SECONDS)
    let ask : Option CNode × CXnodeMan :=
      (some (node.PushMessage (NetMsg.DSEG vin)), { m with mWeAskedForXnodeListEntry := asked })
    match m.mWeAskedForXnodeListEntry (vin.prevout, node.addr.ip) with
    | some t => if e.GetTime < t then (some node, m) else ask
    | none => ask

/-- Method `CXnodeMan::GetXnodeInfo(const CTxIn&)` (`xnodeman.cpp:506`): the
record whose data `GetInfo` copies, `none` when `fInfoValid` stays false. -/
def CXnodeMan.GetXnodeInfo (m : CXnodeMan) (vin : CTxIn) : Option CXnode :=
  match m.Find vin with
  | none => none
  | some i => m.vXnodes[i]?

/-- Method `CXnodePaymentVote::GetHash` (`xnode-payments.h:133`): the digest of
payee, height (a 32-bit `int`) and outpoint; the signature is not covered. -/
def CXnodePaymentVote.GetHash (e : Env) (vote : CXnodePaymentVote) : Nat :=
  e.Hash (vote.payee ++ [(vote.nBlockHeight % 2 ^ 32).toNat, vote.vinXnode.prevout.hash,
    vote.vinXnode.prevout.n])

/-- Method `CXnodePaymentVote::IsVerified` (`xnode-payments.h:150`). -/
def CXnodePaymentVote.IsVerified (vote : CXnodePaymentVote) : Bool := !vote.vchSig.isEmpty

/-- Method `CXnodePaymentVote::MarkAsNotVerified` (`xnode-payments.h:151`). -/
def CXnodePaymentVote.MarkAsNotVerified (vote : CXnodePaymentVote) : CXnodePaymentVote :=
  { vote with vchSig := [] }

/-- Method `CXnodePaymentVote::CheckSignature` (`xnode-payments.cpp:634`): the
result and `nDos`. -/
def CXnodePaymentVote.CheckSignature (e : Env) (vote : CXnodePaymentVote)
    (pubKeyXnode : CPubKey) (nValidationHeight : Int) : Bool × Int :=
  let strMessage := e.strPrevout vote.vinXnode.prevout ++ toString vote.nBlockHeight ++
    e.ScriptToAsmStr vote.payee
  if !e.VerifyMessage pubKeyXnode vote.vchSig strMessage then
    (false, if e.IsXnodeListSynced && decide (vote.nBlockHeight > nValidationHeight) then 20
            else 0)
  else (true, 0)

/-- Method `CXnodePaymentVote::IsValid` (`xnode-payments.cpp:510`): the result,
the peer and the manager after the call. -/
def CXnodePaymentVote.IsValid (e : Env) (vote : CXnodePaymentVote) (pnode : CNode)
    (nValidationHeight : Int) (m : CXnodeMan) : Bool × CNode × CXnodeMan :=
  match m.GetXnodeInfo vote.vinXnode with
  | none =>
    if e.IsXnodeListSynced then
      let r := m.AskForMN e (some pnode) vote.vinXnode
      (false, r.1.getD pnode, r.2)
    else (false, pnode, m)
  | some pmn =>
    let nMinRequiredProtocol := GetMinXnodePaymentsProto e
    if pmn.nProtocolVersion < nMinRequiredProtocol then (false, pnode, m)
    else if !e.fXNode && decide (vote.nBlockHeight < nValidationHeight) then (true, pnode, m)
    else
      let nRank := m.GetXnodeRank e vote.vinXnode (vote.nBlockHeight - 101)
        nMinRequiredProtocol false
      if nRank = -1 then (false, pnode, m)
      else if nRank > MNPAYMENTS_SIGNATURES_TOTAL then
        if decide (nRank > MNPAYMENTS_SIGNATURES_TOTAL * 2) &&
            decide (vote.nBlockHeight > nValidationHeight) then
          (false, pnode.Misbehaving 20, m)
        else (false, pnode, m)
      else (true, pnode, m)

/-- Loop of `CXnodeBlockPayees::AddPayee` (`xnode-payments.cpp:346`): the hash
joins the payee with the script of the vote, or a new payee is appended. -/
def addPayeeLoop (payee : CScript) (hash : Nat) : List CXnodePayee → List CXnodePayee
  | [] => [{ scriptPubKey := payee, vecVoteHashes := [hash] }]
  | p :: rest =>
    if p.GetPayee = payee then { p with vecVoteHashes := p.vecVoteHashes ++ [hash] } :: rest
    else p :: addPayeeLoop payee hash rest

/-- Method `CXnodeBlockPayees::AddPayee` (`xnode-payments.cpp:346`). -/
def CXnodeBlockPayees.AddPayee (e : Env) (B : CXnodeBlockPayees) (vote : CXnodePaymentVote) :
    CXnodeBlockPayees :=
  { B with vecPayees := addPayeeLoop vote.payee (vote.GetHash e) B.vecPayees }

/-- Method `CXnodePayments::HasVerifiedPaymentVote` (`xnode-payments.cpp:340`). -/
def CXnodePayments.HasVerifiedPaymentVote (p : CXnodePayments) (hashIn : Nat) : Bool :=
  match p.mapXnodePaymentVotes hashIn with
  | some vote => vote.IsVerified
  | none => false

/-- Method `CXnodePayments::AddPaymentVote` (`xnode-payments.cpp:319`): the
result and the updated object. -/
def CXnodePayments.AddPaymentVote (e : Env) (p : CXnodePayments) (vote : CXnodePaymentVote) :
    Bool × CXnodePayments :=
  match e.GetBlockHash (vote.nBlockHeight - 101) with
  | none => (false, p)
  | some _ =>
    if p.HasVerifiedPaymentVote (vote.GetHash e) then (false, p)
    else
      let votes := p.mapXnodePaymentVotes.set (vote.GetHash e) vote
      let blockPayees : CXnodeBlockPayees :=
        match p.mapXnodeBlocks vote.nBlockHeight with
        | some B => B
        | none => { nBlockHeight := vote.nBlockHeight, vecPayees := [] }
      let blocks := p.mapXnodeBlocks.set vote.nBlockHeight (blockPayees.AddPayee e vote)
      (true, { p with mapXnodePaymentVotes := votes, mapXnodeBlocks := blocks })

/-- Modelled from the spec: `CXnodeSync::AddedPaymentVote` of xnode-sync.h
(absent): the last-progress time of the votes asset is refreshed (spec §4.8). -/
def State.AddedPaymentVote (e : Env) (s : State) : State :=
  { s with xnodeSync := { s.xnodeSync with nTimeLastPaymentVote := e.GetTime } }

/-- Method `CXnodePaymentVote::Relay` (`xnode-payments.cpp:624`). -/
def CXnodePaymentVote.Relay (e : Env) (vote : CXnodePaymentVote) (s : State) : State :=
  if !e.IsWinnersListSynced then s
  else s.RelayInv InvType.MSG_XNODE_PAYMENT_VOTE (vote.GetHash e)

/-- End of the `XNODEPAYMENTVOTE` handler (`xnode-payments.cpp:227-268`), from
`CanVote` on; `pfrom` and `s` are the peer and the state left by `IsValid`. -/
def CXnodePayments.voteAfterIsValid (e : Env) (nHeight : Int) (pfrom : CNode)
    (vote : CXnodePaymentVote) (s : State) : CNode × State :=
  let can := s.mnpayments.CanVote vote.vinXnode.prevout vote.nBlockHeight
  let s1 : State := { s with mnpayments := can.2 }
  if !can.1 then (pfrom, s1)
  else
    match s1.mnodeman.GetXnodeInfo vote.vinXnode with
    | none =>
      let r := s1.mnodeman.AskForMN e (some pfrom) vote.vinXnode
      (r.1.getD pfrom, { s1 with mnodeman := r.2 })
    | some mnInfo =>
      let sig := vote.CheckSignature e mnInfo.pubKeyXnode nHeight
      if !sig.1 then
        let pfrom1 := if decide (sig.2 ≠ 0) && !e.fTestNet then pfrom.Misbehaving sig.2 else pfrom
        let r := s1.mnodeman.AskForMN e (some pfrom1) vote.vinXnode
        (r.1.getD pfrom1, { s1 with mnodeman := r.2 })
      else
        let added := s1.mnpayments.AddPaymentVote e vote
        let s2 : State := { s1 with mnpayments := added.2 }
        if added.1 then (pfrom, (vote.Relay e s2).AddedPaymentVote e) else (pfrom, s2)

/-- Branch `XNODEPAYMENTVOTE` of `CXnodePayments::ProcessMessage`
(`xnode-payments.cpp:188`): the peer and the global state after the message.
`pCurrentBlockIndex` is the member of `mnpayments` with that name, read only
here: the height of the tip, `none` for a null pointer. -/
def CXnodePayments.ProcessMessageVote (e : Env) (pCurrentBlockIndex : Option Int)
    (pfrom : CNode) (vote : CXnodePaymentVote) (s : State) : CNode × State :=
  if pfrom.nVersion < GetMinXnodePaymentsProto e then (pfrom, s)
  else
    match pCurrentBlockIndex with
    | none => (pfrom, s)
    | some nHeight =>
      let nHash := vote.GetHash e
      let pfrom1 := pfrom.eraseAskFor nHash
      if s.mnpayments.mapXnodePaymentVotes.count nHash then (pfrom1, s)
      else
        let votes := s.mnpayments.mapXnodePaymentVotes.set nHash vote.MarkAsNotVerified
        let s1 : State := { s with mnpayments := { s.mnpayments with mapXnodePaymentVotes := votes } }
        let nFirstBlock := nHeight - CXnodePayments.GetStorageLimit s1.mnodeman.vXnodes.length
        if decide (vote.nBlockHeight < nFirstBlock) || decide (vote.nBlockHeight > nHeight + 20)
        then (pfrom1, s1)
        else
          let valid := vote.IsValid e pfrom1 nHeight s1.mnodeman
          let s2 : State := { s1 with mnodeman := valid.2.2 }
          if !valid.1 then (valid.2.1, s2)
          else CXnodePayments.voteAfterIsValid e nHeight valid.2.1 vote s2

/-- Branch `MNPING` of `CXnodeMan::ProcessMessage` (`xnodeman.cpp:904-941`),
after the two tests at the head of the method: the peer and the global state
after the message. -/
def CXnodeMan.pingAfterGuard (e : Env) (pfrom : CNode) (mnp : CXnodePing) (s : State) :
    CNode × State :=
  let nHash := e.GetHashMnp mnp
  let pfrom1 := pfrom.eraseAskFor nHash
  if s.mnodeman.mapSeenXnodePing.count nHash then (pfrom1, s)
  else
    let seen := s.mnodeman.mapSeenXnodePing.insert nHash mnp
    let s1 : State := { s with mnodeman := { s.mnodeman with mapSeenXnodePing := seen } }
    let pmn := s1.mnodeman.Find mnp.vin
    let fNewStart : Bool :=
      match s1.mnodeman.GetXnodeInfo mnp.vin with
      | some mn => mn.IsNewStartRequired
      | none => false
    if fNewStart then (pfrom1, s1)
    else
      let r := mnp.CheckAndUpdate e pmn false s1
      if r.1.1 then (pfrom1, r.2)
      else if decide (r.1.2 > 0) || pmn.isNone then
        let pfrom2 := if r.1.2 > 0 then pfrom1.Misbehaving r.1.2 else pfrom1
        let a := r.2.mnodeman.AskForMN e (some pfrom2) mnp.vin
        (a.1.getD pfrom2, { r.2 with mnodeman := a.2 })
      else (pfrom1, r.2)

/-- Method `CXnodeMan::ProcessMessage` (`xnodeman.cpp:875`) for the command
`MNPING`: the peer and the global state after the message. The test
`xnodeSync.IsBlockchainSynced()` at the head of the method writes the statics
of that function and may reset the sync object. -/
def CXnodeMan.ProcessMessagePing (e : Env) (pfrom : CNode) (mnp : CXnodePing) (s : State) :
    CNode × State :=
  if e.fLiteMode then (pfrom, s)
  else
    let synced := CXnodeSync.IsBlockchainSynced e false s
    if !synced.1 then (pfrom, synced.2)
    else CXnodeMan.pingAfterGuard e pfrom mnp synced.2

/-- The payment-vote state after the handler has stored a new vote marked as
not verified (`xnode-payments.cpp:209-212`). -/
def CXnodePayments.storeUnverified (e : Env) (p : CXnodePayments) (vote : CXnodePaymentVote) :
    CXnodePayments :=
  { p with mapXnodePaymentVotes :=
      p.mapXnodePaymentVotes.set (vote.GetHash e) vote.MarkAsNotVerified }

/-- The test `vote.nBlockHeight < nFirstBlock || vote.nBlockHeight > nHeight + 20`
of the vote handler for a registry of `nSize` records. -/
def voteOutOfRange (nHeight : Int) (nSize : Nat) (vote : CXnodePaymentVote) : Bool :=
  decide (vote.nBlockHeight < nHeight - CXnodePayments.GetStorageLimit nSize) ||
    decide (vote.nBlockHeight > nHeight + 20)

/-- The global state after the vote handler has stored a new vote marked as not
verified and `IsValid` has left the manager `m`. -/
def State.voteStored (e : Env) (vote : CXnodePaymentVote) (s : State) (m : CXnodeMan) : State :=
  { s with mnpayments := s.mnpayments.storeUnverified e vote, mnodeman := m }

/-- No recovery request is open for the announcement `hash` towards the peer
`pfrom`: the test `pfrom && IsMnbRecoveryRequested(hash) && GetTime() <
mMnbRecoveryRequests[hash].first && mMnbRecoveryRequests[hash].second.count(pfrom->addr)`
of `xnodeman.cpp:1503-1505` fails. -/
def State.noRecoveryRequest (e : Env) (s : State) (pfrom : Option CNetAddr) (hash : Nat) : Bool :=
  match pfrom with
  | none => true
  | some addr =>
    match s.mnodeman.mMnbRecoveryRequests hash with
    | none => true
    | some req => !(decide (e.GetTime < req.1) && decide (addr ∈ req.2))

/-! ## The duplicate-address sweep (`xnodeman.cpp:1111`) -/

/-- Modelled from the spec: state test `CXnode::IsPreEnabled` of xnode.h (absent). -/
def CXnode.IsPreEnabled (mn : CXnode) : Bool := decide (mn.nActiveState = XNODE_PRE_ENABLED)

/-- Modelled from the spec: `operator<` of `CService` (netbase.h, absent):
addresses are ordered by IP, then by port. -/
def CService.lt (a b : CService) : Bool :=
  decide (a.ip < b.ip) || (decide (a.ip = b.ip) && decide (a.port < b.port))

/-- Comparator `CompareByAddr` (`xnodeman.cpp:81`) on pointers into `vXnodes`:
a pointer is the position in `vXnodes` together with the record it points to. -/
def CompareByAddr (t1 t2 : Nat × CXnode) : Bool := t1.2.addr.lt t2.2.addr

/-- Locals of the scan in `CXnodeMan::CheckSameAddr`: `pprevXnode`,
`pverifiedXnode` (`none` for `NULL`) and `vBan`, the positions to ban in the
order they were pushed. -/
structure SameAddrScan where
  pprevXnode : Option (Nat × CXnode)
  pverifiedXnode : Option (Nat × CXnode)
  vBan : List Nat
deriving DecidableEq, Repr

/-- One pass of the body of the loop over `vSortedByAddr` in
`CXnodeMan::CheckSameAddr` (`xnodeman.cpp:1131-1153`). -/
def CXnodeMan.sameAddrStep (e : Env) (st : SameAddrScan) (pmn : Nat × CXnode) : SameAddrScan :=
  if !pmn.2.IsEnabled && !pmn.2.IsPreEnabled then st
  else
    match st.pprevXnode with
    | none =>
      { st with pprevXnode := some pmn, pverifiedXnode := if e.IsPoSeVerified pmn.2 then some pmn else none }
    | some pprev =>
      let st1 : SameAddrScan :=
        if pmn.2.addr = pprev.2.addr then
          if st.pverifiedXnode.isSome then { st with vBan := st.vBan ++ [pmn.1] }
          else if e.IsPoSeVerified pmn.2 then
            { st with vBan := st.vBan ++ [pprev.1], pverifiedXnode := some pmn }
          else st
        else { st with pverifiedXnode := if e.IsPoSeVerified pmn.2 then some pmn else none }
      { st1 with pprevXnode := some pmn }

/-- The vector `vSortedByAddr` of `CXnodeMan::CheckSameAddr` after the `sort`
call: the pointers to all records, in ascending order of the address. -/
def CXnodeMan.vSortedByAddr (m : CXnodeMan) : List (Nat × CXnode) :=
  stdSort CompareByAddr m.vXnodes.enum

/-- The vector `vBan` of `CXnodeMan::CheckSameAddr` after the scan. -/
def CXnodeMan.sameAddrBan (e : Env) (m : CXnodeMan) : List Nat :=
  (m.vSortedByAddr.foldl (CXnodeMan.sameAddrStep e) { pprevXnode := none, pverifiedXnode := none, vBan := [] }).vBan

/-- Method `CXnodeMan::CheckSameAddr` (`xnodeman.cpp:1111`): the scan of the
records in address order, then `IncreasePoSeBanScore` on every pointer of
`vBan`. -/
def CXnodeMan.CheckSameAddr (e : Env) (m : CXnodeMan) : CXnodeMan :=
  if !e.IsSynced || m.vXnodes.isEmpty then m
  else
    { m with vXnodes :=
        (m.sameAddrBan e).foldl (fun v i => updateAt v i CXnode.IncreasePoSeBanScore) m.vXnodes }

/-- Constant `MIN_POSE_PROTO_VERSION` (`xnodeman.h:102`). -/
def MIN_POSE_PROTO_VERSION : Int := 70203

/-- Constant `MAX_POSE_RANK` (`xnodeman.h:104`). -/
def MAX_POSE_RANK : Int := 10

/-- Modelled from the spec: constructor `CXnodeVerification()` of xnode.h
(absent), the value `operator[]` stores for a missing key of
`mWeAskedForVerification`: the empty message. -/
def CXnodeVerification.init : CXnodeVerification :=
  { vin1 := CTxIn.null, vin2 := CTxIn.null, addr := { ip := 0, port := 0 }, nonce := 0,
    nBlockHeight := 0, vchSig1 := [], vchSig2 := [] }

/-- Modelled from the spec: `CXnodeVerification::Relay` of xnode.h (absent):
the inventory of the message is announced to the peers (spec §6). -/
def CXnodeVerification.Relay (e : Env) (mnv : CXnodeVerification) (s : State) : State :=
  s.RelayInv InvType.MSG_XNODE_VERIFY (e.GetHashMnv mnv)

/-- Read `mWeAskedForVerification[addr]`: `operator[]` enters the empty message
for a missing key. -/
def CXnodeMan.askedForVerification (m : CXnodeMan) (addr : CService) :
    CXnodeVerification × CXnodeMan :=
  match m.mWeAskedForVerification addr.ip with
  | some mnv => (mnv, m)
  | none =>
    (CXnodeVerification.init,
      { m with mWeAskedForVerification := m.mWeAskedForVerification.set addr.ip CXnodeVerification.init })

/-- Statement `if(!pmn->IsPoSeVerified()) pmn->DecreasePoSeBanScore();`
(`xnodeman.cpp:1281`, `xnodeman.cpp:1418`) for the record `pmn` at position `i`. -/
def State.decreaseUnlessVerified (e : Env) (s : State) (i : Nat) (pmn : CXnode) : State :=
  if !e.IsPoSeVerified pmn then s.modifyXnode i CXnode.DecreasePoSeBanScore else s

/-- Locals and objects of the `while` loop of `CXnodeMan::ProcessVerifyReply`:
the global state, the message `mnv` (a reference the loop writes to),
`prealXnode` (`none` for `NULL`), `vpXnodesToBan` as positions in `vXnodes`,
and the requests entered by `netfulfilledman.AddFulfilledRequest`. -/
structure VerifyReplyScan where
  s : State
  mnv : CXnodeVerification
  prealXnode : Option Nat
  vpXnodesToBan : List Nat
  fulfilled : List (CService × String)

/-- How one pass of a loop body ends: at the end of the body (`next`), in a
`return` of the enclosing function (`returned`), or in a `continue` that
repeats the same pass for ever (`diverges`). -/
inductive LoopExit (α : Type) where
  | next (a : α)
  | returned (a : α)
  | diverges

/-- One pass of the `while` loop of `CXnodeMan::ProcessVerifyReply`
(`xnodeman.cpp:1277-1315`) with the iterator at position `i`. The statement
`if(activeXnode.vin == CTxIn()) continue;` skips `++it`, so the pass is
repeated with the same record and the loop never ends. -/
def CXnodeMan.verifyReplyStep (e : Env) (pnode : CNode) (blockHash : Nat) (strMessage1 : String)
    (st : VerifyReplyScan) (i : Nat) : LoopExit VerifyReplyScan :=
  match st.s.getXnode i with
  | none => LoopExit.next st
  | some it =>
    if it.addr = pnode.addr then
      if e.VerifyMessage it.pubKeyXnode st.mnv.vchSig1 strMessage1 then
        let s1 := st.s.decreaseUnlessVerified e i it
        let fulfilled := st.fulfilled ++ [(pnode.addr, e.MNVERIFY ++ "-done")]
        if s1.activeXnode.vin = CTxIn.null then LoopExit.diverges
        else
          let mnv1 : CXnodeVerification := { st.mnv with addr := it.addr, vin1 := it.vin, vin2 := s1.activeXnode.vin }
          let strMessage2 := e.strService mnv1.addr ++ toString mnv1.nonce ++ e.strHash blockHash ++
            e.strPrevout mnv1.vin1.prevout ++ e.strPrevout mnv1.vin2.prevout
          match e.SignMessage strMessage2 with
          | none =>
            LoopExit.returned { s := s1, mnv := mnv1, prealXnode := some i, vpXnodesToBan := st.vpXnodesToBan, fulfilled := fulfilled }
          | some vchSig2 =>
            let mnv2 : CXnodeVerification := { mnv1 with vchSig2 := vchSig2 }
            if !e.VerifyMessage s1.activeXnode.pubKeyXnode mnv2.vchSig2 strMessage2 then
              LoopExit.returned { s := s1, mnv := mnv2, prealXnode := some i, vpXnodesToBan := st.vpXnodesToBan, fulfilled := fulfilled }
            else
              let asked := s1.mnodeman.mWeAskedForVerification.set pnode.addr.ip mnv2
              let s2 : State := { s1 with mnodeman := { s1.mnodeman with mWeAskedForVerification := asked } }
              LoopExit.next { s := mnv2.Relay e s2, mnv := mnv2, prealXnode := some i, vpXnodesToBan := st.vpXnodesToBan, fulfilled := fulfilled }
      else LoopExit.next { st with vpXnodesToBan := st.vpXnodesToBan ++ [i] }
    else LoopExit.next st

/-- The `while` loop of `CXnodeMan::ProcessVerifyReply` over the positions
still to visit. -/
def CXnodeMan.verifyReplyLoop (e : Env) (pnode : CNode) (blockHash : Nat) (strMessage1 : String) :
    List Nat → VerifyReplyScan → LoopExit VerifyReplyScan
  | [], st => LoopExit.next st
  | i :: rest, st =>
    match CXnodeMan.verifyReplyStep e pnode blockHash strMessage1 st i with
    | LoopExit.next st1 => CXnodeMan.verifyReplyLoop e pnode blockHash strMessage1 rest st1
    | LoopExit.returned st1 => LoopExit.returned st1
    | LoopExit.diverges => LoopExit.diverges

/-- Method `CXnodeMan::ProcessVerifyReply(pnode, mnv)` (`xnodeman.cpp:1228`):
the peer, the global state and the requests entered in `netfulfilledman`
when the method returns; `none` when it does not return. -/
def CXnodeMan.ProcessVerifyReply (e : Env) (pnode : CNode) (mnv : CXnodeVerification) (s : State) :
    Option (CNode × State × List (CService × String)) :=
  if !e.HasFulfilledRequest pnode.addr (e.MNVERIFY ++ "-request") then
    some (pnode.Misbehaving 20, s, [])
  else
    let asked := s.mnodeman.askedForVerification pnode.addr
    let s1 : State := { s with mnodeman := asked.2 }
    if asked.1.nonce ≠ mnv.nonce then some (pnode.Misbehaving 20, s1, [])
    else if asked.1.nBlockHeight ≠ mnv.nBlockHeight then some (pnode.Misbehaving 20, s1, [])
    else
      match e.GetBlockHash mnv.nBlockHeight with
      | none => some (pnode, s1, [])
      | some blockHash =>
        if e.HasFulfilledRequest pnode.addr (e.MNVERIFY ++ "-done") then
          some (pnode.Misbehaving 20, s1, [])
        else
          let strMessage1 := e.strService pnode.addr ++ toString mnv.nonce ++ e.strHash blockHash
          match CXnodeMan.verifyReplyLoop e pnode blockHash strMessage1
              (List.range s1.mnodeman.vXnodes.length)
              { s := s1, mnv := mnv, prealXnode := none, vpXnodesToBan := [], fulfilled := [] } with
          | LoopExit.diverges => none
          | LoopExit.returned st => some (pnode, st.s, st.fulfilled)
          | LoopExit.next st =>
            match st.prealXnode with
            | none => some (pnode.Misbehaving 20, st.s, st.fulfilled)
            | some _ =>
              let vXnodes := st.vpXnodesToBan.foldl
                (fun v i => updateAt v i CXnode.IncreasePoSeBanScore) st.s.mnodeman.vXnodes
              some (pnode, { st.s with mnodeman := { st.s.mnodeman with vXnodes := vXnodes } },
                st.fulfilled)

/-- Last loop of `CXnodeMan::ProcessVerifyBroadcast` (`xnodeman.cpp:1427-1434`):
the score of every other record at the verified address is increased. -/
def CXnodeMan.banOthersAt (vXnodes : List CXnode) (mnv : CXnodeVerification) : List CXnode :=
  vXnodes.map (fun mn =>
    if decide (mn.addr ≠ mnv.addr) || decide (mn.vin.prevout = mnv.vin1.prevout) then mn
    else mn.IncreasePoSeBanScore)

/-- Method `CXnodeMan::ProcessVerifyBroadcast(pnode, mnv)` (`xnodeman.cpp:1337`):
the peer and the global state after the call; `none` when the call reads
`pCurrentBlockIndex->nHeight` through a null pointer. The two signature tests
return when `VerifyMessage` succeeds, as in the source. -/
def CXnodeMan.ProcessVerifyBroadcast (e : Env) (pnode : CNode) (mnv : CXnodeVerification)
    (s : State) : Option (CNode × State) :=
  if s.mnodeman.mapSeenXnodeVerification.count (e.GetHashMnv mnv) then some (pnode, s)
  else
    let seen := s.mnodeman.mapSeenXnodeVerification.set (e.GetHashMnv mnv) mnv
    let s1 : State := { s with mnodeman := { s.mnodeman with mapSeenXnodeVerification := seen } }
    match s1.mnodeman.pCurrentBlockIndex with
    | none => none
    | some nHeight =>
      if mnv.nBlockHeight < nHeight - MAX_POSE_BLOCKS then some (pnode, s1)
      else if mnv.vin1.prevout = mnv.vin2.prevout then some (pnode.Misbehaving 100, s1)
      else
        match e.GetBlockHash mnv.nBlockHeight with
        | none => some (pnode, s1)
        | some blockHash =>
          let nRank := s1.mnodeman.GetXnodeRank e mnv.vin2 mnv.nBlockHeight MIN_POSE_PROTO_VERSION true
          if nRank = -1 then some (pnode, s1)
          else if nRank > MAX_POSE_RANK then some (pnode, s1)
          else
            let strMessage1 := e.strService mnv.addr ++ toString mnv.nonce ++ e.strHash blockHash
            let strMessage2 := e.strService mnv.addr ++ toString mnv.nonce ++ e.strHash blockHash ++
              e.strPrevout mnv.vin1.prevout ++ e.strPrevout mnv.vin2.prevout
            match s1.mnodeman.Find mnv.vin1 with
            | none => some (pnode, s1)
            | some i1 =>
              match s1.mnodeman.Find mnv.vin2 with
              | none => some (pnode, s1)
              | some i2 =>
                match s1.getXnode i1, s1.getXnode i2 with
                | some pmn1, some pmn2 =>
                  if pmn1.addr ≠ mnv.addr then some (pnode, s1)
                  else if e.VerifyMessage pmn1.pubKeyXnode mnv.vchSig1 strMessage1 then
                    some (pnode, s1)
                  else if e.VerifyMessage pmn2.pubKeyXnode mnv.vchSig2 strMessage2 then
                    some (pnode, s1)
                  else
                    let s2 := s1.decreaseUnlessVerified e i1 pmn1
                    let s3 := mnv.Relay e s2
                    some (pnode, { s3 with mnodeman :=
                      { s3.mnodeman with vXnodes := CXnodeMan.banOthersAt s3.mnodeman.vXnodes mnv } })
                | _, _ => some (pnode, s1)

/-- Body of the first loop of `CXnodeMan::GetXnodeByRank`: `none` for a record
skipped by `continue`, otherwise the pair pushed on `vecXnodeScores`. -/
def byRankEntry (e : Env) (blockHash : Nat) (nMinProtocol : Int) (fOnlyActive : Bool)
    (mn : CXnode) : Option (Int × CXnode) :=
  if mn.nProtocolVersion < nMinProtocol then none
  else if fOnlyActive && !mn.IsEnabled then none
  else some (e.GetCompact (mn.CalculateScore e blockHash), mn)

/-- Last loop of `CXnodeMan::GetXnodeByRank`: the record of the entry whose
1-based position, counting on from `rank`, is `nRank`; `none` (NULL) when the
vector ends before. -/
def byRankScan (nRank : Int) : List (Int × CXnode) → Int → Option CXnode
  | [], _ => none
  | s :: rest, rank => if rank + 1 = nRank then some s.2 else byRankScan nRank rest (rank + 1)

/-- Method `CXnodeMan::GetXnodeByRank` (`xnodeman.cpp:798`); the returned
pointer is given as the record it points to. -/
def CXnodeMan.GetXnodeByRank (e : Env) (m : CXnodeMan) (nRank : Int) (nBlockHeight : Int)
    (nMinProtocol : Int) (fOnlyActive : Bool) : Option CXnode :=
  match e.GetBlockHash nBlockHeight with
  | none => none
  | some blockHash =>
    let vecXnodeScores := m.vXnodes.filterMap (byRankEntry e blockHash nMinProtocol fOnlyActive)
    byRankScan nRank (stdSortReversed CompareScoreMN vecXnodeScores) 0

/-- The tally reached from `B` by `AddPayee` of the votes in order. -/
def CXnodeBlockPayees.addPayees (e : Env) (B : CXnodeBlockPayees)
    (votes : List CXnodePaymentVote) : CXnodeBlockPayees :=
  votes.foldl (fun B vote => B.AddPayee e vote) B

/-- The number of vote hashes held by all entries of a tally. -/
def CXnodeBlockPayees.totalVoteHashes (B : CXnodeBlockPayees) : Nat :=
  (B.vecPayees.map (fun payee => payee.vecVoteHashes.length)).sum

/-- One call of a run of `AddPaymentVote` calls: the votes accepted so far
(result `true`), in the order of acceptance, and the object after the call. -/
def addPaymentVoteStep (e : Env) (acc : List CXnodePaymentVote × CXnodePayments)
    (vote : CXnodePaymentVote) : List CXnodePaymentVote × CXnodePayments :=
  let r := acc.2.AddPaymentVote e vote
  (if r.1 then acc.1 ++ [vote] else acc.1, r.2)

/-- A run of `AddPaymentVote` calls from the object `p`: the accepted votes
and the final object. -/
def CXnodePayments.addPaymentVotes (e : Env) (p : CXnodePayments)
    (votes : List CXnodePaymentVote) : List CXnodePaymentVote × CXnodePayments :=
  votes.foldl (addPaymentVoteStep e) ([], p)

/-- The accepted votes for payee `payee` at height `h`. -/
def acceptedFor (h : Int) (payee : CScript) (acc : List CXnodePaymentVote) :
    List CXnodePaymentVote :=
  acc.filter (fun v => decide (v.nBlockHeight = h) && decide (v.payee = payee))

/-- The relation kept between the accepted votes and the object by a run of
`AddPaymentVote` calls with signed votes: an accepted hash is stored with a
verified vote, accepted hashes are pairwise distinct, every tally is stored
under its own height with pairwise distinct payee scripts and holds for each
payee the hashes of the votes accepted for it, and every accepted vote has an
entry in the tally of its height. -/
def paymentVotesInv (e : Env) (acc : List CXnodePaymentVote) (p : CXnodePayments) : Prop :=
  (∀ k ∈ acc.map (fun v => v.GetHash e), p.HasVerifiedPaymentVote k = true)
  ∧ (acc.map (fun v => v.GetHash e)).Nodup
  ∧ (∀ (h : Int) (B : CXnodeBlockPayees), p.mapXnodeBlocks h = some B →
      B.nBlockHeight = h
      ∧ (B.vecPayees.map CXnodePayee.GetPayee).Nodup
      ∧ ∀ entry ∈ B.vecPayees,
          entry.vecVoteHashes = (acceptedFor h entry.GetPayee acc).map (fun v => v.GetHash e))
  ∧ (∀ v ∈ acc, ∃ B, p.mapXnodeBlocks v.nBlockHeight = some B
      ∧ v.payee ∈ B.vecPayees.map CXnodePayee.GetPayee)

/-- The index reached from `ix` by `AddXnodeVIN` of the inputs in order. -/
def CXnodeIndex.addXnodeVINs (ix : CXnodeIndex) (vins : List CTxIn) : CXnodeIndex :=
  vins.foldl (fun ix vinXnode => ix.AddXnodeVIN vinXnode) ix

/-- The inputs of a sequence that bring a new outpoint, in the order of their
first occurrence, continuing the list `seen`. -/
def firstByOutpoint (seen : List CTxIn) (vins : List CTxIn) : List CTxIn :=
  vins.foldl
    (fun seen vinXnode =>
      if seen.any (fun w => decide (w.prevout = vinXnode.prevout)) then seen
      else seen ++ [vinXnode])
    seen

/-- The relation between an index and the list `D` of the inputs that received
a number, in the order of their numbers. -/
def indexHolds (ix : CXnodeIndex) (D : List CTxIn) : Prop :=
  ix.nSize = D.length
  ∧ (D.map (fun v => v.prevout)).Nodup
  ∧ (∀ (k : Nat) (v : CTxIn), D[k]? = some v →
      ix.mapIndex v.prevout = some (k : Int) ∧ ix.mapReverseIndex (k : Int) = some v)
  ∧ (∀ o : COutPoint, o ∉ D.map (fun v => v.prevout) → ix.mapIndex o = none)
  ∧ (∀ i : Int, (i < 0 ∨ (D.length : Int) ≤ i) → ix.mapReverseIndex i = none)

/-- Method `CXnodeBroadcast::Sign(keyCollateralAddress)` (`xnode.cpp:707`): the
result and the announcement after the call. The private key is used only as
the argument of `darkSendSigner.SignMessage`; `sign` is that call for the key
given, `none` when it fails. -/
def CXnodeBroadcast.Sign (e : Env) (mnb : CXnodeBroadcast)
    (sign : String → Option (List Nat)) : Bool × CXnodeBroadcast :=
  let mnb1 : CXnodeBroadcast := { mnb with sigTime := e.GetAdjustedTime }
  let strMessage := e.strService mnb1.addr ++ toString mnb1.sigTime ++
    e.strKeyID mnb1.pubKeyCollateralAddress ++ e.strKeyID mnb1.pubKeyXnode ++
    toString mnb1.nProtocolVersion
  match sign strMessage with
  | none => (false, mnb1)
  | some vchSig =>
    let mnb2 : CXnodeBroadcast := { mnb1 with vchSig := vchSig }
    if !e.VerifyMessage mnb2.pubKeyCollateralAddress mnb2.vchSig strMessage then (false, mnb2)
    else (true, mnb2)

/-- Method `CXnodePing::Sign(keyXnode, pubKeyXnode)` (`xnode.cpp:765`): the
result and the ping after the call; `sign` is `darkSendSigner.SignMessage` for
the key given, `none` when it fails. -/
def CXnodePing.Sign (e : Env) (mnp : CXnodePing) (sign : String → Option (List Nat))
    (pubKeyXnode : CPubKey) : Bool × CXnodePing :=
  let mnp1 : CXnodePing := { mnp with sigTime := e.GetAdjustedTime }
  let strMessage := e.strTxIn mnp1.vin ++ e.strHash mnp1.blockHash ++ toString mnp1.sigTime
  match sign strMessage with
  | none => (false, mnp1)
  | some vchSig =>
    let mnp2 : CXnodePing := { mnp1 with vchSig := vchSig }
    if !e.VerifyMessage pubKeyXnode mnp2.vchSig strMessage then (false, mnp2)
    else (true, mnp2)

/-- Method `CXnodePaymentVote::Sign()` (`xnode-payments.cpp:271`): the result
and the vote after the call; the keys are those of `activeXnode`. -/
def CXnodePaymentVote.Sign (e : Env) (vote : CXnodePaymentVote) (activeXnode : CActiveXnode) :
    Bool × CXnodePaymentVote :=
  let strMessage := e.strPrevout vote.vinXnode.prevout ++ toString vote.nBlockHeight ++
    e.ScriptToAsmStr vote.payee
  match e.SignMessage strMessage with
  | none => (false, vote)
  | some vchSig =>
    let vote1 : CXnodePaymentVote := { vote with vchSig := vchSig }
    if !e.VerifyMessage activeXnode.pubKeyXnode vote1.vchSig strMessage then (false, vote1)
    else (true, vote1)

/-! ## The payment queue (`xnodeman.cpp`, `xnode-payments.cpp`, `xnode.cpp`) -/

/-- Method `CXnodeMan::CountEnabled(nProtocolVersion)` (`xnodeman.cpp:394`): the
records that the loop does not skip; `-1` stands for the default argument. -/
def CXnodeMan.CountEnabled (e : Env) (m : CXnodeMan) (nProtocolVersion : Int) : Int :=
  let nProtocolVersion1 :=
    if nProtocolVersion = -1 then GetMinXnodePaymentsProto e else nProtocolVersion
  ((m.vXnodes.filter (fun mn =>
    !(decide (mn.nProtocolVersion < nProtocolVersion1) || !mn.IsEnabled))).length : Int)

/-- Method `CXnodePayments::IsScheduled(mn, nNotBlockHeight)`
(`xnode-payments.cpp:299`); `pCurrentBlockIndex` is the member of `mnpayments`,
`none` for a null pointer. The loop runs over the nine heights from the tip. -/
def CXnodePayments.IsScheduled (e : Env) (p : CXnodePayments) (pCurrentBlockIndex : Option Int)
    (mn : CXnode) (nNotBlockHeight : Int) : Bool :=
  match pCurrentBlockIndex with
  | none => false
  | some nHeight =>
    let mnpayee := e.GetScriptForDestination mn.pubKeyCollateralAddress
    (List.range 9).any (fun k =>
      let h : Int := nHeight + (k : Int)
      if h = nNotBlockHeight then false
      else
        match p.mapXnodeBlocks h with
        | some blockPayees =>
          (match blockPayees.GetBestPayee with
           | some payee => decide (mnpayee = payee)
           | none => false)
        | none => false)

/-- Method `CXnode::GetCollateralAge` (`xnode.cpp:373`): the result and the
record, whose cache `nCacheCollateralBlock` the call may fill. `TRY_LOCK`
succeeds for a caller that holds `cs_main`, as the queue code does. -/
def CXnode.GetCollateralAge (e : Env) (mn : CXnode) : Int × CXnode :=
  if !e.hasChainTip then (-1, mn)
  else
    let nHeight := e.chainHeight
    if mn.nCacheCollateralBlock = 0 then
      let nInputAge := e.GetInputAge mn.vin
      if nInputAge > 0 then
        let mn1 : CXnode := { mn with nCacheCollateralBlock := nHeight - nInputAge }
        (nHeight - mn1.nCacheCollateralBlock, mn1)
      else (nInputAge, mn)
    else (nHeight - mn.nCacheCollateralBlock, mn)

/-- Modelled from the spec: accessor `CXnode::GetLastPaidBlock` of xnode.h
(absent): the cached `last_paid_block` (spec §3). -/
def CXnode.GetLastPaidBlock (mn : CXnode) : Int := mn.nBlockLastPaid

/-- Exponent step of a binary64 rounding: the number of low bits of `m` that do
not fit in the 53-bit significand (`m` below `2^180`). -/
def binary64Shift (m : Nat) : Nat :=
  ((List.range 128).find? (fun s => decide (m / 2 ^ s < 2 ^ 53))).getD 128

/-- Rounding to `double` (IEEE 754 binary64, round to nearest, ties to even) of
a value given as a multiple `m` of `2^-51`: the multiple of the rounded value.
Every value the age test forms is such a multiple. -/
def roundBinary64 (m : Int) : Int :=
  let a := m.natAbs
  let s := binary64Shift a
  let r : Nat :=
    if s = 0 then a
    else
      let q := a / 2 ^ s
      let rem := a % 2 ^ s
      let half := 2 ^ (s - 1)
      (if rem > half ∨ (rem = half ∧ q % 2 = 1) then q + 1 else q) * 2 ^ s
  if m < 0 then -(r : Int) else (r : Int)

/-- Test `mn.sigTime + (nMnCount * 2.6 * 60) > GetAdjustedTime()`
(`xnodeman.cpp:560`) in `double` arithmetic, in units of `2^-51`: the literal
2.6 is the double `5854679515581645 * 2^-51`; the two products, the
conversions of the two `int64_t` times and the sum are each rounded. -/
def sigTimeTooNew (sigTime : Int) (nMnCount : Int) (nAdjustedTime : Int) : Bool :=
  let product1 := roundBinary64 (nMnCount * 5854679515581645)
  let product2 := roundBinary64 (product1 * 60)
  let sum := roundBinary64 (roundBinary64 (sigTime * 2 ^ 51) + product2)
  decide (sum > roundBinary64 (nAdjustedTime * 2 ^ 51))

/-- The reasons `CXnodeMan::GetNotQualifyReason` gives, without their text. -/
inductive NotQualifyReason where
  | notValidForPayment
  | invalidProtocolVersion
  | isScheduled
  | tooNew
  | collateralAge
deriving DecidableEq, Repr

/-- Method `CXnodeMan::GetNotQualifyReason(mn, nBlockHeight, fFilterSigTime,
nMnCount)` (`xnodeman.cpp:536`): the reason (`none` for `NULL`) and the record
after the call; the text of the last reason calls `GetCollateralAge` again. -/
def CXnodeMan.GetNotQualifyReason (e : Env) (mnpayments : CXnodePayments)
    (pCurrentBlockIndex : Option Int) (mn : CXnode) (nBlockHeight : Int) (fFilterSigTime : Bool)
    (nMnCount : Int) : Option NotQualifyReason × CXnode :=
  if !mn.IsValidForPayment then (some NotQualifyReason.notValidForPayment, mn)
  else if mn.nProtocolVersion < GetMinXnodePaymentsProto e then
    (some NotQualifyReason.invalidProtocolVersion, mn)
  else if mnpayments.IsScheduled e pCurrentBlockIndex mn nBlockHeight then
    (some NotQualifyReason.isScheduled, mn)
  else if fFilterSigTime && sigTimeTooNew mn.sigTime nMnCount e.GetAdjustedTime then
    (some NotQualifyReason.tooNew, mn)
  else
    let age := mn.GetCollateralAge e
    if age.1 < nMnCount then (some NotQualifyReason.collateralAge, (age.2.GetCollateralAge e).2)
    else (none, age.2)

/-- Body of the first loop of `CXnodeMan::GetNextXnodeInQueueForPayment`: the
pair pushed on `vecXnodeLastPaid` (`none` after `continue`) and the record
after the call of `GetNotQualifyReason`. The pointer of the pair is given as
the record it points to. -/
def queueEntry (e : Env) (mnpayments : CXnodePayments) (pCurrentBlockIndex : Option Int)
    (nBlockHeight : Int) (fFilterSigTime : Bool) (nMnCount : Int) (mn : CXnode) :
    Option (Int × CXnode) × CXnode :=
  let r := CXnodeMan.GetNotQualifyReason e mnpayments pCurrentBlockIndex mn nBlockHeight
    fFilterSigTime nMnCount
  match r.1 with
  | some _ => (none, r.2)
  | none => (some (r.2.GetLastPaidBlock, r.2), r.2)

/-- First loop of `CXnodeMan::GetNextXnodeInQueueForPayment`: the vector
`vecXnodeLastPaid` and the registry after the loop. -/
def CXnodeMan.queueScan (e : Env) (mnpayments : CXnodePayments) (pCurrentBlockIndex : Option Int)
    (m : CXnodeMan) (nBlockHeight : Int) (fFilterSigTime : Bool) (nMnCount : Int) :
    List (Int × CXnode) × CXnodeMan :=
  let entries := m.vXnodes.map
    (queueEntry e mnpayments pCurrentBlockIndex nBlockHeight fFilterSigTime nMnCount)
  (entries.filterMap (fun r => r.1), { m with vXnodes := entries.map (fun r => r.2) })

/-- Last loop of `CXnodeMan::GetNextXnodeInQueueForPayment`: `pBestXnode` after
the loop, from the running `nCountTenth`, `nHighest` and `pBestXnode`. -/
def queueBest (e : Env) (blockHash : Nat) (nTenthNetwork : Int) :
    List (Int × CXnode) → Int → Nat → Option CXnode → Option CXnode
  | [], _, _, pBestXnode => pBestXnode
  | s :: rest, nCountTenth, nHighest, pBestXnode =>
    let nScore := s.2.CalculateScore e blockHash
    let nHighest1 := if nScore > nHighest then nScore else nHighest
    let pBestXnode1 := if nScore > nHighest then some s.2 else pBestXnode
    if nCountTenth + 1 ≥ nTenthNetwork then pBestXnode1
    else queueBest e blockHash nTenthNetwork rest (nCountTenth + 1) nHighest1 pBestXnode1

/-- Second half of `CXnodeMan::GetNextXnodeInQueueForPayment`
(`xnodeman.cpp:660-683`): sort, block hash, and the choice among the first
entries. -/
def CXnodeMan.queueSelect (e : Env) (nMnCount : Int) (nBlockHeight : Int)
    (vecXnodeLastPaid : List (Int × CXnode)) : Option CXnode :=
  let sorted := stdSort CompareLastPaidBlock vecXnodeLastPaid
  match e.GetBlockHash (nBlockHeight - 101) with
  | none => none
  | some blockHash =>
    let nTenthNetwork := nMnCount / 10
    queueBest e blockHash nTenthNetwork sorted 0 0 none

/-- Method `CXnodeMan::GetNextXnodeInQueueForPayment(nBlockHeight,
fFilterSigTime, nCount)` (`xnodeman.cpp:588`) with its recursive call kept:
every call takes one unit of `fuel`, `none` when the fuel is used up. The
result is the returned record (`none` for `NULL`) with `nCount`, and the
registry after the call. -/
def CXnodeMan.queueRecursion (e : Env) (mnpayments : CXnodePayments)
    (pCurrentBlockIndex : Option Int) :
    Nat → CXnodeMan → Int → Bool → Option ((Option CXnode × Int) × CXnodeMan)
  | 0, _, _, _ => none
  | fuel + 1, m, nBlockHeight, fFilterSigTime =>
    let nMnCount := m.CountEnabled e (-1)
    let scan := m.queueScan e mnpayments pCurrentBlockIndex nBlockHeight fFilterSigTime nMnCount
    let nCount : Int := (scan.1.length : Int)
    if fFilterSigTime && decide (nCount < nMnCount / 3) then
      CXnodeMan.queueRecursion e mnpayments pCurrentBlockIndex fuel scan.2 nBlockHeight false
    else some ((CXnodeMan.queueSelect e nMnCount nBlockHeight scan.1, nCount), scan.2)

/-- Method `CXnodeMan::GetNextXnodeInQueueForPayment(nBlockHeight,
fFilterSigTime, nCount)` (`xnodeman.cpp:588`): the returned record (`none` for
`NULL`) with `nCount`, and the registry after the call. The recursive call
has `fFilterSigTime = false` and so does not recurse again; it is written out
as the second scan. -/
def CXnodeMan.GetNextXnodeInQueueForPayment (e : Env) (mnpayments : CXnodePayments)
    (pCurrentBlockIndex : Option Int) (m : CXnodeMan) (nBlockHeight : Int)
    (fFilterSigTime : Bool) : (Option CXnode × Int) × CXnodeMan :=
  let nMnCount := m.CountEnabled e (-1)
  let scan := m.queueScan e mnpayments pCurrentBlockIndex nBlockHeight fFilterSigTime nMnCount
  let nCount : Int := (scan.1.length : Int)
  if fFilterSigTime && decide (nCount < nMnCount / 3) then
    let nMnCount2 := scan.2.CountEnabled e (-1)
    let scan2 := scan.2.queueScan e mnpayments pCurrentBlockIndex nBlockHeight false nMnCount2
    ((CXnodeMan.queueSelect e nMnCount2 nBlockHeight scan2.1, (scan2.1.length : Int)), scan2.2)
  else ((CXnodeMan.queueSelect e nMnCount nBlockHeight scan.1, nCount), scan.2)

/-- Default output `CTxOut()`: `SetNull` gives the value `-1` and an empty script. -/
def CTxOut.null : CTxOut := { nValue := -1, scriptPubKey := [] }

/-- Method `CXnodePayments::GetBlockPayee` (`xnode-payments.cpp:288`): `none`
is the result `false`. -/
def CXnodePayments.GetBlockPayee (p : CXnodePayments) (nBlockHeight : Int) : Option CScript :=
  match p.mapXnodeBlocks nBlockHeight with
  | some blockPayees => blockPayees.GetBestPayee
  | none => none

/-- Method `CXnodePayments::FillBlockPayee(txNew, nBlockHeight, xnodePayment,
txoutXnodeRet)` (`xnode-payments.cpp:109`): the transaction, `txoutXnodeRet`
and the global state after the call; `pCurrentBlockIndex` is the member of
`mnpayments`. The result is `none` when the call reads `txNew.vout[0]` of a
transaction without outputs (on REGTEST, without a winner). -/
def CXnodePayments.FillBlockPayee (e : Env) (pCurrentBlockIndex : Option Int) (s : State)
    (txNew : CTransaction) (nBlockHeight : Int) (xnodePayment : Int) :
    Option (CTransaction × CTxOut × State) :=
  match s.mnpayments.GetBlockPayee nBlockHeight with
  | some payee =>
    let txoutXnodeRet : CTxOut := { nValue := xnodePayment, scriptPubKey := payee }
    some ({ txNew with vout := txNew.vout ++ [txoutXnodeRet] }, txoutXnodeRet, s)
  | none =>
    let r := s.mnodeman.GetNextXnodeInQueueForPayment e s.mnpayments pCurrentBlockIndex
      nBlockHeight true
    let s1 : State := { s with mnodeman := r.2 }
    match r.1.1 with
    | none =>
      if e.network ≠ Network.REGTEST then some (txNew, CTxOut.null, s1)
      else
        match txNew.vout with
        | [] => none
        | out0 :: _ =>
          let txoutXnodeRet : CTxOut := { nValue := xnodePayment, scriptPubKey := out0.scriptPubKey }
          some ({ txNew with vout := txNew.vout ++ [txoutXnodeRet] }, txoutXnodeRet, s1)
    | some winningNode =>
      let payee := e.GetScriptForDestination winningNode.pubKeyCollateralAddress
      let txoutXnodeRet : CTxOut := { nValue := xnodePayment, scriptPubKey := payee }
      some ({ txNew with vout := txNew.vout ++ [txoutXnodeRet] }, txoutXnodeRet, s1)

/-! ## The controller of the own node (`activexnode.cpp`) -/

/-- State `ACTIVE_XNODE_INITIAL` (`activexnode.h:14`). -/
def ACTIVE_XNODE_INITIAL : Int := 0

/-- State `ACTIVE_XNODE_SYNC_IN_PROCESS` (`activexnode.h:15`). -/
def ACTIVE_XNODE_SYNC_IN_PROCESS : Int := 1

/-- State `ACTIVE_XNODE_INPUT_TOO_NEW` (`activexnode.h:16`). -/
def ACTIVE_XNODE_INPUT_TOO_NEW : Int := 2

/-- State `ACTIVE_XNODE_NOT_CAPABLE` (`activexnode.h:17`). -/
def ACTIVE_XNODE_NOT_CAPABLE : Int := 3

/-- State `ACTIVE_XNODE_STARTED` (`activexnode.h:18`). -/
def ACTIVE_XNODE_STARTED : Int := 4

/-- Type `XNODE_UNKNOWN` of `xnode_type_enum_t` (`activexnode.h:27`). -/
def XNODE_UNKNOWN : Nat := 0

/-- Type `XNODE_REMOTE` of `xnode_type_enum_t` (`activexnode.h:28`). -/
def XNODE_REMOTE : Nat := 1

/-- Type `XNODE_LOCAL` of `xnode_type_enum_t` (`activexnode.h:29`). -/
def XNODE_LOCAL : Nat := 2

/-- What the controller reads from the network layer, the wallet and the chain,
all outside the sources at hand. -/
structure ActiveEnv where
  /-- Global `fListen`. -/
  fListen : Bool
  /-- Call `GetLocal(service)`: the address written to `service`, `none` for
  the result `false`. -/
  GetLocal : Option CService
  /-- The peers of `vNodes`: for each one the test
  `pnode->fSuccessfullyConnected && pnode->addr.IsIPv4()` and the outcome of
  `GetLocal(service, &pnode->addr)`. -/
  vNodes : List (Bool × Option CService)
  /-- Call `ConnectNode(CAddress(service, NODE_NETWORK), NULL, false, true)`. -/
  ConnectNode : CService → Bool
  /-- Test `pwalletMain != NULL`. -/
  hasWallet : Bool
  /-- Result of `pwalletMain->IsLocked()`. -/
  walletIsLocked : Bool
  /-- Result of `pwalletMain->GetBalance()`. -/
  walletBalance : Int
  /-- Call `pwalletMain->GetXnodeVinAndKeys(vin, pubKeyCollateral, keyCollateral)`:
  the input and the public key found, `none` for the result `false`. -/
  GetXnodeVinAndKeys : Option (CTxIn × CPubKey)
  /-- Signing `darkSendSigner.SignMessage(strMessage, vchSig, keyCollateral)` with
  the key the wallet found. -/
  signCollateral : String → Option (List Nat)
  /-- Globals `fImporting || fReindex`. -/
  fImportingOrReindex : Bool
  /-- Hash of the block `chainActive[h]`. -/
  chainBlockHash : Int → Nat
  /-- Outcome of `TRY_LOCK(cs_main, lockMain)` in `CXnode::Check`. -/
  lockMain : Bool

/-- Loop of `CXnodeMan::Find(const CPubKey &pubKeyXnode)` (`xnodeman.cpp:470`):
the position of the first record with the key. -/
def findXnodeByKey (pubKeyXnode : CPubKey) : List CXnode → Option Nat
  | [] => none
  | mn :: rest =>
    if mn.pubKeyXnode = pubKeyXnode then some 0
    else match findXnodeByKey pubKeyXnode rest with
      | some i => some (i + 1)
      | none => none

/-- Method `CXnodeMan::CheckXnode(const CPubKey&, fForce)` (`xnodeman.cpp:1653`). -/
def State.CheckXnodeByKey (e : Env) (lockMain : Bool) (pubKeyXnode : CPubKey) (fForce : Bool)
    (s : State) : State :=
  match findXnodeByKey pubKeyXnode s.mnodeman.vXnodes with
  | none => s
  | some i => s.modifyXnode i (CXnode.Check e s lockMain fForce)

/-- Method `CXnodeMan::GetXnodeInfo(const CPubKey&)` (`xnodeman.cpp:518`): the
record the info is taken from, `none` for an info with `fInfoValid = false`. -/
def CXnodeMan.GetXnodeInfoByKey (m : CXnodeMan) (pubKeyXnode : CPubKey) : Option CXnode :=
  match findXnodeByKey pubKeyXnode m.vXnodes with
  | none => none
  | some i => m.vXnodes[i]?

/-- Method `CXnodeMan::Has` (`xnodeman.cpp:530`). -/
def CXnodeMan.Has (m : CXnodeMan) (vin : CTxIn) : Bool := (m.Find vin).isSome

/-- Method `CXnodeMan::IsXnodePingedWithin` (`xnodeman.cpp:1683`). -/
def CXnodeMan.IsXnodePingedWithin (m : CXnodeMan) (vin : CTxIn) (nSeconds : Int)
    (nTimeToCheckAt : Int) : Bool :=
  match m.GetXnodeInfo vin with
  | none => false
  | some pMN => pMN.IsPingedWithin nSeconds nTimeToCheckAt

/-- Method `CXnodeMan::SetXnodeLastPing` (`xnodeman.cpp:1693`). -/
def CXnodeMan.SetXnodeLastPing (e : Env) (m : CXnodeMan) (vin : CTxIn) (mnp : CXnodePing) :
    CXnodeMan :=
  match m.Find vin with
  | none => m
  | some i =>
    match m.vXnodes[i]? with
    | none => m
    | some pMN =>
      let pMN1 : CXnode := { pMN with lastPing := mnp }
      let m1 : CXnodeMan :=
        { m with vXnodes := updateAt m.vXnodes i (fun mn => { mn with lastPing := mnp })
                 mapSeenXnodePing := m.mapSeenXnodePing.insert (e.GetHashMnp mnp) mnp }
      let hash := e.GetHashMnb (CXnodeBroadcast.ofXnode pMN1)
      if m1.mapSeenXnodeBroadcast.count hash then m1.setSeenLastPing hash mnp else m1

/-- Constructor `CXnodePing::CXnodePing(CTxIn &vinNew)` (`xnode.cpp:755`). Without
a tip or below height 12 the members keep their default values; `sigTime`,
which the constructor then leaves unset, is written by `Sign` before it is
read. -/
def CXnodePing.ofVin (e : Env) (a : ActiveEnv) (vinNew : CTxIn) : CXnodePing :=
  if !e.hasChainTip || decide (e.chainHeight < 12) then CXnodePing.empty
  else
    { vin := vinNew, blockHash := a.chainBlockHash (e.chainHeight - 12)
      sigTime := e.GetAdjustedTime, vchSig := [] }

/-- Constructor `CXnode(addrNew, vinNew, pubKeyCollateralAddressNew,
pubKeyXnodeNew, nProtocolVersionIn)` (`xnode.cpp:41`), as the announcement
`CXnodeBroadcast(...)` built on it. -/
def CXnodeBroadcast.ofParts (e : Env) (addrNew : CService) (vinNew : CTxIn)
    (pubKeyCollateralAddressNew pubKeyXnodeNew : CPubKey) (nProtocolVersionIn : Int) :
    CXnodeBroadcast :=
  { toCXnode := { CXnode.init e with
      vin := vinNew, addr := addrNew, pubKeyCollateralAddress := pubKeyCollateralAddressNew,
      pubKeyXnode := pubKeyXnodeNew, nProtocolVersion := nProtocolVersionIn }
    fRecovery := false }

/-- Method `CXnodeBroadcast::Create(txin, service, keyCollateralAddressNew,
pubKeyCollateralAddressNew, keyXnodeNew, pubKeyXnodeNew, strErrorRet, mnbRet)`
(`xnode.cpp:486`): the announcement, `none` for the result `false`. The node key
signs through `e.SignMessage`, the collateral key through `a.signCollateral`. -/
def CXnodeBroadcast.Create (e : Env) (a : ActiveEnv) (txin : CTxIn) (service : CService)
    (pubKeyCollateralAddressNew pubKeyXnodeNew : CPubKey) : Option CXnodeBroadcast :=
  if a.fImportingOrReindex then none
  else
    let mnp := (CXnodePing.ofVin e a txin).Sign e e.SignMessage pubKeyXnodeNew
    if !mnp.1 then none
    else
      let mnbRet := CXnodeBroadcast.ofParts e service txin pubKeyCollateralAddressNew
        pubKeyXnodeNew e.PROTOCOL_VERSION
      if !CXnode.IsValidNetAddr e mnbRet.addr then none
      else
        let mnb1 : CXnodeBroadcast := { mnbRet with lastPing := mnp.2 }
        let signed := mnb1.Sign e a.signCollateral
        if !signed.1 then none else some signed.2

/-- Assignment `nState = n` of the controller. -/
def State.setActiveState (s : State) (n : Int) : State :=
  { s with activeXnode := { s.activeXnode with nState := n } }

/-- Method `CActiveXnode::SendXnodePing` (`activexnode.cpp:108`): the result and
the global state after the call. -/
def CActiveXnode.SendXnodePing (e : Env) (a : ActiveEnv) (s : State) : Bool × State :=
  if !s.activeXnode.fPingerEnabled then (false, s)
  else if !s.mnodeman.Has s.activeXnode.vin then
    (false, s.setActiveState ACTIVE_XNODE_NOT_CAPABLE)
  else
    let mnp := (CXnodePing.ofVin e a s.activeXnode.vin).Sign e e.SignMessage
      s.activeXnode.pubKeyXnode
    if !mnp.1 then (false, s)
    else if s.mnodeman.IsXnodePingedWithin s.activeXnode.vin XNODE_MIN_MNP_SECONDS mnp.2.sigTime
    then (false, s)
    else
      let s1 : State :=
        { s with mnodeman := s.mnodeman.SetXnodeLastPing e s.activeXnode.vin mnp.2 }
      (true, s1.RelayInv InvType.MSG_XNODE_PING (e.GetHashMnp mnp.2))

/-- The loop over `vNodes` in `CActiveXnode::ManageStateInitial`: `service` and
`fFoundLocal` after the loop. -/
def findLocalFromPeers (e : Env) :
    List (Bool × Option CService) → CService → CService × Bool
  | [], service => (service, false)
  | pnode :: rest, service =>
    if pnode.1 then
      match pnode.2 with
      | some addr =>
        if CXnode.IsValidNetAddr e addr then (addr, true)
        else findLocalFromPeers e rest addr
      | none => findLocalFromPeers e rest service
    else findLocalFromPeers e rest service

/-- The search for the own address in `CActiveXnode::ManageStateInitial`
(`activexnode.cpp:157-178`): `service` and `fFoundLocal` after it; without a
valid configured address and without peers the method returns at once, with
`fFoundLocal` false. -/
def detectLocal (e : Env) (a : ActiveEnv) (service : CService) : CService × Bool :=
  let first : CService × Bool :=
    match a.GetLocal with
    | some addr => (addr, CXnode.IsValidNetAddr e addr)
    | none => (service, false)
  if first.2 then first
  else if a.vNodes.isEmpty then (first.1, false)
  else findLocalFromPeers e a.vNodes first.1

/-- Method `CActiveXnode::ManageStateInitial` (`activexnode.cpp:143`). The two
returns taken when no valid address is found differ in the text of the reason
only and are one branch here. -/
def CActiveXnode.ManageStateInitial (e : Env) (a : ActiveEnv) (s : State) : State :=
  if !a.fListen then s.setActiveState ACTIVE_XNODE_NOT_CAPABLE
  else
    let found := detectLocal e a s.activeXnode.service
    let s1 : State := { s with activeXnode := { s.activeXnode with service := found.1 } }
    if !found.2 then s1.setActiveState ACTIVE_XNODE_NOT_CAPABLE
    else if e.network = Network.MAIN ∧ found.1.port ≠ mainnetDefaultPort then
      s1.setActiveState ACTIVE_XNODE_NOT_CAPABLE
    else if e.network ≠ Network.MAIN ∧ found.1.port = mainnetDefaultPort then
      s1.setActiveState ACTIVE_XNODE_NOT_CAPABLE
    else if !a.ConnectNode found.1 then s1.setActiveState ACTIVE_XNODE_NOT_CAPABLE
    else
      let s2 : State := { s1 with activeXnode := { s1.activeXnode with eType := XNODE_REMOTE } }
      if !a.hasWallet then s2
      else if a.walletIsLocked then s2
      else if a.walletBalance < e.nCollateralValue then s2
      else
        match a.GetXnodeVinAndKeys with
        | some found1 =>
          { s2 with activeXnode := { s2.activeXnode with vin := found1.1, eType := XNODE_LOCAL } }
        | none => s2

/-- Method `CActiveXnode::ManageStateRemote` (`activexnode.cpp:246`). -/
def CActiveXnode.ManageStateRemote (e : Env) (a : ActiveEnv) (s : State) : State :=
  let s1 := s.CheckXnodeByKey e a.lockMain s.activeXnode.pubKeyXnode false
  match s1.mnodeman.GetXnodeInfoByKey s1.activeXnode.pubKeyXnode with
  | some infoMn =>
    if infoMn.nProtocolVersion < GetMinXnodePaymentsProto e then
      s1.setActiveState ACTIVE_XNODE_NOT_CAPABLE
    else if s1.activeXnode.service ≠ infoMn.addr then s1.setActiveState ACTIVE_XNODE_NOT_CAPABLE
    else if !e.IsValidStateForAutoStart infoMn.nActiveState then
      s1.setActiveState ACTIVE_XNODE_NOT_CAPABLE
    else if s1.activeXnode.nState ≠ ACTIVE_XNODE_STARTED then
      { s1 with activeXnode := { s1.activeXnode with vin := infoMn.vin, service := infoMn.addr, fPingerEnabled := true, nState := ACTIVE_XNODE_STARTED } }
    else s1
  | none => s1.setActiveState ACTIVE_XNODE_NOT_CAPABLE

/-- Method `CActiveXnode::ManageStateLocal` (`activexnode.cpp:288`): the global
state after the call, `none` when `pwalletMain` is read through a null
pointer. `LockCoin` acts on the wallet only. -/
def CActiveXnode.ManageStateLocal (e : Env) (a : ActiveEnv) (s : State) : Option State :=
  if s.activeXnode.nState = ACTIVE_XNODE_STARTED then some s
  else if !a.hasWallet then none
  else
    match a.GetXnodeVinAndKeys with
    | none => some s
    | some found =>
      let s1 : State := { s with activeXnode := { s.activeXnode with vin := found.1 } }
      let nInputAge := e.GetInputAge s1.activeXnode.vin
      if nInputAge < e.nXnodeMinimumConfirmations then
        some (s1.setActiveState ACTIVE_XNODE_INPUT_TOO_NEW)
      else
        match CXnodeBroadcast.Create e a s1.activeXnode.vin s1.activeXnode.service found.2
            s1.activeXnode.pubKeyXnode with
        | none => some (s1.setActiveState ACTIVE_XNODE_NOT_CAPABLE)
        | some mnb =>
          let s2 : State :=
            { s1 with activeXnode := { s1.activeXnode with fPingerEnabled := true, nState := ACTIVE_XNODE_STARTED } }
          let s3 := CXnodeMan.UpdateXnodeList e mnb s2
          let s4 : State := { s3 with mnodeman := s3.mnodeman.NotifyXnodeUpdates }
          some (s4.RelayInv InvType.MSG_XNODE_ANNOUNCE (e.GetHashMnb mnb))

/-- Lines `activexnode.cpp:31-50` of `CActiveXnode::ManageState`, between the
sync test and the call of `SendXnodePing`: the global state in which that call
is reached; `none` when the wallet pointer is null where it is read. -/
def CActiveXnode.manageStateSynced (e : Env) (a : ActiveEnv) (s : State) : Option State :=
  let s1 : State :=
    if s.activeXnode.nState = ACTIVE_XNODE_SYNC_IN_PROCESS then
      s.setActiveState ACTIVE_XNODE_INITIAL
    else s
  let s2 : State :=
    if s1.activeXnode.eType = XNODE_UNKNOWN then CActiveXnode.ManageStateInitial e a s1 else s1
  if s2.activeXnode.eType = XNODE_REMOTE then
    some (CActiveXnode.ManageStateRemote e a s2)
  else if s2.activeXnode.eType = XNODE_LOCAL then
    let s3 := CActiveXnode.ManageStateRemote e a s2
    if s3.activeXnode.nState ≠ ACTIVE_XNODE_STARTED then
      CActiveXnode.ManageStateLocal e a s3
    else some s3
  else some s2

/-- The test `Params().NetworkIDString() != CBaseChainParams::REGTEST &&
!xnodeSync.IsBlockchainSynced()` of `CActiveXnode::ManageState`
(`activexnode.cpp:25`): whether the chain counts as synced, and the global
state after the test; `IsBlockchainSynced` is not called on REGTEST. -/
def CActiveXnode.syncedGuard (e : Env) (s : State) : Bool × State :=
  if e.network ≠ Network.REGTEST then CXnodeSync.IsBlockchainSynced e false s else (true, s)

/-- The part of `CActiveXnode::ManageState` (`activexnode.cpp:18`) before the
call of `SendXnodePing`: `Sum.inr s1` when that call is reached in the state
`s1`, `Sum.inl s1` when the method returns before it and leaves the state
`s1`; `none` when the wallet pointer is null where it is read. -/
def CActiveXnode.manageStateBody (e : Env) (a : ActiveEnv) (s : State) :
    Option (State ⊕ State) :=
  if !e.fXNode then some (Sum.inl s)
  else
    let synced := CActiveXnode.syncedGuard e s
    if !synced.1 then some (Sum.inl (synced.2.setActiveState ACTIVE_XNODE_SYNC_IN_PROCESS))
    else (CActiveXnode.manageStateSynced e a synced.2).map Sum.inr

/-- Method `CActiveXnode::ManageState` (`activexnode.cpp:18`), one tick of the
controller: the global state after the call and whether the call of
`SendXnodePing` was reached and returned true; `none` when the wallet pointer
is null where it is read. -/
def CActiveXnode.ManageState (e : Env) (a : ActiveEnv) (s : State) : Option (State × Bool) :=
  match CActiveXnode.manageStateBody e a s with
  | none => none
  | some (Sum.inl s1) => some (s1, false)
  | some (Sum.inr s1) =>
    let r := CActiveXnode.SendXnodePing e a s1
    some (r.2, r.1)

/-! ## The controller as `activeXnode.ManageState()` -/

/-- The environment `e` with the function `F` as `ManageState`. -/
def Env.setManageState (e : Env) (F : State → State) : Env := { e with ManageState := F }

/-- The record that `Find` gives for the input `vin`, if there is one, was
announced at time `T` or later. -/
def State.AnnouncedSince (s : State) (vin : CTxIn) (T : Int) : Prop :=
  ∀ i mn, s.mnodeman.Find vin = some i → s.getXnode i = some mn → T ≤ mn.sigTime

/-- The call `activeXnode.ManageState()` as the registry code makes it: the
global state after the tick. A tick that reads the wallet through a null
pointer has no state after it; the state is then given as it was. With a
wallet every tick has a state after it (`ManageState_isSome`). -/
def CActiveXnode.reenter (e : Env) (a : ActiveEnv) (s : State) : State :=
  match CActiveXnode.ManageState e a s with
  | some r => r.1
  | none => s

/-- The environment in which `ManageState` is the controller itself, run in an
environment of the same kind one level down; at level 0 it is `e`. The
controller calls itself through `ManageStateLocal`, `UpdateXnodeList` and
`UpdateFromNewBroadcast`, so level `n` follows the calls `n` deep. -/
def Env.nest (e : Env) (a : ActiveEnv) : Nat → Env
  | 0 => e
  | n + 1 => e.setManageState (CActiveXnode.reenter (Env.nest e a n) a)

/-- The environment in which `activeXnode.ManageState()` is the embedded
controller `CActiveXnode.ManageState` with the reads `a`. Two levels are all
there is: a controller entered from within the controller finds the node's
record announced at the current adjusted time, so its own announcement is
stale and it calls no further. Every deeper level gives the same function
(`nest_stable`), whatever stands at level 0 (`withController_base`). -/
def Env.withController (e : Env) (a : ActiveEnv) : Env := Env.nest e a 2

/-- The record of the collateral input that the wallet holds, if the registry
has one, was announced at the current adjusted time or later: the state in
which the registry code enters the controller out of `ManageStateLocal`. -/
def State.OwnAnnounced (e : Env) (a : ActiveEnv) (s : State) : Prop :=
  ∀ found, a.GetXnodeVinAndKeys = some found →
    s.AnnouncedSince found.1 e.GetAdjustedTime

/-- The registry of `s2` keeps every record of `s1` at its position, with an
announce time that is not lower. -/
def State.NotOlder (s2 s1 : State) : Prop :=
  ∀ i mn1, s1.getXnode i = some mn1 →
    ∃ mn2, s2.getXnode i = some mn2 ∧ mn1.sigTime ≤ mn2.sigTime

/-- The PoSe scores of `s2` are in range if those of `s1` were. -/
def State.KeepsScores (s2 s1 : State) : Prop := s1.ScoresInRange → s2.ScoresInRange

/-- A relation `R` between the state after and the state before that holds
across each step the registry code takes on `vXnodes`: it is reflexive and
transitive, holds when `vXnodes` is the same, across a `Check` of a record,
across the assignment of a last ping, across the assignments of
`UpdateFromNewBroadcast` for an announcement with `okTake`, and across `Add`
of a record with `okAdd`. -/
structure StepRel (okTake : CXnodeBroadcast → Prop) (okAdd : CXnode → Prop)
    (R : State → State → Prop) : Prop where
  refl : ∀ s : State, R s s
  trans : ∀ s3 s2 s1 : State, R s3 s2 → R s2 s1 → R s3 s1
  reg : ∀ s2 s1 : State, s2.mnodeman.vXnodes = s1.mnodeman.vXnodes → R s2 s1
  check : ∀ (e : Env) (s : State) (lockMain fForce : Bool) (i : Nat),
    R (s.modifyXnode i (CXnode.Check e s lockMain fForce)) s
  ping : ∀ (s : State) (i : Nat) (mnp : CXnodePing),
    R (s.modifyXnode i (fun mn => { mn with lastPing := mnp })) s
  take : ∀ (mnb : CXnodeBroadcast) (s : State) (i : Nat) (mn : CXnode), okTake mnb →
    s.getXnode i = some mn → ¬ (mnb.sigTime ≤ mn.sigTime ∧ mnb.fRecovery = false) →
    R (s.modifyXnode i (CXnode.takeBroadcast mnb)) s
  own : ∀ (s : State) (i : Nat),
    R (s.modifyXnode i (fun pmn => { pmn with nPoSeBanScore := -XNODE_POSE_BAN_MAX_SCORE })) s
  add : ∀ (s : State) (mn : CXnode), okAdd mn →
    R { s with mnodeman := (s.mnodeman.Add mn).2 } s

/-! ## Sample values used by the witnesses -/

/-- Sample tally: payee `[1]` with seven votes, payee `[2]` with six. -/
def sampleTwoWinners : CXnodeBlockPayees :=
  { nBlockHeight := 100
    vecPayees := [ { scriptPubKey := [1], vecVoteHashes := [1, 2, 3, 4, 5, 6, 7] },
                   { scriptPubKey := [2], vecVoteHashes := [8, 9, 10, 11, 12, 13] } ] }

/-- Sample tally of scenario S3: six votes for the payee `[1]`. -/
def sampleSixVotes : CXnodeBlockPayees :=
  { nBlockHeight := 100
    vecPayees := [ { scriptPubKey := [1], vecVoteHashes := [1, 2, 3, 4, 5, 6] } ] }

/-- Payment store without any vote. -/
def CXnodePayments.init : CXnodePayments :=
  { mapXnodePaymentVotes := FMap.empty, mapXnodeBlocks := FMap.empty,
    mapXnodesLastVote := FMap.empty }

/-- The number of calls for `(o, h)` in a run that returned `true`. -/
def countAccepted (o : COutPoint) (h : Int) : List (COutPoint × Int) → List Bool → Nat
  | c :: cs, r :: rs => (if c = (o, h) ∧ r = true then 1 else 0) + countAccepted o h cs rs
  | _, _ => 0

/-- A sample environment: time 100000, chain height 200 with every transaction
id holding one unspent output of the collateral value 1000, all block hashes
known, sporks off, node synced, every signature accepted; the node is not a
service node and `ManageState` does nothing. -/
def sampleEnv : Env :=
  { GetTime := 100000
    GetAdjustedTime := 100000
    ShutdownRequested := false
    GetCoins := fun _ => some { vout := [some { nValue := 1000, scriptPubKey := [] }], nHeight := 1 }
    chainHeight := 200
    chainBlockTime := fun _ => 0
    GetBlockHash := fun h => some h.toNat
    mapBlockIndex := fun h => some (some (h : Int))
    GetTransactionBlock := fun _ => 1
    IsSporkActive := fun _ => false
    IsSynced := true
    IsXnodeListSynced := true
    IsWinnersListSynced := true
    PROTOCOL_VERSION := 90030
    MIN_PEER_PROTO_VERSION := 90026
    fXNode := false
    network := Network.MAIN
    nXnodeMinimumConfirmations := 1
    nCollateralValue := 1000
    XNODE_CHECK_SECONDS := 5
    XNODE_MIN_MNB_SECONDS := 300
    XNODE_WATCHDOG_MAX_SECONDS := 7200
    IsBroadcastedWithin := fun mn nSeconds => decide (100000 - mn.sigTime < nSeconds)
    IsValidStateForAutoStart := fun _ => true
    VerifyMessage := fun _ _ _ => true
    IsVinAssociatedWithPubkey := fun _ _ => true
    strService := fun _ => ""
    strKeyID := fun _ => ""
    strTxIn := fun _ => ""
    strHash := fun _ => ""
    GetScriptForDestination := fun _ => List.replicate 25 0
    IsRoutableIPv4 := fun _ => true
    Hash := fun l => l.sum
    GetCompact := fun n => (n : Int)
    GetHashMnb := fun mnb => mnb.vin.prevout.hash
    GetHashMnp := fun mnp => mnp.vin.prevout.hash
    PingIsExpired := fun mnp => decide (100000 - mnp.sigTime > 10800)
    GetRandInt := fun _ => 0
    GetXnodePayment := fun _ => 50
    ManageState := fun s => s
    fLiteMode := false
    fTestNet := false
    IsPoSeVerified := fun mn => decide (mn.nPoSeBanScore ≤ -5)
    strPrevout := fun _ => ""
    ScriptToAsmStr := fun _ => ""
    HasFulfilledRequest := fun _ strRequest => decide (strRequest = "mnverify-request")
    SignMessage := fun _ => some [9]
    GetHashMnv := fun mnv => mnv.nonce.toNat
    MNVERIFY := "mnverify"
    GetInputAge := fun _ => 100
    hasChainTip := true
    syncBlockIndex := some (200, 99990)
    pindexBestHeader := some (200, 99990)
    fImporting := false
    fReindex := false
    XNODE_SYNC_ENOUGH_PEERS := 2
    fCheckpointsEnabled := true
    GetTotalBlocksEstimate := 150
    vNodesStats := [some (200, 200), none, some (199, 201)]
    MaxTipAge := 86400 }

/-- A sample enabled record with the given outpoint, announced at time 90000
and last pinged at time 99900. -/
def sampleXnode (hash n : Nat) : CXnode :=
  { CXnode.init sampleEnv with
    vin := { prevout := { hash := hash, n := n }, scriptSig := [], nSequence := 0 }
    addr := { ip := hash, port := 29100 }
    sigTime := 90000
    lastPing := { vin := { prevout := { hash := hash, n := n }, scriptSig := [], nSequence := 0 }
                  blockHash := 188, sigTime := 99900, vchSig := [1] } }

/-- Sample statics of `IsBlockchainSynced`: the chain was found synced at time
99998. -/
def sampleSyncedStatics : CXnodeSyncStatics :=
  { fBlockchainSynced := true, nTimeLastProcess := some 99998, nSkipped := 0,
    fFirstBlockAccepted := true }

/-- A sample global state holding the given records; the node itself has no
active service node, and the chain was found synced. -/
def sampleState (vXnodes : List CXnode) : State :=
  { mnodeman := { CXnodeMan.init with vXnodes := vXnodes }
    mnpayments := CXnodePayments.init
    activeXnode := { eType := 0, fPingerEnabled := false, pubKeyXnode := [], vin := CTxIn.null,
                     service := { ip := 0, port := 0 }, nState := 0 }
    xnodeSync := CXnodeSync.init sampleEnv
    vRelayed := []
    syncStatics := sampleSyncedStatics }

/-- A sample record in state `OUTPOINT_SPENT` whose last ping is 20000 seconds old. -/
def sampleSpentXnode : CXnode :=
  { sampleXnode 1 0 with
    nActiveState := XNODE_OUTPOINT_SPENT
    lastPing := { vin := (sampleXnode 1 0).vin, blockHash := 188, sigTime := 80000, vchSig := [1] } }

/-- A sample record announced 100 seconds ago, within `XNODE_MIN_MNB_SECONDS`. -/
def sampleRecentXnode : CXnode := { sampleXnode 1 0 with sigTime := 99900 }

/-- A sample announcement for the outpoint of `sampleXnode 1 0`, made at time
99950 from another address with another node key. -/
def sampleNewerMnb : CXnodeBroadcast :=
  { toCXnode := { sampleXnode 1 0 with sigTime := 99950
                                       addr := { ip := 7, port := 29100 }
                                       pubKeyXnode := [7]
                                       vchSig := [7] }
    fRecovery := false }

/-- The sample environment with an empty UTXO set. -/
def sampleEnvNoCoins : Env := { sampleEnv with GetCoins := fun _ => none }

/-- A sample record last checked two seconds ago. -/
def sampleJustChecked : CXnode := { sampleXnode 1 0 with nTimeLastChecked := 99998 }

/-- The sample state with six recovery replies pending for the outpoint of
`sampleJustChecked`. -/
def sampleStateWithReplies : State :=
  { sampleState [sampleJustChecked] with
    mnodeman := { (sampleState [sampleJustChecked]).mnodeman with
      mMnbRecoveryGoodReplies := [(1, List.replicate 6 sampleNewerMnb)] } }

/-- A sample enabled record whose last ping is 20000 seconds old. -/
def sampleSilentXnode : CXnode := { sampleSpentXnode with nActiveState := XNODE_ENABLED }

/-- A sample record with an outdated protocol version and a PoSe score at the
ban maximum. -/
def sampleOldProtoXnode : CXnode :=
  { sampleXnode 1 0 with nProtocolVersion := 90000, nPoSeBanScore := 5 }

/-- A sample record in state `POSE_BAN` with PoSe score 5 and the given ban
height. -/
def sampleBannedXnode (nPoSeBanHeight : Int) : CXnode :=
  { sampleXnode 1 0 with
    nActiveState := XNODE_POSE_BAN, nPoSeBanScore := 5, nPoSeBanHeight := nPoSeBanHeight }

/-- A sample record with an outdated protocol version and PoSe score 0. -/
def sampleOldProtoCleanXnode : CXnode := { sampleXnode 1 0 with nProtocolVersion := 90000 }

/-- A sample ping for the outpoint of `sampleXnode 1 0`, signed at the given time. -/
def samplePing (sigTime : Int) : CXnodePing :=
  { vin := (sampleXnode 1 0).vin, blockHash := 190, sigTime := sigTime, vchSig := [2] }

/-- The sample environment of a node that runs as a service node. -/
def sampleEnvXNode : Env := { sampleEnv with fXNode := true }

/-- The sample state of a service node whose own key is `[7]`, the node key of
`sampleNewerMnb`. -/
def sampleOwnState (vXnodes : List CXnode) : State :=
  { sampleState vXnodes with
    activeXnode := { (sampleState vXnodes).activeXnode with pubKeyXnode := [7] } }

/-- The announcement `sampleNewerMnb` with a protocol version other than
`PROTOCOL_VERSION`. -/
def sampleOwnOldMnb : CXnodeBroadcast := { sampleNewerMnb with nProtocolVersion := 90029 }

/-- The sample environment in which exactly the signature `[1]` verifies. -/
def sampleEnvSig : Env := { sampleEnv with VerifyMessage := fun _ sig _ => decide (sig = [1]) }

/-- A sample vote of the record `sampleXnode 1 0` for block 195. -/
def sampleVote (payee : CScript) (vchSig : List Nat) : CXnodePaymentVote :=
  { vinXnode := (sampleXnode 1 0).vin, nBlockHeight := 195, payee := payee, vchSig := vchSig }

/-- A sample peer of current protocol version. -/
def samplePeer : CNode :=
  { addr := { ip := 9, port := 29100 }, nVersion := 90030, setAskFor := [], nMisbehavior := 0,
    vSendMsg := [] }

/-- The sample state in which the announcement `sampleNewerMnb` was first seen
at time 80000 and the list asset last progressed at time 90000. -/
def sampleSeenState : State :=
  { sampleState [sampleXnode 1 0] with
    mnodeman := { (sampleState [sampleXnode 1 0]).mnodeman with
      mapSeenXnodeBroadcast := FMap.set FMap.empty (sampleEnv.GetHashMnb sampleNewerMnb) (80000, sampleNewerMnb) }
    xnodeSync := { CXnodeSync.init sampleEnv with nTimeLastXnodeList := 90000 } }

/-- The sample state in which the announcement `sampleNewerMnb` was first seen
at time 99000. -/
def sampleSeenRecentlyState : State :=
  { sampleState [sampleXnode 1 0] with
    mnodeman := { (sampleState [sampleXnode 1 0]).mnodeman with
      mapSeenXnodeBroadcast := FMap.set FMap.empty (sampleEnv.GetHashMnb sampleNewerMnb) (99000, sampleNewerMnb) }
    xnodeSync := { CXnodeSync.init sampleEnv with nTimeLastXnodeList := 90000 } }

/-- The sample state of a synced node that holds the ping `samplePing 99950`
in `mapSeenXnodePing` and last ran `IsBlockchainSynced` at time 90000, more
than 60 minutes before the sample time 100000. -/
def sampleSleptState : State :=
  { sampleState [sampleXnode 1 0] with
    mnodeman := { (sampleState [sampleXnode 1 0]).mnodeman with
      mapSeenXnodePing := FMap.set FMap.empty (sampleEnv.GetHashMnp (samplePing 99950)) (samplePing 99950) }
    xnodeSync := { CXnodeSync.init sampleEnv with nRequestedXnodeAssets := XNODE_SYNC_FINISHED, nTimeLastXnodeList := 90000 }
    syncStatics := { sampleSyncedStatics with nTimeLastProcess := some 90000 } }

/-- A sample enabled record at the shared address 9:29100 with the given
outpoint and PoSe score; the sample environment takes a record with score -5
or less as PoSe-verified. -/
def sampleSharedXnode (hash : Nat) (score : Int) : CXnode :=
  { sampleXnode hash 0 with addr := { ip := 9, port := 29100 }, nPoSeBanScore := score }

/-- The sample environment in which a signature verifies exactly when it
consists of the bytes of the public key. -/
def sampleEnvKeys : Env := { sampleEnv with VerifyMessage := fun pubKey sig _ => decide (sig = pubKey) }

/-- A sample enabled record at the shared address 9:29100 with score 0 whose
node key is the one byte `key`. -/
def sampleKeyedXnode (hash : Nat) (key : Nat) : CXnode :=
  { sampleSharedXnode hash 0 with pubKeyXnode := [key] }

/-- The sample state of an active service node with node key `[9]` that has
asked the address 9:29100 for a verification with nonce 42 at height 199; two
records are registered at that address. -/
def sampleVerifyState : State :=
  { sampleState [sampleKeyedXnode 1 1, sampleKeyedXnode 2 2] with
    mnodeman := { (sampleState [sampleKeyedXnode 1 1, sampleKeyedXnode 2 2]).mnodeman with
      mWeAskedForVerification := FMap.set FMap.empty 9 { CXnodeVerification.init with nonce := 42, nBlockHeight := 199 } }
    activeXnode := { eType := 0, fPingerEnabled := true, pubKeyXnode := [9], vin := (sampleXnode 7 0).vin,
                     service := { ip := 7, port := 29100 }, nState := 0 } }

/-- The sample reply to that request, signed with the key of the first record. -/
def sampleVerifyReply : CXnodeVerification :=
  { CXnodeVerification.init with nonce := 42, nBlockHeight := 199, vchSig1 := [1] }

/-- A registry of two records: the first, with the higher score, is expired;
the second is enabled. -/
def sampleRankRegistry : CXnodeMan :=
  { CXnodeMan.init with
    vXnodes := [{ sampleXnode 5 0 with nActiveState := XNODE_EXPIRED }, sampleXnode 1 0] }

/-- An input with the outpoint of `sampleXnode 1 0` and a non-empty script. -/
def sampleVinWithScript : CTxIn :=
  { prevout := { hash := 1, n := 0 }, scriptSig := [7], nSequence := 0 }

/-- A state with three enabled records at the address 9:29100, with the node
keys `[1]`, `[2]` and `[3]` and the score 0, and the chain tip at height 200. -/
def sampleBroadcastState : State :=
  { sampleState [sampleKeyedXnode 1 1, sampleKeyedXnode 2 2, sampleKeyedXnode 3 3] with
    mnodeman := { (sampleState [sampleKeyedXnode 1 1, sampleKeyedXnode 2 2,
        sampleKeyedXnode 3 3]).mnodeman with pCurrentBlockIndex := some 200 } }

/-- The state `sampleBroadcastState` with the score 2 for the record of
outpoint 1. -/
def sampleScoredBroadcastState : State :=
  { sampleBroadcastState with
    mnodeman := { sampleBroadcastState.mnodeman with
      vXnodes := [{ sampleKeyedXnode 1 1 with nPoSeBanScore := 2 }, sampleKeyedXnode 2 2,
        sampleKeyedXnode 3 3] } }

/-- A verification broadcast for the address 9:29100 at height 199 in which the
record of outpoint 2 vouches for the record of outpoint 1, with the given
signatures. -/
def sampleVerifyBroadcast (vchSig1 vchSig2 : List Nat) : CXnodeVerification :=
  { vin1 := (sampleXnode 1 0).vin, vin2 := (sampleXnode 2 0).vin
    addr := { ip := 9, port := 29100 }, nonce := 42, nBlockHeight := 199
    vchSig1 := vchSig1, vchSig2 := vchSig2 }

/-- A registry whose only record is enabled and was announced 100 seconds
before the sample time. -/
def sampleNewRegistry : CXnodeMan := { CXnodeMan.init with vXnodes := [sampleRecentXnode] }

/-- A registry of three enabled records, all announced 100 seconds before the
sample time. -/
def sampleThreeNewRegistry : CXnodeMan :=
  { CXnodeMan.init with
    vXnodes := [{ sampleXnode 1 0 with sigTime := 99900 }, { sampleXnode 2 0 with sigTime := 99900 },
                { sampleXnode 3 0 with sigTime := 99900 }] }

/-- A registry of twenty enabled records with the outpoints 1 to 20. -/
def sampleTwentyRegistry : CXnodeMan :=
  { CXnodeMan.init with vXnodes := (List.range 20).map (fun i => sampleXnode (i + 1) 0) }

/-- The sample environment in which the collaterals of the outpoints 1 and 2
have 100 confirmations and every other collateral has 5. -/
def sampleEnvAges : Env :=
  { sampleEnv with GetInputAge := fun vin => if vin.prevout.hash ≤ 2 then 100 else 5 }

/-- A state without records whose payment votes hold the tally `sampleSixVotes`
under its height. -/
def sampleTallyState : State :=
  { sampleState [] with
    mnpayments := { CXnodePayments.init with
      mapXnodeBlocks := FMap.set FMap.empty sampleSixVotes.nBlockHeight sampleSixVotes } }

/-- A sample environment of the controller: no local address is configured, no
peers, no wallet. -/
def sampleActiveEnv : ActiveEnv :=
  { fListen := true, GetLocal := none, vNodes := [], ConnectNode := fun _ => true
    hasWallet := false, walletIsLocked := false, walletBalance := 0
    GetXnodeVinAndKeys := none, signCollateral := fun _ => some [8]
    fImportingOrReindex := false, chainBlockHash := fun h => h.toNat, lockMain := true }

/-- The sample controller environment of a node whose wallet holds the
collateral of outpoint 1. -/
def sampleWalletEnv : ActiveEnv :=
  { sampleActiveEnv with hasWallet := true, GetXnodeVinAndKeys := some ((sampleXnode 1 0).vin, [1]) }

/-- The sample state of a service node that runs from its own wallet (type
`XNODE_LOCAL`), configured at the address 9:29100, with the own key `[7]`. -/
def sampleLocalState (vXnodes : List CXnode) : State :=
  { sampleOwnState vXnodes with
    activeXnode := { (sampleOwnState vXnodes).activeXnode with
      eType := XNODE_LOCAL, service := { ip := 9, port := 29100 } } }

/-! # Theorems -/

/-! ## The PoSe score operations -/

theorem DecreasePoSeBanScore_eq (mn : CXnode) :
    mn.DecreasePoSeBanScore
      = { mn with nPoSeBanScore := mn.DecreasePoSeBanScore.nPoSeBanScore } := by
  unfold CXnode.DecreasePoSeBanScore
  split <;> rfl

theorem IncreasePoSeBanScore_eq (mn : CXnode) :
    mn.IncreasePoSeBanScore
      = { mn with nPoSeBanScore := mn.IncreasePoSeBanScore.nPoSeBanScore } := by
  unfold CXnode.IncreasePoSeBanScore
  split <;> rfl

theorem DecreasePoSeBanScore_score (mn : CXnode) :
    mn.DecreasePoSeBanScore.nPoSeBanScore
      = (if mn.nPoSeBanScore > 0 then mn.nPoSeBanScore - 1 else mn.nPoSeBanScore) := by
  unfold CXnode.DecreasePoSeBanScore
  split <;> rfl

theorem IncreasePoSeBanScore_score (mn : CXnode) :
    mn.IncreasePoSeBanScore.nPoSeBanScore
      = (if mn.nPoSeBanScore < XNODE_POSE_BAN_MAX_SCORE then mn.nPoSeBanScore + 1
         else mn.nPoSeBanScore) := by
  unfold CXnode.IncreasePoSeBanScore
  split <;> rfl

theorem IncreasePoSeBanScore_iterate_form (n : Nat) (mn : CXnode) :
    ∃ k : Int, CXnode.IncreasePoSeBanScore^[n] mn = { mn with nPoSeBanScore := k } := by
  induction n generalizing mn with
  | zero => exact ⟨mn.nPoSeBanScore, rfl⟩
  | succ n ih =>
    rw [Function.iterate_succ_apply]
    obtain ⟨k, hk⟩ := ih mn.IncreasePoSeBanScore
    refine ⟨k, ?_⟩
    rw [hk, IncreasePoSeBanScore_eq]

theorem IncreasePoSeBanScore_iterate_eq (n : Nat) (mn : CXnode) :
    CXnode.IncreasePoSeBanScore^[n] mn
      = { mn with nPoSeBanScore := (CXnode.IncreasePoSeBanScore^[n] mn).nPoSeBanScore } := by
  obtain ⟨k, hk⟩ := IncreasePoSeBanScore_iterate_form n mn
  rw [hk]

theorem maxSignatures_fold_lt (l : List CXnodePayee) (m k : Int) :
    l.foldl (fun nMaxSignatures payee =>
      if payee.GetVoteCount ≥ nMaxSignatures then payee.GetVoteCount else nMaxSignatures) m < k
      ↔ m < k ∧ ∀ p ∈ l, p.GetVoteCount < k := by
  induction l generalizing m with
  | nil => simp
  | cons a rest ih =>
    simp only [List.foldl_cons, List.mem_cons, forall_eq_or_imp]
    rw [ih]
    by_cases h : a.GetVoteCount ≥ m
    · simp only [h, if_true]
      constructor
      · rintro ⟨h1, h2⟩; exact ⟨by omega, h1, h2⟩
      · rintro ⟨_, h1, h2⟩; exact ⟨h1, h2⟩
    · simp only [h, if_false]
      constructor
      · rintro ⟨h1, h2⟩; exact ⟨h1, by omega, h2⟩
      · rintro ⟨h1, _, h2⟩; exact ⟨h1, h2⟩

theorem maxSignatures_lt_iff (l : List CXnodePayee) :
    maxSignatures l < MNPAYMENTS_SIGNATURES_REQUIRED
      ↔ ∀ p ∈ l, p.GetVoteCount < MNPAYMENTS_SIGNATURES_REQUIRED := by
  unfold maxSignatures
  rw [maxSignatures_fold_lt]
  simp [MNPAYMENTS_SIGNATURES_REQUIRED]

theorem hasRequiredPayment_iff (pay : Int) (p : CXnodePayee) (vout : List CTxOut) :
    hasRequiredPayment pay p vout = true
      ↔ ∃ txout ∈ vout, txout.scriptPubKey = p.GetPayee ∧ txout.nValue = pay := by
  unfold hasRequiredPayment
  simp only [List.any_eq_true, Bool.and_eq_true, decide_eq_true_eq]
  constructor
  · rintro ⟨x, hx, h1, h2⟩; exact ⟨x, hx, h1.symm, h2.symm⟩
  · rintro ⟨x, hx, h1, h2⟩; exact ⟨x, hx, h1.symm, h2.symm⟩

theorem scanPayees_iff (pay : Int) (vout : List CTxOut) (l : List CXnodePayee) (flag : Bool) :
    scanPayees pay vout l flag = true
      ↔ (∃ p ∈ l, p.GetVoteCount ≥ MNPAYMENTS_SIGNATURES_REQUIRED ∧
            hasRequiredPayment pay p vout = true)
        ∨ (flag = false ∧ ∀ p ∈ l, p.GetVoteCount < MNPAYMENTS_SIGNATURES_REQUIRED) := by
  induction l generalizing flag with
  | nil => cases flag <;> simp [scanPayees]
  | cons a rest ih =>
    unfold scanPayees
    by_cases h : a.GetVoteCount ≥ MNPAYMENTS_SIGNATURES_REQUIRED
    · simp only [h, if_true]
      by_cases hp : hasRequiredPayment pay a vout = true
      · simp only [hp, if_true, true_iff]
        exact Or.inl ⟨a, List.mem_cons_self _ _, h, hp⟩
      · simp only [hp, if_false, Bool.false_eq_true]
        rw [ih]
        constructor
        · rintro (⟨p, hp1, hp2⟩ | ⟨h1, _⟩)
          · exact Or.inl ⟨p, List.mem_cons_of_mem _ hp1, hp2⟩
          · exact absurd h1 (by simp)
        · rintro (⟨p, hp1, hp2, hp3⟩ | ⟨_, h2⟩)
          · rcases List.mem_cons.1 hp1 with rfl | hp1
            · exact absurd hp3 hp
            · exact Or.inl ⟨p, hp1, hp2, hp3⟩
          · exact absurd (h2 a (List.mem_cons_self _ _)) (by omega)
    · simp only [h, if_false]
      rw [ih]
      simp only [List.mem_cons, exists_eq_or_imp, h, false_and, false_or, forall_eq_or_imp]
      constructor
      · rintro (h1 | ⟨h1, h2⟩)
        · exact Or.inl h1
        · exact Or.inr ⟨h1, by omega, h2⟩
      · rintro (h1 | ⟨h1, _, h2⟩)
        · exact Or.inl h1
        · exact Or.inr ⟨h1, h2⟩

theorem IsTransactionValid_iff (pay : Int → Int) (B : CXnodeBlockPayees) (tx : CTransaction) :
    B.IsTransactionValid pay tx = true ↔
      ((∀ p ∈ B.vecPayees, p.GetVoteCount < MNPAYMENTS_SIGNATURES_REQUIRED) ∨
        ∃ p ∈ B.vecPayees, p.GetVoteCount ≥ MNPAYMENTS_SIGNATURES_REQUIRED ∧
          ∃ txout ∈ tx.vout, txout.scriptPubKey = p.GetPayee ∧
            txout.nValue = pay B.nBlockHeight) := by
  unfold CXnodeBlockPayees.IsTransactionValid
  simp only []
  by_cases h : maxSignatures B.vecPayees < MNPAYMENTS_SIGNATURES_REQUIRED
  · simp only [h, if_true, true_iff]
    exact Or.inl ((maxSignatures_lt_iff _).1 h)
  · simp only [h, if_false]
    rw [scanPayees_iff]
    have h2 : ¬ ∀ p ∈ B.vecPayees, p.GetVoteCount < MNPAYMENTS_SIGNATURES_REQUIRED :=
      fun hall => h ((maxSignatures_lt_iff _).2 hall)
    simp only [hasRequiredPayment_iff, h2, and_false, or_false, false_or, true_and]

theorem bestPayeeScan_spec (l : List CXnodePayee) (init : CScript × Int) :
    bestPayeeScan l init = init ∨
      ∃ p ∈ l, p.GetPayee = (bestPayeeScan l init).1 ∧ p.GetVoteCount = (bestPayeeScan l init).2 := by
  induction l generalizing init with
  | nil => left; rfl
  | cons a rest ih =>
    unfold bestPayeeScan
    simp only [List.foldl_cons]
    by_cases h : a.GetVoteCount > init.2
    · simp only [h, if_true]
      rcases ih (a.GetPayee, a.GetVoteCount) with h1 | ⟨p, hp, h1, h2⟩
      · right
        refine ⟨a, List.mem_cons_self _ _, ?_, ?_⟩
        · unfold bestPayeeScan at h1; rw [h1]
        · unfold bestPayeeScan at h1; rw [h1]
      · right
        exact ⟨p, List.mem_cons_of_mem _ hp, h1, h2⟩
    · simp only [h, if_false]
      rcases ih init with h1 | ⟨p, hp, h1, h2⟩
      · left; exact h1
      · right; exact ⟨p, List.mem_cons_of_mem _ hp, h1, h2⟩

theorem CanVote_known (p : CXnodePayments) (o : COutPoint) (h : Int)
    (hp : p.mapXnodesLastVote o = some h) : p.CanVote o h = (false, p) := by
  unfold CXnodePayments.CanVote
  simp [FMap.count, hp]

theorem CanVote_records (p : CXnodePayments) (o : COutPoint) (h : Int) :
    (p.CanVote o h).2.mapXnodesLastVote o = some h := by
  unfold CXnodePayments.CanVote
  by_cases hp : p.mapXnodesLastVote o = some h
  · simp [FMap.count, hp]
  · simp [FMap.count, hp, FMap.set]

theorem CanVote_keeps (p : CXnodePayments) (o o1 : COutPoint) (h h1 : Int)
    (hp : p.mapXnodesLastVote o = some h) (hc : o1 = o → h1 = h) :
    (p.CanVote o1 h1).2.mapXnodesLastVote o = some h := by
  by_cases ho : o1 = o
  · subst ho
    rw [hc rfl]
    exact CanVote_records p o1 h
  · unfold CXnodePayments.CanVote
    split
    · exact hp
    · simp only [FMap.set]
      rw [if_neg (fun hh => ho hh.symm)]
      exact hp

theorem CanVoteSeq_known (p : CXnodePayments) (o : COutPoint) (h : Int)
    (calls : List (COutPoint × Int)) (hcalls : ∀ c ∈ calls, c.1 = o → c.2 = h)
    (hp : p.mapXnodesLastVote o = some h) :
    countAccepted o h calls (p.CanVoteSeq calls).1 = 0 := by
  induction calls generalizing p with
  | nil => simp [CXnodePayments.CanVoteSeq, countAccepted]
  | cons c cs ih =>
    obtain ⟨o1, h1⟩ := c
    simp only [CXnodePayments.CanVoteSeq, countAccepted]
    have hc : o1 = o → h1 = h := hcalls (o1, h1) (List.mem_cons_self _ _)
    have hrest := ih (p.CanVote o1 h1).2 (fun c hc2 => hcalls c (List.mem_cons_of_mem _ hc2))
      (CanVote_keeps p o o1 h h1 hp hc)
    rw [hrest]
    by_cases heq : (o1, h1) = (o, h)
    · have ho : o1 = o := by cases heq; rfl
      have hh : h1 = h := by cases heq; rfl
      subst ho; subst hh
      rw [CanVote_known p o1 h1 hp]
      simp
    · simp [heq]

theorem CanVoteSeq_atMostOnce (p : CXnodePayments) (o : COutPoint) (h : Int)
    (calls : List (COutPoint × Int)) (hcalls : ∀ c ∈ calls, c.1 = o → c.2 = h) :
    countAccepted o h calls (p.CanVoteSeq calls).1 ≤ 1 := by
  induction calls generalizing p with
  | nil => simp [CXnodePayments.CanVoteSeq, countAccepted]
  | cons c cs ih =>
    obtain ⟨o1, h1⟩ := c
    simp only [CXnodePayments.CanVoteSeq, countAccepted]
    have hcs : ∀ c ∈ cs, c.1 = o → c.2 = h := fun c hc2 => hcalls c (List.mem_cons_of_mem _ hc2)
    by_cases heq : (o1, h1) = (o, h)
    · have ho : o1 = o := by cases heq; rfl
      have hh : h1 = h := by cases heq; rfl
      subst ho; subst hh
      rw [CanVoteSeq_known (p.CanVote o1 h1).2 o1 h1 cs hcs (CanVote_records p o1 h1)]
      split <;> omega
    · have := ih (p.CanVote o1 h1).2 hcs
      simp only [heq, false_and, if_false]
      omega

/-- C1: a tally accepts a coinbase exactly when no payee has reached
`MNPAYMENTS_SIGNATURES_REQUIRED` (6) votes or some output pays exactly
`GetXnodePayment(nBlockHeight)` to the script of a payee with at least 6
votes. In particular a coinbase whose only output goes to a payee `P` with at
least 6 votes and is one unit off the protocol payment is rejected, and so is
any coinbase all of whose outputs to `P` are one unit off when `P` is the only
script with at least 6 votes. -/
theorem C1_IsTransactionValid_iff (GetXnodePayment : Int → Int) (B : CXnodeBlockPayees)
    (tx : CTransaction) :
    (B.IsTransactionValid GetXnodePayment tx = true ↔
      ((∀ p ∈ B.vecPayees, p.GetVoteCount < 6) ∨
        ∃ p ∈ B.vecPayees, 6 ≤ p.GetVoteCount ∧
          ∃ txout ∈ tx.vout, txout.scriptPubKey = p.GetPayee ∧
            txout.nValue = GetXnodePayment B.nBlockHeight))
    ∧ (∀ P ∈ B.vecPayees, 6 ≤ P.GetVoteCount → ∀ v : Int,
        (v = GetXnodePayment B.nBlockHeight + 1 ∨ v = GetXnodePayment B.nBlockHeight - 1) →
        B.IsTransactionValid GetXnodePayment
          { vout := [{ nValue := v, scriptPubKey := P.GetPayee }] } = false)
    ∧ (∀ P ∈ B.vecPayees, 6 ≤ P.GetVoteCount →
        (∀ Q ∈ B.vecPayees, 6 ≤ Q.GetVoteCount → Q.GetPayee = P.GetPayee) →
        (∀ txout ∈ tx.vout, txout.scriptPubKey = P.GetPayee →
          (txout.nValue = GetXnodePayment B.nBlockHeight + 1 ∨
            txout.nValue = GetXnodePayment B.nBlockHeight - 1)) →
        B.IsTransactionValid GetXnodePayment tx = false) := by
  have hiff := IsTransactionValid_iff GetXnodePayment B
  simp only [MNPAYMENTS_SIGNATURES_REQUIRED, ge_iff_le] at hiff
  refine ⟨hiff tx, ?_, ?_⟩
  · intro P hP hvotes v hv
    rw [Bool.eq_false_iff]
    intro hvalid
    rcases (hiff _).1 hvalid with hall | ⟨p, _, _, txout, hmem, _, hval⟩
    · have := hall P hP; omega
    · simp only [List.mem_singleton] at hmem
      subst hmem
      have hval2 : v = GetXnodePayment B.nBlockHeight := hval
      rcases hv with h | h <;> rw [hval2] at h <;> linarith
  · intro P hP hvotes honly hoff
    rw [Bool.eq_false_iff]
    intro hvalid
    rcases (hiff tx).1 hvalid with hall | ⟨p, hp, hpv, txout, hmem, hscr, hval⟩
    · have := hall P hP; omega
    · rcases hoff txout hmem (hscr.trans (honly p hp hpv)) with h | h <;>
        rw [hval] at h <;> linarith

/-- Scenario S3 for C1: with six votes for `[1]` a coinbase paying `[1]` the
protocol amount 50 is valid and the same coinbase paying 51 is not. -/
theorem C1_witness_S3 :
    sampleSixVotes.IsTransactionValid (fun _ => 50) { vout := [{ nValue := 50, scriptPubKey := [1] }] }
        = true
    ∧ sampleSixVotes.IsTransactionValid (fun _ => 50)
        { vout := [{ nValue := 51, scriptPubKey := [1] }] } = false :=
  ⟨((C1_IsTransactionValid_iff (fun _ => 50) sampleSixVotes
        { vout := [{ nValue := 50, scriptPubKey := [1] }] }).1).2
      (Or.inr ⟨{ scriptPubKey := [1], vecVoteHashes := [1, 2, 3, 4, 5, 6] }, by decide, by decide,
        { nValue := 50, scriptPubKey := [1] }, by decide, by decide, by decide⟩),
   (C1_IsTransactionValid_iff (fun _ => 50) sampleSixVotes { vout := [] }).2.1
      { scriptPubKey := [1], vecVoteHashes := [1, 2, 3, 4, 5, 6] } (by decide) (by decide) 51
      (Or.inl (by decide))⟩

/-- C2 as stated fails: in `sampleTwoWinners` the best payee `[1]` has seven
votes, the coinbase pays only the second payee `[2]` (six votes) the protocol
amount, and `IsTransactionValid` accepts it although no output goes to `[1]`. -/
theorem C2_counterexample :
    sampleTwoWinners.GetBestPayee = some [1]
    ∧ (bestPayeeScan sampleTwoWinners.vecPayees ([], -1)).2 = 7
    ∧ sampleTwoWinners.IsTransactionValid (fun _ => 50)
        { vout := [{ nValue := 50, scriptPubKey := [2] }] } = true
    ∧ ¬ ∃ txout ∈ ({ vout := [{ nValue := 50, scriptPubKey := [2] }] } : CTransaction).vout,
        txout.scriptPubKey = [1] ∧ txout.nValue = (fun _ => 50) sampleTwoWinners.nBlockHeight := by
  refine ⟨by decide, by decide, by decide, ?_⟩
  rintro ⟨txout, hmem, hscr, _⟩
  simp only [List.mem_singleton] at hmem
  subst hmem
  exact absurd hscr (by decide)

/-- C2 (amended): when the best payee has at least 6 votes and
`IsTransactionValid` accepts the coinbase, some output pays exactly the
protocol amount to the script of a payee with at least 6 votes; when every
payee with at least 6 votes carries the best payee's script, that output pays
the best payee. -/
theorem C2_valid_pays_a_winner (GetXnodePayment : Int → Int) (B : CXnodeBlockPayees)
    (tx : CTransaction) (P : CScript) (hbest : B.GetBestPayee = some P)
    (hvotes : 6 ≤ (bestPayeeScan B.vecPayees ([], -1)).2)
    (hvalid : B.IsTransactionValid GetXnodePayment tx = true) :
    (∃ Q ∈ B.vecPayees, 6 ≤ Q.GetVoteCount ∧
        ∃ txout ∈ tx.vout, txout.scriptPubKey = Q.GetPayee ∧
          txout.nValue = GetXnodePayment B.nBlockHeight)
    ∧ ((∀ Q ∈ B.vecPayees, 6 ≤ Q.GetVoteCount → Q.GetPayee = P) →
        ∃ txout ∈ tx.vout, txout.scriptPubKey = P ∧
          txout.nValue = GetXnodePayment B.nBlockHeight) := by
  have hiff := IsTransactionValid_iff GetXnodePayment B tx
  simp only [MNPAYMENTS_SIGNATURES_REQUIRED, ge_iff_le] at hiff
  have hwin : ∃ p ∈ B.vecPayees, 6 ≤ p.GetVoteCount := by
    rcases bestPayeeScan_spec B.vecPayees ([], -1) with h | ⟨p, hp, _, hcount⟩
    · rw [h] at hvotes; simp at hvotes
    · exact ⟨p, hp, by omega⟩
  have hP : (bestPayeeScan B.vecPayees ([], -1)).1 = P := by
    unfold CXnodeBlockPayees.GetBestPayee at hbest
    simp only [] at hbest
    split at hbest
    · exact absurd hbest (by simp)
    · split at hbest
      · exact Option.some.inj hbest
      · exact absurd hbest (by simp)
  have hsome : ∃ Q ∈ B.vecPayees, 6 ≤ Q.GetVoteCount ∧
        ∃ txout ∈ tx.vout, txout.scriptPubKey = Q.GetPayee ∧
          txout.nValue = GetXnodePayment B.nBlockHeight := by
    rcases hiff.1 hvalid with hall | h
    · obtain ⟨p, hp, hpv⟩ := hwin
      have := hall p hp; omega
    · exact h
  refine ⟨hsome, ?_⟩
  intro honly
  obtain ⟨Q, hQ, hQv, txout, hmem, hscr, hval⟩ := hsome
  exact ⟨txout, hmem, hscr.trans (honly Q hQ hQv), hval⟩

/-- Witness for C2 (amended): in `sampleSixVotes` the best payee `[1]` has six
votes and the accepted coinbase pays it. -/
theorem C2_valid_pays_a_winner_witness :
    ∃ txout ∈ ({ vout := [{ nValue := 50, scriptPubKey := [1] }] } : CTransaction).vout,
      txout.scriptPubKey = [1] ∧ txout.nValue = 50 :=
  (C2_valid_pays_a_winner (fun _ => 50) sampleSixVotes
    { vout := [{ nValue := 50, scriptPubKey := [1] }] } [1] (by decide) (by decide) (by decide)).2
    (by decide)

/-- C3: `IsBlockPayeeValid` rejects a block exactly when payments have started,
the node is synced, the coinbase fails `mnpayments.IsTransactionValid` and
enforcement is active; in every other case, among them a height without a
tally, it accepts. -/
theorem C3_IsBlockPayeeValid_false_iff (e : Env) (mnpayments : CXnodePayments)
    (txNew : CTransaction) (nBlockHeight : Int) (blockReward : Int) :
    (IsBlockPayeeValid e mnpayments txNew nBlockHeight blockReward = false ↔
      (e.IsSporkActive SPORK_4_XNODE_PAYMENT_START = true ∧ e.IsSynced = true ∧
        mnpayments.IsTransactionValid e.GetXnodePayment txNew nBlockHeight = false ∧
        e.IsSporkActive SPORK_5_XNODE_PAYMENT_ENFORCEMENT = true))
    ∧ (IsBlockPayeeValid e mnpayments txNew nBlockHeight blockReward = true ↔
      ¬ (e.IsSporkActive SPORK_4_XNODE_PAYMENT_START = true ∧ e.IsSynced = true ∧
        mnpayments.IsTransactionValid e.GetXnodePayment txNew nBlockHeight = false ∧
        e.IsSporkActive SPORK_5_XNODE_PAYMENT_ENFORCEMENT = true))
    ∧ (mnpayments.mapXnodeBlocks nBlockHeight = none →
        IsBlockPayeeValid e mnpayments txNew nBlockHeight blockReward = true) := by
  unfold IsBlockPayeeValid
  refine ⟨?_, ?_, ?_⟩
  · cases e.IsSporkActive SPORK_4_XNODE_PAYMENT_START <;> cases e.IsSynced <;>
      cases mnpayments.IsTransactionValid e.GetXnodePayment txNew nBlockHeight <;>
      cases e.IsSporkActive SPORK_5_XNODE_PAYMENT_ENFORCEMENT <;> simp
  · cases e.IsSporkActive SPORK_4_XNODE_PAYMENT_START <;> cases e.IsSynced <;>
      cases mnpayments.IsTransactionValid e.GetXnodePayment txNew nBlockHeight <;>
      cases e.IsSporkActive SPORK_5_XNODE_PAYMENT_ENFORCEMENT <;> simp
  · intro hnone
    have : mnpayments.IsTransactionValid e.GetXnodePayment txNew nBlockHeight = true := by
      unfold CXnodePayments.IsTransactionValid
      rw [hnone]
    rw [this]
    cases e.IsSporkActive SPORK_4_XNODE_PAYMENT_START <;> cases e.IsSynced <;> simp

/-- C4 as stated fails: `CanVote` remembers only the last height of a voter.
From the empty store the calls `CanVote(o, 1)`, `CanVote(o, 2)`, `CanVote(o, 1)`
all return `true`, so `(o, 1)` is accepted twice. -/
theorem C4_counterexample :
    (CXnodePayments.init.CanVoteSeq
      [({ hash := 1, n := 0 }, 1), ({ hash := 1, n := 0 }, 2), ({ hash := 1, n := 0 }, 1)]).1
      = [true, true, true] := by
  decide

/-- C4 (amended): in every run of `CanVote` calls, from any state, in which the
voter `o` is asked about no height other than `h`, `CanVote(o, h)` returns
`true` at most once, whatever calls for other voters lie in between; and once
the last recorded height of `o` is `h`, every such call returns `false`. -/
theorem C4_CanVote_at_most_once (p : CXnodePayments) (o : COutPoint) (h : Int)
    (calls : List (COutPoint × Int)) (hcalls : ∀ c ∈ calls, c.1 = o → c.2 = h) :
    countAccepted o h calls (p.CanVoteSeq calls).1 ≤ 1
    ∧ countAccepted o h calls ((p.CanVote o h).2.CanVoteSeq calls).1 = 0 :=
  ⟨CanVoteSeq_atMostOnce p o h calls hcalls,
   CanVoteSeq_known (p.CanVote o h).2 o h calls hcalls (CanVote_records p o h)⟩

/-- Witness for C4 (amended): voter `(1, 0)` asked twice about height 1 with a
call of another voter in between is accepted once. -/
theorem C4_CanVote_at_most_once_witness :
    countAccepted { hash := 1, n := 0 } 1
      [({ hash := 1, n := 0 }, 1), ({ hash := 2, n := 0 }, 7), ({ hash := 1, n := 0 }, 1)]
      (CXnodePayments.init.CanVoteSeq
        [({ hash := 1, n := 0 }, 1), ({ hash := 2, n := 0 }, 7), ({ hash := 1, n := 0 }, 1)]).1 ≤ 1 :=
  (C4_CanVote_at_most_once CXnodePayments.init { hash := 1, n := 0 } 1
    [({ hash := 1, n := 0 }, 1), ({ hash := 2, n := 0 }, 7), ({ hash := 1, n := 0 }, 1)]
    (by decide)).1

/-! ## Ranking (C5) -/

theorem COutPoint.lt_irrefl (a : COutPoint) : a.lt a = false := by
  simp [COutPoint.lt]

theorem COutPoint.lt_trans {a b c : COutPoint} (h1 : a.lt b = true) (h2 : b.lt c = true) :
    a.lt c = true := by
  simp only [COutPoint.lt, decide_eq_true_eq] at *
  omega

theorem COutPoint.lt_asymm {a b : COutPoint} (h1 : a.lt b = true) : b.lt a = false := by
  simp only [COutPoint.lt, decide_eq_true_eq, decide_eq_false_iff_not] at *
  omega

theorem COutPoint.lt_total {a b : COutPoint} (h : a ≠ b) : a.lt b = true ∨ b.lt a = true := by
  simp only [COutPoint.lt, decide_eq_true_eq]
  have : a.hash ≠ b.hash ∨ a.n ≠ b.n := by
    by_contra hc
    push_neg at hc
    apply h
    cases a; cases b
    simp only [COutPoint.mk.injEq]
    exact hc
  omega

/-- Strict order of `CompareScoreMN` unfolded: the score decides, and the
outpoint on equal scores. -/
theorem CompareScoreMN_iff (x y : Int × CXnode) :
    CompareScoreMN x y = true ↔
      (x.1 < y.1 ∨ (x.1 = y.1 ∧ x.2.vin.prevout.lt y.2.vin.prevout = true)) := by
  unfold CompareScoreMN CTxIn.lt
  by_cases h : x.1 = y.1
  · simp [h]
  · simp only [ne_eq, h, not_false_eq_true, if_true, decide_eq_true_eq, false_and, or_false]

theorem CompareScoreMN_trans {x y z : Int × CXnode} (h1 : CompareScoreMN x y = true)
    (h2 : CompareScoreMN y z = true) : CompareScoreMN x z = true := by
  rw [CompareScoreMN_iff] at *
  rcases h1 with h1 | ⟨h1, h1b⟩ <;> rcases h2 with h2 | ⟨h2, h2b⟩
  · left; omega
  · left; omega
  · left; omega
  · right; exact ⟨by omega, COutPoint.lt_trans h1b h2b⟩

theorem CompareScoreMN_asymm {x y : Int × CXnode} (h1 : CompareScoreMN x y = true) :
    CompareScoreMN y x = false := by
  rw [Bool.eq_false_iff]
  intro h2
  rw [CompareScoreMN_iff] at *
  rcases h1 with h1 | ⟨h1, h1b⟩ <;> rcases h2 with h2 | ⟨h2, h2b⟩
  · omega
  · omega
  · omega
  · rw [COutPoint.lt_asymm h1b] at h2b; exact absurd h2b (by simp)

theorem CompareScoreMN_total {x y : Int × CXnode} (h : x.2.vin.prevout ≠ y.2.vin.prevout) :
    CompareScoreMN x y = true ∨ CompareScoreMN y x = true := by
  rw [CompareScoreMN_iff, CompareScoreMN_iff]
  rcases lt_trichotomy x.1 y.1 with h1 | h1 | h1
  · left; left; exact h1
  · rcases COutPoint.lt_total h with h2 | h2
    · left; right; exact ⟨h1, h2⟩
    · right; right; exact ⟨h1.symm, h2⟩
  · right; left; exact h1

theorem notAfter_CompareScoreMN_total :
    IsTotal (Int × CXnode) (fun a b => CompareScoreMN b a = false) :=
  ⟨fun a b => by
    show CompareScoreMN b a = false ∨ CompareScoreMN a b = false
    by_cases h : CompareScoreMN b a = true
    · right; exact CompareScoreMN_asymm h
    · left; simpa using h⟩

theorem notAfter_CompareScoreMN_trans :
    IsTrans (Int × CXnode) (fun a b => CompareScoreMN b a = false) :=
  ⟨fun a b c hab hbc => by
    show CompareScoreMN c a = false
    have hab : CompareScoreMN b a = false := hab
    have hbc : CompareScoreMN c b = false := hbc
    rw [Bool.eq_false_iff] at *
    intro hca
    rw [CompareScoreMN_iff] at hca
    have hab2 : ¬ (b.1 < a.1 ∨ (b.1 = a.1 ∧ b.2.vin.prevout.lt a.2.vin.prevout = true)) := by
      rw [← CompareScoreMN_iff]; exact hab
    have hbc2 : ¬ (c.1 < b.1 ∨ (c.1 = b.1 ∧ c.2.vin.prevout.lt b.2.vin.prevout = true)) := by
      rw [← CompareScoreMN_iff]; exact hbc
    push_neg at hab2 hbc2
    rcases hca with h | ⟨h1, h2⟩
    · omega
    · have e1 : b.1 = a.1 := by omega
      have e2 : c.1 = b.1 := by omega
      have n1 := hab2.2 e1
      have n2 := hbc2.2 e2
      by_cases hcb : c.2.vin.prevout = b.2.vin.prevout
      · rw [hcb] at h2; exact n1 h2
      · rcases COutPoint.lt_total hcb with h3 | h3
        · exact n2 h3
        · exact n1 (COutPoint.lt_trans h3 h2)⟩

/-- The sorted vector is a rearrangement of the input. -/
theorem stdSortReversed_perm {α : Type} (comp : α → α → Bool) (v : List α) :
    (stdSortReversed comp v).Perm v := by
  unfold stdSortReversed stdSort
  exact (List.reverse_perm _).trans ((List.perm_insertionSort _ _).trans (List.reverse_perm _))

/-- In the vector sorted by `CompareScoreMN` no entry is followed by a larger one. -/
theorem stdSortReversed_pairwise (v : List (Int × CXnode)) :
    (stdSortReversed CompareScoreMN v).Pairwise (fun x y => CompareScoreMN x y = false) := by
  unfold stdSortReversed stdSort
  rw [List.pairwise_reverse]
  have := @List.sorted_insertionSort _ (fun a b => CompareScoreMN b a = false) _
    notAfter_CompareScoreMN_total notAfter_CompareScoreMN_trans v.reverse
  exact this

theorem rankScan_not_mem (k : COutPoint) (S : List (Int × CXnode)) (c : Int)
    (h : ∀ x ∈ S, x.2.vin.prevout ≠ k) : rankScan k S c = -1 := by
  induction S generalizing c with
  | nil => rfl
  | cons a rest ih =>
    unfold rankScan
    rw [if_neg (h a (List.mem_cons_self _ _))]
    exact ih _ (fun x hx => h x (List.mem_cons_of_mem _ hx))

theorem rankScan_mem_bounds (k : COutPoint) (S : List (Int × CXnode)) (c : Int)
    (h : ∃ x ∈ S, x.2.vin.prevout = k) :
    c + 1 ≤ rankScan k S c ∧ rankScan k S c ≤ c + S.length := by
  induction S generalizing c with
  | nil => obtain ⟨x, hx, _⟩ := h; exact absurd hx (List.not_mem_nil _)
  | cons a rest ih =>
    unfold rankScan
    by_cases ha : a.2.vin.prevout = k
    · rw [if_pos ha]
      simp only [List.length_cons, Nat.cast_add, Nat.cast_one]
      omega
    · rw [if_neg ha]
      obtain ⟨x, hx, hxk⟩ := h
      rcases List.mem_cons.1 hx with rfl | hx
      · exact absurd hxk ha
      · have := ih (c + 1) ⟨x, hx, hxk⟩
        simp only [List.length_cons, Nat.cast_add, Nat.cast_one]
        omega

theorem rankScan_inj (S : List (Int × CXnode)) (c : Int)
    (hnd : (S.map (fun x => x.2.vin.prevout)).Nodup) (x y : Int × CXnode)
    (hx : x ∈ S) (hy : y ∈ S)
    (h : rankScan x.2.vin.prevout S c = rankScan y.2.vin.prevout S c) : x = y := by
  induction S generalizing c with
  | nil => exact absurd hx (List.not_mem_nil _)
  | cons a rest ih =>
    simp only [List.map_cons, List.nodup_cons, List.mem_map, not_exists, not_and] at hnd
    obtain ⟨hfresh, hnd⟩ := hnd
    unfold rankScan at h
    rcases List.mem_cons.1 hx with hxa | hx <;> rcases List.mem_cons.1 hy with hya | hy
    · rw [hxa, hya]
    · have hne : ¬ a.2.vin.prevout = y.2.vin.prevout := fun hh => hfresh y hy hh.symm
      rw [hxa, if_pos rfl, if_neg hne] at h
      have := (rankScan_mem_bounds y.2.vin.prevout rest (c + 1) ⟨y, hy, rfl⟩).1
      omega
    · have hne : ¬ a.2.vin.prevout = x.2.vin.prevout := fun hh => hfresh x hx hh.symm
      rw [hya, if_pos rfl, if_neg hne] at h
      have := (rankScan_mem_bounds x.2.vin.prevout rest (c + 1) ⟨x, hx, rfl⟩).1
      omega
    · have hnx : ¬ a.2.vin.prevout = x.2.vin.prevout := fun hh => hfresh x hx hh.symm
      have hny : ¬ a.2.vin.prevout = y.2.vin.prevout := fun hh => hfresh y hy hh.symm
      rw [if_neg hnx, if_neg hny] at h
      exact ih (c + 1) hnd hx hy h

theorem rankScan_surj (S : List (Int × CXnode)) (c : Int)
    (hnd : (S.map (fun x => x.2.vin.prevout)).Nodup) (r : Int)
    (h1 : c + 1 ≤ r) (h2 : r ≤ c + S.length) :
    ∃ x ∈ S, rankScan x.2.vin.prevout S c = r := by
  induction S generalizing c with
  | nil => simp only [List.length_nil, Nat.cast_zero] at h2; omega
  | cons a rest ih =>
    simp only [List.map_cons, List.nodup_cons, List.mem_map, not_exists, not_and] at hnd
    obtain ⟨hfresh, hnd⟩ := hnd
    by_cases hr : r = c + 1
    · refine ⟨a, List.mem_cons_self _ _, ?_⟩
      unfold rankScan
      rw [if_pos rfl, hr]
    · simp only [List.length_cons, Nat.cast_add, Nat.cast_one] at h2
      obtain ⟨x, hx, hxr⟩ := ih (c + 1) hnd (by omega) (by omega)
      refine ⟨x, List.mem_cons_of_mem _ hx, ?_⟩
      unfold rankScan
      rw [if_neg (fun hh => hfresh x hx hh.symm)]
      exact hxr

theorem rankScan_lt_rel (R : (Int × CXnode) → (Int × CXnode) → Prop)
    (S : List (Int × CXnode)) (c : Int) (hpw : S.Pairwise R)
    (hnd : (S.map (fun x => x.2.vin.prevout)).Nodup) (x y : Int × CXnode)
    (hx : x ∈ S) (hy : y ∈ S)
    (h : rankScan x.2.vin.prevout S c < rankScan y.2.vin.prevout S c) : R x y := by
  induction S generalizing c with
  | nil => exact absurd hx (List.not_mem_nil _)
  | cons a rest ih =>
    simp only [List.map_cons, List.nodup_cons, List.mem_map, not_exists, not_and] at hnd
    obtain ⟨hfresh, hnd⟩ := hnd
    rw [List.pairwise_cons] at hpw
    unfold rankScan at h
    rcases List.mem_cons.1 hx with hxa | hx <;> rcases List.mem_cons.1 hy with hya | hy
    · rw [hxa, hya, if_pos rfl] at h; omega
    · rw [hxa]; exact hpw.1 y hy
    · have hne : ¬ a.2.vin.prevout = x.2.vin.prevout := fun hh => hfresh x hx hh.symm
      rw [hya, if_pos rfl, if_neg hne] at h
      have := (rankScan_mem_bounds x.2.vin.prevout rest (c + 1) ⟨x, hx, rfl⟩).1
      omega
    · have hnx : ¬ a.2.vin.prevout = x.2.vin.prevout := fun hh => hfresh x hx hh.symm
      have hny : ¬ a.2.vin.prevout = y.2.vin.prevout := fun hh => hfresh y hy hh.symm
      rw [if_neg hnx, if_neg hny] at h
      exact ih (c + 1) hpw.2 hnd hx hy h

theorem rankEntry_some (e : Env) (blockHash : Nat) (p : Int) (f : Bool) (mn : CXnode)
    (x : Int × CXnode) (h : rankEntry e blockHash p f mn = some x) :
    x = (e.GetCompact (mn.CalculateScore e blockHash), mn) := by
  unfold rankEntry at h
  split at h
  · simp at h
  · split at h <;> split at h <;> simp at h <;> exact h.symm

/-- The candidates keep the pairwise distinct outpoints of the registry. -/
theorem rankCandidates_nodup (e : Env) (blockHash : Nat) (p : Int) (f : Bool) (l : List CXnode)
    (hnd : (l.map (fun mn => mn.vin.prevout)).Nodup) :
    ((rankCandidates e blockHash p f l).map (fun x => x.2.vin.prevout)).Nodup := by
  induction l with
  | nil => simp [rankCandidates]
  | cons a rest ih =>
    simp only [List.map_cons, List.nodup_cons, List.mem_map, not_exists, not_and] at hnd
    obtain ⟨hfresh, hnd⟩ := hnd
    have hsub : ∀ x ∈ rankCandidates e blockHash p f rest, x.2 ∈ rest := by
      intro x hx
      unfold rankCandidates at hx
      rw [List.mem_filterMap] at hx
      obtain ⟨mn, hmn, hsome⟩ := hx
      rw [rankEntry_some _ _ _ _ _ _ hsome]
      exact hmn
    unfold rankCandidates
    rw [List.filterMap_cons]
    split
    · exact ih hnd
    · rename_i b hb
      rw [List.map_cons, List.nodup_cons]
      refine ⟨?_, ih hnd⟩
      rw [rankEntry_some _ _ _ _ _ _ hb, List.mem_map]
      rintro ⟨x, hx, hxk⟩
      exact hfresh x.2 (hsub x hx) hxk

theorem rankCandidates_perm (e : Env) (blockHash : Nat) (p : Int) (f : Bool)
    (l1 l2 : List CXnode) (h : l1.Perm l2) :
    (rankCandidates e blockHash p f l1).Perm (rankCandidates e blockHash p f l2) :=
  List.Perm.filterMap _ h

/-- With pairwise distinct outpoints the sorted vector is strictly descending. -/
theorem stdSortReversed_strict (v : List (Int × CXnode))
    (hnd : (v.map (fun x => x.2.vin.prevout)).Nodup) :
    (stdSortReversed CompareScoreMN v).Pairwise (fun x y => CompareScoreMN y x = true) := by
  have hperm := stdSortReversed_perm CompareScoreMN v
  have hnd2 : ((stdSortReversed CompareScoreMN v).map (fun x => x.2.vin.prevout)).Nodup :=
    ((hperm.map _).nodup_iff).2 hnd
  have hpw := stdSortReversed_pairwise v
  unfold List.Nodup at hnd2
  rw [List.pairwise_map] at hnd2
  have := hpw.and hnd2
  refine this.imp ?_
  rintro a b ⟨h1, h2⟩
  rcases CompareScoreMN_total h2 with h | h
  · rw [h1] at h; exact absurd h (by simp)
  · exact h

/-- Two vectors with the same entries, both strictly descending, are equal. -/
theorem strict_sorted_unique (S1 S2 : List (Int × CXnode)) (hperm : S1.Perm S2)
    (h1 : S1.Pairwise (fun x y => CompareScoreMN y x = true))
    (h2 : S2.Pairwise (fun x y => CompareScoreMN y x = true)) : S1 = S2 := by
  have hanti : IsAntisymm (Int × CXnode) (fun x y => CompareScoreMN y x = true) :=
    ⟨fun a b hab hba => by
      rw [CompareScoreMN_asymm hab] at hba; exact absurd hba (by simp)⟩
  exact @List.eq_of_perm_of_sorted _ _ hanti S1 S2 hperm h1 h2

/-- C5: for a fixed block, minimum protocol and `fOnlyActive` flag, two
registries holding the same records (pairwise distinct outpoints) in a
different vector order give every outpoint the same `GetXnodeRank`; when the
block hash is known the ranks of the `n` eligible records are exactly `1..n`,
no two records share a rank, a record ranks before another exactly when its
score is higher or the scores tie and its outpoint is the larger one, and an
outpoint that is not eligible gets `-1`. -/
theorem C5_GetXnodeRank_deterministic (e : Env) (m1 m2 : CXnodeMan)
    (nBlockHeight nMinProtocol : Int) (fOnlyActive : Bool)
    (hperm : m1.vXnodes.Perm m2.vXnodes)
    (hnodup : (m1.vXnodes.map (fun mn => mn.vin.prevout)).Nodup) :
    (∀ vin : CTxIn, m1.GetXnodeRank e vin nBlockHeight nMinProtocol fOnlyActive
        = m2.GetXnodeRank e vin nBlockHeight nMinProtocol fOnlyActive)
    ∧ (∀ blockHash, e.GetBlockHash nBlockHeight = some blockHash →
        (∀ x ∈ rankCandidates e blockHash nMinProtocol fOnlyActive m1.vXnodes,
          1 ≤ m1.GetXnodeRank e x.2.vin nBlockHeight nMinProtocol fOnlyActive ∧
          m1.GetXnodeRank e x.2.vin nBlockHeight nMinProtocol fOnlyActive
            ≤ (rankCandidates e blockHash nMinProtocol fOnlyActive m1.vXnodes).length)
        ∧ (∀ r : Int, 1 ≤ r →
            r ≤ (rankCandidates e blockHash nMinProtocol fOnlyActive m1.vXnodes).length →
            ∃ x ∈ rankCandidates e blockHash nMinProtocol fOnlyActive m1.vXnodes,
              m1.GetXnodeRank e x.2.vin nBlockHeight nMinProtocol fOnlyActive = r)
        ∧ (∀ x ∈ rankCandidates e blockHash nMinProtocol fOnlyActive m1.vXnodes,
            ∀ y ∈ rankCandidates e blockHash nMinProtocol fOnlyActive m1.vXnodes,
            m1.GetXnodeRank e x.2.vin nBlockHeight nMinProtocol fOnlyActive
              = m1.GetXnodeRank e y.2.vin nBlockHeight nMinProtocol fOnlyActive → x = y)
        ∧ (∀ x ∈ rankCandidates e blockHash nMinProtocol fOnlyActive m1.vXnodes,
            ∀ y ∈ rankCandidates e blockHash nMinProtocol fOnlyActive m1.vXnodes,
            (m1.GetXnodeRank e x.2.vin nBlockHeight nMinProtocol fOnlyActive
              < m1.GetXnodeRank e y.2.vin nBlockHeight nMinProtocol fOnlyActive
              ↔ (y.1 < x.1 ∨ (y.1 = x.1 ∧ y.2.vin.prevout.lt x.2.vin.prevout = true))))
        ∧ (∀ vin : CTxIn,
            (∀ x ∈ rankCandidates e blockHash nMinProtocol fOnlyActive m1.vXnodes,
              x.2.vin.prevout ≠ vin.prevout) →
            m1.GetXnodeRank e vin nBlockHeight nMinProtocol fOnlyActive = -1)) := by
  constructor
  · intro vin
    unfold CXnodeMan.GetXnodeRank
    cases hbh : e.GetBlockHash nBlockHeight with
    | none => rfl
    | some blockHash =>
      simp only []
      have hnd1 := rankCandidates_nodup e blockHash nMinProtocol fOnlyActive m1.vXnodes hnodup
      have hcp := rankCandidates_perm e blockHash nMinProtocol fOnlyActive _ _ hperm
      have hnd2 : ((rankCandidates e blockHash nMinProtocol fOnlyActive m2.vXnodes).map
          (fun x => x.2.vin.prevout)).Nodup := ((hcp.map _).nodup_iff).1 hnd1
      have hS : stdSortReversed CompareScoreMN
            (rankCandidates e blockHash nMinProtocol fOnlyActive m1.vXnodes)
          = stdSortReversed CompareScoreMN
            (rankCandidates e blockHash nMinProtocol fOnlyActive m2.vXnodes) :=
        strict_sorted_unique _ _
          (((stdSortReversed_perm _ _).trans hcp).trans (stdSortReversed_perm _ _).symm)
          (stdSortReversed_strict _ hnd1) (stdSortReversed_strict _ hnd2)
      rw [hS]
  · intro blockHash hbh
    have hnd1 := rankCandidates_nodup e blockHash nMinProtocol fOnlyActive m1.vXnodes hnodup
    have hSperm := stdSortReversed_perm CompareScoreMN
      (rankCandidates e blockHash nMinProtocol fOnlyActive m1.vXnodes)
    have hSnd : ((stdSortReversed CompareScoreMN
        (rankCandidates e blockHash nMinProtocol fOnlyActive m1.vXnodes)).map
        (fun x => x.2.vin.prevout)).Nodup := ((hSperm.map _).nodup_iff).2 hnd1
    have hSstrict := stdSortReversed_strict _ hnd1
    have hrank : ∀ vin : CTxIn, m1.GetXnodeRank e vin nBlockHeight nMinProtocol fOnlyActive
        = rankScan vin.prevout (stdSortReversed CompareScoreMN
            (rankCandidates e blockHash nMinProtocol fOnlyActive m1.vXnodes)) 0 := by
      intro vin
      unfold CXnodeMan.GetXnodeRank
      rw [hbh]
    have hlen := hSperm.length_eq
    refine ⟨?_, ?_, ?_, ?_, ?_⟩
    · intro x hx
      rw [hrank]
      have := rankScan_mem_bounds x.2.vin.prevout _ 0 ⟨x, hSperm.mem_iff.2 hx, rfl⟩
      rw [hlen] at this
      omega
    · intro r h1 h2
      obtain ⟨x, hx, hxr⟩ := rankScan_surj _ 0 hSnd r (by omega) (by rw [hlen]; omega)
      exact ⟨x, hSperm.mem_iff.1 hx, by rw [hrank]; exact hxr⟩
    · intro x hx y hy h
      rw [hrank, hrank] at h
      exact rankScan_inj _ 0 hSnd x y (hSperm.mem_iff.2 hx) (hSperm.mem_iff.2 hy) h
    · intro x hx y hy
      rw [hrank, hrank, ← CompareScoreMN_iff]
      have hx2 := hSperm.mem_iff.2 hx
      have hy2 := hSperm.mem_iff.2 hy
      constructor
      · intro h
        exact rankScan_lt_rel _ _ 0 hSstrict hSnd x y hx2 hy2 h
      · intro h
        by_contra hnot
        have hle := not_lt.1 hnot
        rcases lt_or_eq_of_le hle with hlt | heq
        · have := rankScan_lt_rel _ _ 0 hSstrict hSnd y x hy2 hx2 hlt
          rw [CompareScoreMN_asymm h] at this
          exact absurd this (by simp)
        · have hyx := rankScan_inj _ 0 hSnd y x hy2 hx2 heq
          rw [hyx] at h
          rw [CompareScoreMN_asymm h] at h
          exact absurd h (by simp)
    · intro vin hne
      rw [hrank]
      exact rankScan_not_mem _ _ 0 (fun x hx => hne x (hSperm.mem_iff.1 hx))


/-- Witness for C5 (scenario S1): two sample records get the ranks 2 and 1
against block 10 whichever of them is stored first. -/
theorem C5_GetXnodeRank_deterministic_witness :
    [sampleXnode 1 0, sampleXnode 5 0].Perm [sampleXnode 5 0, sampleXnode 1 0]
    ∧ ({ CXnodeMan.init with vXnodes := [sampleXnode 1 0, sampleXnode 5 0] }).GetXnodeRank
          sampleEnv (sampleXnode 1 0).vin 10 0 true
        = ({ CXnodeMan.init with vXnodes := [sampleXnode 5 0, sampleXnode 1 0] }).GetXnodeRank
          sampleEnv (sampleXnode 1 0).vin 10 0 true
    ∧ ({ CXnodeMan.init with vXnodes := [sampleXnode 5 0, sampleXnode 1 0] }).GetXnodeRank
          sampleEnv (sampleXnode 1 0).vin 10 0 true = 2
    ∧ ({ CXnodeMan.init with vXnodes := [sampleXnode 5 0, sampleXnode 1 0] }).GetXnodeRank
          sampleEnv (sampleXnode 5 0).vin 10 0 true = 1 :=
  ⟨List.Perm.swap _ _ [],
   (C5_GetXnodeRank_deterministic sampleEnv
      { CXnodeMan.init with vXnodes := [sampleXnode 1 0, sampleXnode 5 0] }
      { CXnodeMan.init with vXnodes := [sampleXnode 5 0, sampleXnode 1 0] } 10 0 true
      (List.Perm.swap _ _ []) (by decide)).1 (sampleXnode 1 0).vin,
   by decide, by decide⟩

/-! ## Frame lemmas of the registry operations -/

theorem updateAt_map {α β : Type} (key : α → β) (g : α → α) (hg : ∀ x, key (g x) = key x)
    (l : List α) (i : Nat) : (updateAt l i g).map key = l.map key := by
  induction l generalizing i with
  | nil => cases i <;> rfl
  | cons a rest ih =>
    cases i with
    | zero => simp [updateAt, hg]
    | succ i => simp [updateAt, ih]

theorem updateAt_getElem {α : Type} (g : α → α) (l : List α) (i : Nat) :
    (updateAt l i g)[i]? = (l[i]?).map g := by
  induction l generalizing i with
  | nil => cases i <;> rfl
  | cons a rest ih =>
    cases i with
    | zero => simp [updateAt]
    | succ i => simp [updateAt, ih]

theorem updateAt_length {α : Type} (g : α → α) (l : List α) (i : Nat) :
    (updateAt l i g).length = l.length := by
  induction l generalizing i with
  | nil => cases i <;> rfl
  | cons a rest ih =>
    cases i with
    | zero => simp [updateAt]
    | succ i => simp [updateAt, ih]

theorem outpoints_of_announces (s1 s2 : State) (h : s2.announces = s1.announces) :
    s2.outpoints = s1.outpoints := by
  have h1 : ∀ s : State, s.outpoints = s.announces.map (fun a => a.1.prevout) := by
    intro s
    simp [State.outpoints, State.announces, CXnode.announce, List.map_map, Function.comp]
  rw [h1, h1, h]

theorem modifyXnode_announces (s : State) (i : Nat) (g : CXnode → CXnode)
    (hg : ∀ x, (g x).announce = x.announce) : (s.modifyXnode i g).announces = s.announces :=
  updateAt_map CXnode.announce g hg _ i

theorem modifyXnode_getXnode (s : State) (i : Nat) (g : CXnode → CXnode) :
    (s.modifyXnode i g).getXnode i = (s.getXnode i).map g :=
  updateAt_getElem g _ i

theorem CheckEnabled_announce (mn : CXnode) : mn.CheckEnabled.announce = mn.announce := by
  unfold CXnode.CheckEnabled
  split <;> rfl

theorem CheckState_announce (e : Env) (s : State) (mn : CXnode) :
    (CXnode.CheckState e s mn).announce = mn.announce := by
  unfold CXnode.CheckState
  simp only []
  repeat' split
  all_goals first | rfl | exact CheckEnabled_announce mn

theorem Check_announce (e : Env) (s : State) (lockMain fForce : Bool) (mn : CXnode) :
    (mn.Check e s lockMain fForce).announce = mn.announce := by
  unfold CXnode.Check
  simp only []
  repeat' split
  all_goals first
    | rfl
    | exact CheckState_announce e s _
    | (rw [CheckState_announce]
       unfold CXnode.DecreasePoSeBanScore
       split <;> rfl)

theorem CheckAt_announces (e : Env) (fForce : Bool) (i : Nat) (s : State) :
    (s.CheckAt e fForce i).announces = s.announces :=
  modifyXnode_announces s i _ (Check_announce e s true fForce)

theorem CheckAt_activeXnode (e : Env) (fForce : Bool) (i : Nat) (s : State) :
    (s.CheckAt e fForce i).activeXnode = s.activeXnode := rfl

theorem setSeenLastPing_announces (s : State) (hash : Nat) (mnp : CXnodePing) :
    ({ s with mnodeman := s.mnodeman.setSeenLastPing hash mnp } : State).announces
      = s.announces := by
  unfold CXnodeMan.setSeenLastPing State.announces
  split <;> rfl

theorem pingCheckAndUpdate_announces (e : Env) (mnp : CXnodePing) (pmn : Option Nat)
    (fFromNewBroadcast : Bool) (s : State) :
    (mnp.CheckAndUpdate e pmn fFromNewBroadcast s).2.announces = s.announces := by
  have hstep : ∀ s1 : State, s1.announces = s.announces →
      ∀ i hash, ((State.CheckAt e true i
        { (s1.modifyXnode i (fun pmn => { pmn with lastPing := mnp })) with
          mnodeman := (s1.modifyXnode i
            (fun pmn => { pmn with lastPing := mnp })).mnodeman.setSeenLastPing
              hash mnp })).announces = s.announces := by
    intro s1 h1 i hash
    rw [CheckAt_announces, setSeenLastPing_announces,
      modifyXnode_announces s1 i (fun pmn => { pmn with lastPing := mnp }) (fun x => rfl), h1]
  unfold CXnodePing.CheckAndUpdate
  simp only []
  repeat' split
  all_goals first
    | rfl
    | exact hstep _ rfl _ _

theorem setSeenLastPing_activeXnode (s : State) (hash : Nat) (mnp : CXnodePing) :
    ({ s with mnodeman := s.mnodeman.setSeenLastPing hash mnp } : State).activeXnode
      = s.activeXnode := rfl

theorem pingCheckAndUpdate_activeXnode (e : Env) (mnp : CXnodePing) (pmn : Option Nat)
    (fFromNewBroadcast : Bool) (s : State) :
    (mnp.CheckAndUpdate e pmn fFromNewBroadcast s).2.activeXnode = s.activeXnode := by
  unfold CXnodePing.CheckAndUpdate
  simp only []
  repeat' split
  all_goals rfl

theorem State.Grows.refl (s : State) : s.Grows s := ⟨⟨[], by simp⟩, fun h => h⟩

theorem State.Grows.trans {s1 s2 s3 : State} (h23 : s3.Grows s2) (h12 : s2.Grows s1) : s3.Grows s1 := by
  obtain ⟨⟨t2, ht2⟩, hu2⟩ := h23
  obtain ⟨⟨t1, ht1⟩, hu1⟩ := h12
  exact ⟨⟨t1 ++ t2, by rw [ht2, ht1, List.append_assoc]⟩, fun h => hu2 (hu1 h)⟩

theorem State.Grows.of_outpoints {s1 s2 : State} (h : s2.outpoints = s1.outpoints) : s2.Grows s1 :=
  ⟨⟨[], by simp [h]⟩, fun hu => by unfold State.UniqueOutpoints at *; rw [h]; exact hu⟩

theorem State.Grows.of_announces {s1 s2 : State} (h : s2.announces = s1.announces) : s2.Grows s1 :=
  State.Grows.of_outpoints (outpoints_of_announces s1 s2 h)

theorem takeBroadcastPing_announces (e : Env) (i : Nat) (mnb : CXnodeBroadcast) (s1 : State) :
    (CXnode.takeBroadcastPing e i mnb s1).announces = s1.announces := by
  unfold CXnode.takeBroadcastPing
  simp only []
  repeat' split
  all_goals first
    | rfl
    | exact pingCheckAndUpdate_announces e _ _ _ s1
    | exact (modifyXnode_announces _ i (fun pmn => { pmn with lastPing := mnb.lastPing })
        (fun x => rfl)).trans (pingCheckAndUpdate_announces e _ _ _ s1)
    | exact modifyXnode_announces s1 i (fun pmn => { pmn with lastPing := mnb.lastPing })
        (fun x => rfl)

theorem takeBroadcastPing_activeXnode (e : Env) (i : Nat) (mnb : CXnodeBroadcast) (s1 : State) :
    (CXnode.takeBroadcastPing e i mnb s1).activeXnode = s1.activeXnode := by
  unfold CXnode.takeBroadcastPing
  simp only []
  repeat' split
  all_goals first
    | rfl
    | exact pingCheckAndUpdate_activeXnode e _ _ _ s1

theorem UpdateFromNewBroadcast_stale (e : Env) (i : Nat) (mnb : CXnodeBroadcast) (s : State)
    (mn : CXnode) (hmn : s.getXnode i = some mn) (hrec : mnb.fRecovery = false)
    (hold : mnb.sigTime ≤ mn.sigTime) : CXnode.UpdateFromNewBroadcast e i mnb s = (false, s) := by
  unfold CXnode.UpdateFromNewBroadcast
  rw [hmn]
  simp [hrec, hold]

theorem UpdateFromNewBroadcast_notOwn (e : Env) (i : Nat) (mnb : CXnodeBroadcast) (s : State)
    (hown : ¬ (e.fXNode = true ∧ mnb.pubKeyXnode = s.activeXnode.pubKeyXnode)) :
    ((CXnode.UpdateFromNewBroadcast e i mnb s).1 = true ∧
      (CXnode.UpdateFromNewBroadcast e i mnb s).2.announces
        = (s.modifyXnode i (CXnode.takeBroadcast mnb)).announces ∧
      (CXnode.UpdateFromNewBroadcast e i mnb s).2.activeXnode = s.activeXnode)
    ∨ CXnode.UpdateFromNewBroadcast e i mnb s = (false, s) := by
  unfold CXnode.UpdateFromNewBroadcast
  split
  · right; rfl
  · split
    · right; rfl
    · simp only []
      have hact : (CXnode.takeBroadcastPing e i mnb
          (s.modifyXnode i (CXnode.takeBroadcast mnb))).activeXnode = s.activeXnode :=
        takeBroadcastPing_activeXnode e i mnb _
      rw [hact]
      have hnot : ¬ ((e.fXNode && decide (mnb.pubKeyXnode = s.activeXnode.pubKeyXnode)) = true) := by
        simpa using hown
      rw [if_neg hnot]
      left
      exact ⟨rfl, takeBroadcastPing_announces e i mnb _, hact⟩

theorem modifyXnode_outpoints (s : State) (i : Nat) (g : CXnode → CXnode)
    (hg : ∀ x, (g x).vin = x.vin) : (s.modifyXnode i g).outpoints = s.outpoints := by
  unfold State.outpoints State.modifyXnode
  exact updateAt_map (fun mn => mn.vin.prevout) g
    (fun x => by show (g x).vin.prevout = x.vin.prevout; rw [hg]) _ i

theorem modifyXnode_grows (s : State) (i : Nat) (g : CXnode → CXnode)
    (hg : ∀ x, (g x).vin = x.vin) : (s.modifyXnode i g).Grows s :=
  State.Grows.of_outpoints (modifyXnode_outpoints s i g hg)

theorem UpdateFromNewBroadcast_grows (e : Env) (hMS : e.ManageStateKeepsRegistry) (i : Nat)
    (mnb : CXnodeBroadcast) (s : State) : (CXnode.UpdateFromNewBroadcast e i mnb s).2.Grows s := by
  have h1 : (s.modifyXnode i (CXnode.takeBroadcast mnb)).Grows s :=
    modifyXnode_grows s i _ (fun x => rfl)
  have h2 : (CXnode.takeBroadcastPing e i mnb (s.modifyXnode i (CXnode.takeBroadcast mnb))).Grows s :=
    State.Grows.trans (State.Grows.of_announces (takeBroadcastPing_announces e i mnb _)) h1
  unfold CXnode.UpdateFromNewBroadcast
  simp only []
  repeat' split
  all_goals first
    | exact State.Grows.refl s
    | exact h2
    | exact State.Grows.trans (modifyXnode_grows _ i _ (fun x => rfl)) h2
    | exact State.Grows.trans (hMS _)
        (State.Grows.trans (modifyXnode_grows _ i _ (fun x => rfl)) h2)

theorem updateAt_map_comm {α β : Type} (key : α → β) (g : α → α) (g2 : β → β)
    (hg : ∀ x, key (g x) = g2 (key x)) (l : List α) (i : Nat) :
    (updateAt l i g).map key = updateAt (l.map key) i g2 := by
  induction l generalizing i with
  | nil => cases i <;> rfl
  | cons a rest ih =>
    cases i with
    | zero => simp [updateAt, hg]
    | succ i => simp [updateAt, ih]

theorem takeBroadcast_announces (s : State) (i : Nat) (mnb : CXnodeBroadcast) :
    (s.modifyXnode i (CXnode.takeBroadcast mnb)).announces
      = updateAt s.announces i (announceTake mnb) :=
  updateAt_map_comm CXnode.announce (CXnode.takeBroadcast mnb) (announceTake mnb)
    (fun _ => rfl) _ i

theorem getXnode_announce (s : State) (i : Nat) :
    (s.getXnode i).map CXnode.announce = s.announces[i]? := by
  unfold State.getXnode State.announces
  rw [List.getElem?_map]

theorem UpdateFromNewBroadcast_applies (e : Env) (i : Nat) (mnb : CXnodeBroadcast) (s : State)
    (mn : CXnode) (hmn : s.getXnode i = some mn)
    (hnew : mn.sigTime < mnb.sigTime ∨ mnb.fRecovery = true)
    (hown : ¬ (e.fXNode = true ∧ mnb.pubKeyXnode = s.activeXnode.pubKeyXnode)) :
    (CXnode.UpdateFromNewBroadcast e i mnb s).1 = true ∧
      (CXnode.UpdateFromNewBroadcast e i mnb s).2.announces
        = updateAt s.announces i (announceTake mnb) ∧
      (CXnode.UpdateFromNewBroadcast e i mnb s).2.activeXnode = s.activeXnode := by
  rcases UpdateFromNewBroadcast_notOwn e i mnb s hown with h | h
  · exact ⟨h.1, h.2.1.trans (takeBroadcast_announces s i mnb), h.2.2⟩
  · exfalso
    unfold CXnode.UpdateFromNewBroadcast at h
    rw [hmn] at h
    simp only [] at h
    have hc : ¬ ((decide (mnb.sigTime ≤ mn.sigTime) && !mnb.fRecovery) = true) := by
      rcases hnew with h1 | h1
      · simp; intro h2; omega
      · simp [h1]
    rw [if_neg hc] at h
    have hact : (CXnode.takeBroadcastPing e i mnb
        (s.modifyXnode i (CXnode.takeBroadcast mnb))).activeXnode = s.activeXnode :=
      takeBroadcastPing_activeXnode e i mnb _
    rw [hact] at h
    have hnot : ¬ ((e.fXNode && decide (mnb.pubKeyXnode = s.activeXnode.pubKeyXnode)) = true) := by
      simpa using hown
    rw [if_neg hnot] at h
    exact absurd (congrArg Prod.fst h) (by simp)

theorem Update_stale (e : Env) (i : Nat) (mnb : CXnodeBroadcast) (s : State)
    (mn : CXnode) (hmn : s.getXnode i = some mn) (hrec : mnb.fRecovery = false)
    (hold : mnb.sigTime ≤ mn.sigTime) : mnb.Update e i s = ((false, 0), s) := by
  unfold CXnodeBroadcast.Update
  rw [hmn]
  simp only []
  by_cases heq : mn.sigTime = mnb.sigTime
  · simp [heq, hrec]
  · have hgt : mn.sigTime > mnb.sigTime := by omega
    simp [heq, hgt]

theorem CheckAt_getXnode (e : Env) (fForce : Bool) (i : Nat) (s : State) :
    (s.CheckAt e fForce i).getXnode i = (s.getXnode i).map (CXnode.Check e s true fForce) :=
  modifyXnode_getXnode s i _

theorem Update_grows (e : Env) (hMS : e.ManageStateKeepsRegistry) (i : Nat)
    (mnb : CXnodeBroadcast) (s : State) : (mnb.Update e i s).2.Grows s := by
  have h1 : (s.CheckAt e false i).Grows s := State.Grows.of_announces (CheckAt_announces e false i s)
  have h2 := UpdateFromNewBroadcast_grows e hMS i mnb (s.CheckAt e false i)
  have h3 : ∀ s2 : State, s2.Grows (s.CheckAt e false i) →
      (((s2.CheckAt e false i).RelayInv InvType.MSG_XNODE_ANNOUNCE (e.GetHashMnb mnb)).AddedXnodeList
        e).Grows s := by
    intro s2 h
    have h4 : (s2.CheckAt e false i).Grows s2 :=
      State.Grows.of_announces (CheckAt_announces e false i s2)
    exact State.Grows.trans h4 (State.Grows.trans h h1)
  unfold CXnodeBroadcast.Update
  simp only []
  repeat' split
  all_goals first
    | exact State.Grows.refl s
    | exact h1
    | exact h3 _ h2
    | exact State.Grows.trans h2 h1

/-- A successful `Update` either skipped the record (announced too recently)
or went through `UpdateFromNewBroadcast`. -/
theorem Update_true_cases (e : Env) (i : Nat) (mnb : CXnodeBroadcast) (s : State) (mn : CXnode)
    (hmn : s.getXnode i = some mn) (hres : (mnb.Update e i s).1.1 = true) :
    ((!e.IsBroadcastedWithin (mn.Check e s true false) e.XNODE_MIN_MNB_SECONDS ||
        (e.fXNode && decide (mnb.pubKeyXnode = s.activeXnode.pubKeyXnode))) = false ∧
      (mnb.Update e i s).2 = s.CheckAt e false i)
    ∨ ((!e.IsBroadcastedWithin (mn.Check e s true false) e.XNODE_MIN_MNB_SECONDS ||
        (e.fXNode && decide (mnb.pubKeyXnode = s.activeXnode.pubKeyXnode))) = true ∧
      (mn.sigTime < mnb.sigTime ∨ mnb.fRecovery = true) ∧
      (mnb.Update e i s).2 =
        State.AddedXnodeList e
          (if (CXnode.UpdateFromNewBroadcast e i mnb (s.CheckAt e false i)).1 = true then
            ((CXnode.UpdateFromNewBroadcast e i mnb (s.CheckAt e false i)).2.CheckAt e false
              i).RelayInv InvType.MSG_XNODE_ANNOUNCE (e.GetHashMnb mnb)
           else (CXnode.UpdateFromNewBroadcast e i mnb (s.CheckAt e false i)).2)) := by
  have hget : (s.CheckAt e false i).getXnode i = some (mn.Check e s true false) := by
    rw [CheckAt_getXnode, hmn]; rfl
  unfold CXnodeBroadcast.Update at hres ⊢
  rw [hmn] at hres ⊢
  simp only [] at hres ⊢
  split at hres
  · simp at hres
  · split at hres
    · simp at hres
    · rename_i hne hngt
      rw [if_neg hne, if_neg hngt]
      rw [hget] at hres ⊢
      simp only [] at hres ⊢
      split at hres
      · simp at hres
      · split at hres
        · simp at hres
        · split at hres
          · simp at hres
          · rename_i hb hk hs
            rw [if_neg hb, if_neg hk, if_neg hs]
            have hnew : mn.sigTime < mnb.sigTime ∨ mnb.fRecovery = true := by
              by_cases hr : mnb.fRecovery = true
              · exact Or.inr hr
              · left
                simp only [Bool.not_eq_true] at hr
                simp only [hr, Bool.not_false, Bool.and_true, decide_eq_true_eq] at hne
                omega
            split
            · rename_i hc
              right
              exact ⟨hc, hnew, rfl⟩
            · rename_i hc
              left
              exact ⟨by simpa using hc, rfl⟩

/-- A successful `Update` of a record announced long enough ago, by an
announcement that is newer and not the node's own, installs the announcement. -/
theorem Update_applies (e : Env) (i : Nat) (mnb : CXnodeBroadcast) (s : State) (mn : CXnode)
    (hmn : s.getXnode i = some mn) (hres : (mnb.Update e i s).1.1 = true)
    (hown : ¬ (e.fXNode = true ∧ mnb.pubKeyXnode = s.activeXnode.pubKeyXnode))
    (hlong : e.IsBroadcastedWithin (mn.Check e s true false) e.XNODE_MIN_MNB_SECONDS = false) :
    (mnb.Update e i s).2.announces = updateAt s.announces i (announceTake mnb) ∧
      (mnb.Update e i s).2.activeXnode = s.activeXnode := by
  have hget : (s.CheckAt e false i).getXnode i = some (mn.Check e s true false) := by
    rw [CheckAt_getXnode, hmn]; rfl
  rcases Update_true_cases e i mnb s mn hmn hres with ⟨hc, _⟩ | ⟨_, hnew, heq⟩
  · rw [hlong] at hc; simp at hc
  · have hnew2 : (mn.Check e s true false).sigTime < mnb.sigTime ∨ mnb.fRecovery = true := by
      have := Check_announce e s true false mn
      have hsig : (mn.Check e s true false).sigTime = mn.sigTime :=
        congrArg (fun a => a.2.2.1) this
      rw [hsig]; exact hnew
    obtain ⟨h1, h2, h3⟩ := UpdateFromNewBroadcast_applies e i mnb (s.CheckAt e false i)
      (mn.Check e s true false) hget hnew2 hown
    rw [heq, if_pos h1]
    constructor
    · show ((CXnode.UpdateFromNewBroadcast e i mnb (s.CheckAt e false i)).2.CheckAt e false
        i).announces = _
      rw [CheckAt_announces, h2, CheckAt_announces]
    · exact h3

/-- An `Update` by an announcement that is not the node's own leaves the
announcements alone or installs a newer (or recovery) one. -/
theorem Update_notOwn_cases (e : Env) (i : Nat) (mnb : CXnodeBroadcast) (s : State)
    (hown : ¬ (e.fXNode = true ∧ mnb.pubKeyXnode = s.activeXnode.pubKeyXnode)) :
    (mnb.Update e i s).2.announces = s.announces
    ∨ (∃ mn, s.getXnode i = some mn ∧ (mn.sigTime < mnb.sigTime ∨ mnb.fRecovery = true) ∧
        (mnb.Update e i s).2.announces = updateAt s.announces i (announceTake mnb)) := by
  cases hmn : s.getXnode i with
  | none =>
    left
    unfold CXnodeBroadcast.Update
    rw [hmn]
  | some mn =>
    have hget : (s.CheckAt e false i).getXnode i = some (mn.Check e s true false) := by
      rw [CheckAt_getXnode, hmn]; rfl
    by_cases hres : (mnb.Update e i s).1.1 = true
    · rcases Update_true_cases e i mnb s mn hmn hres with ⟨_, heq⟩ | ⟨_, hnew, heq⟩
      · left; rw [heq]; exact CheckAt_announces e false i s
      · right
        refine ⟨mn, rfl, hnew, ?_⟩
        have hnew2 : (mn.Check e s true false).sigTime < mnb.sigTime ∨ mnb.fRecovery = true := by
          have := Check_announce e s true false mn
          have hsig : (mn.Check e s true false).sigTime = mn.sigTime :=
            congrArg (fun a => a.2.2.1) this
          rw [hsig]; exact hnew
        obtain ⟨h1, h2, _⟩ := UpdateFromNewBroadcast_applies e i mnb (s.CheckAt e false i)
          (mn.Check e s true false) hget hnew2 hown
        rw [heq, if_pos h1]
        show ((CXnode.UpdateFromNewBroadcast e i mnb (s.CheckAt e false i)).2.CheckAt e false
          i).announces = _
        rw [CheckAt_announces, h2, CheckAt_announces]
    · left
      unfold CXnodeBroadcast.Update at hres ⊢
      rw [hmn] at hres ⊢
      simp only [] at hres ⊢
      rw [hget] at hres ⊢
      simp only [] at hres ⊢
      repeat' split
      all_goals first
        | rfl
        | exact CheckAt_announces e false i s
        | (exfalso; apply hres; simp [*])

theorem announce_of_announces_eq (s s2 : State) (i : Nat) (mn mn2 : CXnode)
    (h : s2.announces = s.announces) (hmn : s.getXnode i = some mn)
    (hmn2 : s2.getXnode i = some mn2) : mn2.announce = mn.announce := by
  have h1 := getXnode_announce s i
  have h2 := getXnode_announce s2 i
  rw [hmn] at h1
  rw [hmn2, h, ← h1] at h2
  simpa using h2

theorem announce_of_announces_take (s s2 : State) (i : Nat) (mnb : CXnodeBroadcast)
    (mn mn2 : CXnode) (h : s2.announces = updateAt s.announces i (announceTake mnb))
    (hmn : s.getXnode i = some mn) (hmn2 : s2.getXnode i = some mn2) :
    mn2.announce = announceTake mnb mn.announce := by
  have h1 := getXnode_announce s i
  have h2 := getXnode_announce s2 i
  rw [hmn] at h1
  rw [hmn2, h, updateAt_getElem, ← h1] at h2
  simpa using h2

/-! ## Insertion and uniqueness of outpoints (C7, C8) -/

theorem findXnode_none_iff (p : COutPoint) (l : List CXnode) :
    findXnode p l = none ↔ ∀ x ∈ l, x.vin.prevout ≠ p := by
  induction l with
  | nil => simp [findXnode]
  | cons a rest ih =>
    unfold findXnode
    by_cases h : a.vin.prevout = p
    · simp [h]
    · rw [if_neg h]
      cases hf : findXnode p rest with
      | none =>
        rw [hf] at ih
        simp only [true_iff] at ih ⊢
        intro x hx
        rcases List.mem_cons.mp hx with hxa | hx
        · rw [hxa]; exact h
        · exact ih x hx
      | some j =>
        rw [hf] at ih
        simp only [false_iff, reduceCtorEq] at ih ⊢
        intro hall
        exact ih (fun x hx => hall x (List.mem_cons_of_mem _ hx))

theorem findXnode_some (p : COutPoint) (l : List CXnode) (i : Nat) (h : findXnode p l = some i) :
    ∃ mn, l[i]? = some mn ∧ mn.vin.prevout = p := by
  induction l generalizing i with
  | nil => simp [findXnode] at h
  | cons a rest ih =>
    unfold findXnode at h
    by_cases ha : a.vin.prevout = p
    · rw [if_pos ha] at h
      cases h
      exact ⟨a, by simp, ha⟩
    · rw [if_neg ha] at h
      cases hf : findXnode p rest with
      | none => rw [hf] at h; cases h
      | some j =>
        rw [hf] at h
        cases h
        obtain ⟨mn, h1, h2⟩ := ih j hf
        exact ⟨mn, by simpa using h1, h2⟩

/-- What `findXnode` returns depends on the outpoints of the list only. -/
theorem findXnode_congr (p : COutPoint) (l1 l2 : List CXnode)
    (h : l1.map (fun mn => mn.vin.prevout) = l2.map (fun mn => mn.vin.prevout)) :
    findXnode p l1 = findXnode p l2 := by
  induction l1 generalizing l2 with
  | nil =>
    cases l2 with
    | nil => rfl
    | cons b r => simp at h
  | cons a rest ih =>
    cases l2 with
    | nil => simp at h
    | cons b r =>
      simp only [List.map_cons, List.cons.injEq] at h
      unfold findXnode
      rw [h.1, ih r h.2]

theorem Add_none (m : CXnodeMan) (mn : CXnode) (h : m.Find mn.vin = none) :
    m.Add mn = (true, { m with vXnodes := m.vXnodes ++ [mn]
                               indexXnodes := m.indexXnodes.AddXnodeVIN mn.vin
                               fXnodesAdded := true }) := by
  unfold CXnodeMan.Add
  rw [h]

theorem Add_some (m : CXnodeMan) (mn : CXnode) (i : Nat) (h : m.Find mn.vin = some i) :
    m.Add mn = (false, m) := by
  unfold CXnodeMan.Add
  rw [h]

theorem Add_nodup (m : CXnodeMan) (mn : CXnode)
    (h : (m.vXnodes.map (fun x => x.vin.prevout)).Nodup) :
    ((m.Add mn).2.vXnodes.map (fun x => x.vin.prevout)).Nodup := by
  cases hf : m.Find mn.vin with
  | none =>
    rw [Add_none m mn hf]
    show ((m.vXnodes ++ [mn]).map (fun x => x.vin.prevout)).Nodup
    rw [List.map_append, List.nodup_append]
    refine ⟨h, by simp, ?_⟩
    have hall := (findXnode_none_iff mn.vin.prevout m.vXnodes).mp hf
    intro a ha hb
    simp only [List.map_cons, List.map_nil, List.mem_singleton] at hb
    obtain ⟨x, hx, hxa⟩ := List.mem_map.mp ha
    exact hall x hx (hxa.trans hb)
  | some i =>
    rw [Add_some m mn i hf]
    exact h

theorem Add_extends (m : CXnodeMan) (mn : CXnode) :
    ∃ added, (m.Add mn).2.vXnodes = m.vXnodes ++ added := by
  cases hf : m.Find mn.vin with
  | none => rw [Add_none m mn hf]; exact ⟨[mn], rfl⟩
  | some i => rw [Add_some m mn i hf]; exact ⟨[], by simp⟩

theorem State.Grows.of_Add (s : State) (mn : CXnode) :
    State.Grows { s with mnodeman := (s.mnodeman.Add mn).2 } s := by
  constructor
  · obtain ⟨added, h⟩ := Add_extends s.mnodeman mn
    refine ⟨added.map (fun x => x.vin.prevout), ?_⟩
    show ((s.mnodeman.Add mn).2.vXnodes.map _) = _
    rw [h, List.map_append]
    rfl
  · intro h
    exact Add_nodup s.mnodeman mn h

theorem CheckOutpoint_vXnodes (e : Env) (lockMain : Bool) (mnb : CXnodeBroadcast) (nDosIn : Int)
    (s : State) :
    (mnb.CheckOutpoint e lockMain nDosIn s).2.mnodeman.vXnodes = s.mnodeman.vXnodes ∧
    (mnb.CheckOutpoint e lockMain nDosIn s).2.activeXnode = s.activeXnode := by
  unfold CXnodeBroadcast.CheckOutpoint
  simp only []
  repeat' split
  all_goals exact ⟨rfl, rfl⟩

theorem AddedXnodeList_vXnodes (e : Env) (s : State) :
    (s.AddedXnodeList e).mnodeman.vXnodes = s.mnodeman.vXnodes ∧
    (s.AddedXnodeList e).activeXnode = s.activeXnode := ⟨rfl, rfl⟩

theorem addCheckedMnb_grows (e : Env) (hMS : e.ManageStateKeepsRegistry) (mnb : CXnodeBroadcast)
    (nDos : Int) (s : State) : (CXnodeMan.addCheckedMnb e mnb nDos s).2.Grows s := by
  have h0 : (mnb.CheckOutpoint e true nDos s).2.Grows s :=
    State.Grows.of_outpoints (by
      unfold State.outpoints
      rw [(CheckOutpoint_vXnodes e true mnb nDos s).1])
  have h1 := State.Grows.of_Add (mnb.CheckOutpoint e true nDos s).2 mnb.toCXnode
  have h2 := State.Grows.trans h1 h0
  have h3 : ∀ s2 : State, s2.Grows s → (e.ManageState s2).Grows s := by
    intro s2 h
    exact State.Grows.trans (hMS s2) h
  unfold CXnodeMan.addCheckedMnb
  simp only []
  repeat' split
  all_goals first
    | exact h0
    | exact h2
    | exact h3 _ h2

theorem seenMnb_vXnodes (e : Env) (pfrom : Option CNetAddr) (mnb : CXnodeBroadcast) (hash : Nat)
    (s : State) :
    (CXnodeMan.seenMnb e pfrom mnb hash s).mnodeman.vXnodes = s.mnodeman.vXnodes := by
  unfold CXnodeMan.seenMnb
  simp only []
  repeat' split
  all_goals rfl

theorem CheckMnbAndUpdateXnodeList_grows (e : Env) (hMS : e.ManageStateKeepsRegistry)
    (pfrom : Option CNetAddr) (mnbIn : CXnodeBroadcast) (s : State) :
    (CXnodeMan.CheckMnbAndUpdateXnodeList e pfrom mnbIn s).2.Grows s := by
  have hA : ∀ (mnb : CXnodeBroadcast) (nDos : Int) (s2 : State), s2.Grows s →
      (CXnodeMan.addCheckedMnb e mnb nDos s2).2.Grows s := by
    intro mnb nDos s2 h
    exact State.Grows.trans (addCheckedMnb_grows e hMS mnb nDos s2) h
  have hU : ∀ (mnb : CXnodeBroadcast) (i : Nat) (s2 : State), s2.Grows s →
      (mnb.Update e i s2).2.Grows s := by
    intro mnb i s2 h
    exact State.Grows.trans (Update_grows e hMS i mnb s2) h
  have hE : ∀ (s2 : State) (h : Nat), s2.Grows s → (s2.eraseSeenBroadcast h).Grows s := by
    intro s2 h hg
    exact hg
  unfold CXnodeMan.CheckMnbAndUpdateXnodeList
  simp only []
  split
  · exact State.Grows.of_outpoints (by
      unfold State.outpoints
      rw [seenMnb_vXnodes])
  · split
    · exact State.Grows.refl s
    · split
      · exact hA _ _ _ (State.Grows.refl s)
      · split
        · exact hA _ _ _ (State.Grows.refl s)
        · split
          · exact hU _ _ _ (State.Grows.refl s)
          · apply hA
            split
            · exact hE _ _ (hU _ _ _ (State.Grows.refl s))
            · exact hU _ _ _ (State.Grows.refl s)

theorem UpdateXnodeList_grows (e : Env) (hMS : e.ManageStateKeepsRegistry)
    (mnb : CXnodeBroadcast) (s : State) : (CXnodeMan.UpdateXnodeList e mnb s).Grows s := by
  have hF : ∀ (i : Nat) (s2 : State), s2.Grows s →
      (CXnode.UpdateFromNewBroadcast e i mnb s2).2.Grows s := by
    intro i s2 h
    exact State.Grows.trans (UpdateFromNewBroadcast_grows e hMS i mnb s2) h
  unfold CXnodeMan.UpdateXnodeList
  simp only []
  split
  · have h1 := State.Grows.of_Add
      { s with mnodeman :=
          { s.mnodeman with
            mapSeenXnodePing :=
              s.mnodeman.mapSeenXnodePing.insert (e.GetHashMnp mnb.lastPing) mnb.lastPing,
            mapSeenXnodeBroadcast :=
              s.mnodeman.mapSeenXnodeBroadcast.insert (e.GetHashMnb mnb) (e.GetTime, mnb) } }
      (CXnode.ofBroadcast mnb)
    split
    · exact h1
    · exact h1
  · split
    · exact State.Grows.refl s
    · split
      · exact hF _ _ (State.Grows.refl s)
      · exact hF _ _ (State.Grows.refl s)

/-! ## The sweep of `CheckAndRemove` (C8, C9) -/

theorem sweepLoop_vXnodes (e : Env) (rest kept : List CXnode) (st : SweepState) :
    (sweepLoop e kept rest st).m.vXnodes
      = kept ++ rest.filter (fun mn => !mn.IsOutpointSpent) := by
  induction rest generalizing kept st with
  | nil => simp [sweepLoop]
  | cons it rest ih =>
    unfold sweepLoop
    simp only []
    by_cases hsp : it.IsOutpointSpent = true
    · rw [if_pos hsp, ih]
      simp [hsp]
    · rw [if_neg hsp]
      have hf : (it :: rest).filter (fun mn => !mn.IsOutpointSpent)
          = it :: rest.filter (fun mn => !mn.IsOutpointSpent) := by
        simp [hsp]
      split
      · rw [ih, hf]; simp
      · rw [ih, hf]; simp

theorem sweepLoop_replies (e : Env) (rest kept : List CXnode) (st : SweepState) :
    (sweepLoop e kept rest st).m.mMnbRecoveryGoodReplies = st.m.mMnbRecoveryGoodReplies := by
  induction rest generalizing kept st with
  | nil => simp [sweepLoop]
  | cons it rest ih =>
    unfold sweepLoop
    simp only []
    repeat' split
    all_goals rw [ih]

theorem removeSpent_vXnodes (e : Env) (s : State) :
    (CXnodeMan.removeSpent e s).mnodeman.vXnodes
      = (s.mnodeman.vXnodes.map (CXnode.Check e s true false)).filter
          (fun mn => !mn.IsOutpointSpent) := by
  unfold CXnodeMan.removeSpent
  simp only []
  rw [sweepLoop_vXnodes]
  rfl

theorem removeSpent_replies (e : Env) (s : State) :
    (CXnodeMan.removeSpent e s).mnodeman.mMnbRecoveryGoodReplies
      = s.mnodeman.mMnbRecoveryGoodReplies := by
  unfold CXnodeMan.removeSpent
  simp only []
  rw [sweepLoop_replies]
  rfl

theorem removeSpent_unique (e : Env) (s : State) (h : s.UniqueOutpoints) :
    (CXnodeMan.removeSpent e s).UniqueOutpoints := by
  unfold State.UniqueOutpoints State.outpoints at h ⊢
  rw [removeSpent_vXnodes]
  have hsub : ((s.mnodeman.vXnodes.map (CXnode.Check e s true false)).filter
      (fun mn => !mn.IsOutpointSpent)).Sublist
      (s.mnodeman.vXnodes.map (CXnode.Check e s true false)) := List.filter_sublist _
  have hmap : (s.mnodeman.vXnodes.map (CXnode.Check e s true false)).map
      (fun mn => mn.vin.prevout) = s.mnodeman.vXnodes.map (fun mn => mn.vin.prevout) := by
    rw [List.map_map]
    apply List.map_congr_left
    intro mn _
    have := Check_announce e s true false mn
    exact congrArg (fun a => a.1.prevout) this
  have h2 := List.Sublist.map (fun mn : CXnode => mn.vin.prevout) hsub
  rw [hmap] at h2
  exact List.Nodup.sublist h2 h

theorem eraseReplies_grows (s : State) (hash : Nat) : (s.eraseReplies hash).Grows s :=
  State.Grows.refl s

theorem repliesLoop_grows (e : Env) (hMS : e.ManageStateKeepsRegistry)
    (l : List (Nat × List CXnodeBroadcast)) (s : State) : (repliesLoop e l s).Grows s := by
  induction l generalizing s with
  | nil => exact State.Grows.refl s
  | cons hd rest ih =>
    obtain ⟨hash, replies⟩ := hd
    unfold repliesLoop
    simp only []
    split
    · refine State.Grows.trans (ih _) ?_
      split
      · split
        · exact CheckMnbAndUpdateXnodeList_grows e hMS none _ _
        · exact State.Grows.refl s
      · exact State.Grows.refl s
    · exact State.Grows.trans (ih _) (State.Grows.refl s)

theorem eraseExpired_vXnodes (e : Env) (m : CXnodeMan) :
    (m.eraseExpired e).vXnodes = m.vXnodes := rfl

theorem CheckAndRebuildXnodeIndex_vXnodes (e : Env) (m : CXnodeMan) :
    (m.CheckAndRebuildXnodeIndex e).vXnodes = m.vXnodes := by
  unfold CXnodeMan.CheckAndRebuildXnodeIndex
  repeat' split
  all_goals rfl

/-- After the recovery replies are processed, `CheckAndRemove` leaves the
vector of records alone. -/
theorem CheckAndRemove_vXnodes (e : Env) (s : State) (hsync : e.IsXnodeListSynced = true) :
    (CXnodeMan.CheckAndRemove e s).mnodeman.vXnodes
      = (repliesLoop e (CXnodeMan.removeSpent e s).mnodeman.mMnbRecoveryGoodReplies
          (CXnodeMan.removeSpent e s)).mnodeman.vXnodes := by
  unfold CXnodeMan.CheckAndRemove
  simp only [hsync, Bool.not_true, Bool.false_eq_true, if_false]
  repeat' split
  all_goals first
    | rfl
    | exact CheckAndRebuildXnodeIndex_vXnodes e _

theorem CheckAndRemove_unique (e : Env) (hMS : e.ManageStateKeepsRegistry) (s : State)
    (h : s.UniqueOutpoints) : (CXnodeMan.CheckAndRemove e s).UniqueOutpoints := by
  by_cases hsync : e.IsXnodeListSynced = true
  · have h1 := removeSpent_unique e s h
    have h2 := (repliesLoop_grows e hMS (CXnodeMan.removeSpent e s).mnodeman.mMnbRecoveryGoodReplies
      (CXnodeMan.removeSpent e s)).2 h1
    unfold State.UniqueOutpoints State.outpoints at h2 ⊢
    rw [CheckAndRemove_vXnodes e s hsync]
    exact h2
  · unfold CXnodeMan.CheckAndRemove
    simp only [Bool.not_eq_true] at hsync
    simp only [hsync, Bool.not_false, if_true]
    exact h

/-- When `activeXnode.ManageState()` keeps the registry, the outpoints of
`vXnodes` are pairwise distinct in the empty registry, and stay so under
`CXnodeMan::Add`, `UpdateXnodeList`, `CheckAndRemove` and `Clear`; `Add`
returns true and appends the record when no stored record has its outpoint,
and otherwise returns false and changes nothing of the manager. -/
theorem unique_outpoints_kept (e : Env) (hMS : e.ManageStateKeepsRegistry) :
    (∀ s : State, s.mnodeman.vXnodes = [] → s.UniqueOutpoints)
    ∧ (∀ (s : State) (mn : CXnode), s.UniqueOutpoints →
        State.UniqueOutpoints { s with mnodeman := (s.mnodeman.Add mn).2 })
    ∧ (∀ (s : State) (mnb : CXnodeBroadcast), s.UniqueOutpoints →
        (CXnodeMan.UpdateXnodeList e mnb s).UniqueOutpoints)
    ∧ (∀ s : State, s.UniqueOutpoints → (CXnodeMan.CheckAndRemove e s).UniqueOutpoints)
    ∧ (∀ s : State, State.UniqueOutpoints { s with mnodeman := s.mnodeman.Clear })
    ∧ (∀ (m : CXnodeMan) (mn : CXnode),
        ((∀ x ∈ m.vXnodes, x.vin.prevout ≠ mn.vin.prevout) →
          (m.Add mn).1 = true ∧ (m.Add mn).2.vXnodes = m.vXnodes ++ [mn])
        ∧ ((∃ x ∈ m.vXnodes, x.vin.prevout = mn.vin.prevout) → m.Add mn = (false, m))) := by
  refine ⟨?_, ?_, ?_, ?_, ?_, ?_⟩
  · intro s h
    unfold State.UniqueOutpoints State.outpoints
    rw [h]
    exact List.nodup_nil
  · intro s mn h
    exact Add_nodup s.mnodeman mn h
  · intro s mnb h
    exact (UpdateXnodeList_grows e hMS mnb s).2 h
  · intro s h
    exact CheckAndRemove_unique e hMS s h
  · intro s
    exact List.nodup_nil
  · intro m mn
    constructor
    · intro h
      have hf : m.Find mn.vin = none := (findXnode_none_iff mn.vin.prevout m.vXnodes).mpr h
      rw [Add_none m mn hf]
      exact ⟨rfl, rfl⟩
    · intro h
      obtain ⟨x, hx, hxe⟩ := h
      cases hf : m.Find mn.vin with
      | none => exact absurd hxe ((findXnode_none_iff mn.vin.prevout m.vXnodes).mp hf x hx)
      | some i => exact Add_some m mn i hf

/-! ## Replacement of an announcement (C7) -/

theorem Check_congr (e : Env) (s1 s2 : State) (lockMain fForce : Bool) (mn : CXnode)
    (h1 : s1.mnodeman.vXnodes.length = s2.mnodeman.vXnodes.length)
    (h2 : s1.mnodeman.nLastWatchdogVoteTime = s2.mnodeman.nLastWatchdogVoteTime)
    (h3 : s1.activeXnode = s2.activeXnode) :
    mn.Check e s1 lockMain fForce = mn.Check e s2 lockMain fForce := by
  have hw : s1.mnodeman.IsWatchdogActive e = s2.mnodeman.IsWatchdogActive e := by
    unfold CXnodeMan.IsWatchdogActive
    rw [h2]
  have hcs : ∀ x : CXnode, CXnode.CheckState e s1 x = CXnode.CheckState e s2 x := by
    intro x
    unfold CXnode.CheckState
    rw [hw, h3]
  unfold CXnode.Check
  simp only [hcs, h1]

theorem SimpleCheck_snd (e : Env) (mnb : CXnodeBroadcast) :
    (mnb.SimpleCheck e).2 = mnb ∨
    (mnb.SimpleCheck e).2 = { mnb with nActiveState := XNODE_EXPIRED } := by
  unfold CXnodeBroadcast.SimpleCheck
  split
  · left; rfl
  · split
    · left; rfl
    · lift_lets
      intro fEmpty ping nDos mnb1
      have h1 : mnb1 = mnb ∨ mnb1 = { mnb with nActiveState := XNODE_EXPIRED } := by
        by_cases hc : (fEmpty || !ping.1) = true
        · right; exact if_pos hc
        · left; exact if_neg hc
      clear_value mnb1
      repeat' split
      all_goals exact h1

theorem SimpleCheck_announce (e : Env) (mnb : CXnodeBroadcast) :
    (mnb.SimpleCheck e).2.announce = mnb.announce ∧
    (mnb.SimpleCheck e).2.fRecovery = mnb.fRecovery := by
  rcases SimpleCheck_snd e mnb with h | h
  · rw [h]; exact ⟨rfl, rfl⟩
  · rw [h]; exact ⟨rfl, rfl⟩

theorem addCheckedMnb_found (e : Env) (mnb : CXnodeBroadcast) (nDos : Int) (S : State) (j : Nat)
    (hf : S.mnodeman.Find mnb.vin = some j)
    (hown : ¬ (e.fXNode = true ∧ mnb.pubKeyXnode = S.activeXnode.pubKeyXnode)) :
    (CXnodeMan.addCheckedMnb e mnb nDos S).2.mnodeman.vXnodes = S.mnodeman.vXnodes := by
  have hv := CheckOutpoint_vXnodes e true mnb nDos S
  have hf2 : (mnb.CheckOutpoint e true nDos S).2.mnodeman.Find mnb.vin = some j := by
    unfold CXnodeMan.Find at hf ⊢
    rw [hv.1]
    exact hf
  have hadd := Add_some _ mnb.toCXnode j hf2
  unfold CXnodeMan.addCheckedMnb
  simp only []
  split
  · split
    · rename_i hc
      exfalso
      simp only [Bool.and_eq_true, decide_eq_true_eq] at hc
      exact hown ⟨hc.1, hc.2.trans (congrArg (fun a => a.pubKeyXnode) hv.2)⟩
    · exact (congrArg (fun m => m.2.vXnodes) hadd).trans hv.1
  · exact hv.1

theorem Find_of_announces (S s : State) (g : CTxIn × CPubKey × Int × CService × CPubKey × List Nat × Int →
      CTxIn × CPubKey × Int × CService × CPubKey × List Nat × Int)
    (hg : ∀ a, (g a).1 = a.1) (i : Nat) (h : S.announces = updateAt s.announces i g)
    (vin : CTxIn) : S.mnodeman.Find vin = s.mnodeman.Find vin := by
  unfold CXnodeMan.Find
  apply findXnode_congr
  have h1 : ∀ s : State, s.mnodeman.vXnodes.map (fun mn => mn.vin.prevout)
      = s.announces.map (fun a => a.1.prevout) := by
    intro s
    simp [State.announces, CXnode.announce, List.map_map, Function.comp]
  rw [h1, h1, h]
  exact updateAt_map (fun a => a.1.prevout) g (fun a => by show (g a).1.prevout = a.1.prevout; rw [hg])
    _ i

theorem of_not_not_true {b : Bool} (h : ¬ ((!b) = true)) : b = true := by simpa using h

theorem ite_eraseSeenBroadcast_announces (c : Prop) [Decidable c] (S : State) (h : Nat) :
    (if c then S.eraseSeenBroadcast h else S).announces = S.announces ∧
    (if c then S.eraseSeenBroadcast h else S).activeXnode = S.activeXnode := by
  split
  · exact ⟨rfl, rfl⟩
  · exact ⟨rfl, rfl⟩

theorem announceTake_congr (a b : CXnodeBroadcast) (h : a.announce = b.announce) :
    announceTake a = announceTake b := by
  funext x
  unfold announceTake
  unfold CXnode.announce at h
  simp only [Prod.mk.injEq] at h
  obtain ⟨_, _, h3, h4, h5, h6, h7⟩ := h
  rw [h3, h4, h5, h6, h7]

/-- `Update` relative to a base state `s` that has the same records, active
node and watchdog time as the state `S2` it runs in. -/
theorem Update_applies_from (e : Env) (i : Nat) (mnb : CXnodeBroadcast) (s S2 : State)
    (mn : CXnode) (hres : (mnb.Update e i S2).1.1 = true)
    (hv : S2.mnodeman.vXnodes = s.mnodeman.vXnodes)
    (ha : S2.activeXnode = s.activeXnode)
    (hw : S2.mnodeman.nLastWatchdogVoteTime = s.mnodeman.nLastWatchdogVoteTime)
    (hmn : s.getXnode i = some mn)
    (hown : ¬ (e.fXNode = true ∧ mnb.pubKeyXnode = s.activeXnode.pubKeyXnode))
    (hlong : e.IsBroadcastedWithin (mn.Check e s true false) e.XNODE_MIN_MNB_SECONDS = false) :
    (mnb.Update e i S2).2.announces = updateAt s.announces i (announceTake mnb) ∧
      (mnb.Update e i S2).2.activeXnode = s.activeXnode := by
  have hmn2 : S2.getXnode i = some mn := by
    unfold State.getXnode at hmn ⊢
    rw [hv]; exact hmn
  have hown2 : ¬ (e.fXNode = true ∧ mnb.pubKeyXnode = S2.activeXnode.pubKeyXnode) := by
    rw [ha]; exact hown
  have hlong2 : e.IsBroadcastedWithin (mn.Check e S2 true false) e.XNODE_MIN_MNB_SECONDS
      = false := by
    rw [Check_congr e S2 s true false mn (by rw [hv]) hw ha]
    exact hlong
  have h := Update_applies e i mnb S2 mn hmn2 hres hown2 hlong2
  have han : S2.announces = s.announces := by
    unfold State.announces
    rw [hv]
  rw [h.1, h.2, han, ha]
  exact ⟨rfl, rfl⟩

/-- The effect of `CheckMnbAndUpdateXnodeList` on the announcements when it
accepts a new announcement for a stored outpoint. -/
theorem CheckMnbAndUpdateXnodeList_replaces (e : Env) (pfrom : Option CNetAddr)
    (mnbIn : CXnodeBroadcast) (s : State) (i : Nat) (mn : CXnode)
    (hunseen : s.mnodeman.mapSeenXnodeBroadcast.count (e.GetHashMnb mnbIn) = false)
    (hfind : s.mnodeman.Find mnbIn.vin = some i)
    (hmn : s.getXnode i = some mn)
    (hown : ¬ (e.fXNode = true ∧ mnbIn.pubKeyXnode = s.activeXnode.pubKeyXnode))
    (hlong : e.IsBroadcastedWithin (mn.Check e s true false) e.XNODE_MIN_MNB_SECONDS = false) :
    (CXnodeMan.CheckMnbAndUpdateXnodeList e pfrom mnbIn s).1.1 = true →
    (CXnodeMan.CheckMnbAndUpdateXnodeList e pfrom mnbIn s).2.announces
      = updateAt s.announces i (announceTake mnbIn) := by
  have hsc := SimpleCheck_announce e mnbIn
  have hvin : (mnbIn.SimpleCheck e).2.vin = mnbIn.vin := congrArg (fun a => a.1) hsc.1
  have hkey : (mnbIn.SimpleCheck e).2.pubKeyXnode = mnbIn.pubKeyXnode :=
    congrArg (fun a => a.2.2.2.2.1) hsc.1
  have htake := announceTake_congr _ _ hsc.1
  have hF : findXnode (mnbIn.SimpleCheck e).2.vin.prevout s.mnodeman.vXnodes = some i := by
    rw [hvin]; exact hfind
  have hown1 : ¬ (e.fXNode = true ∧
      (mnbIn.SimpleCheck e).2.pubKeyXnode = s.activeXnode.pubKeyXnode) := by
    rw [hkey]; exact hown
  unfold CXnodeMan.CheckMnbAndUpdateXnodeList
  simp only []
  split
  · rename_i h
    rw [hunseen] at h
    simp at h
  · split
    · intro h; exact absurd h (by simp)
    · split
      · rename_i heq
        exact absurd (hF.symm.trans heq) (by simp)
      · rename_i j heq
        have hj : j = i := Option.some.inj (heq.symm.trans hF)
        subst hj
        split
        · rename_i heq2
          exact absurd (hmn.symm.trans heq2) (by simp)
        · rename_i pmn heq2
          have hp : pmn = mn := Option.some.inj (heq2.symm.trans hmn)
          subst hp
          split
          · intro h; exact absurd h (by simp)
          · rename_i hupd
            intro _
            have hU := Update_applies_from e j (mnbIn.SimpleCheck e).2 s _ pmn
              (of_not_not_true hupd) rfl rfl rfl hmn hown1 hlong
            rw [htake] at hU
            have hFind := (Find_of_announces _ s (announceTake mnbIn) (fun _ => rfl) j hU.1
              (mnbIn.SimpleCheck e).2.vin).trans hF
            unfold State.announces at hU ⊢
            split
            · refine Eq.trans (congrArg (List.map CXnode.announce)
                (addCheckedMnb_found e _ _ _ j ?_ ?_)) ?_
              · exact hFind
              · exact fun h => hown1 ⟨h.1, h.2.trans (congrArg (fun a => a.pubKeyXnode) hU.2)⟩
              · exact hU.1
            · refine Eq.trans (congrArg (List.map CXnode.announce)
                (addCheckedMnb_found e _ _ _ j ?_ ?_)) ?_
              · exact hFind
              · exact fun h => hown1 ⟨h.1, h.2.trans (congrArg (fun a => a.pubKeyXnode) hU.2)⟩
              · exact hU.1

/-- C7 as stated fails: the stored sample record was announced 100 seconds
ago, the sample announcement for its outpoint is newer, not yet seen, passes
`SimpleCheck` and the signature check, has the same collateral key, the record
is not PoSe-banned and not the node's own; `CheckMnbAndUpdateXnodeList` returns
true, but `Update` skips `UpdateFromNewBroadcast` for a record announced within
`XNODE_MIN_MNB_SECONDS`, and the record keeps its old announce time, address,
node key and signature. -/
theorem C7_counterexample :
    (sampleState [sampleRecentXnode]).mnodeman.mapSeenXnodeBroadcast.count
        (sampleEnv.GetHashMnb sampleNewerMnb) = false
    ∧ (sampleNewerMnb.SimpleCheck sampleEnv).1.1 = true
    ∧ (sampleNewerMnb.CheckSignature sampleEnv).1 = true
    ∧ (sampleState [sampleRecentXnode]).mnodeman.Find sampleNewerMnb.vin = some 0
    ∧ (sampleState [sampleRecentXnode]).getXnode 0 = some sampleRecentXnode
    ∧ sampleRecentXnode.sigTime < sampleNewerMnb.sigTime
    ∧ sampleRecentXnode.pubKeyCollateralAddress = sampleNewerMnb.pubKeyCollateralAddress
    ∧ sampleRecentXnode.IsPoSeBanned = false
    ∧ sampleEnv.fXNode = false
    ∧ (CXnodeMan.CheckMnbAndUpdateXnodeList sampleEnv none sampleNewerMnb
        (sampleState [sampleRecentXnode])).1.1 = true
    ∧ (CXnodeMan.CheckMnbAndUpdateXnodeList sampleEnv none sampleNewerMnb
        (sampleState [sampleRecentXnode])).2.mnodeman.vXnodes.map
          (fun mn => (mn.sigTime, mn.addr, mn.pubKeyXnode, mn.vchSig))
      = [(sampleRecentXnode.sigTime, sampleRecentXnode.addr, sampleRecentXnode.pubKeyXnode,
          sampleRecentXnode.vchSig)]
    ∧ sampleRecentXnode.sigTime ≠ sampleNewerMnb.sigTime := by
  decide

/-- C7 (amended): when `CheckMnbAndUpdateXnodeList` processes a not-yet-seen
announcement for an outpoint already stored, the announcement is not the
node's own, the stored record after its `Check` was not announced within the
last `XNODE_MIN_MNB_SECONDS`, and the call returns true (so the announcement
passed `SimpleCheck` and the signature check, has the collateral key of the
record, and the record is not PoSe-banned), then the record stored for the
outpoint afterwards carries the announce time, address, node key, signature
and protocol version of the announcement. -/
theorem C7_newer_broadcast_replaces (e : Env) (pfrom : Option CNetAddr)
    (mnbIn : CXnodeBroadcast) (s : State) (i : Nat) (mn : CXnode)
    (hunseen : s.mnodeman.mapSeenXnodeBroadcast.count (e.GetHashMnb mnbIn) = false)
    (hfind : s.mnodeman.Find mnbIn.vin = some i)
    (hmn : s.getXnode i = some mn)
    (hown : ¬ (e.fXNode = true ∧ mnbIn.pubKeyXnode = s.activeXnode.pubKeyXnode))
    (hlong : e.IsBroadcastedWithin (mn.Check e s true false) e.XNODE_MIN_MNB_SECONDS = false)
    (hres : (CXnodeMan.CheckMnbAndUpdateXnodeList e pfrom mnbIn s).1.1 = true) :
    ∃ mn2, (CXnodeMan.CheckMnbAndUpdateXnodeList e pfrom mnbIn s).2.getXnode i = some mn2
      ∧ mn2.vin = mn.vin
      ∧ mn2.pubKeyCollateralAddress = mn.pubKeyCollateralAddress
      ∧ mn2.sigTime = mnbIn.sigTime
      ∧ mn2.addr = mnbIn.addr
      ∧ mn2.pubKeyXnode = mnbIn.pubKeyXnode
      ∧ mn2.vchSig = mnbIn.vchSig
      ∧ mn2.nProtocolVersion = mnbIn.nProtocolVersion := by
  have h := CheckMnbAndUpdateXnodeList_replaces e pfrom mnbIn s i mn hunseen hfind hmn hown hlong
    hres
  have h1 := getXnode_announce s i
  have h2 := getXnode_announce (CXnodeMan.CheckMnbAndUpdateXnodeList e pfrom mnbIn s).2 i
  rw [hmn] at h1
  rw [h, updateAt_getElem, ← h1] at h2
  cases hget : (CXnodeMan.CheckMnbAndUpdateXnodeList e pfrom mnbIn s).2.getXnode i with
  | none => rw [hget] at h2; simp at h2
  | some mn2 =>
    rw [hget] at h2
    simp only [Option.map_some', Option.some.injEq] at h2
    unfold announceTake CXnode.announce at h2
    simp only [Prod.mk.injEq] at h2
    obtain ⟨a1, a2, a3, a4, a5, a6, a7⟩ := h2
    exact ⟨mn2, rfl, a1, a2, a3, a4, a5, a6, a7⟩

/-- C7 (amended) at a sample: the record announced at 90000 takes over the
announcement made at 99950. -/
theorem C7_newer_broadcast_replaces_witness :
    (CXnodeMan.CheckMnbAndUpdateXnodeList sampleEnv none sampleNewerMnb
        (sampleState [sampleXnode 1 0])).1.1 = true
    ∧ ∃ mn2, (CXnodeMan.CheckMnbAndUpdateXnodeList sampleEnv none sampleNewerMnb
          (sampleState [sampleXnode 1 0])).2.getXnode 0 = some mn2
      ∧ mn2.vin = (sampleXnode 1 0).vin
      ∧ mn2.pubKeyCollateralAddress = (sampleXnode 1 0).pubKeyCollateralAddress
      ∧ mn2.sigTime = sampleNewerMnb.sigTime
      ∧ mn2.addr = sampleNewerMnb.addr
      ∧ mn2.pubKeyXnode = sampleNewerMnb.pubKeyXnode
      ∧ mn2.vchSig = sampleNewerMnb.vchSig
      ∧ mn2.nProtocolVersion = sampleNewerMnb.nProtocolVersion :=
  ⟨by decide,
    C7_newer_broadcast_replaces sampleEnv none sampleNewerMnb (sampleState [sampleXnode 1 0]) 0
      (sampleXnode 1 0) (by decide) (by decide) (by decide) (by decide) (by decide) (by decide)⟩

/-! ## Removal of spent collaterals (C9) -/

/-- C9 as stated fails, in two ways. With the list synced and an empty UTXO
set, the sample record was checked two seconds ago, so `Check` returns at its
`XNODE_CHECK_SECONDS` test: after `CheckAndRemove` the record is still in the
registry, in state `ENABLED`. And when recovery replies are pending for it, the
reply processed after the removal loop has `Update` check the record again,
which puts it in state `OUTPOINT_SPENT` and leaves it in the registry. The
environment is the sample one with the embedded controller as
`activeXnode.ManageState()`. -/
theorem C9_counterexample :
    sampleEnvNoCoins.IsXnodeListSynced = true
    ∧ sampleEnvNoCoins.getUTXO sampleJustChecked.vin.prevout = none
    ∧ (CXnodeMan.CheckAndRemove (sampleEnvNoCoins.withController sampleWalletEnv)
        (sampleState [sampleJustChecked])).mnodeman.vXnodes.map
          (fun mn => (mn.vin.prevout, mn.nActiveState))
      = [(sampleJustChecked.vin.prevout, XNODE_ENABLED)]
    ∧ (CXnodeMan.CheckAndRemove (sampleEnvNoCoins.withController sampleWalletEnv)
        sampleStateWithReplies).mnodeman.vXnodes.map
          (fun mn => (mn.vin.prevout, mn.nActiveState))
      = [(sampleJustChecked.vin.prevout, XNODE_OUTPOINT_SPENT)] := by
  decide

theorem Check_marks_spent (e : Env) (s : State) (mn : CXnode)
    (hrun : e.ShutdownRequested = false)
    (hdue : ¬ (e.GetTime - mn.nTimeLastChecked < e.XNODE_CHECK_SECONDS))
    (hunit : mn.fUnitTest = false)
    (hutxo : e.getUTXO mn.vin.prevout = none) :
    (mn.Check e s true false).nActiveState = XNODE_OUTPOINT_SPENT := by
  unfold CXnode.Check
  simp only [hrun, Bool.false_eq_true, if_false, Bool.not_false, Bool.true_and,
    decide_eq_true_eq, hdue, hunit, Bool.not_true, Bool.and_false, hutxo, Option.isNone_none,
    if_true]
  split
  · rename_i h
    simpa [CXnode.IsOutpointSpent] using h
  · rfl

/-- When `activeXnode.ManageState()` keeps the registry and the node list is
synced: what `CheckAndRemove` does with the records whose collateral is spent
and with the others. -/
theorem CheckAndRemove_sweeps_kept (e : Env) (s : State)
    (hsync : e.IsXnodeListSynced = true) (hMS : e.ManageStateKeepsRegistry) :
    (∀ mn ∈ s.mnodeman.vXnodes, e.ShutdownRequested = false →
        ¬ (e.GetTime - mn.nTimeLastChecked < e.XNODE_CHECK_SECONDS) → mn.fUnitTest = false →
        e.getUTXO mn.vin.prevout = none →
        (mn.Check e s true false).nActiveState = XNODE_OUTPOINT_SPENT ∧
        mn.Check e s true false ∉ (CXnodeMan.removeSpent e s).mnodeman.vXnodes)
    ∧ (CXnodeMan.removeSpent e s).mnodeman.vXnodes
        = (s.mnodeman.vXnodes.map (CXnode.Check e s true false)).filter
            (fun mn => !mn.IsOutpointSpent)
    ∧ (s.mnodeman.mMnbRecoveryGoodReplies = [] →
        (CXnodeMan.CheckAndRemove e s).mnodeman.vXnodes
          = (s.mnodeman.vXnodes.map (CXnode.Check e s true false)).filter
              (fun mn => !mn.IsOutpointSpent)
        ∧ ∀ mn ∈ (CXnodeMan.CheckAndRemove e s).mnodeman.vXnodes,
            mn.nActiveState ≠ XNODE_OUTPOINT_SPENT)
    ∧ (∃ added, (CXnodeMan.CheckAndRemove e s).outpoints
        = ((s.mnodeman.vXnodes.map (CXnode.Check e s true false)).filter
            (fun mn => !mn.IsOutpointSpent)).map (fun mn => mn.vin.prevout) ++ added) := by
  have hrem := removeSpent_vXnodes e s
  have hfin := CheckAndRemove_vXnodes e s hsync
  refine ⟨?_, hrem, ?_, ?_⟩
  · intro mn _ hrun hdue hunit hutxo
    have hm := Check_marks_spent e s mn hrun hdue hunit hutxo
    refine ⟨hm, ?_⟩
    rw [hrem]
    intro hmem
    have h2 := (List.mem_filter.mp hmem).2
    simp [CXnode.IsOutpointSpent, hm] at h2
  · intro hnone
    have hrep : (CXnodeMan.removeSpent e s).mnodeman.mMnbRecoveryGoodReplies = [] := by
      rw [removeSpent_replies]; exact hnone
    rw [hrep] at hfin
    have hfin2 : (CXnodeMan.CheckAndRemove e s).mnodeman.vXnodes
        = (s.mnodeman.vXnodes.map (CXnode.Check e s true false)).filter
            (fun mn => !mn.IsOutpointSpent) := by
      rw [hfin]
      exact hrem
    refine ⟨hfin2, ?_⟩
    intro mn hmem
    rw [hfin2] at hmem
    have h2 := (List.mem_filter.mp hmem).2
    simpa [CXnode.IsOutpointSpent] using h2
  · obtain ⟨added, hadd⟩ := (repliesLoop_grows e hMS
      (CXnodeMan.removeSpent e s).mnodeman.mMnbRecoveryGoodReplies (CXnodeMan.removeSpent e s)).1
    refine ⟨added, ?_⟩
    unfold State.outpoints at hadd ⊢
    rw [hfin, hadd, hrem]

/-! ## Record state machine (C10) -/

theorem Check_forced_eq (e : Env) (s : State) (mn : CXnode)
    (hrun : e.ShutdownRequested = false)
    (hnotspent : mn.nActiveState ≠ XNODE_OUTPOINT_SPENT)
    (hutxo : (e.getUTXO mn.vin.prevout).isSome = true)
    (hscore : mn.nPoSeBanScore < XNODE_POSE_BAN_MAX_SCORE)
    (hban : mn.nActiveState ≠ XNODE_POSE_BAN) :
    mn.Check e s true true = CXnode.CheckState e s { mn with nTimeLastChecked := e.GetTime } := by
  unfold CXnode.Check
  split
  · rename_i h; rw [hrun] at h; exact absurd h (by simp)
  split
  · rename_i h; simp at h
  simp only []
  split
  · rename_i h; simp [CXnode.IsOutpointSpent, hnotspent] at h
  split
  · rename_i h; simp at h
  split
  · rename_i h; simp [hutxo] at h
    rw [h.2] at hutxo; simp at hutxo
  split
  · rename_i h; simp [CXnode.IsPoSeBanned, hban] at h
  split
  · rename_i h; exact absurd h (by show ¬ (mn.nPoSeBanScore ≥ XNODE_POSE_BAN_MAX_SCORE); omega)
  rfl

theorem CheckState_synced_eq (e : Env) (s : State) (mn : CXnode)
    (hproto : GetMinXnodePaymentsProto e ≤ mn.nProtocolVersion)
    (hsync : e.IsXnodeListSynced = true)
    (hwd : (e.IsSynced && s.mnodeman.IsWatchdogActive e) = false) :
    CXnode.CheckState e s mn =
      if e.GetAdjustedTime - mn.lastPing.sigTime ≤ XNODE_NEW_START_REQUIRED_SECONDS then
        (if e.GetAdjustedTime - mn.lastPing.sigTime ≤ XNODE_EXPIRATION_SECONDS then mn.CheckEnabled
         else { mn with nActiveState := XNODE_EXPIRED })
      else { mn with nActiveState := XNODE_NEW_START_REQUIRED } := by
  unfold CXnode.CheckState
  simp only [hsync, hwd, CXnode.IsPingedWithin]
  split
  · rename_i h; simp at h; omega
  split
  · rename_i h; simp at h
  split
  · split
    · rename_i h1 h2
      simp at h2
      have h5 : ¬ (e.GetAdjustedTime - mn.lastPing.sigTime ≤ XNODE_NEW_START_REQUIRED_SECONDS) := by
        omega
      rw [if_neg h5]
    · split
      · rename_i h; simp at h
      · split
        · rename_i h1 h2 h3 h4
          simp at h2 h4
          have h5 : e.GetAdjustedTime - mn.lastPing.sigTime ≤ XNODE_NEW_START_REQUIRED_SECONDS := by
            omega
          have h6 : ¬ (e.GetAdjustedTime - mn.lastPing.sigTime ≤ XNODE_EXPIRATION_SECONDS) := by
            omega
          rw [if_pos h5, if_neg h6]
        · rename_i h1 h2 h3 h4
          simp at h2 h4
          have h5 : e.GetAdjustedTime - mn.lastPing.sigTime ≤ XNODE_NEW_START_REQUIRED_SECONDS := by
            omega
          have h6 : e.GetAdjustedTime - mn.lastPing.sigTime ≤ XNODE_EXPIRATION_SECONDS := by
            omega
          rw [if_pos h5, if_pos h6]
  · rename_i h; simp at h

theorem CheckState_synced_state (e : Env) (s : State) (mn : CXnode)
    (hproto : GetMinXnodePaymentsProto e ≤ mn.nProtocolVersion)
    (hsync : e.IsXnodeListSynced = true)
    (hwd : (e.IsSynced && s.mnodeman.IsWatchdogActive e) = false) :
    (CXnode.CheckState e s mn).nActiveState =
      if e.GetAdjustedTime - mn.lastPing.sigTime ≤ XNODE_NEW_START_REQUIRED_SECONDS then
        (if e.GetAdjustedTime - mn.lastPing.sigTime ≤ XNODE_EXPIRATION_SECONDS then
          (if mn.lastPing.sigTime - mn.sigTime < XNODE_MIN_MNP_SECONDS then XNODE_PRE_ENABLED
           else XNODE_ENABLED)
         else XNODE_EXPIRED)
      else XNODE_NEW_START_REQUIRED := by
  rw [CheckState_synced_eq e s mn hproto hsync hwd]
  unfold CXnode.CheckEnabled
  split
  · split
    · split <;> rfl
    · rfl
  · rfl


/-- C10 as stated fails: the sample record has its collateral present, score 0,
is not PoSe-banned, has an acceptable protocol, the list is synced and the
watchdog inactive, and its last ping is older than
`XNODE_NEW_START_REQUIRED_SECONDS`; but it is already in state `OUTPOINT_SPENT`
and a forced `Check` returns at `if (IsOutpointSpent()) return;` leaving that state. -/
theorem C10_counterexample :
    (sampleEnv.getUTXO sampleSpentXnode.vin.prevout).isSome = true
    ∧ sampleSpentXnode.nPoSeBanScore < XNODE_POSE_BAN_MAX_SCORE
    ∧ sampleSpentXnode.IsPoSeBanned = false
    ∧ GetMinXnodePaymentsProto sampleEnv ≤ sampleSpentXnode.nProtocolVersion
    ∧ sampleEnv.IsXnodeListSynced = true
    ∧ (sampleEnv.IsSynced && (sampleState [sampleSpentXnode]).mnodeman.IsWatchdogActive sampleEnv)
        = false
    ∧ sampleEnv.GetAdjustedTime - sampleSpentXnode.lastPing.sigTime
        > XNODE_NEW_START_REQUIRED_SECONDS
    ∧ (sampleSpentXnode.Check sampleEnv (sampleState [sampleSpentXnode]) true true).nActiveState
        = XNODE_OUTPOINT_SPENT := by
  decide

/-- C10 (amended): for a record that is not already in state `OUTPOINT_SPENT`,
with its collateral UTXO present, PoSe score below the maximum, not
PoSe-banned, protocol acceptable, the list synced and the watchdog inactive, a
forced `Check` that runs (no shutdown requested, `cs_main` acquired) sets
`NEW_START_REQUIRED` when the age of the last ping exceeds
`XNODE_NEW_START_REQUIRED_SECONDS`, sets `EXPIRED` when it exceeds
`XNODE_EXPIRATION_SECONDS` but not the new-start limit, and sets neither while
the last ping is younger than `XNODE_EXPIRATION_SECONDS`. -/
theorem C10_Check_expiry (e : Env) (s : State) (mn : CXnode)
    (hrun : e.ShutdownRequested = false)
    (hnotspent : mn.nActiveState ≠ XNODE_OUTPOINT_SPENT)
    (hutxo : (e.getUTXO mn.vin.prevout).isSome = true)
    (hscore : mn.nPoSeBanScore < XNODE_POSE_BAN_MAX_SCORE)
    (hban : mn.nActiveState ≠ XNODE_POSE_BAN)
    (hproto : GetMinXnodePaymentsProto e ≤ mn.nProtocolVersion)
    (hsync : e.IsXnodeListSynced = true)
    (hwd : (e.IsSynced && s.mnodeman.IsWatchdogActive e) = false) :
    (e.GetAdjustedTime - mn.lastPing.sigTime > XNODE_NEW_START_REQUIRED_SECONDS →
        (mn.Check e s true true).nActiveState = XNODE_NEW_START_REQUIRED)
    ∧ (e.GetAdjustedTime - mn.lastPing.sigTime > XNODE_EXPIRATION_SECONDS →
        e.GetAdjustedTime - mn.lastPing.sigTime ≤ XNODE_NEW_START_REQUIRED_SECONDS →
        (mn.Check e s true true).nActiveState = XNODE_EXPIRED)
    ∧ (e.GetAdjustedTime - mn.lastPing.sigTime < XNODE_EXPIRATION_SECONDS →
        (mn.Check e s true true).nActiveState ≠ XNODE_EXPIRED ∧
        (mn.Check e s true true).nActiveState ≠ XNODE_NEW_START_REQUIRED) := by
  have hcs := CheckState_synced_state e s { mn with nTimeLastChecked := e.GetTime } hproto hsync hwd
  rw [Check_forced_eq e s mn hrun hnotspent hutxo hscore hban, hcs]
  dsimp only
  refine ⟨?_, ?_, ?_⟩
  · intro h
    have h2 : ¬ (e.GetAdjustedTime - mn.lastPing.sigTime ≤ XNODE_NEW_START_REQUIRED_SECONDS) := by
      omega
    rw [if_neg h2]
  · intro h h3
    have h2 : ¬ (e.GetAdjustedTime - mn.lastPing.sigTime ≤ XNODE_EXPIRATION_SECONDS) := by omega
    rw [if_pos h3, if_neg h2]
  · intro h
    have h2 : e.GetAdjustedTime - mn.lastPing.sigTime ≤ XNODE_EXPIRATION_SECONDS := by omega
    have h3 : e.GetAdjustedTime - mn.lastPing.sigTime ≤ XNODE_NEW_START_REQUIRED_SECONDS := by
      simp only [XNODE_EXPIRATION_SECONDS, XNODE_NEW_START_REQUIRED_SECONDS] at *
      omega
    rw [if_pos h3, if_pos h2]
    split <;> simp

/-- C10 (amended) at a sample: the enabled record whose last ping is 20000
seconds old is set to `NEW_START_REQUIRED` by a forced `Check`. -/
theorem C10_Check_expiry_witness :
    sampleEnv.GetAdjustedTime - sampleSilentXnode.lastPing.sigTime
        > XNODE_NEW_START_REQUIRED_SECONDS
    ∧ (sampleSilentXnode.Check sampleEnv (sampleState [sampleSilentXnode]) true true).nActiveState
        = XNODE_NEW_START_REQUIRED :=
  ⟨by decide,
    (C10_Check_expiry sampleEnv (sampleState [sampleSilentXnode]) sampleSilentXnode
      (by decide) (by decide) (by decide) (by decide) (by decide) (by decide) (by decide)
      (by decide)).1 (by decide)⟩

/-! ## Protocol update and PoSe ban in `Check` (C11, C12) -/

theorem CheckEnabled_state (mn : CXnode) :
    mn.CheckEnabled.nActiveState = XNODE_PRE_ENABLED ∨
    mn.CheckEnabled.nActiveState = XNODE_ENABLED := by
  unfold CXnode.CheckEnabled
  split
  · left; rfl
  · right; rfl

theorem CheckEnabled_score (mn : CXnode) :
    mn.CheckEnabled.nPoSeBanScore = mn.nPoSeBanScore ∧
    mn.CheckEnabled.nPoSeBanHeight = mn.nPoSeBanHeight := by
  unfold CXnode.CheckEnabled
  split
  · exact ⟨rfl, rfl⟩
  · exact ⟨rfl, rfl⟩

theorem CheckState_score (e : Env) (s : State) (mn : CXnode) :
    (CXnode.CheckState e s mn).nPoSeBanScore = mn.nPoSeBanScore ∧
    (CXnode.CheckState e s mn).nPoSeBanHeight = mn.nPoSeBanHeight := by
  have h := CheckEnabled_score mn
  unfold CXnode.CheckState
  simp only []
  repeat' split
  all_goals first
    | exact ⟨rfl, rfl⟩
    | exact h

theorem CheckState_update_required (e : Env) (s : State) (mn : CXnode)
    (hproto : mn.nProtocolVersion < GetMinXnodePaymentsProto e) :
    (CXnode.CheckState e s mn).nActiveState = XNODE_UPDATE_REQUIRED := by
  unfold CXnode.CheckState
  simp only [hproto, decide_True, if_true]

/-- `CheckState` never leaves a record that entered in state `POSE_BAN` in
that state. -/
theorem CheckState_not_banned (e : Env) (s : State) (mn : CXnode)
    (hban : mn.nActiveState = XNODE_POSE_BAN) :
    (CXnode.CheckState e s mn).nActiveState ≠ XNODE_POSE_BAN := by
  have h := CheckEnabled_state mn
  have h1 : mn.CheckEnabled.nActiveState ≠ XNODE_POSE_BAN := by
    rcases h with h | h <;> rw [h] <;> simp
  unfold CXnode.CheckState
  simp only [CXnode.IsExpired, CXnode.IsWatchdogExpired, CXnode.IsNewStartRequired, hban]
  repeat' split
  all_goals first
    | exact h1
    | (intro hx; cases hx)
    | (rename_i hc; simp at hc)

/-- A `Check` that runs on a record in state `POSE_BAN` whose ban height is
reached: the score is decremented and the state re-evaluated. -/
theorem Check_unban_eq (e : Env) (s : State) (fForce : Bool) (mn : CXnode)
    (hrun : e.ShutdownRequested = false)
    (hdue : fForce = true ∨ ¬ (e.GetTime - mn.nTimeLastChecked < e.XNODE_CHECK_SECONDS))
    (hutxo : (e.getUTXO mn.vin.prevout).isSome = true)
    (hban : mn.nActiveState = XNODE_POSE_BAN)
    (hheight : ¬ ((if mn.fUnitTest then 0 else e.chainHeight) < mn.nPoSeBanHeight)) :
    mn.Check e s true fForce =
      CXnode.CheckState e s
        (CXnode.DecreasePoSeBanScore { mn with nTimeLastChecked := e.GetTime }) := by
  unfold CXnode.Check
  split
  · rename_i h; rw [hrun] at h; exact absurd h (by simp)
  split
  · rename_i h
    simp only [Bool.and_eq_true, Bool.not_eq_true', decide_eq_true_eq] at h
    rcases hdue with hd | hd
    · rw [hd] at h; exact absurd h.1 (by simp)
    · exact absurd h.2 hd
  simp only []
  split
  · rename_i h; simp [CXnode.IsOutpointSpent, hban] at h
  split
  · rename_i h; simp at h
  split
  · rename_i h; simp [hutxo] at h
    rw [h.2] at hutxo; simp at hutxo
  dsimp only
  have hb : CXnode.IsPoSeBanned { mn with nTimeLastChecked := e.GetTime } = true := by
    simp [CXnode.IsPoSeBanned, hban]
  rw [if_pos hb]

/-- C11 as stated fails: the sample record has its collateral present and a
protocol version below the required minimum, but its PoSe score is at the ban
maximum; a forced `Check` bans it at `xnode.cpp:196` and returns before the
protocol test, leaving it in state `POSE_BAN`. -/
theorem C11_counterexample :
    (sampleEnv.getUTXO sampleOldProtoXnode.vin.prevout).isSome = true
    ∧ sampleOldProtoXnode.nProtocolVersion < GetMinXnodePaymentsProto sampleEnv
    ∧ (sampleOldProtoXnode.Check sampleEnv (sampleState [sampleOldProtoXnode]) true true).nActiveState
        = XNODE_POSE_BAN := by
  decide

/-- C11 (amended): for every record that is not in state `OUTPOINT_SPENT`, and
that is either not PoSe-banned with a PoSe score below the ban maximum or
PoSe-banned with its ban height reached, whatever its state otherwise, whose
collateral UTXO is present and whose protocol version is below
`GetMinXnodePaymentsProto()`, a forced `Check` that runs (no shutdown
requested, `cs_main` acquired) leaves the record in state `UPDATE_REQUIRED`. -/
theorem C11_Check_update_required (e : Env) (s : State) (mn : CXnode)
    (hrun : e.ShutdownRequested = false)
    (hnotspent : mn.nActiveState ≠ XNODE_OUTPOINT_SPENT)
    (hutxo : (e.getUTXO mn.vin.prevout).isSome = true)
    (hpose : (mn.nActiveState ≠ XNODE_POSE_BAN ∧ mn.nPoSeBanScore < XNODE_POSE_BAN_MAX_SCORE) ∨
      (mn.nActiveState = XNODE_POSE_BAN ∧
        ¬ ((if mn.fUnitTest then 0 else e.chainHeight) < mn.nPoSeBanHeight)))
    (hproto : mn.nProtocolVersion < GetMinXnodePaymentsProto e) :
    (mn.Check e s true true).nActiveState = XNODE_UPDATE_REQUIRED := by
  rcases hpose with ⟨hban, hscore⟩ | ⟨hban, hheight⟩
  · rw [Check_forced_eq e s mn hrun hnotspent hutxo hscore hban]
    exact CheckState_update_required e s _ hproto
  · rw [Check_unban_eq e s true mn hrun (Or.inl rfl) hutxo hban hheight]
    apply CheckState_update_required e s _
    rw [DecreasePoSeBanScore_eq]
    exact hproto

/-- C11 (amended) at a sample: the record with an outdated protocol and score 0
is set to `UPDATE_REQUIRED`. -/
theorem C11_Check_update_required_witness :
    sampleOldProtoCleanXnode.nProtocolVersion < GetMinXnodePaymentsProto sampleEnv
    ∧ (sampleOldProtoCleanXnode.Check sampleEnv (sampleState [sampleOldProtoCleanXnode]) true
        true).nActiveState = XNODE_UPDATE_REQUIRED :=
  ⟨by decide,
    C11_Check_update_required sampleEnv (sampleState [sampleOldProtoCleanXnode])
      sampleOldProtoCleanXnode (by decide) (by decide) (by decide) (Or.inl (by decide))
      (by decide)⟩

/-- C12 as stated fails, in each of its three sentences. A record in state
`POSE_BAN` whose ban height 300 lies above the chain height 200 is put in state
`OUTPOINT_SPENT` by a `Check` that finds its collateral gone. A banned record
whose ban height 150 is reached, last checked two seconds ago, is left as it
is by a `Check` that is not forced: no score is decremented. And a forced
`Check` of a record with its collateral present, not banned and with score 5
does not ban it when the record is in state `OUTPOINT_SPENT` or a shutdown is
requested, and for a unit-test record it sets the ban height to the registry
size 1, not to the chain height plus the registry size. -/
theorem C12_counterexample :
    sampleEnvNoCoins.chainHeight < (sampleBannedXnode 300).nPoSeBanHeight
    ∧ ((sampleBannedXnode 300).Check sampleEnvNoCoins (sampleState [sampleBannedXnode 300]) true
        true).nActiveState = XNODE_OUTPOINT_SPENT
    ∧ (sampleBannedXnode 150).nPoSeBanHeight ≤ sampleEnv.chainHeight
    ∧ ({ sampleBannedXnode 150 with nTimeLastChecked := 99998 } : CXnode).Check sampleEnv
        (sampleState [sampleBannedXnode 150]) true false
      = { sampleBannedXnode 150 with nTimeLastChecked := 99998 }
    ∧ (sampleEnv.getUTXO sampleOldProtoXnode.vin.prevout).isSome = true
    ∧ (({ sampleOldProtoXnode with nActiveState := XNODE_OUTPOINT_SPENT } : CXnode).Check
        sampleEnv (sampleState [sampleOldProtoXnode]) true true).nActiveState
      = XNODE_OUTPOINT_SPENT
    ∧ (sampleOldProtoXnode.Check { sampleEnv with ShutdownRequested := true }
        (sampleState [sampleOldProtoXnode]) true true).nActiveState = XNODE_ENABLED
    ∧ (({ sampleOldProtoXnode with fUnitTest := true } : CXnode).Check sampleEnv
        (sampleState [sampleOldProtoXnode]) true true).nPoSeBanHeight = 1 := by
  decide

/-- C12 (amended): a forced `Check` that reaches the UTXO test (no shutdown
requested, record not in state `OUTPOINT_SPENT`, not a unit-test record,
`cs_main` acquired) and finds the collateral present, the record not PoSe-banned
and its score at least `XNODE_POSE_BAN_MAX_SCORE`, sets state `POSE_BAN` and the
ban height to the chain height plus the registry size. While the collateral is
present and the chain height is below the ban height of a record in state
`POSE_BAN`, every `Check` leaves state, score and ban height unchanged. The
first `Check` that runs (forced, or not within `XNODE_CHECK_SECONDS` of the
last one) at or above the ban height with the collateral present applies
`DecreasePoSeBanScore`, which lowers a positive score by one, and re-evaluates
the state, which is then not `POSE_BAN`. -/
theorem C12_pose_ban_cycle (e : Env) (s : State) (mn : CXnode)
    (hunit : mn.fUnitTest = false)
    (hutxo : (e.getUTXO mn.vin.prevout).isSome = true) :
    (e.ShutdownRequested = false → mn.nActiveState ≠ XNODE_OUTPOINT_SPENT →
        mn.nActiveState ≠ XNODE_POSE_BAN → mn.nPoSeBanScore ≥ XNODE_POSE_BAN_MAX_SCORE →
        (mn.Check e s true true).nActiveState = XNODE_POSE_BAN ∧
        (mn.Check e s true true).nPoSeBanHeight = e.chainHeight + s.mnodeman.vXnodes.length ∧
        (mn.Check e s true true).nPoSeBanScore = mn.nPoSeBanScore)
    ∧ (mn.nActiveState = XNODE_POSE_BAN → e.chainHeight < mn.nPoSeBanHeight →
        ∀ lockMain fForce : Bool,
          (mn.Check e s lockMain fForce).nActiveState = XNODE_POSE_BAN ∧
          (mn.Check e s lockMain fForce).nPoSeBanScore = mn.nPoSeBanScore ∧
          (mn.Check e s lockMain fForce).nPoSeBanHeight = mn.nPoSeBanHeight)
    ∧ (mn.nActiveState = XNODE_POSE_BAN → mn.nPoSeBanHeight ≤ e.chainHeight →
        e.ShutdownRequested = false →
        ∀ fForce : Bool,
          (fForce = true ∨ ¬ (e.GetTime - mn.nTimeLastChecked < e.XNODE_CHECK_SECONDS)) →
          (mn.Check e s true fForce).nPoSeBanScore = mn.DecreasePoSeBanScore.nPoSeBanScore ∧
          (0 < mn.nPoSeBanScore →
            (mn.Check e s true fForce).nPoSeBanScore = mn.nPoSeBanScore - 1) ∧
          (mn.Check e s true fForce).nActiveState ≠ XNODE_POSE_BAN ∧
          mn.Check e s true fForce = CXnode.CheckState e s
            (CXnode.DecreasePoSeBanScore { mn with nTimeLastChecked := e.GetTime })) := by
  have hn : (e.getUTXO mn.vin.prevout).isNone = false := by
    cases hx : e.getUTXO mn.vin.prevout with
    | none => rw [hx] at hutxo; simp at hutxo
    | some v => rfl
  refine ⟨?_, ?_, ?_⟩
  · intro hrun hnotspent hnb hscore
    have hcheck : mn.Check e s true true =
        { mn with nTimeLastChecked := e.GetTime, nActiveState := XNODE_POSE_BAN,
                  nPoSeBanHeight := e.chainHeight + s.mnodeman.vXnodes.length } := by
      unfold CXnode.Check
      simp only [hrun, Bool.false_eq_true, if_false, Bool.not_true, Bool.false_and,
        CXnode.IsOutpointSpent, hnotspent, decide_False, hunit, Bool.not_false, Bool.true_and,
        CXnode.IsPoSeBanned, hnb, hscore, if_true, hn]
    rw [hcheck]
    exact ⟨rfl, rfl, rfl⟩
  · intro hban hlow lockMain fForce
    unfold CXnode.Check
    simp only [CXnode.IsOutpointSpent, hban, CXnode.IsPoSeBanned, hunit, hn, hlow,
      Bool.false_eq_true, if_false, decide_True, if_true, Bool.not_false, Bool.true_and,
      Bool.and_false, decide_False, reduceCtorEq]
    repeat' split
    all_goals first
      | exact ⟨hban, rfl, rfl⟩
      | exact ⟨rfl, rfl, rfl⟩
  · intro hban hhigh hrun fForce hdue
    have hheight : ¬ ((if mn.fUnitTest then 0 else e.chainHeight) < mn.nPoSeBanHeight) := by
      rw [hunit]
      simp only [Bool.false_eq_true, if_false]
      omega
    have heq := Check_unban_eq e s fForce mn hrun hdue hutxo hban hheight
    have hsc : (mn.Check e s true fForce).nPoSeBanScore
        = mn.DecreasePoSeBanScore.nPoSeBanScore := by
      rw [heq, (CheckState_score e s _).1, DecreasePoSeBanScore_score,
        DecreasePoSeBanScore_score]
    refine ⟨hsc, ?_, ?_, heq⟩
    · intro hpos
      rw [hsc, DecreasePoSeBanScore_score, if_pos hpos]
    · rw [heq]
      apply CheckState_not_banned e s _
      rw [DecreasePoSeBanScore_eq]
      exact hban

/-- C12 (amended) at a sample: the record with PoSe score 5 is banned by a
forced `Check` until chain height 200 plus registry size 1; the banned record
whose ban height 150 is reached has its score lowered to 4 by the next forced
`Check` and leaves the state `POSE_BAN`. -/
theorem C12_pose_ban_cycle_witness :
    sampleOldProtoXnode.fUnitTest = false
    ∧ (sampleEnv.getUTXO sampleOldProtoXnode.vin.prevout).isSome = true
    ∧ (sampleOldProtoXnode.Check sampleEnv (sampleState [sampleOldProtoXnode]) true
        true).nActiveState = XNODE_POSE_BAN
    ∧ (sampleOldProtoXnode.Check sampleEnv (sampleState [sampleOldProtoXnode]) true
        true).nPoSeBanHeight = 201
    ∧ ((sampleBannedXnode 150).Check sampleEnv (sampleState [sampleBannedXnode 150]) true
        true).nPoSeBanScore = (sampleBannedXnode 150).nPoSeBanScore - 1
    ∧ (sampleBannedXnode 150).nPoSeBanScore = 5
    ∧ ((sampleBannedXnode 150).Check sampleEnv (sampleState [sampleBannedXnode 150]) true
        true).nActiveState ≠ XNODE_POSE_BAN :=
  ⟨rfl, by decide,
    ((C12_pose_ban_cycle sampleEnv (sampleState [sampleOldProtoXnode]) sampleOldProtoXnode rfl
      (by decide)).1 (by decide) (by decide) (by decide) (by decide)).1,
    ((C12_pose_ban_cycle sampleEnv (sampleState [sampleOldProtoXnode]) sampleOldProtoXnode rfl
      (by decide)).1 (by decide) (by decide) (by decide) (by decide)).2.1,
    ((C12_pose_ban_cycle sampleEnv (sampleState [sampleBannedXnode 150]) (sampleBannedXnode 150)
      rfl (by decide)).2.2 rfl (by decide) rfl true (Or.inl rfl)).2.1 (by decide),
    rfl,
    ((C12_pose_ban_cycle sampleEnv (sampleState [sampleBannedXnode 150]) (sampleBannedXnode 150)
      rfl (by decide)).2.2 rfl (by decide) rfl true (Or.inl rfl)).2.2.1⟩

/-! ## Ping validation (C17) -/

theorem CheckEnabled_lastPing (mn : CXnode) : mn.CheckEnabled.lastPing = mn.lastPing := by
  unfold CXnode.CheckEnabled
  split <;> rfl

theorem CheckState_lastPing (e : Env) (s : State) (mn : CXnode) :
    (CXnode.CheckState e s mn).lastPing = mn.lastPing := by
  unfold CXnode.CheckState
  simp only []
  repeat' split
  all_goals first | rfl | exact CheckEnabled_lastPing mn

theorem Check_lastPing (e : Env) (s : State) (lockMain fForce : Bool) (mn : CXnode) :
    (mn.Check e s lockMain fForce).lastPing = mn.lastPing := by
  unfold CXnode.Check
  simp only []
  repeat' split
  all_goals first
    | rfl
    | exact CheckState_lastPing e s _
    | (rw [CheckState_lastPing]
       unfold CXnode.DecreasePoSeBanScore
       split <;> rfl)

theorem setSeenLastPing_vXnodes (m : CXnodeMan) (hash : Nat) (mnp : CXnodePing) :
    (m.setSeenLastPing hash mnp).vXnodes = m.vXnodes := by
  unfold CXnodeMan.setSeenLastPing
  split <;> rfl

/-- The record a ping was stored in, after the forced `Check` that follows. -/
theorem pingStore_lastPing (e : Env) (mnp : CXnodePing) (i hash : Nat) (s1 : State)
    (mn4 : CXnode)
    (h : (State.CheckAt e true i
        { (s1.modifyXnode i (fun pmn => { pmn with lastPing := mnp })) with
          mnodeman := (s1.modifyXnode i
            (fun pmn => { pmn with lastPing := mnp })).mnodeman.setSeenLastPing
              hash mnp }).getXnode i = some mn4) :
    mn4.lastPing = mnp := by
  rw [CheckAt_getXnode] at h
  have h2 : State.getXnode
      { (s1.modifyXnode i (fun pmn => { pmn with lastPing := mnp })) with
        mnodeman := (s1.modifyXnode i
          (fun pmn => { pmn with lastPing := mnp })).mnodeman.setSeenLastPing hash mnp } i
      = (s1.getXnode i).map (fun pmn => { pmn with lastPing := mnp }) := by
    unfold State.getXnode
    show (CXnodeMan.setSeenLastPing _ hash mnp).vXnodes[i]? = _
    rw [setSeenLastPing_vXnodes]
    exact modifyXnode_getXnode s1 i _
  rw [h2] at h
  cases hx : s1.getXnode i with
  | none => rw [hx] at h; simp at h
  | some x =>
    rw [hx] at h
    simp only [Option.map_some', Option.some.injEq] at h
    rw [← h, Check_lastPing]

theorem pingCheckAndUpdate_rejects (e : Env) (mnp : CXnodePing) (i : Nat)
    (fFromNewBroadcast : Bool) (s : State) (mn : CXnode) (hmn : s.getXnode i = some mn)
    (hfail : mnp.blockTooOld e = true ∨
      mn.IsPingedWithin (XNODE_MIN_MNP_SECONDS - 60) mnp.sigTime = true ∨
      (mnp.CheckSignature e mn.pubKeyXnode).1 = false) :
    (mnp.CheckAndUpdate e (some i) fFromNewBroadcast s).1.1 = false ∧
    (mnp.CheckAndUpdate e (some i) fFromNewBroadcast s).2 = s := by
  unfold CXnodePing.CheckAndUpdate
  simp only [hmn]
  split
  · exact ⟨rfl, rfl⟩
  split
  · exact ⟨rfl, rfl⟩
  split
  · exact ⟨rfl, rfl⟩
  split
  · exact ⟨rfl, rfl⟩
  split
  · exact ⟨rfl, rfl⟩
  split
  · exact ⟨rfl, rfl⟩
  · rename_i hb hp hs
    exfalso
    rcases hfail with h | h | h
    · exact hb h
    · exact hp h
    · rw [h] at hs; exact hs rfl

theorem pingCheckAndUpdate_accepts (e : Env) (mnp : CXnodePing) (pmn : Option Nat)
    (fFromNewBroadcast : Bool) (s : State) :
    (mnp.CheckAndUpdate e pmn fFromNewBroadcast s).1.1 = true →
    ∃ i mn4, pmn = some i ∧
      (mnp.CheckAndUpdate e pmn fFromNewBroadcast s).2.getXnode i = some mn4 ∧
      mn4.lastPing = mnp ∧ mn4.nActiveState = XNODE_ENABLED := by
  suffices h : ∀ r : (Bool × Int) × State, r = mnp.CheckAndUpdate e pmn fFromNewBroadcast s →
      r.1.1 = true → ∃ i mn4, pmn = some i ∧ r.2.getXnode i = some mn4 ∧
        mn4.lastPing = mnp ∧ mn4.nActiveState = XNODE_ENABLED from h _ rfl
  intro r hr
  unfold CXnodePing.CheckAndUpdate at hr
  simp only [] at hr
  split at hr
  · subst hr; intro h; exact absurd h (by simp)
  · split at hr
    · subst hr; intro h; exact absurd h (by simp)
    · rename_i i
      split at hr
      · subst hr; intro h; exact absurd h (by simp)
      · split at hr
        · subst hr; intro h; exact absurd h (by simp)
        · split at hr
          · subst hr; intro h; exact absurd h (by simp)
          · split at hr
            · subst hr; intro h; exact absurd h (by simp)
            · split at hr
              · subst hr; intro h; exact absurd h (by simp)
              · split at hr
                · subst hr; intro h; exact absurd h (by simp)
                · split at hr
                  · subst hr; intro h; exact absurd h (by simp)
                  · rename_i mn4 heq4
                    split at hr
                    · subst hr; intro h; exact absurd h (by simp)
                    · rename_i hen
                      subst hr
                      intro _
                      refine ⟨i, mn4, rfl, heq4, pingStore_lastPing e mnp i _ _ mn4 heq4, ?_⟩
                      simpa [CXnode.IsEnabled] using hen

/-- C17: `CXnodePing::CheckAndUpdate` returns false and leaves the whole state,
hence the last ping and the state of the record, unchanged for every ping
signed less than `XNODE_MIN_MNP_SECONDS - 60` seconds after the last ping of
the record, for every ping whose block lies more than 24 blocks below the tip
and for every ping whose signature does not verify; likewise for a ping signed
more than one hour ahead, with an unknown block hash or for an unknown record.
Whenever it returns true, the last ping of the record is the received ping
and the state of the record is `ENABLED`. -/
theorem C17_ping_validation (e : Env) (mnp : CXnodePing) (pmn : Option Nat)
    (fFromNewBroadcast : Bool) (s : State) :
    (∀ i mn, pmn = some i → s.getXnode i = some mn →
        (mnp.sigTime - mn.lastPing.sigTime < XNODE_MIN_MNP_SECONDS - 60 ∨
          (∃ h, e.mapBlockIndex mnp.blockHash = some (some h) ∧ h < e.chainHeight - 24) ∨
          (mnp.CheckSignature e mn.pubKeyXnode).1 = false) →
        (mnp.CheckAndUpdate e pmn fFromNewBroadcast s).1.1 = false ∧
        (mnp.CheckAndUpdate e pmn fFromNewBroadcast s).2 = s)
    ∧ ((mnp.sigTime > e.GetAdjustedTime + 60 * 60 ∨ e.mapBlockIndex mnp.blockHash = none ∨
          pmn = none ∨ (∃ i, pmn = some i ∧ s.getXnode i = none)) →
        (mnp.CheckAndUpdate e pmn fFromNewBroadcast s).1.1 = false ∧
        (mnp.CheckAndUpdate e pmn fFromNewBroadcast s).2 = s)
    ∧ ((mnp.CheckAndUpdate e pmn fFromNewBroadcast s).1.1 = true →
        ∃ i mn4, pmn = some i ∧
          (mnp.CheckAndUpdate e pmn fFromNewBroadcast s).2.getXnode i = some mn4 ∧
          mn4.lastPing = mnp ∧ mn4.nActiveState = XNODE_ENABLED) := by
  refine ⟨?_, ?_, pingCheckAndUpdate_accepts e mnp pmn fFromNewBroadcast s⟩
  · intro i mn hp hmn hfail
    subst hp
    apply pingCheckAndUpdate_rejects e mnp i fFromNewBroadcast s mn hmn
    rcases hfail with h | ⟨h, hb, hlt⟩ | h
    · right; left
      unfold CXnode.IsPingedWithin
      simp only [decide_eq_true_eq]
      omega
    · left
      unfold CXnodePing.blockTooOld
      rw [hb]
      simpa using hlt
    · right; right; exact h
  · intro hfail
    have hsimple : (mnp.SimpleCheck e).1 = false →
        (mnp.CheckAndUpdate e pmn fFromNewBroadcast s).1.1 = false ∧
        (mnp.CheckAndUpdate e pmn fFromNewBroadcast s).2 = s := by
      intro hs
      unfold CXnodePing.CheckAndUpdate
      simp [hs]
    rcases hfail with h | h | h | ⟨i, hp, hn⟩
    · apply hsimple
      unfold CXnodePing.SimpleCheck
      rw [if_pos h]
    · apply hsimple
      unfold CXnodePing.SimpleCheck
      split
      · rfl
      · simp [h]
    · subst h
      unfold CXnodePing.CheckAndUpdate
      simp only []
      split <;> exact ⟨rfl, rfl⟩
    · subst hp
      unfold CXnodePing.CheckAndUpdate
      simp only [hn]
      split <;> exact ⟨rfl, rfl⟩

/-- C17 at a sample: a ping signed 50 seconds after the last ping of the record
is rejected and nothing changes. -/
theorem C17_ping_validation_witness :
    (samplePing 99950).sigTime - (sampleXnode 1 0).lastPing.sigTime < XNODE_MIN_MNP_SECONDS - 60
    ∧ ((samplePing 99950).CheckAndUpdate sampleEnv (some 0) false
        (sampleState [sampleXnode 1 0])).1.1 = false :=
  ⟨by decide,
    ((C17_ping_validation sampleEnv (samplePing 99950) (some 0) false
      (sampleState [sampleXnode 1 0])).1 0 (sampleXnode 1 0) rfl rfl (Or.inl (by decide))).1⟩

/-! ## Rejected announcements (C19) -/

theorem UpdateFromNewBroadcast_own_wrong (e : Env) (i : Nat) (mnb : CXnodeBroadcast) (s : State)
    (mn : CXnode) (hmn : s.getXnode i = some mn)
    (hnew : mn.sigTime < mnb.sigTime ∨ mnb.fRecovery = true)
    (hown : e.fXNode = true ∧ mnb.pubKeyXnode = s.activeXnode.pubKeyXnode)
    (hproto : mnb.nProtocolVersion ≠ e.PROTOCOL_VERSION) :
    CXnode.UpdateFromNewBroadcast e i mnb s =
      (false, (CXnode.takeBroadcastPing e i mnb
        (s.modifyXnode i (CXnode.takeBroadcast mnb))).modifyXnode i
          (fun pmn => { pmn with nPoSeBanScore := -XNODE_POSE_BAN_MAX_SCORE })) := by
  unfold CXnode.UpdateFromNewBroadcast
  rw [hmn]
  simp only []
  have hc : ¬ ((decide (mnb.sigTime ≤ mn.sigTime) && !mnb.fRecovery) = true) := by
    rcases hnew with h1 | h1
    · simp; intro h2; omega
    · simp [h1]
  rw [if_neg hc]
  have hact : (CXnode.takeBroadcastPing e i mnb
      (s.modifyXnode i (CXnode.takeBroadcast mnb))).activeXnode = s.activeXnode :=
    takeBroadcastPing_activeXnode e i mnb _
  rw [hact]
  have hyes : (e.fXNode && decide (mnb.pubKeyXnode = s.activeXnode.pubKeyXnode)) = true := by
    simp [hown.1, hown.2]
  rw [if_pos hyes, if_neg hproto]

/-- C19 as stated fails: on a service node whose own key is that of the sample
announcement, an announcement newer than the stored record but with a protocol
version other than `PROTOCOL_VERSION` makes `UpdateFromNewBroadcast` return
false after the record took over the announcement: announce time, address,
node key and signature changed and the PoSe score is `-5`. -/
theorem C19_counterexample :
    (CXnode.UpdateFromNewBroadcast sampleEnvXNode 0 sampleOwnOldMnb
        (sampleOwnState [sampleXnode 1 0])).1 = false
    ∧ (sampleOwnState [sampleXnode 1 0]).mnodeman.vXnodes.map
        (fun mn => (mn.sigTime, mn.pubKeyXnode, mn.vchSig, mn.nPoSeBanScore))
      = [(90000, [], [], 0)]
    ∧ (CXnode.UpdateFromNewBroadcast sampleEnvXNode 0 sampleOwnOldMnb
        (sampleOwnState [sampleXnode 1 0])).2.mnodeman.vXnodes.map
        (fun mn => (mn.sigTime, mn.pubKeyXnode, mn.vchSig, mn.nPoSeBanScore))
      = [(99950, [7], [7], -5)] := by
  decide

/-- C19 (amended): whenever `UpdateFromNewBroadcast` returns false for an
announcement that is not the node's own, the whole state, hence every field of
the stored record, is unchanged; this covers the stale announcement, which is
rejected whoever announced it. For the node's own record announced with a
protocol version other than `PROTOCOL_VERSION` it returns false after the
record has taken over the announcement: node key, announce time, signature,
protocol version and address are those of the announcement and the PoSe score
is `-XNODE_POSE_BAN_MAX_SCORE`. -/
theorem C19_rejected_broadcast (e : Env) (i : Nat) (mnb : CXnodeBroadcast) (s : State)
    (mn : CXnode) (hmn : s.getXnode i = some mn) :
    (mnb.sigTime ≤ mn.sigTime → mnb.fRecovery = false →
        CXnode.UpdateFromNewBroadcast e i mnb s = (false, s))
    ∧ (¬ (e.fXNode = true ∧ mnb.pubKeyXnode = s.activeXnode.pubKeyXnode) →
        (CXnode.UpdateFromNewBroadcast e i mnb s).1 = false →
        (CXnode.UpdateFromNewBroadcast e i mnb s).2 = s)
    ∧ ((e.fXNode = true ∧ mnb.pubKeyXnode = s.activeXnode.pubKeyXnode) →
        (mn.sigTime < mnb.sigTime ∨ mnb.fRecovery = true) →
        mnb.nProtocolVersion ≠ e.PROTOCOL_VERSION →
        (CXnode.UpdateFromNewBroadcast e i mnb s).1 = false ∧
        ∃ mn2, (CXnode.UpdateFromNewBroadcast e i mnb s).2.getXnode i = some mn2 ∧
          mn2.pubKeyXnode = mnb.pubKeyXnode ∧ mn2.sigTime = mnb.sigTime ∧
          mn2.vchSig = mnb.vchSig ∧ mn2.nProtocolVersion = mnb.nProtocolVersion ∧
          mn2.addr = mnb.addr ∧ mn2.nPoSeBanScore = -XNODE_POSE_BAN_MAX_SCORE) := by
  refine ⟨?_, ?_, ?_⟩
  · intro hold hrec
    exact UpdateFromNewBroadcast_stale e i mnb s mn hmn hrec hold
  · intro hown hres
    rcases UpdateFromNewBroadcast_notOwn e i mnb s hown with h | h
    · rw [h.1] at hres; cases hres
    · rw [h]
  · intro hown hnew hproto
    have heq := UpdateFromNewBroadcast_own_wrong e i mnb s mn hmn hnew hown hproto
    rw [heq]
    refine ⟨rfl, ?_⟩
    have han : (CXnode.takeBroadcastPing e i mnb
        (s.modifyXnode i (CXnode.takeBroadcast mnb))).announces
          = updateAt s.announces i (announceTake mnb) :=
      (takeBroadcastPing_announces e i mnb _).trans (takeBroadcast_announces s i mnb)
    have h1 := getXnode_announce s i
    have h2 := getXnode_announce (CXnode.takeBroadcastPing e i mnb
        (s.modifyXnode i (CXnode.takeBroadcast mnb))) i
    rw [hmn] at h1
    rw [han, updateAt_getElem, ← h1] at h2
    cases hget : (CXnode.takeBroadcastPing e i mnb
        (s.modifyXnode i (CXnode.takeBroadcast mnb))).getXnode i with
    | none => rw [hget] at h2; simp at h2
    | some r2 =>
      rw [hget] at h2
      simp only [Option.map_some', Option.some.injEq] at h2
      unfold announceTake CXnode.announce at h2
      simp only [Prod.mk.injEq] at h2
      obtain ⟨_, _, a3, a4, a5, a6, a7⟩ := h2
      refine ⟨{ r2 with nPoSeBanScore := -XNODE_POSE_BAN_MAX_SCORE }, ?_, a5, a3, a6, a7, a4, rfl⟩
      rw [modifyXnode_getXnode, hget]
      rfl

/-- C19 (amended) at a sample: an announcement that is not the node's own and
not newer than the stored record is rejected and changes nothing. -/
theorem C19_rejected_broadcast_witness :
    (sampleState [sampleXnode 1 0]).getXnode 0 = some (sampleXnode 1 0)
    ∧ CXnode.UpdateFromNewBroadcast sampleEnv 0
        { toCXnode := { sampleXnode 1 0 with sigTime := 90000 }, fRecovery := false }
        (sampleState [sampleXnode 1 0])
      = (false, sampleState [sampleXnode 1 0]) :=
  ⟨rfl, (C19_rejected_broadcast sampleEnv 0
      { toCXnode := { sampleXnode 1 0 with sigTime := 90000 }, fRecovery := false }
      (sampleState [sampleXnode 1 0]) (sampleXnode 1 0) rfl).1 (by decide) rfl⟩

/-! ## The asset sequence of the synchronisation (C14) -/

/-- C14: starting from asset `XNODE_SYNC_INITIAL`, four successive calls of
`SwitchToNextAsset` throw nothing and visit SPORKS, LIST, MNW, FINISHED in
that order, each leaving the attempt counter at 0; a call in state `FAILED`
throws and leaves the object, hence the asset `FAILED`, as it was; a call in
state `FINISHED` throws nothing and leaves the asset `FINISHED`; and no call
moves an asset of the sequence to an earlier place. -/
theorem C14_SwitchToNextAsset_sequence (e : Env) (x : CXnodeSync) :
    (x.nRequestedXnodeAssets = XNODE_SYNC_INITIAL →
        switchRun e 4 x = [(XNODE_SYNC_SPORKS, 0), (XNODE_SYNC_LIST, 0), (XNODE_SYNC_MNW, 0),
          (XNODE_SYNC_FINISHED, 0)])
    ∧ (x.nRequestedXnodeAssets = XNODE_SYNC_FAILED →
        x.SwitchToNextAsset e = (some switchFromFailedError, x))
    ∧ (x.nRequestedXnodeAssets = XNODE_SYNC_FINISHED →
        (x.SwitchToNextAsset e).1 = none ∧
        (x.SwitchToNextAsset e).2.nRequestedXnodeAssets = XNODE_SYNC_FINISHED)
    ∧ (∀ p, x.nRequestedXnodeAssets.position = some p →
        ∃ q, (x.SwitchToNextAsset e).2.nRequestedXnodeAssets.position = some q ∧ p ≤ q ∧
          (x.SwitchToNextAsset e).1 = none ∧
          (x.SwitchToNextAsset e).2.nRequestedXnodeAttempt = 0) := by
  refine ⟨?_, ?_, ?_, ?_⟩
  · intro h
    simp [switchRun, CXnodeSync.SwitchToNextAsset, h]
  · intro h
    simp [CXnodeSync.SwitchToNextAsset, h]
  · intro h
    simp [CXnodeSync.SwitchToNextAsset, h]
  · intro p hp
    cases ha : x.nRequestedXnodeAssets <;> rw [ha] at hp <;>
      simp [XnodeSyncAsset.position] at hp <;>
      simp [CXnodeSync.SwitchToNextAsset, ha, XnodeSyncAsset.position] <;> omega

/-- C14 at a sample: four calls on a freshly reset object visit the four assets. -/
theorem C14_SwitchToNextAsset_sequence_witness :
    (CXnodeSync.init sampleEnv).nRequestedXnodeAssets = XNODE_SYNC_INITIAL
    ∧ switchRun sampleEnv 4 (CXnodeSync.init sampleEnv)
      = [(XNODE_SYNC_SPORKS, 0), (XNODE_SYNC_LIST, 0), (XNODE_SYNC_MNW, 0),
          (XNODE_SYNC_FINISHED, 0)] :=
  ⟨rfl, (C14_SwitchToNextAsset_sequence sampleEnv (CXnodeSync.init sampleEnv)).1 rfl⟩

/-! ## The storage limit (C16) -/

theorem binary32Shift_small (m : Nat) (h : m < 2 ^ 24) : binary32Shift m = 0 := by
  unfold binary32Shift
  have hr : List.range 105 = 0 :: (List.range 104).map Nat.succ := List.range_succ_eq_map 104
  rw [hr, List.find?_cons]
  have h2 : m < 16777216 := by simpa using h
  simp [h2]

theorem roundBinary32_small (m : Nat) (h : m < 2 ^ 24) : roundBinary32 m = m := by
  unfold roundBinary32
  simp [binary32Shift_small m h]

theorem GetStorageLimit_exact (n : Nat) (h : 5 * n < 2 ^ 24) :
    CXnodePayments.GetStorageLimit n = max ((5 * n / 4 : Nat) : Int) 5000 := by
  unfold CXnodePayments.GetStorageLimit
  have h1 : roundBinary32 n = n := roundBinary32_small n (by omega)
  simp only [h1, roundBinary32_small (5 * n) h]

theorem find_range_spec (p : Nat → Bool) (k : Nat) :
    ∀ a : Nat,
      (∀ x, (List.range' a k).find? p = some x →
        a ≤ x ∧ x < a + k ∧ p x = true ∧ ∀ y, a ≤ y → y < x → p y = false)
      ∧ ((List.range' a k).find? p = none → ∀ y, a ≤ y → y < a + k → p y = false) := by
  induction k with
  | zero =>
    intro a
    refine ⟨?_, ?_⟩
    · intro x hx
      simp at hx
    · intro _ y h1 h2
      omega
  | succ k ih =>
    intro a
    have hr : List.range' a (k + 1) = a :: List.range' (a + 1) k := rfl
    rw [hr, List.find?_cons]
    cases hpa : p a with
    | true =>
      refine ⟨?_, ?_⟩
      · intro x hx
        simp only [Option.some.injEq] at hx
        subst hx
        exact ⟨le_refl _, by omega, hpa, fun y h1 h2 => by omega⟩
      · intro h
        simp at h
    | false =>
      simp only []
      refine ⟨?_, ?_⟩
      · intro x hx
        obtain ⟨h1, h2, h3, h4⟩ := (ih (a + 1)).1 x hx
        refine ⟨by omega, by omega, h3, ?_⟩
        intro y hy1 hy2
        by_cases hya : y = a
        · rw [hya]
          exact hpa
        · exact h4 y (by omega) hy2
      · intro hn y hy1 hy2
        by_cases hya : y = a
        · rw [hya]
          exact hpa
        · exact (ih (a + 1)).2 hn y (by omega) (by omega)

theorem binary32Shift_spec (m : Nat) :
    binary32Shift m ≤ 105
    ∧ (binary32Shift m < 105 → m / 2 ^ binary32Shift m < 2 ^ 24)
    ∧ (∀ y, y < binary32Shift m → 2 ^ 24 ≤ m / 2 ^ y) := by
  unfold binary32Shift
  rw [List.range_eq_range']
  have hspec := find_range_spec (fun s => decide (m / 2 ^ s < 2 ^ 24)) 105 0
  cases hf : (List.range' 0 105).find? (fun s => decide (m / 2 ^ s < 2 ^ 24)) with
  | none =>
    simp only [Option.getD_none]
    refine ⟨le_refl _, fun h => absurd h (by omega), ?_⟩
    intro y hy
    have h := hspec.2 hf y (Nat.zero_le _) (by omega)
    simpa using h
  | some x =>
    simp only [Option.getD_some]
    obtain ⟨_, h2, h3, h4⟩ := hspec.1 x hf
    refine ⟨by omega, fun _ => by simpa using h3, ?_⟩
    intro y hy
    have h := h4 y (Nat.zero_le _) hy
    simpa using h

theorem binary32Shift_mono (m m2 : Nat) (h : m ≤ m2) : binary32Shift m ≤ binary32Shift m2 := by
  by_contra hlt
  have hlt2 : binary32Shift m2 < binary32Shift m := by omega
  have h1 := (binary32Shift_spec m).1
  have h2 := (binary32Shift_spec m2).2.1 (by omega)
  have h3 := (binary32Shift_spec m).2.2 _ hlt2
  have h4 : m / 2 ^ binary32Shift m2 ≤ m2 / 2 ^ binary32Shift m2 := Nat.div_le_div_right h
  omega

theorem roundBinary32_lower (m : Nat) : m / 2 ^ binary32Shift m * 2 ^ binary32Shift m
    ≤ roundBinary32 m := by
  unfold roundBinary32
  simp only []
  split
  · rename_i h0
    rw [h0]
    simp
  · apply Nat.mul_le_mul_right
    split
    · omega
    · exact le_refl _

theorem roundBinary32_upper (m : Nat) :
    roundBinary32 m ≤ (m / 2 ^ binary32Shift m + 1) * 2 ^ binary32Shift m := by
  unfold roundBinary32
  simp only []
  split
  · rename_i h0
    rw [h0]
    simp
  · apply Nat.mul_le_mul_right
    split
    · exact le_refl _
    · omega

theorem roundBinary32_same_shift (m m2 : Nat) (h : m ≤ m2)
    (hs : binary32Shift m = binary32Shift m2) : roundBinary32 m ≤ roundBinary32 m2 := by
  unfold roundBinary32
  simp only []
  rw [← hs]
  by_cases h0 : binary32Shift m = 0
  · simp only [h0, if_true]
    exact h
  · simp only [h0, if_false]
    apply Nat.mul_le_mul_right
    generalize binary32Shift m = s at h0
    have hq : m / 2 ^ s ≤ m2 / 2 ^ s := Nat.div_le_div_right h
    have hpos : 0 < 2 ^ s := Nat.two_pow_pos _
    have e1 := Nat.div_add_mod m (2 ^ s)
    have e2 := Nat.div_add_mod m2 (2 ^ s)
    have r1 := Nat.mod_lt m hpos
    have r2 := Nat.mod_lt m2 hpos
    by_cases hqq : m / 2 ^ s = m2 / 2 ^ s
    · have hr : m % 2 ^ s ≤ m2 % 2 ^ s := by
        rw [hqq] at e1
        omega
      rw [← hqq]
      split
      · rename_i hc
        have hc2 : m2 % 2 ^ s > 2 ^ (s - 1) ∨
            (m2 % 2 ^ s = 2 ^ (s - 1) ∧ m / 2 ^ s % 2 = 1) := by
          rcases hc with hc | ⟨hc, ho⟩
          · left
            omega
          · by_cases hx : m2 % 2 ^ s = 2 ^ (s - 1)
            · right
              exact ⟨hx, ho⟩
            · left
              omega
        rw [if_pos hc2]
      · split <;> omega
    · have hlt : m / 2 ^ s < m2 / 2 ^ s := by omega
      split <;> split <;> omega

theorem roundBinary32_mono (m m2 : Nat) (h : m ≤ m2) : roundBinary32 m ≤ roundBinary32 m2 := by
  have hs := binary32Shift_mono m m2 h
  by_cases heq : binary32Shift m = binary32Shift m2
  · exact roundBinary32_same_shift m m2 h heq
  · have hlt : binary32Shift m < binary32Shift m2 := by omega
    have hu := roundBinary32_upper m
    have hl := roundBinary32_lower m2
    have h105 := (binary32Shift_spec m2).1
    have hq := (binary32Shift_spec m).2.1 (by omega)
    have hq2 := (binary32Shift_spec m2).2.2 (binary32Shift m2 - 1) (by omega)
    generalize binary32Shift m = s at *
    generalize binary32Shift m2 = t at *
    have ht : t = (t - 1) + 1 := by omega
    have hpt : 2 ^ t = 2 ^ (t - 1) * 2 := by
      conv_lhs => rw [ht]
      exact pow_succ 2 (t - 1)
    have hmono : 2 ^ s ≤ 2 ^ (t - 1) := Nat.pow_le_pow_right (by decide) (by omega)
    have h1 : roundBinary32 m ≤ 2 ^ 24 * 2 ^ s :=
      le_trans hu (Nat.mul_le_mul_right _ (by omega))
    have h2 : 2 ^ 24 * 2 ^ (t - 1) ≤ m2 := by
      have := (Nat.le_div_iff_mul_le (Nat.two_pow_pos _)).1 hq2
      exact this
    have h3 : 2 ^ 23 ≤ m2 / 2 ^ t := by
      rw [Nat.le_div_iff_mul_le (Nat.two_pow_pos _), hpt]
      have e : 2 ^ 23 * (2 ^ (t - 1) * 2) = 2 ^ 24 * 2 ^ (t - 1) := by ring
      rw [e]
      exact h2
    have h4 : 2 ^ 23 * 2 ^ t ≤ roundBinary32 m2 :=
      le_trans (Nat.mul_le_mul_right _ h3) hl
    have h5 : 2 ^ 24 * 2 ^ s ≤ 2 ^ 23 * 2 ^ t := by
      rw [hpt]
      have e : 2 ^ 23 * (2 ^ (t - 1) * 2) = 2 ^ 24 * 2 ^ (t - 1) := by ring
      rw [e]
      exact Nat.mul_le_mul_left _ hmono
    exact le_trans h1 (le_trans h5 h4)

theorem GetStorageLimit_mono (n n2 : Nat) (h : n ≤ n2) :
    CXnodePayments.GetStorageLimit n ≤ CXnodePayments.GetStorageLimit n2 := by
  unfold CXnodePayments.GetStorageLimit
  simp only []
  have h1 := roundBinary32_mono n n2 h
  have h2 := roundBinary32_mono (5 * roundBinary32 n) (5 * roundBinary32 n2) (by omega)
  have h3 : roundBinary32 (5 * roundBinary32 n) / 4 ≤ roundBinary32 (5 * roundBinary32 n2) / 4 :=
    Nat.div_le_div_right h2
  omega

/-- C16 as stated fails: for the registry size 3355447, below `2^24`, the
`float` product 4194308.75 is not a `float`; it is rounded to 4194309, one
above `⌊5·n/4⌋ = 4194308`. -/
theorem C16_counterexample :
    (3355447 : Nat) < 2 ^ 24
    ∧ CXnodePayments.GetStorageLimit 3355447 = 4194309
    ∧ max (((5 * 3355447 / 4 : Nat) : Int)) 5000 = 4194308 := by
  decide

/-- C16 (amended): `GetStorageLimit()` equals `max(⌊5·n/4⌋, 5000)`, `n` the
registry size, for every `n` up to 3355446 (for `n ≤ 3355443` the `float`
product `n·1.25` is below `2^22` and exact); it is 5000 for every `n ≤ 4000`,
at least 5000 for every `n`, and monotone non-decreasing in `n`. -/
theorem C16_GetStorageLimit (n : Nat) :
    (n ≤ 3355446 → CXnodePayments.GetStorageLimit n = max ((5 * n / 4 : Nat) : Int) 5000)
    ∧ (n ≤ 4000 → CXnodePayments.GetStorageLimit n = 5000)
    ∧ 5000 ≤ CXnodePayments.GetStorageLimit n
    ∧ (∀ n2, n ≤ n2 →
        CXnodePayments.GetStorageLimit n ≤ CXnodePayments.GetStorageLimit n2) := by
  have hexact : ∀ k : Nat, k ≤ 3355446 →
      CXnodePayments.GetStorageLimit k = max ((5 * k / 4 : Nat) : Int) 5000 := by
    intro k hk
    by_cases hs : 5 * k < 2 ^ 24
    · exact GetStorageLimit_exact k hs
    · have h1 : 3355444 ≤ k := by
        simp only [Nat.reducePow] at hs
        omega
      interval_cases k <;> decide
  refine ⟨hexact n, ?_, ?_, ?_⟩
  · intro h
    rw [hexact n (by omega)]
    have h2 : 5 * n / 4 ≤ 5000 := by omega
    omega
  · unfold CXnodePayments.GetStorageLimit
    exact le_max_right _ _
  · intro n2 h12
    exact GetStorageLimit_mono n n2 h12

/-- C16 (amended) at a sample: 8000 records give a limit of 10000 blocks. -/
theorem C16_GetStorageLimit_witness :
    (8000 : Nat) ≤ 3355446 ∧ CXnodePayments.GetStorageLimit 8000 = 10000 :=
  ⟨by decide, ((C16_GetStorageLimit 8000).1 (by decide)).trans (by decide)⟩

/-! ## Payment-vote handler (C18) -/

theorem AskForMN_vXnodes (e : Env) (pnode : Option CNode) (vin : CTxIn) (m : CXnodeMan) :
    (m.AskForMN e pnode vin).2.vXnodes = m.vXnodes := by
  unfold CXnodeMan.AskForMN
  simp only []
  repeat' split
  all_goals rfl

theorem voteIsValid_true (e : Env) (vote : CXnodePaymentVote) (pnode : CNode)
    (nValidationHeight : Int) (m : CXnodeMan)
    (h : (vote.IsValid e pnode nValidationHeight m).1 = true) :
    (vote.IsValid e pnode nValidationHeight m).2 = (pnode, m) := by
  revert h
  suffices hs : ∀ r : Bool × CNode × CXnodeMan, r = vote.IsValid e pnode nValidationHeight m →
      r.1 = true → r.2 = (pnode, m) from hs _ rfl
  intro r hr
  unfold CXnodePaymentVote.IsValid at hr
  simp only [] at hr
  repeat' split at hr
  all_goals subst hr
  all_goals intro h
  all_goals first
    | rfl
    | simp at h

theorem voteIsValid_vXnodes (e : Env) (vote : CXnodePaymentVote) (pnode : CNode)
    (nValidationHeight : Int) (m : CXnodeMan) :
    (vote.IsValid e pnode nValidationHeight m).2.2.vXnodes = m.vXnodes := by
  unfold CXnodePaymentVote.IsValid
  simp only []
  repeat' split
  all_goals first
    | rfl
    | exact AskForMN_vXnodes e _ _ m

theorem CanVote_false_eq (p : CXnodePayments) (o : COutPoint) (h : Int)
    (hc : (p.CanVote o h).1 = false) : p.CanVote o h = (false, p) := by
  unfold CXnodePayments.CanVote at hc ⊢
  split
  · rfl
  · rename_i hn
    rw [if_neg hn] at hc
    cases hc

theorem CanVote_true_eq (p : CXnodePayments) (o : COutPoint) (h : Int)
    (hc : (p.CanVote o h).1 = true) :
    p.CanVote o h = (true, { p with mapXnodesLastVote := p.mapXnodesLastVote.set o h }) := by
  unfold CXnodePayments.CanVote at hc ⊢
  split
  · rename_i hn
    rw [if_pos hn] at hc
    cases hc
  · rfl

theorem CanVote_blocked (p : CXnodePayments) (o : COutPoint) (h : Int)
    (hl : p.mapXnodesLastVote o = some h) : p.CanVote o h = (false, p) := by
  unfold CXnodePayments.CanVote
  simp [FMap.count, hl]

theorem voteAfterIsValid_cannot (e : Env) (nHeight : Int) (pfrom : CNode)
    (vote : CXnodePaymentVote) (s : State)
    (hc : (s.mnpayments.CanVote vote.vinXnode.prevout vote.nBlockHeight).1 = false) :
    CXnodePayments.voteAfterIsValid e nHeight pfrom vote s = (pfrom, s) := by
  unfold CXnodePayments.voteAfterIsValid
  rw [CanVote_false_eq _ _ _ hc]
  rfl

theorem voteAfterIsValid_sigfail (e : Env) (nHeight : Int) (pfrom : CNode)
    (vote : CXnodePaymentVote) (s : State) (mnInfo : CXnode)
    (hc : (s.mnpayments.CanVote vote.vinXnode.prevout vote.nBlockHeight).1 = true)
    (hinfo : s.mnodeman.GetXnodeInfo vote.vinXnode = some mnInfo)
    (hsig : (vote.CheckSignature e mnInfo.pubKeyXnode nHeight).1 = false) :
    (CXnodePayments.voteAfterIsValid e nHeight pfrom vote s).2.mnpayments =
      { s.mnpayments with mapXnodesLastVote :=
          s.mnpayments.mapXnodesLastVote.set vote.vinXnode.prevout vote.nBlockHeight } := by
  unfold CXnodePayments.voteAfterIsValid
  rw [CanVote_true_eq _ _ _ hc]
  simp only [Bool.not_true, Bool.false_eq_true, if_false, hinfo, hsig, Bool.not_false, if_true]

/-- The handler for a vote that is new to `mapXnodePaymentVotes`. -/
theorem ProcessMessageVote_unseen (e : Env) (nHeight : Int) (pfrom : CNode)
    (vote : CXnodePaymentVote) (s : State)
    (hver : ¬ (pfrom.nVersion < GetMinXnodePaymentsProto e))
    (hunseen : s.mnpayments.mapXnodePaymentVotes.count (vote.GetHash e) = false) :
    CXnodePayments.ProcessMessageVote e (some nHeight) pfrom vote s =
      if voteOutOfRange nHeight s.mnodeman.vXnodes.length vote then
        (pfrom.eraseAskFor (vote.GetHash e), s.voteStored e vote s.mnodeman)
      else if !(vote.IsValid e (pfrom.eraseAskFor (vote.GetHash e)) nHeight s.mnodeman).1 then
        ((vote.IsValid e (pfrom.eraseAskFor (vote.GetHash e)) nHeight s.mnodeman).2.1,
          s.voteStored e vote
            (vote.IsValid e (pfrom.eraseAskFor (vote.GetHash e)) nHeight s.mnodeman).2.2)
      else
        CXnodePayments.voteAfterIsValid e nHeight
          (vote.IsValid e (pfrom.eraseAskFor (vote.GetHash e)) nHeight s.mnodeman).2.1 vote
          (s.voteStored e vote
            (vote.IsValid e (pfrom.eraseAskFor (vote.GetHash e)) nHeight s.mnodeman).2.2) := by
  unfold CXnodePayments.ProcessMessageVote
  rw [if_neg hver]
  simp only [hunseen, Bool.false_eq_true, if_false]
  rfl

theorem storeUnverified_CanVote (e : Env) (p : CXnodePayments) (vote : CXnodePaymentVote)
    (o : COutPoint) (h : Int) :
    ((p.storeUnverified e vote).CanVote o h).1 = (p.CanVote o h).1 := by
  unfold CXnodePayments.CanVote CXnodePayments.storeUnverified
  simp only []
  split <;> rfl

/-- A vote of a voter whose last recorded height is the height of the vote
never reaches the tallies. -/
theorem ProcessMessageVote_blocked (e : Env) (pIndex : Option Int) (pfrom : CNode)
    (vote : CXnodePaymentVote) (s : State)
    (hl : s.mnpayments.mapXnodesLastVote vote.vinXnode.prevout = some vote.nBlockHeight) :
    (CXnodePayments.ProcessMessageVote e pIndex pfrom vote s).2.mnpayments.mapXnodeBlocks
      = s.mnpayments.mapXnodeBlocks := by
  by_cases hver : pfrom.nVersion < GetMinXnodePaymentsProto e
  · unfold CXnodePayments.ProcessMessageVote
    rw [if_pos hver]
  · cases pIndex with
    | none =>
      unfold CXnodePayments.ProcessMessageVote
      rw [if_neg hver]
    | some nHeight =>
      cases hseen : s.mnpayments.mapXnodePaymentVotes.count (vote.GetHash e) with
      | true =>
        unfold CXnodePayments.ProcessMessageVote
        rw [if_neg hver]
        simp only [hseen, if_true]
      | false =>
        rw [ProcessMessageVote_unseen e nHeight pfrom vote s hver hseen]
        split
        · rfl
        · split
          · rfl
          · have hc : ((s.voteStored e vote
                (vote.IsValid e (pfrom.eraseAskFor (vote.GetHash e)) nHeight
                  s.mnodeman).2.2).mnpayments.CanVote vote.vinXnode.prevout
                  vote.nBlockHeight).1 = false := by
              show ((s.mnpayments.storeUnverified e vote).CanVote _ _).1 = false
              rw [storeUnverified_CanVote, CanVote_blocked _ _ _ hl]
            rw [voteAfterIsValid_cannot e nHeight _ vote _ hc]
            rfl

/-- C18 as stated fails: the sample vote has a signature that does not verify
and is rejected, no tally is made; but the vote is now stored in
`mapXnodePaymentVotes` (marked as not verified) and `CanVote`, called before
the signature check, has recorded block 195 as the last vote of the voter. A
later vote of the same voter for block 195 with a valid signature, which is
tallied when it arrives first, is rejected after the bad one. -/
theorem C18_counterexample :
    ((CXnodePayments.ProcessMessageVote sampleEnvSig (some 200) samplePeer (sampleVote [5] [2])
        (sampleState [sampleXnode 1 0])).2.mnpayments.mapXnodeBlocks 195).isSome = false
    ∧ (sampleState [sampleXnode 1 0]).mnpayments.mapXnodePaymentVotes.count
        ((sampleVote [5] [2]).GetHash sampleEnvSig) = false
    ∧ (CXnodePayments.ProcessMessageVote sampleEnvSig (some 200) samplePeer (sampleVote [5] [2])
        (sampleState [sampleXnode 1 0])).2.mnpayments.mapXnodePaymentVotes.count
        ((sampleVote [5] [2]).GetHash sampleEnvSig) = true
    ∧ (sampleState [sampleXnode 1 0]).mnpayments.mapXnodesLastVote
        (sampleVote [5] [2]).vinXnode.prevout = none
    ∧ (CXnodePayments.ProcessMessageVote sampleEnvSig (some 200) samplePeer (sampleVote [5] [2])
        (sampleState [sampleXnode 1 0])).2.mnpayments.mapXnodesLastVote
        (sampleVote [5] [2]).vinXnode.prevout = some 195
    ∧ ((CXnodePayments.ProcessMessageVote sampleEnvSig (some 200) samplePeer (sampleVote [6] [1])
        (sampleState [sampleXnode 1 0])).2.mnpayments.mapXnodeBlocks 195).isSome = true
    ∧ ((CXnodePayments.ProcessMessageVote sampleEnvSig (some 200) samplePeer (sampleVote [6] [1])
        (CXnodePayments.ProcessMessageVote sampleEnvSig (some 200) samplePeer (sampleVote [5] [2])
          (sampleState [sampleXnode 1 0])).2).2.mnpayments.mapXnodeBlocks 195).isSome = false := by
  decide

/-- C18 (amended): when the `XNODEPAYMENTVOTE` handler rejects a vote that is
new to `mapXnodePaymentVotes`, the tallies `mapXnodeBlocks` are unchanged and
`mapXnodePaymentVotes` has gained the vote, marked as not verified. For a
height out of range, a failed `IsValid` (voter unknown, outdated or ranked too
low) and a voter that already voted for the height, `mapXnodesLastVote` is
unchanged as well. For a signature that does not verify, `CanVote` has already
recorded the height as the last vote of the voter, and every later vote of the
same voter for the same height is kept out of the tallies. -/
theorem C18_rejected_vote (e : Env) (nHeight : Int) (pfrom : CNode)
    (vote : CXnodePaymentVote) (s : State)
    (hver : ¬ (pfrom.nVersion < GetMinXnodePaymentsProto e))
    (hunseen : s.mnpayments.mapXnodePaymentVotes.count (vote.GetHash e) = false) :
    (voteOutOfRange nHeight s.mnodeman.vXnodes.length vote = true →
        (CXnodePayments.ProcessMessageVote e (some nHeight) pfrom vote s).2.mnpayments
          = s.mnpayments.storeUnverified e vote)
    ∧ (voteOutOfRange nHeight s.mnodeman.vXnodes.length vote = false →
        (vote.IsValid e (pfrom.eraseAskFor (vote.GetHash e)) nHeight s.mnodeman).1 = false →
        (CXnodePayments.ProcessMessageVote e (some nHeight) pfrom vote s).2.mnpayments
          = s.mnpayments.storeUnverified e vote)
    ∧ (voteOutOfRange nHeight s.mnodeman.vXnodes.length vote = false →
        (vote.IsValid e (pfrom.eraseAskFor (vote.GetHash e)) nHeight s.mnodeman).1 = true →
        (s.mnpayments.CanVote vote.vinXnode.prevout vote.nBlockHeight).1 = false →
        (CXnodePayments.ProcessMessageVote e (some nHeight) pfrom vote s).2.mnpayments
          = s.mnpayments.storeUnverified e vote)
    ∧ (voteOutOfRange nHeight s.mnodeman.vXnodes.length vote = false →
        (vote.IsValid e (pfrom.eraseAskFor (vote.GetHash e)) nHeight s.mnodeman).1 = true →
        (s.mnpayments.CanVote vote.vinXnode.prevout vote.nBlockHeight).1 = true →
        ∀ mnInfo, s.mnodeman.GetXnodeInfo vote.vinXnode = some mnInfo →
        (vote.CheckSignature e mnInfo.pubKeyXnode nHeight).1 = false →
        (CXnodePayments.ProcessMessageVote e (some nHeight) pfrom vote s).2.mnpayments
          = { s.mnpayments.storeUnverified e vote with
              mapXnodesLastVote :=
                s.mnpayments.mapXnodesLastVote.set vote.vinXnode.prevout vote.nBlockHeight }
        ∧ ∀ (pIndex : Option Int) (pfrom2 : CNode) (vote2 : CXnodePaymentVote),
            vote2.vinXnode.prevout = vote.vinXnode.prevout →
            vote2.nBlockHeight = vote.nBlockHeight →
            (CXnodePayments.ProcessMessageVote e pIndex pfrom2 vote2
              (CXnodePayments.ProcessMessageVote e (some nHeight) pfrom vote
                s).2).2.mnpayments.mapXnodeBlocks = s.mnpayments.mapXnodeBlocks) := by
  have heq := ProcessMessageVote_unseen e nHeight pfrom vote s hver hunseen
  refine ⟨?_, ?_, ?_, ?_⟩
  · intro hr
    rw [heq, if_pos hr]
    rfl
  · intro hr hv
    have hr2 : ¬ (voteOutOfRange nHeight s.mnodeman.vXnodes.length vote = true) := by simp [hr]
    rw [heq, if_neg hr2]
    simp only [hv, Bool.not_false, if_true]
    rfl
  · intro hr hv hc
    have hr2 : ¬ (voteOutOfRange nHeight s.mnodeman.vXnodes.length vote = true) := by simp [hr]
    rw [heq, if_neg hr2]
    simp only [hv, Bool.not_true, Bool.false_eq_true, if_false]
    have hc2 : ((s.voteStored e vote
        (vote.IsValid e (pfrom.eraseAskFor (vote.GetHash e)) nHeight
          s.mnodeman).2.2).mnpayments.CanVote vote.vinXnode.prevout vote.nBlockHeight).1
        = false := by
      show ((s.mnpayments.storeUnverified e vote).CanVote _ _).1 = false
      rw [storeUnverified_CanVote, hc]
    rw [voteAfterIsValid_cannot e nHeight _ vote _ hc2]
    rfl
  · intro hr hv hc mnInfo hinfo hsig
    have hr2 : ¬ (voteOutOfRange nHeight s.mnodeman.vXnodes.length vote = true) := by simp [hr]
    have hval := voteIsValid_true e vote _ nHeight s.mnodeman hv
    have hc2 : ((s.voteStored e vote
        (vote.IsValid e (pfrom.eraseAskFor (vote.GetHash e)) nHeight
          s.mnodeman).2.2).mnpayments.CanVote vote.vinXnode.prevout vote.nBlockHeight).1
        = true := by
      show ((s.mnpayments.storeUnverified e vote).CanVote _ _).1 = true
      rw [storeUnverified_CanVote, hc]
    have hinfo2 : (s.voteStored e vote
        (vote.IsValid e (pfrom.eraseAskFor (vote.GetHash e)) nHeight
          s.mnodeman).2.2).mnodeman.GetXnodeInfo vote.vinXnode = some mnInfo := by
      show CXnodeMan.GetXnodeInfo
        (vote.IsValid e (pfrom.eraseAskFor (vote.GetHash e)) nHeight s.mnodeman).2.2 _ = _
      rw [hval]
      exact hinfo
    have hfin : (CXnodePayments.ProcessMessageVote e (some nHeight) pfrom vote s).2.mnpayments
        = { s.mnpayments.storeUnverified e vote with
            mapXnodesLastVote :=
              s.mnpayments.mapXnodesLastVote.set vote.vinXnode.prevout vote.nBlockHeight } := by
      rw [heq, if_neg hr2]
      simp only [hv, Bool.not_true, Bool.false_eq_true, if_false]
      rw [voteAfterIsValid_sigfail e nHeight _ vote _ mnInfo hc2 hinfo2 hsig]
      rfl
    refine ⟨hfin, ?_⟩
    intro pIndex pfrom2 vote2 ho hh
    have hl : (CXnodePayments.ProcessMessageVote e (some nHeight) pfrom vote
        s).2.mnpayments.mapXnodesLastVote vote2.vinXnode.prevout = some vote2.nBlockHeight := by
      rw [hfin, ho, hh]
      simp [FMap.set]
    rw [ProcessMessageVote_blocked e pIndex pfrom2 vote2 _ hl, hfin]
    rfl

/-- C18 (amended) at a sample: the vote with the bad signature leaves the
voter with block 195 as last vote. -/
theorem C18_rejected_vote_witness :
    (samplePeer.nVersion ≥ GetMinXnodePaymentsProto sampleEnvSig)
    ∧ (CXnodePayments.ProcessMessageVote sampleEnvSig (some 200) samplePeer (sampleVote [5] [2])
        (sampleState [sampleXnode 1 0])).2.mnpayments
      = { (sampleState [sampleXnode 1 0]).mnpayments.storeUnverified sampleEnvSig
            (sampleVote [5] [2]) with
          mapXnodesLastVote :=
            (sampleState [sampleXnode 1 0]).mnpayments.mapXnodesLastVote.set
              (sampleVote [5] [2]).vinXnode.prevout (sampleVote [5] [2]).nBlockHeight } :=
  ⟨by decide,
    ((C18_rejected_vote sampleEnvSig 200 samplePeer (sampleVote [5] [2])
      (sampleState [sampleXnode 1 0]) (by decide) (by decide)).2.2.2 (by decide) (by decide)
      (by decide) (sampleXnode 1 0) (by decide) (by decide)).1⟩

/-! ## Messages already seen (C20) -/

theorem seenMnb_frame (e : Env) (pfrom : Option CNetAddr) (mnb : CXnodeBroadcast) (hash : Nat)
    (s : State) :
    (CXnodeMan.seenMnb e pfrom mnb hash s).mnodeman.mapSeenXnodePing = s.mnodeman.mapSeenXnodePing
    ∧ (CXnodeMan.seenMnb e pfrom mnb hash s).mnodeman.mapSeenXnodeVerification
        = s.mnodeman.mapSeenXnodeVerification
    ∧ (CXnodeMan.seenMnb e pfrom mnb hash s).mnpayments = s.mnpayments
    ∧ (CXnodeMan.seenMnb e pfrom mnb hash s).activeXnode = s.activeXnode
    ∧ (CXnodeMan.seenMnb e pfrom mnb hash s).vRelayed = s.vRelayed := by
  unfold CXnodeMan.seenMnb
  simp only []
  repeat' split
  all_goals exact ⟨rfl, rfl, rfl, rfl, rfl⟩

theorem seenMnb_seen_sync (e : Env) (pfrom : Option CNetAddr) (mnb : CXnodeBroadcast)
    (hash : Nat) (s : State) (seen : Int × CXnodeBroadcast)
    (hseen : s.mnodeman.mapSeenXnodeBroadcast hash = some seen) :
    (CXnodeMan.seenMnb e pfrom mnb hash s).mnodeman.mapSeenXnodeBroadcast
      = (if e.GetTime - seen.1 > XNODE_NEW_START_REQUIRED_SECONDS - XNODE_MIN_MNP_SECONDS * 2
          then s.mnodeman.mapSeenXnodeBroadcast.set hash (e.GetTime, seen.2)
          else s.mnodeman.mapSeenXnodeBroadcast)
    ∧ (CXnodeMan.seenMnb e pfrom mnb hash s).xnodeSync
      = (if e.GetTime - seen.1 > XNODE_NEW_START_REQUIRED_SECONDS - XNODE_MIN_MNP_SECONDS * 2
          then (s.AddedXnodeList e).xnodeSync else s.xnodeSync) := by
  unfold CXnodeMan.seenMnb
  simp only [hseen]
  by_cases hc : e.GetTime - seen.1 > XNODE_NEW_START_REQUIRED_SECONDS - XNODE_MIN_MNP_SECONDS * 2
  · simp only [if_pos hc]
    repeat' split
    all_goals exact ⟨rfl, rfl⟩
  · simp only [if_neg hc]
    repeat' split
    all_goals exact ⟨rfl, rfl⟩

theorem seenMnb_no_request (e : Env) (pfrom : Option CNetAddr) (mnb : CXnodeBroadcast)
    (hash : Nat) (s : State) (seen : Int × CXnodeBroadcast)
    (hseen : s.mnodeman.mapSeenXnodeBroadcast hash = some seen)
    (hreq : s.noRecoveryRequest e pfrom hash = true) :
    CXnodeMan.seenMnb e pfrom mnb hash s
      = (if e.GetTime - seen.1 > XNODE_NEW_START_REQUIRED_SECONDS - XNODE_MIN_MNP_SECONDS * 2
          then State.AddedXnodeList e { s with mnodeman := { s.mnodeman with mapSeenXnodeBroadcast := s.mnodeman.mapSeenXnodeBroadcast.set hash (e.GetTime, seen.2) } }
          else s) := by
  unfold CXnodeMan.seenMnb
  simp only [hseen]
  by_cases hc : e.GetTime - seen.1 > XNODE_NEW_START_REQUIRED_SECONDS - XNODE_MIN_MNP_SECONDS * 2
  · simp only [if_pos hc]
    split
    · rfl
    · rename_i addr
      split
      · rfl
      · rename_i req hr
        split
        · split
          · rename_i h1 h2
            have hr2 : s.mnodeman.mMnbRecoveryRequests hash = some req := hr
            simp [State.noRecoveryRequest, hr2, h1, h2] at hreq
          · rfl
        · rfl
  · simp only [if_neg hc]
    split
    · rfl
    · rename_i addr
      split
      · rfl
      · rename_i req hr
        split
        · split
          · rename_i h1 h2
            have hr2 : s.mnodeman.mMnbRecoveryRequests hash = some req := hr
            simp [State.noRecoveryRequest, hr2, h1, h2] at hreq
          · rfl
        · rfl

theorem IsBlockchainSynced_frame (e : Env) (fBlockAccepted : Bool) (s : State) :
    (CXnodeSync.IsBlockchainSynced e fBlockAccepted s).2.mnodeman = s.mnodeman
    ∧ (CXnodeSync.IsBlockchainSynced e fBlockAccepted s).2.mnpayments = s.mnpayments
    ∧ (CXnodeSync.IsBlockchainSynced e fBlockAccepted s).2.activeXnode = s.activeXnode
    ∧ (CXnodeSync.IsBlockchainSynced e fBlockAccepted s).2.vRelayed = s.vRelayed := by
  unfold CXnodeSync.IsBlockchainSynced
  simp only []
  repeat' split
  all_goals exact ⟨rfl, rfl, rfl, rfl⟩

theorem IsBlockchainSynced_xnodeSync (e : Env) (fBlockAccepted : Bool) (s : State) :
    (CXnodeSync.IsBlockchainSynced e fBlockAccepted s).2.xnodeSync
      = (if e.GetTime - s.syncStatics.nTimeLastProcess.getD e.GetTime > 60 * 60 then
          CXnodeSync.Reset e s.xnodeSync else s.xnodeSync) := by
  unfold CXnodeSync.IsBlockchainSynced
  by_cases hc : e.GetTime - s.syncStatics.nTimeLastProcess.getD e.GetTime > 60 * 60
  · simp only [if_pos hc]
    repeat' split
    all_goals rfl
  · simp only [if_neg hc]
    repeat' split
    all_goals rfl

theorem pingAfterGuard_seen (e : Env) (pfrom : CNode) (mnp : CXnodePing) (s : State)
    (hseen : s.mnodeman.mapSeenXnodePing.count (e.GetHashMnp mnp) = true) :
    CXnodeMan.pingAfterGuard e pfrom mnp s = (pfrom.eraseAskFor (e.GetHashMnp mnp), s) := by
  unfold CXnodeMan.pingAfterGuard
  simp only [hseen, if_true]

theorem ProcessMessagePing_seen (e : Env) (pfrom : CNode) (mnp : CXnodePing) (s : State)
    (hseen : s.mnodeman.mapSeenXnodePing.count (e.GetHashMnp mnp) = true) :
    (CXnodeMan.ProcessMessagePing e pfrom mnp s).2
      = (if e.fLiteMode then s else (CXnodeSync.IsBlockchainSynced e false s).2)
    ∧ ((CXnodeMan.ProcessMessagePing e pfrom mnp s).1 = pfrom
      ∨ (CXnodeMan.ProcessMessagePing e pfrom mnp s).1 = pfrom.eraseAskFor (e.GetHashMnp mnp)) := by
  have hm := (IsBlockchainSynced_frame e false s).1
  have hseen2 : (CXnodeSync.IsBlockchainSynced e false s).2.mnodeman.mapSeenXnodePing.count
      (e.GetHashMnp mnp) = true := by
    rw [hm]; exact hseen
  unfold CXnodeMan.ProcessMessagePing
  by_cases hl : e.fLiteMode = true
  · rw [if_pos hl, if_pos hl]
    exact ⟨rfl, Or.inl rfl⟩
  · rw [if_neg hl, if_neg hl]
    dsimp only
    by_cases hg : (CXnodeSync.IsBlockchainSynced e false s).1 = true
    · rw [hg, if_neg (by simp), pingAfterGuard_seen e pfrom mnp _ hseen2]
      exact ⟨rfl, Or.inr rfl⟩
    · simp only [Bool.not_eq_true] at hg
      rw [hg, if_pos (by simp)]
      exact ⟨rfl, Or.inl rfl⟩

theorem ProcessMessageVote_seen (e : Env) (pIndex : Option Int) (pfrom : CNode)
    (vote : CXnodePaymentVote) (s : State)
    (hseen : s.mnpayments.mapXnodePaymentVotes.count (vote.GetHash e) = true) :
    (CXnodePayments.ProcessMessageVote e pIndex pfrom vote s).2 = s
    ∧ ((CXnodePayments.ProcessMessageVote e pIndex pfrom vote s).1 = pfrom
      ∨ (CXnodePayments.ProcessMessageVote e pIndex pfrom vote s).1
          = pfrom.eraseAskFor (vote.GetHash e)) := by
  unfold CXnodePayments.ProcessMessageVote
  simp only [hseen, if_true]
  repeat' split
  all_goals first
    | exact ⟨rfl, Or.inl rfl⟩
    | exact ⟨rfl, Or.inr rfl⟩

/-- C20 as stated fails, in two ways. An announcement first seen at time 80000
and received again at time 100000, more than `XNODE_NEW_START_REQUIRED_SECONDS
- 2 * XNODE_MIN_MNP_SECONDS` later, gets the stored first-seen time 100000, and
the last-progress time of the list asset moves from 90000 to 100000. And a
ping already in `mapSeenXnodePing` that arrives more than 60 minutes after the
last call of `IsBlockchainSynced` has the test at the head of `ProcessMessage`
reset the sync object: the asset goes from `FINISHED` back to `INITIAL`. -/
theorem C20_counterexample :
    sampleSeenState.mnodeman.mapSeenXnodeBroadcast.count (sampleEnv.GetHashMnb sampleNewerMnb)
      = true
    ∧ sampleNewerMnb.fRecovery = false
    ∧ (sampleSeenState.mnodeman.mapSeenXnodeBroadcast
        (sampleEnv.GetHashMnb sampleNewerMnb)).map Prod.fst = some 80000
    ∧ ((CXnodeMan.CheckMnbAndUpdateXnodeList sampleEnv none sampleNewerMnb
        sampleSeenState).2.mnodeman.mapSeenXnodeBroadcast
        (sampleEnv.GetHashMnb sampleNewerMnb)).map Prod.fst = some 100000
    ∧ sampleSeenState.xnodeSync.nTimeLastXnodeList = 90000
    ∧ (CXnodeMan.CheckMnbAndUpdateXnodeList sampleEnv none sampleNewerMnb
        sampleSeenState).2.xnodeSync.nTimeLastXnodeList = 100000
    ∧ sampleSleptState.mnodeman.mapSeenXnodePing.count
        (sampleEnv.GetHashMnp (samplePing 99950)) = true
    ∧ sampleSleptState.xnodeSync.nRequestedXnodeAssets = XNODE_SYNC_FINISHED
    ∧ (CXnodeMan.ProcessMessagePing sampleEnv samplePeer (samplePing 99950)
        sampleSleptState).2.xnodeSync.nRequestedXnodeAssets = XNODE_SYNC_INITIAL := by
  decide

/-- C20 (amended): receiving a message whose hash is already in the
corresponding seen map neither changes the registry nor relays. For an
announcement already in `mapSeenXnodeBroadcast` (not flagged recovery)
`CheckMnbAndUpdateXnodeList` returns true with `nDos = 0` and changes neither
the registry, nor `mapSeenXnodePing`, nor `mapSeenXnodeVerification`, nor the
payment state, nor the relayed inventory. When the announcement was first seen
more than `XNODE_NEW_START_REQUIRED_SECONDS - 2 * XNODE_MIN_MNP_SECONDS` ago
the stored first-seen time becomes the current time and `AddedXnodeList`
refreshes the sync timestamp; otherwise `mapSeenXnodeBroadcast` and the sync
object are unchanged. When no unexpired recovery request for the hash names the
sending peer, nothing else changes: the state is the one just described, and it
is the state before the call when the announcement was seen recently. For a
ping already in `mapSeenXnodePing` the handler leaves the state as the test
`xnodeSync.IsBlockchainSynced()` at its head leaves it (as it was, in lite
mode): manager, payment state, controller and relayed inventory are unchanged,
and the sync object is unchanged unless the last call of that test was more
than 60 minutes ago, when it is reset. For a vote already in
`mapXnodePaymentVotes` the handler leaves the whole state unchanged, relay
included. In both handlers the peer is unchanged or has the hash erased from
`setAskFor`. -/
theorem C20_seen_messages (e : Env) (s : State) :
    (∀ (pfrom : Option CNetAddr) (mnb : CXnodeBroadcast) (seen : Int × CXnodeBroadcast),
      s.mnodeman.mapSeenXnodeBroadcast (e.GetHashMnb mnb) = some seen →
      mnb.fRecovery = false →
        (CXnodeMan.CheckMnbAndUpdateXnodeList e pfrom mnb s).1 = (true, 0)
        ∧ (CXnodeMan.CheckMnbAndUpdateXnodeList e pfrom mnb s).2.mnodeman.vXnodes
            = s.mnodeman.vXnodes
        ∧ (CXnodeMan.CheckMnbAndUpdateXnodeList e pfrom mnb s).2.mnodeman.mapSeenXnodePing
            = s.mnodeman.mapSeenXnodePing
        ∧ (CXnodeMan.CheckMnbAndUpdateXnodeList e pfrom mnb s).2.mnodeman.mapSeenXnodeVerification
            = s.mnodeman.mapSeenXnodeVerification
        ∧ (CXnodeMan.CheckMnbAndUpdateXnodeList e pfrom mnb s).2.mnpayments = s.mnpayments
        ∧ (CXnodeMan.CheckMnbAndUpdateXnodeList e pfrom mnb s).2.vRelayed = s.vRelayed
        ∧ (e.GetTime - seen.1 > XNODE_NEW_START_REQUIRED_SECONDS - XNODE_MIN_MNP_SECONDS * 2 →
            (CXnodeMan.CheckMnbAndUpdateXnodeList e pfrom mnb s).2.mnodeman.mapSeenXnodeBroadcast
              = s.mnodeman.mapSeenXnodeBroadcast.set (e.GetHashMnb mnb) (e.GetTime, seen.2)
            ∧ (CXnodeMan.CheckMnbAndUpdateXnodeList e pfrom mnb s).2.xnodeSync
              = (s.AddedXnodeList e).xnodeSync)
        ∧ (e.GetTime - seen.1 ≤ XNODE_NEW_START_REQUIRED_SECONDS - XNODE_MIN_MNP_SECONDS * 2 →
            (CXnodeMan.CheckMnbAndUpdateXnodeList e pfrom mnb s).2.mnodeman.mapSeenXnodeBroadcast
              = s.mnodeman.mapSeenXnodeBroadcast
            ∧ (CXnodeMan.CheckMnbAndUpdateXnodeList e pfrom mnb s).2.xnodeSync = s.xnodeSync)
        ∧ (s.noRecoveryRequest e pfrom (e.GetHashMnb mnb) = true →
            (CXnodeMan.CheckMnbAndUpdateXnodeList e pfrom mnb s).2.mnodeman.mMnbRecoveryRequests
              = s.mnodeman.mMnbRecoveryRequests
            ∧ (CXnodeMan.CheckMnbAndUpdateXnodeList e pfrom mnb s).2.mnodeman.mMnbRecoveryGoodReplies
              = s.mnodeman.mMnbRecoveryGoodReplies
            ∧ (e.GetTime - seen.1 ≤ XNODE_NEW_START_REQUIRED_SECONDS - XNODE_MIN_MNP_SECONDS * 2 →
                (CXnodeMan.CheckMnbAndUpdateXnodeList e pfrom mnb s).2 = s)))
    ∧ (∀ (pfrom : CNode) (mnp : CXnodePing),
        s.mnodeman.mapSeenXnodePing.count (e.GetHashMnp mnp) = true →
          (CXnodeMan.ProcessMessagePing e pfrom mnp s).2
            = (if e.fLiteMode then s else (CXnodeSync.IsBlockchainSynced e false s).2)
          ∧ (CXnodeMan.ProcessMessagePing e pfrom mnp s).2.mnodeman = s.mnodeman
          ∧ (CXnodeMan.ProcessMessagePing e pfrom mnp s).2.mnpayments = s.mnpayments
          ∧ (CXnodeMan.ProcessMessagePing e pfrom mnp s).2.activeXnode = s.activeXnode
          ∧ (CXnodeMan.ProcessMessagePing e pfrom mnp s).2.vRelayed = s.vRelayed
          ∧ (CXnodeMan.ProcessMessagePing e pfrom mnp s).2.xnodeSync
              = (if e.fLiteMode = false
                    ∧ e.GetTime - s.syncStatics.nTimeLastProcess.getD e.GetTime > 60 * 60 then
                  CXnodeSync.Reset e s.xnodeSync else s.xnodeSync)
          ∧ ((CXnodeMan.ProcessMessagePing e pfrom mnp s).1 = pfrom
            ∨ (CXnodeMan.ProcessMessagePing e pfrom mnp s).1
                = pfrom.eraseAskFor (e.GetHashMnp mnp)))
    ∧ (∀ (pIndex : Option Int) (pfrom : CNode) (vote : CXnodePaymentVote),
        s.mnpayments.mapXnodePaymentVotes.count (vote.GetHash e) = true →
          (CXnodePayments.ProcessMessageVote e pIndex pfrom vote s).2 = s
          ∧ ((CXnodePayments.ProcessMessageVote e pIndex pfrom vote s).1 = pfrom
            ∨ (CXnodePayments.ProcessMessageVote e pIndex pfrom vote s).1
                = pfrom.eraseAskFor (vote.GetHash e))) := by
  refine ⟨?_, ?_, ?_⟩
  · intro pfrom mnb seen hseen hrec
    have hcount : s.mnodeman.mapSeenXnodeBroadcast.count (e.GetHashMnb mnb) = true := by
      simp [FMap.count, hseen]
    have heq : CXnodeMan.CheckMnbAndUpdateXnodeList e pfrom mnb s
        = ((true, 0), CXnodeMan.seenMnb e pfrom mnb (e.GetHashMnb mnb) s) := by
      unfold CXnodeMan.CheckMnbAndUpdateXnodeList
      simp only [hcount, hrec, Bool.not_false, Bool.and_self, if_true]
    rw [heq]
    have hf := seenMnb_frame e pfrom mnb (e.GetHashMnb mnb) s
    have hs := seenMnb_seen_sync e pfrom mnb (e.GetHashMnb mnb) s seen hseen
    refine ⟨rfl, seenMnb_vXnodes e pfrom mnb _ s, hf.1, hf.2.1, hf.2.2.1, hf.2.2.2.2, ?_, ?_, ?_⟩
    · intro hc
      have h1 := hs.1
      have h2 := hs.2
      rw [if_pos hc] at h1 h2
      exact ⟨h1, h2⟩
    · intro hc
      have hc2 : ¬ (e.GetTime - seen.1
          > XNODE_NEW_START_REQUIRED_SECONDS - XNODE_MIN_MNP_SECONDS * 2) := not_lt.mpr hc
      have h1 := hs.1
      have h2 := hs.2
      rw [if_neg hc2] at h1 h2
      exact ⟨h1, h2⟩
    · intro hreq
      have hn := seenMnb_no_request e pfrom mnb (e.GetHashMnb mnb) s seen hseen hreq
      refine ⟨?_, ?_, ?_⟩
      · show (CXnodeMan.seenMnb e pfrom mnb (e.GetHashMnb mnb) s).mnodeman.mMnbRecoveryRequests = _
        rw [hn]
        split <;> rfl
      · show (CXnodeMan.seenMnb e pfrom mnb (e.GetHashMnb mnb) s).mnodeman.mMnbRecoveryGoodReplies
          = _
        rw [hn]
        split <;> rfl
      · intro hc
        have hc2 : ¬ (e.GetTime - seen.1
            > XNODE_NEW_START_REQUIRED_SECONDS - XNODE_MIN_MNP_SECONDS * 2) := not_lt.mpr hc
        show CXnodeMan.seenMnb e pfrom mnb (e.GetHashMnb mnb) s = s
        rw [hn, if_neg hc2]
  · intro pfrom mnp h
    obtain ⟨h1, h2⟩ := ProcessMessagePing_seen e pfrom mnp s h
    obtain ⟨f1, f2, f3, f4⟩ := IsBlockchainSynced_frame e false s
    have f5 := IsBlockchainSynced_xnodeSync e false s
    refine ⟨h1, ?_, ?_, ?_, ?_, ?_, h2⟩
    · rw [h1]; split
      · rfl
      · exact f1
    · rw [h1]; split
      · rfl
      · exact f2
    · rw [h1]; split
      · rfl
      · exact f3
    · rw [h1]; split
      · rfl
      · exact f4
    · rw [h1]
      by_cases hl : e.fLiteMode = true
      · simp only [hl, if_true, Bool.true_eq_false, false_and, if_false]
      · simp only [Bool.not_eq_true] at hl
        simp only [hl, Bool.false_eq_true, if_false, true_and]
        exact f5
  · intro pIndex pfrom vote h
    exact ProcessMessageVote_seen e pIndex pfrom vote s h

/-- C20 (amended) at a sample: an announcement seen 1000 seconds ago and
received again from no peer leaves the state as it was; a seen ping received
after a pause of more than 60 minutes relays nothing and leaves the manager
as it was. -/
theorem C20_seen_messages_witness :
    sampleSeenRecentlyState.mnodeman.mapSeenXnodeBroadcast (sampleEnv.GetHashMnb sampleNewerMnb)
      = some (99000, sampleNewerMnb)
    ∧ sampleNewerMnb.fRecovery = false
    ∧ (CXnodeMan.CheckMnbAndUpdateXnodeList sampleEnv none sampleNewerMnb
        sampleSeenRecentlyState).2 = sampleSeenRecentlyState
    ∧ (CXnodeMan.ProcessMessagePing sampleEnv samplePeer (samplePing 99950)
        sampleSleptState).2.mnodeman = sampleSleptState.mnodeman
    ∧ (CXnodeMan.ProcessMessagePing sampleEnv samplePeer (samplePing 99950)
        sampleSleptState).2.vRelayed = sampleSleptState.vRelayed :=
  ⟨by decide, by decide,
    (((C20_seen_messages sampleEnv sampleSeenRecentlyState).1 none sampleNewerMnb
      (99000, sampleNewerMnb) (by decide) (by decide)).2.2.2.2.2.2.2.2
      rfl).2.2 (by decide),
    ((C20_seen_messages sampleEnv sampleSleptState).2.1 samplePeer (samplePing 99950)
      (by decide)).2.1,
    ((C20_seen_messages sampleEnv sampleSleptState).2.1 samplePeer (samplePing 99950)
      (by decide)).2.2.2.2.1⟩

/-! ## The duplicate-address sweep (C15) -/

theorem vSortedByAddr_perm (m : CXnodeMan) : m.vSortedByAddr.Perm m.vXnodes.enum := by
  unfold CXnodeMan.vSortedByAddr stdSort
  exact List.perm_insertionSort _ _

theorem vSortedByAddr_nodup (m : CXnodeMan) : (m.vSortedByAddr.map Prod.fst).Nodup := by
  have hp := (vSortedByAddr_perm m).map Prod.fst
  rw [hp.nodup_iff, List.enum_map_fst]
  exact List.nodup_range _

theorem sameAddrStep_skip (e : Env) (st : SameAddrScan) (x : Nat × CXnode)
    (hx : (x.2.IsEnabled || x.2.IsPreEnabled) = false) : CXnodeMan.sameAddrStep e st x = st := by
  unfold CXnodeMan.sameAddrStep
  have h : (!x.2.IsEnabled && !x.2.IsPreEnabled) = true := by
    cases h1 : x.2.IsEnabled <;> cases h2 : x.2.IsPreEnabled <;> simp [h1, h2] at hx ⊢
  rw [if_pos h]

theorem sameAddrStep_fresh (e : Env) (st : SameAddrScan) (x : Nat × CXnode)
    (hx : (x.2.IsEnabled || x.2.IsPreEnabled) = true)
    (hp : ∀ p, st.pprevXnode = some p → x.2.addr ≠ p.2.addr) :
    CXnodeMan.sameAddrStep e st x
      = { pprevXnode := some x, pverifiedXnode := if e.IsPoSeVerified x.2 then some x else none,
          vBan := st.vBan } := by
  unfold CXnodeMan.sameAddrStep
  have h : ¬ ((!x.2.IsEnabled && !x.2.IsPreEnabled) = true) := by
    cases h1 : x.2.IsEnabled <;> cases h2 : x.2.IsPreEnabled <;> simp [h1, h2] at hx ⊢
  rw [if_neg h]
  cases hpp : st.pprevXnode with
  | none => rfl
  | some p =>
    simp only [if_neg (hp p hpp)]

theorem sameAddrStep_banned (e : Env) (st : SameAddrScan) (x p : Nat × CXnode)
    (hx : (x.2.IsEnabled || x.2.IsPreEnabled) = true)
    (hp : st.pprevXnode = some p) (ha : x.2.addr = p.2.addr)
    (hv : st.pverifiedXnode.isSome = true) :
    CXnodeMan.sameAddrStep e st x
      = { pprevXnode := some x, pverifiedXnode := st.pverifiedXnode,
          vBan := st.vBan ++ [x.1] } := by
  unfold CXnodeMan.sameAddrStep
  have h : ¬ ((!x.2.IsEnabled && !x.2.IsPreEnabled) = true) := by
    cases h1 : x.2.IsEnabled <;> cases h2 : x.2.IsPreEnabled <;> simp [h1, h2] at hx ⊢
  rw [if_neg h]
  simp only [hp, if_pos ha, hv, if_true]

theorem sameAddrStep_verifies (e : Env) (st : SameAddrScan) (x p : Nat × CXnode)
    (hx : (x.2.IsEnabled || x.2.IsPreEnabled) = true)
    (hp : st.pprevXnode = some p) (ha : x.2.addr = p.2.addr)
    (hv : st.pverifiedXnode = none) (hxv : e.IsPoSeVerified x.2 = true) :
    CXnodeMan.sameAddrStep e st x
      = { pprevXnode := some x, pverifiedXnode := some x, vBan := st.vBan ++ [p.1] } := by
  unfold CXnodeMan.sameAddrStep
  have h : ¬ ((!x.2.IsEnabled && !x.2.IsPreEnabled) = true) := by
    cases h1 : x.2.IsEnabled <;> cases h2 : x.2.IsPreEnabled <;> simp [h1, h2] at hx ⊢
  rw [if_neg h]
  simp only [hp, if_pos ha, hv, Option.isSome_none, Bool.false_eq_true, if_false, hxv, if_true]

theorem sameAddrStep_unverified (e : Env) (st : SameAddrScan) (x p : Nat × CXnode)
    (hx : (x.2.IsEnabled || x.2.IsPreEnabled) = true)
    (hp : st.pprevXnode = some p) (ha : x.2.addr = p.2.addr)
    (hv : st.pverifiedXnode = none) (hxv : e.IsPoSeVerified x.2 = false) :
    CXnodeMan.sameAddrStep e st x
      = { pprevXnode := some x, pverifiedXnode := none, vBan := st.vBan } := by
  unfold CXnodeMan.sameAddrStep
  have h : ¬ ((!x.2.IsEnabled && !x.2.IsPreEnabled) = true) := by
    cases h1 : x.2.IsEnabled <;> cases h2 : x.2.IsPreEnabled <;> simp [h1, h2] at hx ⊢
  rw [if_neg h]
  simp only [hp, if_pos ha, hv, Option.isSome_none, Bool.false_eq_true, if_false, hxv]

/-- The scan skips the records that are neither enabled nor pre-enabled. -/
theorem sameAddrScan_filter (e : Env) (l : List (Nat × CXnode)) (st : SameAddrScan) :
    l.foldl (CXnodeMan.sameAddrStep e) st
      = (l.filter (fun p => p.2.IsEnabled || p.2.IsPreEnabled)).foldl
          (CXnodeMan.sameAddrStep e) st := by
  induction l generalizing st with
  | nil => rfl
  | cons x t ih =>
    cases hx : (x.2.IsEnabled || x.2.IsPreEnabled) with
    | false =>
      rw [List.filter_cons_of_neg (by simp [hx]), List.foldl_cons, sameAddrStep_skip e st x hx]
      exact ih st
    | true =>
      rw [List.filter_cons_of_pos (by simp [hx]), List.foldl_cons, List.foldl_cons]
      exact ih _

theorem updateAt_getElem_ne {α : Type} (g : α → α) (l : List α) (i j : Nat) (h : i ≠ j) :
    (updateAt l j g)[i]? = l[i]? := by
  induction l generalizing i j with
  | nil => cases j <;> rfl
  | cons a rest ih =>
    cases j with
    | zero =>
      cases i with
      | zero => exact absurd rfl h
      | succ i => simp [updateAt]
    | succ j =>
      cases i with
      | zero => simp [updateAt]
      | succ i =>
        simp only [updateAt, List.getElem?_cons_succ]
        exact ih i j (by omega)

/-- Writes through the pointers of a list `vBan`: the record at position `i` has
been updated as often as `i` occurs in `vBan`. -/
theorem foldl_updateAt_getElem {α : Type} (g : α → α) (vBan : List Nat) (l : List α) (i : Nat) :
    (vBan.foldl (fun v j => updateAt v j g) l)[i]? = (l[i]?).map (g^[vBan.count i]) := by
  induction vBan generalizing l with
  | nil =>
    simp
  | cons j t ih =>
    rw [List.foldl_cons, ih]
    by_cases hij : j = i
    · subst hij
      rw [updateAt_getElem, List.count_cons_self, Function.iterate_succ, Option.map_map]
    · rw [updateAt_getElem_ne g l i j (fun h => hij h.symm), List.count_cons_of_ne (fun h => hij h.symm)]

theorem foldl_updateAt_length {α : Type} (g : α → α) (vBan : List Nat) (l : List α) :
    (vBan.foldl (fun v j => updateAt v j g) l).length = l.length := by
  induction vBan generalizing l with
  | nil => rfl
  | cons j t ih => rw [List.foldl_cons, ih, updateAt_length]

theorem CheckSameAddr_getElem (e : Env) (m : CXnodeMan) (hsync : e.IsSynced = true) (i : Nat) :
    (m.CheckSameAddr e).vXnodes[i]?
      = (m.vXnodes[i]?).map (CXnode.IncreasePoSeBanScore^[(m.sameAddrBan e).count i]) := by
  unfold CXnodeMan.CheckSameAddr
  split
  · rename_i hc
    have hempty : m.vXnodes = [] := by
      simpa [hsync, List.isEmpty_iff] using hc
    rw [hempty]
    rfl
  · exact foldl_updateAt_getElem _ _ _ _

theorem updateAt_id {α : Type} (l : List α) (i : Nat) : updateAt l i id = l := by
  induction l generalizing i with
  | nil => cases i <;> rfl
  | cons a rest ih =>
    cases i with
    | zero => rfl
    | succ i => simp [updateAt, ih]

theorem updateAt_updateAt {α : Type} (g1 g2 : α → α) (l : List α) (i : Nat) :
    updateAt (updateAt l i g1) i g2 = updateAt l i (fun x => g2 (g1 x)) := by
  induction l generalizing i with
  | nil => cases i <;> rfl
  | cons a rest ih =>
    cases i with
    | zero => rfl
    | succ i => simp [updateAt, ih]

/-- A run of `Check` leaves the PoSe score or, for a banned record, applies
`DecreasePoSeBanScore` to it. -/
theorem Check_score_near (e : Env) (s : State) (lockMain fForce : Bool) (mn : CXnode) :
    (CXnode.Check e s lockMain fForce mn).nPoSeBanScore = mn.nPoSeBanScore
    ∨ (mn.IsPoSeBanned = true
      ∧ (CXnode.Check e s lockMain fForce mn).nPoSeBanScore
          = mn.DecreasePoSeBanScore.nPoSeBanScore) := by
  unfold CXnode.Check
  simp only []
  repeat' split
  all_goals first
    | exact Or.inl rfl
    | exact Or.inl (CheckState_score e s _).1
    | (refine Or.inr ⟨?_, (CheckState_score e s _).1.trans ?_⟩
       · assumption
       · rw [DecreasePoSeBanScore_score, DecreasePoSeBanScore_score])

theorem pingCheckAndUpdate_vXnodes (e : Env) (mnp : CXnodePing) (pmn : Option Nat)
    (fFromNewBroadcast : Bool) (s : State) :
    ∃ g : CXnode → CXnode,
      (∀ r, (g r).nPoSeBanScore = r.nPoSeBanScore
        ∨ (g r).nPoSeBanScore = r.DecreasePoSeBanScore.nPoSeBanScore)
      ∧ (mnp.CheckAndUpdate e pmn fFromNewBroadcast s).2.mnodeman.vXnodes
          = updateAt s.mnodeman.vXnodes (pmn.getD 0) g := by
  have hid : ∃ g : CXnode → CXnode,
      (∀ r, (g r).nPoSeBanScore = r.nPoSeBanScore
        ∨ (g r).nPoSeBanScore = r.DecreasePoSeBanScore.nPoSeBanScore)
      ∧ s.mnodeman.vXnodes = updateAt s.mnodeman.vXnodes (pmn.getD 0) g :=
    ⟨id, fun r => Or.inl rfl, (updateAt_id _ _).symm⟩
  have hs3 : ∀ s1 : State, s1.mnodeman.vXnodes = s.mnodeman.vXnodes →
      ∀ i hash, ({ (s1.modifyXnode i (fun pmn => { pmn with lastPing := mnp })) with
            mnodeman := (s1.modifyXnode i
              (fun pmn => { pmn with lastPing := mnp })).mnodeman.setSeenLastPing
                hash mnp } : State).mnodeman.vXnodes
          = updateAt s.mnodeman.vXnodes i (fun pmn => { pmn with lastPing := mnp }) := by
    intro s1 h1 i hash
    rw [← h1]
    unfold CXnodeMan.setSeenLastPing
    split <;> rfl
  have hstep : ∀ (s3 : State) (i : Nat),
      s3.mnodeman.vXnodes = updateAt s.mnodeman.vXnodes i (fun pmn => { pmn with lastPing := mnp }) →
      ∃ g : CXnode → CXnode,
        (∀ r, (g r).nPoSeBanScore = r.nPoSeBanScore
        ∨ (g r).nPoSeBanScore = r.DecreasePoSeBanScore.nPoSeBanScore)
        ∧ (State.CheckAt e true i s3).mnodeman.vXnodes = updateAt s.mnodeman.vXnodes i g := by
    intro s3 i h3
    refine ⟨fun x => CXnode.Check e s3 true true { x with lastPing := mnp }, ?_, ?_⟩
    · intro r
      rcases Check_score_near e s3 true true { r with lastPing := mnp } with h | h
      · exact Or.inl h
      · exact Or.inr (h.2.trans (by rw [DecreasePoSeBanScore_score, DecreasePoSeBanScore_score]))
    · unfold State.CheckAt State.modifyXnode
      simp only []
      rw [h3, updateAt_updateAt]
  unfold CXnodePing.CheckAndUpdate
  simp only []
  repeat' split
  all_goals first
    | exact hid
    | exact hstep _ _ (hs3 _ rfl _ _)

theorem takeBroadcastPing_vXnodes (e : Env) (i : Nat) (mnb : CXnodeBroadcast) (s1 : State) :
    ∃ g : CXnode → CXnode,
      (∀ r, (g r).nPoSeBanScore = r.nPoSeBanScore
        ∨ (g r).nPoSeBanScore = r.DecreasePoSeBanScore.nPoSeBanScore)
      ∧ (CXnode.takeBroadcastPing e i mnb s1).mnodeman.vXnodes
          = updateAt s1.mnodeman.vXnodes i g := by
  obtain ⟨g, hg, hv⟩ := pingCheckAndUpdate_vXnodes e mnb.lastPing (some i) true s1
  have hv2 : (mnb.lastPing.CheckAndUpdate e (some i) true s1).2.mnodeman.vXnodes
      = updateAt s1.mnodeman.vXnodes i g := hv
  unfold CXnode.takeBroadcastPing
  simp only []
  split
  · split
    · refine ⟨fun x => { x with lastPing := mnb.lastPing }, fun r => Or.inl rfl, rfl⟩
    · rename_i h
      exact absurd rfl h
  · split
    · refine ⟨fun x => { (g x) with lastPing := mnb.lastPing }, fun r => hg r, ?_⟩
      show updateAt (mnb.lastPing.CheckAndUpdate e (some i) true s1).2.mnodeman.vXnodes i _ = _
      rw [hv2, updateAt_updateAt]
    · exact ⟨g, hg, hv2⟩

/-- The registry after `UpdateFromNewBroadcast` for an announcement that is not
the node's own: unchanged when the call returns false; otherwise the record at
`i` has the score 0. -/
theorem UpdateFromNewBroadcast_score_notOwn (e : Env) (i : Nat) (mnb : CXnodeBroadcast)
    (s : State) (hown : ¬ (e.fXNode = true ∧ mnb.pubKeyXnode = s.activeXnode.pubKeyXnode)) :
    CXnode.UpdateFromNewBroadcast e i mnb s = (false, s)
    ∨ ((CXnode.UpdateFromNewBroadcast e i mnb s).1 = true
      ∧ ∃ g : CXnode → CXnode, (∀ r, (g r).nPoSeBanScore = 0)
        ∧ (CXnode.UpdateFromNewBroadcast e i mnb s).2.mnodeman.vXnodes
            = updateAt s.mnodeman.vXnodes i g) := by
  unfold CXnode.UpdateFromNewBroadcast
  split
  · left; rfl
  · split
    · left; rfl
    · simp only []
      have hact : (CXnode.takeBroadcastPing e i mnb
          (s.modifyXnode i (CXnode.takeBroadcast mnb))).activeXnode = s.activeXnode :=
        takeBroadcastPing_activeXnode e i mnb _
      rw [hact]
      have hnot : ¬ ((e.fXNode && decide (mnb.pubKeyXnode = s.activeXnode.pubKeyXnode)) = true) := by
        simpa using hown
      rw [if_neg hnot]
      right
      obtain ⟨g, hg, hv⟩ := takeBroadcastPing_vXnodes e i mnb
        (s.modifyXnode i (CXnode.takeBroadcast mnb))
      refine ⟨rfl, fun x => g (CXnode.takeBroadcast mnb x), ?_, ?_⟩
      · intro r
        rcases hg (CXnode.takeBroadcast mnb r) with h | h
        · rw [h]
          rfl
        · rw [h, DecreasePoSeBanScore_score]
          rfl
      · show (CXnode.takeBroadcastPing e i mnb
          (s.modifyXnode i (CXnode.takeBroadcast mnb))).mnodeman.vXnodes = _
        rw [hv]
        exact updateAt_updateAt _ _ _ _

/-- The registry after `UpdateFromNewBroadcast` has taken the node's own
announcement, before `activeXnode.ManageState()` is entered: the record at `i`
has the score `-XNODE_POSE_BAN_MAX_SCORE`. -/
theorem UpdateFromNewBroadcast_score_own (e : Env) (i : Nat) (mnb : CXnodeBroadcast)
    (s : State) (mn : CXnode) (hmn : s.getXnode i = some mn)
    (hnew : mn.sigTime < mnb.sigTime ∨ mnb.fRecovery = true)
    (hown : e.fXNode = true ∧ mnb.pubKeyXnode = s.activeXnode.pubKeyXnode) :
    ∃ (s3 : State) (g : CXnode → CXnode),
      (∀ r, (g r).nPoSeBanScore = -XNODE_POSE_BAN_MAX_SCORE)
      ∧ s3.mnodeman.vXnodes = updateAt s.mnodeman.vXnodes i g
      ∧ CXnode.UpdateFromNewBroadcast e i mnb s
          = (if mnb.nProtocolVersion = e.PROTOCOL_VERSION then (true, e.ManageState s3)
             else (false, s3)) := by
  obtain ⟨g, _, hv⟩ := takeBroadcastPing_vXnodes e i mnb
    (s.modifyXnode i (CXnode.takeBroadcast mnb))
  refine ⟨(CXnode.takeBroadcastPing e i mnb
      (s.modifyXnode i (CXnode.takeBroadcast mnb))).modifyXnode i
        (fun pmn => { pmn with nPoSeBanScore := -XNODE_POSE_BAN_MAX_SCORE }),
    fun x => { (g (CXnode.takeBroadcast mnb x)) with
      nPoSeBanScore := -XNODE_POSE_BAN_MAX_SCORE }, fun r => rfl, ?_, ?_⟩
  · show updateAt (CXnode.takeBroadcastPing e i mnb
      (s.modifyXnode i (CXnode.takeBroadcast mnb))).mnodeman.vXnodes i _ = _
    rw [hv]
    show updateAt (updateAt (updateAt s.mnodeman.vXnodes i _) i g) i _ = _
    rw [updateAt_updateAt, updateAt_updateAt]
  · unfold CXnode.UpdateFromNewBroadcast
    rw [hmn]
    simp only []
    have hc : ¬ ((decide (mnb.sigTime ≤ mn.sigTime) && !mnb.fRecovery) = true) := by
      rcases hnew with h1 | h1
      · simp; intro h2; omega
      · simp [h1]
    rw [if_neg hc]
    have hact : (CXnode.takeBroadcastPing e i mnb
        (s.modifyXnode i (CXnode.takeBroadcast mnb))).activeXnode = s.activeXnode :=
      takeBroadcastPing_activeXnode e i mnb _
    rw [hact]
    have hyes : (e.fXNode && decide (mnb.pubKeyXnode = s.activeXnode.pubKeyXnode)) = true := by
      simp [hown.1, hown.2]
    rw [if_pos hyes]

/-- The registry after lines 1547-1571 of `CheckMnbAndUpdateXnodeList`, when
`activeXnode.ManageState()` is not entered: as before, or with the record of
the announcement, score included, appended. The assignment
`mnb.nPoSeBanScore = -XNODE_POSE_BAN_MAX_SCORE` after `Add(mnb)` writes to the
local announcement only. -/
theorem addCheckedMnb_vXnodes (e : Env) (mnb : CXnodeBroadcast) (nDos : Int) (s : State)
    (hnoMS : ¬ (e.fXNode = true ∧ mnb.pubKeyXnode = s.activeXnode.pubKeyXnode
      ∧ mnb.nProtocolVersion = e.PROTOCOL_VERSION)) :
    (CXnodeMan.addCheckedMnb e mnb nDos s).2.mnodeman.vXnodes = s.mnodeman.vXnodes
    ∨ (CXnodeMan.addCheckedMnb e mnb nDos s).2.mnodeman.vXnodes
        = s.mnodeman.vXnodes ++ [mnb.toCXnode] := by
  have hco := CheckOutpoint_vXnodes e true mnb nDos s
  have hadd : ((mnb.CheckOutpoint e true nDos s).2.mnodeman.Add mnb.toCXnode).2.vXnodes
        = s.mnodeman.vXnodes
      ∨ ((mnb.CheckOutpoint e true nDos s).2.mnodeman.Add mnb.toCXnode).2.vXnodes
        = s.mnodeman.vXnodes ++ [mnb.toCXnode] := by
    cases hf : (mnb.CheckOutpoint e true nDos s).2.mnodeman.Find mnb.toCXnode.vin with
    | none =>
      right
      rw [Add_none _ _ hf]
      show (mnb.CheckOutpoint e true nDos s).2.mnodeman.vXnodes ++ [mnb.toCXnode] = _
      rw [hco.1]
    | some j =>
      left
      rw [Add_some _ _ j hf]
      exact hco.1
  unfold CXnodeMan.addCheckedMnb
  simp only []
  split
  · split
    · rename_i hown
      split
      · rename_i hp
        exfalso
        apply hnoMS
        have hown2 : e.fXNode = true ∧ mnb.pubKeyXnode
            = (mnb.CheckOutpoint e true nDos s).2.activeXnode.pubKeyXnode := by
          simpa using hown
        rw [hco.2] at hown2
        exact ⟨hown2.1, hown2.2, hp⟩
      · exact hadd
    · exact hadd
  · left
    exact hco.1
theorem sameAddrStep_cases (e : Env) (st : SameAddrScan) (x : Nat × CXnode)
    (hx : (x.2.IsEnabled || x.2.IsPreEnabled) = true) :
    (CXnodeMan.sameAddrStep e st x).pprevXnode = some x
    ∧ ((CXnodeMan.sameAddrStep e st x).vBan = st.vBan
      ∨ ((CXnodeMan.sameAddrStep e st x).pverifiedXnode.isSome = true
          ∧ (CXnodeMan.sameAddrStep e st x).vBan = st.vBan ++ [x.1])
      ∨ ∃ p, st.pprevXnode = some p ∧ st.pverifiedXnode = none
          ∧ (CXnodeMan.sameAddrStep e st x).vBan = st.vBan ++ [p.1]) := by
  cases hpp : st.pprevXnode with
  | none =>
    rw [sameAddrStep_fresh e st x hx (by intro p h; rw [hpp] at h; cases h)]
    exact ⟨rfl, Or.inl rfl⟩
  | some p =>
    by_cases ha : x.2.addr = p.2.addr
    · cases hv : st.pverifiedXnode with
      | some w =>
        rw [sameAddrStep_banned e st x p hx hpp ha (by simp [hv])]
        exact ⟨rfl, Or.inr (Or.inl ⟨by simp [hv], rfl⟩)⟩
      | none =>
        cases hxv : e.IsPoSeVerified x.2 with
        | true =>
          rw [sameAddrStep_verifies e st x p hx hpp ha hv hxv]
          exact ⟨rfl, Or.inr (Or.inr ⟨p, rfl, rfl, rfl⟩)⟩
        | false =>
          rw [sameAddrStep_unverified e st x p hx hpp ha hv hxv]
          exact ⟨rfl, Or.inl rfl⟩
    · rw [sameAddrStep_fresh e st x hx (by
        intro q h
        rw [hpp] at h
        cases h
        exact ha)]
      exact ⟨rfl, Or.inl rfl⟩

/-- No record is pushed to `vBan` twice. -/
theorem sameAddrScan_nodup (e : Env) (l : List (Nat × CXnode))
    (hl : ∀ x ∈ l, (x.2.IsEnabled || x.2.IsPreEnabled) = true) (st : SameAddrScan)
    (hnd : ((st.pprevXnode.toList ++ l).map Prod.fst).Nodup)
    (hb : st.vBan.Nodup)
    (hdis : ∀ i ∈ st.vBan, i ∉ l.map Prod.fst)
    (hpv : ∀ p, st.pprevXnode = some p → p.1 ∈ st.vBan → st.pverifiedXnode.isSome = true) :
    (l.foldl (CXnodeMan.sameAddrStep e) st).vBan.Nodup := by
  induction l generalizing st with
  | nil => exact hb
  | cons x t ih =>
    have hx := hl x (List.mem_cons_self _ _)
    have ht : ∀ y ∈ t, (y.2.IsEnabled || y.2.IsPreEnabled) = true :=
      fun y hy => hl y (List.mem_cons_of_mem _ hy)
    have hs := sameAddrStep_cases e st x hx
    have hxt : ((x :: t).map Prod.fst).Nodup :=
      hnd.sublist ((List.sublist_append_right _ _).map _)
    have hxnt : x.1 ∉ t.map Prod.fst := (List.nodup_cons.1 hxt).1
    have hxnb : x.1 ∉ st.vBan := fun h => hdis _ h (by simp)
    have hnd2 : (((CXnodeMan.sameAddrStep e st x).pprevXnode.toList ++ t).map Prod.fst).Nodup := by
      rw [hs.1]
      exact hxt
    rw [List.foldl_cons]
    apply ih ht _ hnd2
    · rcases hs.2 with h | ⟨_, h⟩ | ⟨p, hp, hv, h⟩
      · rw [h]
        exact hb
      · rw [h]
        exact List.Nodup.append hb (List.nodup_singleton _) (by
          intro a ha1 ha2
          rw [List.mem_singleton] at ha2
          rw [ha2] at ha1
          exact hxnb ha1)
      · rw [h]
        have hpn : p.1 ∉ st.vBan := by
          intro hmem
          have := hpv p hp hmem
          rw [hv] at this
          cases this
        exact List.Nodup.append hb (List.nodup_singleton _) (by
          intro a ha1 ha2
          rw [List.mem_singleton] at ha2
          rw [ha2] at ha1
          exact hpn ha1)
    · intro i hi
      rcases hs.2 with h | ⟨_, h⟩ | ⟨p, hp, hv, h⟩
      · rw [h] at hi
        exact fun hmem => hdis i hi (by
          simp only [List.map_cons, List.mem_cons]
          right
          exact hmem)
      · rw [h] at hi
        rcases List.mem_append.1 hi with hi | hi
        · exact fun hmem => hdis i hi (by
            simp only [List.map_cons, List.mem_cons]
            right
            exact hmem)
        · rw [List.mem_singleton] at hi
          rw [hi]
          exact hxnt
      · rw [h] at hi
        rcases List.mem_append.1 hi with hi | hi
        · exact fun hmem => hdis i hi (by
            simp only [List.map_cons, List.mem_cons]
            right
            exact hmem)
        · rw [List.mem_singleton] at hi
          rw [hi]
          rw [hp] at hnd
          simp only [Option.toList_some, List.singleton_append, List.map_cons,
            List.nodup_cons, List.mem_cons, not_or] at hnd
          exact hnd.1.2
    · intro q hq hmem
      rw [hs.1] at hq
      cases hq
      rcases hs.2 with h | ⟨hv2, _⟩ | ⟨p, hp, hv, h⟩
      · rw [h] at hmem
        exact absurd hmem hxnb
      · exact hv2
      · rw [h] at hmem
        rcases List.mem_append.1 hmem with hm | hm
        · exact absurd hm hxnb
        · rw [List.mem_singleton] at hm
          rw [hp] at hnd
          simp only [Option.toList_some, List.singleton_append, List.map_cons,
            List.nodup_cons, List.mem_cons, not_or] at hnd
          exact absurd hm.symm hnd.1.1

theorem sameAddrBan_nodup (e : Env) (m : CXnodeMan) : (m.sameAddrBan e).Nodup := by
  unfold CXnodeMan.sameAddrBan
  rw [sameAddrScan_filter]
  apply sameAddrScan_nodup e _ (fun x hx => (List.mem_filter.1 hx).2)
  · simp only [Option.toList_none, List.nil_append]
    exact ((vSortedByAddr_nodup m).sublist ((List.filter_sublist _).map _))
  · exact List.nodup_nil
  · intro i hi
    cases hi
  · intro p hp
    cases hp

/-- A sweep of `CheckSameAddr` leaves a record or applies
`IncreasePoSeBanScore` to it once. -/
theorem CheckSameAddr_score (e : Env) (m : CXnodeMan) (j : Nat) :
    (m.CheckSameAddr e).vXnodes[j]? = m.vXnodes[j]?
    ∨ (m.CheckSameAddr e).vXnodes[j]? = (m.vXnodes[j]?).map CXnode.IncreasePoSeBanScore := by
  cases hsync : e.IsSynced with
  | false =>
    left
    unfold CXnodeMan.CheckSameAddr
    simp [hsync]
  | true =>
    rw [CheckSameAddr_getElem e m hsync]
    have hle : (m.sameAddrBan e).count j ≤ 1 :=
      List.nodup_iff_count_le_one.1 (sameAddrBan_nodup e m) j
    have h01 : (m.sameAddrBan e).count j = 0 ∨ (m.sameAddrBan e).count j = 1 := by omega
    rcases h01 with h | h
    · left
      rw [h]
      simp
    · right
      rw [h]
      rfl
/-- One pass of the loop of `ProcessVerifyReply`: the registry is as before or
has `DecreasePoSeBanScore` applied at the position visited; the controller of
the own node is untouched; `vpXnodesToBan` gains at most the position visited;
the pass repeats for ever only when the node has no active service node. -/
theorem verifyReplyStep_spec (e : Env) (pnode : CNode) (blockHash : Nat) (strMessage1 : String)
    (st : VerifyReplyScan) (i : Nat) :
    (∀ st1, CXnodeMan.verifyReplyStep e pnode blockHash strMessage1 st i = LoopExit.next st1 →
      (st1.s.mnodeman.vXnodes = st.s.mnodeman.vXnodes
        ∨ st1.s.mnodeman.vXnodes
            = updateAt st.s.mnodeman.vXnodes i CXnode.DecreasePoSeBanScore)
      ∧ st1.s.activeXnode = st.s.activeXnode
      ∧ (st1.vpXnodesToBan = st.vpXnodesToBan ∨ st1.vpXnodesToBan = st.vpXnodesToBan ++ [i]))
    ∧ (∀ st1, CXnodeMan.verifyReplyStep e pnode blockHash strMessage1 st i
        = LoopExit.returned st1 →
      (st1.s.mnodeman.vXnodes = st.s.mnodeman.vXnodes
        ∨ st1.s.mnodeman.vXnodes
            = updateAt st.s.mnodeman.vXnodes i CXnode.DecreasePoSeBanScore))
    ∧ (CXnodeMan.verifyReplyStep e pnode blockHash strMessage1 st i = LoopExit.diverges →
      st.s.activeXnode.vin = CTxIn.null) := by
  have hdec : ∀ it : CXnode,
      ((st.s.decreaseUnlessVerified e i it).mnodeman.vXnodes = st.s.mnodeman.vXnodes
        ∨ (st.s.decreaseUnlessVerified e i it).mnodeman.vXnodes
          = updateAt st.s.mnodeman.vXnodes i CXnode.DecreasePoSeBanScore)
      ∧ (st.s.decreaseUnlessVerified e i it).activeXnode = st.s.activeXnode := by
    intro it
    unfold State.decreaseUnlessVerified
    split
    · exact ⟨Or.inr rfl, rfl⟩
    · exact ⟨Or.inl rfl, rfl⟩
  refine ⟨?_, ?_, ?_⟩
  · intro st1 h
    unfold CXnodeMan.verifyReplyStep at h
    simp only [] at h
    split at h
    · cases h
      exact ⟨Or.inl rfl, rfl, Or.inl rfl⟩
    · rename_i it _
      split at h
      · split at h
        · split at h
          · cases h
          · split at h
            · cases h
            · split at h
              · cases h
              · cases h
                exact ⟨(hdec it).1, (hdec it).2,
                  Or.inl rfl⟩
        · cases h
          exact ⟨Or.inl rfl, rfl, Or.inr rfl⟩
      · cases h
        exact ⟨Or.inl rfl, rfl, Or.inl rfl⟩
  · intro st1 h
    unfold CXnodeMan.verifyReplyStep at h
    simp only [] at h
    split at h
    · cases h
    · rename_i it _
      split at h
      · split at h
        · split at h
          · cases h
          · split at h
            · cases h
              exact (hdec it).1
            · split at h
              · cases h
                exact (hdec it).1
              · cases h
        · cases h
      · cases h
  · intro h
    unfold CXnodeMan.verifyReplyStep at h
    simp only [] at h
    split at h
    · cases h
    · rename_i it _
      split at h
      · split at h
        · split at h
          · rename_i hnull
            rw [(hdec it).2] at hnull
            exact hnull
          · split at h
            · cases h
            · split at h
              · cases h
              · cases h
        · cases h
      · cases h
theorem updateAt_getElem_cases {α : Type} (g : α → α) (l : List α) (i j : Nat) :
    (updateAt l i g)[j]? = l[j]? ∨ (j = i ∧ (updateAt l i g)[j]? = (l[j]?).map g) := by
  by_cases h : j = i
  · right
    subst h
    exact ⟨rfl, updateAt_getElem g l j⟩
  · left
    exact updateAt_getElem_ne g l j i h

/-- The loop of `ProcessVerifyReply` over positions not yet visited: every
record is as at the start or has `DecreasePoSeBanScore` applied once, and no
position is pushed to `vpXnodesToBan` twice. -/
theorem verifyReplyLoop_spec (e : Env) (pnode : CNode) (blockHash : Nat) (strMessage1 : String)
    (v0 : List CXnode) (l : List Nat) (hl : l.Nodup) (st : VerifyReplyScan)
    (hcur : ∀ j : Nat, st.s.mnodeman.vXnodes[j]? = v0[j]?
      ∨ st.s.mnodeman.vXnodes[j]? = (v0[j]?).map CXnode.DecreasePoSeBanScore)
    (hfresh : ∀ j ∈ l, st.s.mnodeman.vXnodes[j]? = v0[j]?)
    (hban : st.vpXnodesToBan.Nodup) (hdis : ∀ j ∈ st.vpXnodesToBan, j ∉ l) :
    (∀ st1, CXnodeMan.verifyReplyLoop e pnode blockHash strMessage1 l st = LoopExit.next st1 →
      (∀ j : Nat, st1.s.mnodeman.vXnodes[j]? = v0[j]?
        ∨ st1.s.mnodeman.vXnodes[j]? = (v0[j]?).map CXnode.DecreasePoSeBanScore)
      ∧ st1.vpXnodesToBan.Nodup)
    ∧ (∀ st1, CXnodeMan.verifyReplyLoop e pnode blockHash strMessage1 l st
        = LoopExit.returned st1 →
      (∀ j : Nat, st1.s.mnodeman.vXnodes[j]? = v0[j]?
        ∨ st1.s.mnodeman.vXnodes[j]? = (v0[j]?).map CXnode.DecreasePoSeBanScore))
    ∧ (CXnodeMan.verifyReplyLoop e pnode blockHash strMessage1 l st = LoopExit.diverges →
      st.s.activeXnode.vin = CTxIn.null) := by
  induction l generalizing st with
  | nil =>
    refine ⟨?_, ?_, ?_⟩
    · intro st1 h
      unfold CXnodeMan.verifyReplyLoop at h
      cases h
      exact ⟨hcur, hban⟩
    · intro st1 h
      unfold CXnodeMan.verifyReplyLoop at h
      cases h
    · intro h
      unfold CXnodeMan.verifyReplyLoop at h
      cases h
  | cons i t ih =>
    have hspec := verifyReplyStep_spec e pnode blockHash strMessage1 st i
    have hit : i ∉ t := (List.nodup_cons.1 hl).1
    have htnd : t.Nodup := (List.nodup_cons.1 hl).2
    have hfi : st.s.mnodeman.vXnodes[i]? = v0[i]? := hfresh i (List.mem_cons_self _ _)
    have hcur2 : ∀ v2 : List CXnode,
        (v2 = st.s.mnodeman.vXnodes
          ∨ v2 = updateAt st.s.mnodeman.vXnodes i CXnode.DecreasePoSeBanScore) →
        (∀ j : Nat, v2[j]? = v0[j]? ∨ v2[j]? = (v0[j]?).map CXnode.DecreasePoSeBanScore)
        ∧ (∀ j ∈ t, v2[j]? = v0[j]?) := by
      intro v2 hv2
      rcases hv2 with h | h
      · rw [h]
        exact ⟨hcur, fun j hj => hfresh j (List.mem_cons_of_mem _ hj)⟩
      · rw [h]
        refine ⟨?_, ?_⟩
        · intro j
          rcases updateAt_getElem_cases CXnode.DecreasePoSeBanScore st.s.mnodeman.vXnodes i j
            with h2 | ⟨hji, h2⟩
          · rw [h2]
            exact hcur j
          · right
            rw [h2, hji, hfi]
        · intro j hj
          have hne : j ≠ i := fun h3 => hit (h3 ▸ hj)
          rw [updateAt_getElem_ne _ _ j i hne]
          exact hfresh j (List.mem_cons_of_mem _ hj)
    cases hstep : CXnodeMan.verifyReplyStep e pnode blockHash strMessage1 st i with
    | next st2 =>
      obtain ⟨hv, hact, hb⟩ := hspec.1 st2 hstep
      have hc2 := hcur2 st2.s.mnodeman.vXnodes hv
      have hban2 : st2.vpXnodesToBan.Nodup := by
        rcases hb with h | h
        · rw [h]
          exact hban
        · rw [h]
          exact List.Nodup.append hban (List.nodup_singleton _) (by
            intro a ha1 ha2
            rw [List.mem_singleton] at ha2
            rw [ha2] at ha1
            exact hdis i ha1 (List.mem_cons_self _ _))
      have hdis2 : ∀ j ∈ st2.vpXnodesToBan, j ∉ t := by
        intro j hj
        rcases hb with h | h
        · rw [h] at hj
          exact fun hmem => hdis j hj (List.mem_cons_of_mem _ hmem)
        · rw [h] at hj
          rcases List.mem_append.1 hj with hj | hj
          · exact fun hmem => hdis j hj (List.mem_cons_of_mem _ hmem)
          · rw [List.mem_singleton] at hj
            rw [hj]
            exact hit
      have ih2 := ih htnd st2 hc2.1 hc2.2 hban2 hdis2
      have hloop : CXnodeMan.verifyReplyLoop e pnode blockHash strMessage1 (i :: t) st
          = CXnodeMan.verifyReplyLoop e pnode blockHash strMessage1 t st2 := by
        conv_lhs => unfold CXnodeMan.verifyReplyLoop
        rw [hstep]
      rw [hloop]
      refine ⟨ih2.1, ih2.2.1, ?_⟩
      intro h
      rw [← hact]
      exact ih2.2.2 h
    | returned st2 =>
      have hv := hspec.2.1 st2 hstep
      have hc2 := hcur2 st2.s.mnodeman.vXnodes hv
      have hloop : CXnodeMan.verifyReplyLoop e pnode blockHash strMessage1 (i :: t) st
          = LoopExit.returned st2 := by
        conv_lhs => unfold CXnodeMan.verifyReplyLoop
        rw [hstep]
      rw [hloop]
      refine ⟨?_, ?_, ?_⟩
      · intro st1 h
        cases h
      · intro st1 h
        cases h
        exact hc2.1
      · intro h
        cases h
    | diverges =>
      have hloop : CXnodeMan.verifyReplyLoop e pnode blockHash strMessage1 (i :: t) st
          = LoopExit.diverges := by
        conv_lhs => unfold CXnodeMan.verifyReplyLoop
        rw [hstep]
      rw [hloop]
      refine ⟨?_, ?_, ?_⟩
      · intro st1 h
        cases h
      · intro st1 h
        cases h
      · intro _
        exact hspec.2.2 hstep

theorem askedForVerification_frame (m : CXnodeMan) (addr : CService) :
    (m.askedForVerification addr).2.vXnodes = m.vXnodes := by
  unfold CXnodeMan.askedForVerification
  split <;> rfl

theorem score_cases_of_steps (r : Option CXnode) (cur after : Option CXnode)
    (hcur : cur = r ∨ cur = r.map CXnode.DecreasePoSeBanScore)
    (hafter : after = cur ∨ after = cur.map CXnode.IncreasePoSeBanScore) :
    ∀ r0, r = some r0 → ∃ r1, after = some r1 ∧ r0.ScoreNear r1 := by
  intro r0 hr
  subst hr
  rcases hcur with h1 | h1 <;> rcases hafter with h2 | h2 <;> subst h1 <;> subst h2
  · exact ⟨r0, rfl, Or.inl rfl⟩
  · exact ⟨r0.IncreasePoSeBanScore, rfl, Or.inr (Or.inr (Or.inl rfl))⟩
  · exact ⟨r0.DecreasePoSeBanScore, rfl, Or.inr (Or.inl rfl)⟩
  · exact ⟨r0.DecreasePoSeBanScore.IncreasePoSeBanScore, rfl, Or.inr (Or.inr (Or.inr rfl))⟩

/-- Whenever `ProcessVerifyReply` returns, the record at each position is the one before the
call after at most one `DecreasePoSeBanScore` followed by at most one
`IncreasePoSeBanScore`. -/
theorem ProcessVerifyReply_steps (e : Env) (pnode : CNode) (mnv : CXnodeVerification)
    (s : State) (res : CNode × State × List (CService × String))
    (hres : CXnodeMan.ProcessVerifyReply e pnode mnv s = some res) (j : Nat) :
    ∃ cur : Option CXnode,
      (cur = s.mnodeman.vXnodes[j]?
        ∨ cur = (s.mnodeman.vXnodes[j]?).map CXnode.DecreasePoSeBanScore)
      ∧ (res.2.1.mnodeman.vXnodes[j]? = cur
        ∨ res.2.1.mnodeman.vXnodes[j]? = cur.map CXnode.IncreasePoSeBanScore) := by
  have hs1 : ({ s with mnodeman := (s.mnodeman.askedForVerification pnode.addr).2 } :
      State).mnodeman.vXnodes = s.mnodeman.vXnodes := askedForVerification_frame _ _
  have hsame : ∀ s2 : State, s2.mnodeman.vXnodes = s.mnodeman.vXnodes →
      ∃ cur : Option CXnode,
        (cur = s.mnodeman.vXnodes[j]?
          ∨ cur = (s.mnodeman.vXnodes[j]?).map CXnode.DecreasePoSeBanScore)
        ∧ (s2.mnodeman.vXnodes[j]? = cur
          ∨ s2.mnodeman.vXnodes[j]? = cur.map CXnode.IncreasePoSeBanScore) := by
    intro s2 h2
    exact ⟨_, Or.inl rfl, Or.inl (by rw [h2])⟩
  have hloop := verifyReplyLoop_spec e pnode
  unfold CXnodeMan.ProcessVerifyReply at hres
  simp only [] at hres
  split at hres
  · cases hres
    exact hsame _ rfl
  · split at hres
    · cases hres
      exact hsame _ hs1
    · split at hres
      · cases hres
        exact hsame _ hs1
      · split at hres
        · cases hres
          exact hsame _ hs1
        · rename_i blockHash _
          split at hres
          · cases hres
            exact hsame _ hs1
          · have hl := hloop blockHash
              (e.strService pnode.addr ++ toString mnv.nonce ++ e.strHash blockHash)
              s.mnodeman.vXnodes
              (List.range ({ s with mnodeman := (s.mnodeman.askedForVerification
                pnode.addr).2 } : State).mnodeman.vXnodes.length)
              (List.nodup_range _)
              { s := { s with mnodeman := (s.mnodeman.askedForVerification pnode.addr).2 },
                mnv := mnv, prealXnode := none, vpXnodesToBan := [], fulfilled := [] }
              (fun j => Or.inl (by rw [hs1]))
              (fun j _ => by rw [hs1])
              List.nodup_nil
              (fun j hj => by cases hj)
            split at hres
            · cases hres
            · rename_i st hst
              cases hres
              have hc := hl.2.1 st hst j
              exact ⟨_, hc, Or.inl rfl⟩
            · rename_i st hst
              have hc := (hl.1 st hst).1 j
              have hnd := (hl.1 st hst).2
              split at hres
              · cases hres
                exact ⟨_, hc, Or.inl rfl⟩
              · cases hres
                have hle : st.vpXnodesToBan.count j ≤ 1 :=
                  List.nodup_iff_count_le_one.1 hnd j
                have h01 : st.vpXnodesToBan.count j = 0 ∨ st.vpXnodesToBan.count j = 1 := by
                  omega
                have hafter : (st.vpXnodesToBan.foldl
                      (fun v i => updateAt v i CXnode.IncreasePoSeBanScore)
                      st.s.mnodeman.vXnodes)[j]? = st.s.mnodeman.vXnodes[j]?
                    ∨ (st.vpXnodesToBan.foldl
                      (fun v i => updateAt v i CXnode.IncreasePoSeBanScore)
                      st.s.mnodeman.vXnodes)[j]?
                      = (st.s.mnodeman.vXnodes[j]?).map CXnode.IncreasePoSeBanScore := by
                  rw [foldl_updateAt_getElem]
                  rcases h01 with h | h
                  · left
                    rw [h]
                    simp
                  · right
                    rw [h]
                    rfl
                exact ⟨_, hc, hafter⟩

/-- Whenever `ProcessVerifyReply` returns, every record has the score it had
before the call, or that score after `DecreasePoSeBanScore`,
`IncreasePoSeBanScore` or both. -/
theorem ProcessVerifyReply_score (e : Env) (pnode : CNode) (mnv : CXnodeVerification)
    (s : State) (res : CNode × State × List (CService × String))
    (hres : CXnodeMan.ProcessVerifyReply e pnode mnv s = some res) (j : Nat) (r : CXnode)
    (hr : s.getXnode j = some r) :
    ∃ r1, res.2.1.getXnode j = some r1
      ∧ r.ScoreNear r1 := by
  obtain ⟨cur, hc, ha⟩ := ProcessVerifyReply_steps e pnode mnv s res hres j
  exact score_cases_of_steps (s.mnodeman.vXnodes[j]?) cur _ hc ha r hr

/-- On a node with an active service node `ProcessVerifyReply` returns. -/
theorem ProcessVerifyReply_returns (e : Env) (pnode : CNode) (mnv : CXnodeVerification)
    (s : State) (hact : s.activeXnode.vin ≠ CTxIn.null) :
    (CXnodeMan.ProcessVerifyReply e pnode mnv s).isSome = true := by
  have hloop := verifyReplyLoop_spec e pnode
  unfold CXnodeMan.ProcessVerifyReply
  simp only []
  split
  · rfl
  · split
    · rfl
    · split
      · rfl
      · split
        · rfl
        · rename_i blockHash _
          split
          · rfl
          · have hl := hloop blockHash
              (e.strService pnode.addr ++ toString mnv.nonce ++ e.strHash blockHash)
              s.mnodeman.vXnodes
              (List.range ({ s with mnodeman := (s.mnodeman.askedForVerification
                pnode.addr).2 } : State).mnodeman.vXnodes.length)
              (List.nodup_range _)
              { s := { s with mnodeman := (s.mnodeman.askedForVerification pnode.addr).2 },
                mnv := mnv, prealXnode := none, vpXnodesToBan := [], fulfilled := [] }
              (fun j => Or.inl (by rw [askedForVerification_frame]))
              (fun j _ => by rw [askedForVerification_frame])
              List.nodup_nil
              (fun j hj => by cases hj)
            split
            · rename_i hdiv
              exact absurd (hl.2.2 hdiv) hact
            · rfl
            · split <;> rfl

/-- Whenever `ProcessVerifyBroadcast` returns, the record at each position is the one before the
call after at most one `DecreasePoSeBanScore` followed by at most one
`IncreasePoSeBanScore`. -/
theorem ProcessVerifyBroadcast_steps (e : Env) (pnode : CNode) (mnv : CXnodeVerification)
    (s : State) (res : CNode × State)
    (hres : CXnodeMan.ProcessVerifyBroadcast e pnode mnv s = some res) (j : Nat) :
    ∃ cur : Option CXnode,
      (cur = s.mnodeman.vXnodes[j]?
        ∨ cur = (s.mnodeman.vXnodes[j]?).map CXnode.DecreasePoSeBanScore)
      ∧ (res.2.mnodeman.vXnodes[j]? = cur
        ∨ res.2.mnodeman.vXnodes[j]? = cur.map CXnode.IncreasePoSeBanScore) := by
  have hsame : ∀ s2 : State, s2.mnodeman.vXnodes = s.mnodeman.vXnodes →
      ∃ cur : Option CXnode,
        (cur = s.mnodeman.vXnodes[j]?
          ∨ cur = (s.mnodeman.vXnodes[j]?).map CXnode.DecreasePoSeBanScore)
        ∧ (s2.mnodeman.vXnodes[j]? = cur
          ∨ s2.mnodeman.vXnodes[j]? = cur.map CXnode.IncreasePoSeBanScore) := by
    intro s2 h2
    exact ⟨_, Or.inl rfl, Or.inl (by rw [h2])⟩
  have hmain : ∀ (s1 : State) (i1 : Nat) (pmn1 : CXnode),
      s1.mnodeman.vXnodes = s.mnodeman.vXnodes →
      ∃ cur : Option CXnode,
        (cur = s.mnodeman.vXnodes[j]?
          ∨ cur = (s.mnodeman.vXnodes[j]?).map CXnode.DecreasePoSeBanScore)
        ∧ ((CXnodeMan.banOthersAt
            (mnv.Relay e (s1.decreaseUnlessVerified e i1 pmn1)).mnodeman.vXnodes mnv)[j]? = cur
          ∨ (CXnodeMan.banOthersAt
            (mnv.Relay e (s1.decreaseUnlessVerified e i1 pmn1)).mnodeman.vXnodes mnv)[j]?
              = cur.map CXnode.IncreasePoSeBanScore) := by
    intro s1 i1 pmn1 h1
    have hvv : (mnv.Relay e (s1.decreaseUnlessVerified e i1 pmn1)).mnodeman.vXnodes
          = s.mnodeman.vXnodes
        ∨ (mnv.Relay e (s1.decreaseUnlessVerified e i1 pmn1)).mnodeman.vXnodes
          = updateAt s.mnodeman.vXnodes i1 CXnode.DecreasePoSeBanScore := by
      unfold State.decreaseUnlessVerified
      split
      · right
        show updateAt s1.mnodeman.vXnodes i1 CXnode.DecreasePoSeBanScore = _
        rw [h1]
      · left
        exact h1
    refine ⟨(mnv.Relay e (s1.decreaseUnlessVerified e i1 pmn1)).mnodeman.vXnodes[j]?, ?_, ?_⟩
    · rcases hvv with h | h
      · left
        rw [h]
      · rw [h]
        rcases updateAt_getElem_cases CXnode.DecreasePoSeBanScore s.mnodeman.vXnodes i1 j
          with h2 | ⟨_, h2⟩
        · exact Or.inl h2
        · exact Or.inr h2
    · unfold CXnodeMan.banOthersAt
      rw [List.getElem?_map]
      cases (mnv.Relay e (s1.decreaseUnlessVerified e i1 pmn1)).mnodeman.vXnodes[j]? with
      | none => exact Or.inl rfl
      | some x =>
        simp only [Option.map_some']
        split
        · exact Or.inl rfl
        · exact Or.inr rfl
  unfold CXnodeMan.ProcessVerifyBroadcast at hres
  simp only [] at hres
  split at hres
  · cases hres
    exact hsame _ rfl
  · split at hres
    · cases hres
    · repeat' split at hres
      all_goals first
        | (cases hres
           exact hsame _ rfl)
        | (cases hres
           exact hmain _ _ _ rfl)

/-- Whenever `ProcessVerifyBroadcast` returns, every record has the score it
had before the call, or that score after `DecreasePoSeBanScore`,
`IncreasePoSeBanScore` or both. -/
theorem ProcessVerifyBroadcast_score (e : Env) (pnode : CNode) (mnv : CXnodeVerification)
    (s : State) (res : CNode × State)
    (hres : CXnodeMan.ProcessVerifyBroadcast e pnode mnv s = some res) (j : Nat) (r : CXnode)
    (hr : s.getXnode j = some r) :
    ∃ r1, res.2.getXnode j = some r1
      ∧ r.ScoreNear r1 := by
  obtain ⟨cur, hc, ha⟩ := ProcessVerifyBroadcast_steps e pnode mnv s res hres j
  exact score_cases_of_steps (s.mnodeman.vXnodes[j]?) cur _ hc ha r hr

/-- With the tip known `ProcessVerifyBroadcast` returns. -/
theorem ProcessVerifyBroadcast_returns (e : Env) (pnode : CNode) (mnv : CXnodeVerification)
    (s : State) (htip : s.mnodeman.pCurrentBlockIndex.isSome = true) :
    (CXnodeMan.ProcessVerifyBroadcast e pnode mnv s).isSome = true := by
  unfold CXnodeMan.ProcessVerifyBroadcast
  simp only []
  split
  · rfl
  · split
    · rename_i h
      have h2 : s.mnodeman.pCurrentBlockIndex = none := h
      rw [h2] at htip
      cases htip
    · repeat' split
      all_goals rfl

/-- On a node without an active service node the reply of a record that
verifies makes `ProcessVerifyReply` repeat the same pass for ever: the sample
call has no result. -/
theorem ProcessVerifyReply_no_return_sample :
    (CXnodeMan.ProcessVerifyReply sampleEnvKeys samplePeer sampleVerifyReply
      { sampleVerifyState with
        activeXnode := { sampleVerifyState.activeXnode with vin := CTxIn.null } }).isSome
      = false := by
  decide
theorem rankScan_neg_or_pos (k : COutPoint) (S : List (Int × CXnode)) (c : Int) :
    rankScan k S c = -1 ∨ c + 1 ≤ rankScan k S c := by
  induction S generalizing c with
  | nil => left; rfl
  | cons s rest ih =>
    unfold rankScan
    split
    · right; exact le_refl _
    · rcases ih (c + 1) with h | h
      · left; exact h
      · right; omega

theorem byRankScan_of_rankScan (k : COutPoint) (S : List (Int × CXnode)) (c r : Int)
    (hc : 0 ≤ c) (h : rankScan k S c = r) (hr : r ≠ -1) :
    ∃ x ∈ S, byRankScan r S c = some x.2 ∧ x.2.vin.prevout = k := by
  induction S generalizing c with
  | nil => unfold rankScan at h; exact absurd h.symm hr
  | cons s rest ih =>
    unfold rankScan at h
    unfold byRankScan
    split at h
    · rename_i hk
      refine ⟨s, List.mem_cons_self _ _, ?_, hk⟩
      rw [if_pos h]
    · have hb := rankScan_neg_or_pos k rest (c + 1)
      rw [h] at hb
      rcases hb with hb | hb
      · exact absurd hb hr
      · rw [if_neg (by omega)]
        obtain ⟨x, hx, h1, h2⟩ := ih (c + 1) (by omega) h
        exact ⟨x, List.mem_cons_of_mem _ hx, h1, h2⟩

theorem ranksLoop_mem (S : List (Int × CXnode)) (c : Int) (x : Int × CXnode)
    (hx : x ∈ ranksLoop S c) : ∃ s ∈ S, x.2 = s.2 := by
  induction S generalizing c with
  | nil => unfold ranksLoop at hx; exact absurd hx (List.not_mem_nil _)
  | cons s rest ih =>
    unfold ranksLoop at hx
    rcases List.mem_cons.1 hx with h | h
    · exact ⟨s, List.mem_cons_self _ _, by rw [h]⟩
    · obtain ⟨t, ht, h2⟩ := ih (c + 1) h
      exact ⟨t, List.mem_cons_of_mem _ ht, h2⟩

theorem rankScan_of_ranksLoop (S : List (Int × CXnode)) (c : Int)
    (hnd : (S.map (fun x => x.2.vin.prevout)).Nodup) (x : Int × CXnode)
    (hx : x ∈ ranksLoop S c) : rankScan x.2.vin.prevout S c = x.1 := by
  induction S generalizing c with
  | nil => unfold ranksLoop at hx; exact absurd hx (List.not_mem_nil _)
  | cons s rest ih =>
    unfold ranksLoop at hx
    unfold rankScan
    rw [List.map_cons, List.nodup_cons] at hnd
    rcases List.mem_cons.1 hx with h | h
    · rw [h]; simp
    · obtain ⟨t, ht, h2⟩ := ranksLoop_mem rest (c + 1) x h
      have hne : ¬ s.2.vin.prevout = x.2.vin.prevout := by
        intro heq
        apply hnd.1
        rw [heq, h2]
        exact List.mem_map_of_mem (fun x => x.2.vin.prevout) ht
      rw [if_neg hne]
      exact ih (c + 1) hnd.2 h

theorem byRankEntry_eq_rankEntry (e : Env) (blockHash : Nat) (p : Int) (f : Bool) (mn : CXnode)
    (h : f = true ∨ (p ≤ mn.nProtocolVersion → mn.IsValidForPayment = true)) :
    byRankEntry e blockHash p f mn = rankEntry e blockHash p f mn := by
  unfold byRankEntry rankEntry
  by_cases hp : mn.nProtocolVersion < p
  · simp [hp]
  · rcases h with h | h
    · subst h; simp [hp]
    · have hv := h (by omega)
      cases f <;> simp [hp, hv, CXnode.IsEnabled, CXnode.IsValidForPayment] at *
      simp [CXnode.IsEnabled, hv]

theorem ranksEntry_eq_rankEntry (e : Env) (blockHash : Nat) (p : Int) :
    (fun mn : CXnode =>
      if decide (mn.nProtocolVersion < p) || !mn.IsEnabled then none
      else some (e.GetCompact (mn.CalculateScore e blockHash), mn))
    = rankEntry e blockHash p true := by
  funext mn
  unfold rankEntry
  by_cases hp : mn.nProtocolVersion < p <;> simp [hp]

/-- C30 fails as stated: with `fOnlyActive = false` the rank leaves out the
records that are not valid for payment while `GetXnodeByRank` keeps them, so
the enabled record of outpoint 1 has rank 1 and the record returned for rank 1
is the expired record of outpoint 5. -/
theorem C30_counterexample :
    sampleRankRegistry.GetXnodeRank sampleEnv (sampleXnode 1 0).vin 100 0 false = 1
    ∧ (sampleRankRegistry.GetXnodeByRank sampleEnv 1 100 0 false).map (fun mn => mn.vin.prevout)
        = some { hash := 5, n := 0 }
    ∧ (sampleRankRegistry.vXnodes.map (fun mn => mn.vin.prevout)).Nodup
    ∧ sampleEnv.GetBlockHash 100 = some 100 := by
  decide

/-- C30 (amended): for a registry with distinct outpoints, whenever
`fOnlyActive` is true or every record of sufficient protocol is valid for
payment, a rank `r ≠ -1` returned by `GetXnodeRank(vin, h, p, fOnlyActive)`
makes `GetXnodeByRank(r, h, p, fOnlyActive)` return a record of the registry
with outpoint `vin.prevout`; and every pair `(r, record)` of
`GetXnodeRanks(h, p)` satisfies `GetXnodeRank(record.vin, h, p, true) = r`. -/
theorem C30_ranking_functions_agree (e : Env) (m : CXnodeMan) (h p : Int)
    (hnodup : (m.vXnodes.map (fun mn => mn.vin.prevout)).Nodup) :
    (∀ (vin : CTxIn) (r : Int) (fOnlyActive : Bool),
        (fOnlyActive = true ∨
          ∀ mn ∈ m.vXnodes, p ≤ mn.nProtocolVersion → mn.IsValidForPayment = true) →
        m.GetXnodeRank e vin h p fOnlyActive = r → r ≠ -1 →
        ∃ mn ∈ m.vXnodes, m.GetXnodeByRank e r h p fOnlyActive = some mn
          ∧ mn.vin.prevout = vin.prevout)
    ∧ (∀ x ∈ m.GetXnodeRanks e h p, m.GetXnodeRank e x.2.vin h p true = x.1) := by
  constructor
  · intro vin r f hf hr hne
    unfold CXnodeMan.GetXnodeRank at hr
    unfold CXnodeMan.GetXnodeByRank
    cases hbh : e.GetBlockHash h with
    | none => rw [hbh] at hr; exact absurd hr.symm hne
    | some blockHash =>
      rw [hbh] at hr
      simp only [] at hr ⊢
      have hl : m.vXnodes.filterMap (byRankEntry e blockHash p f)
          = rankCandidates e blockHash p f m.vXnodes := by
        unfold rankCandidates
        apply List.filterMap_congr
        intro mn hmn
        apply byRankEntry_eq_rankEntry
        rcases hf with hf | hf
        · exact Or.inl hf
        · exact Or.inr (hf mn hmn)
      rw [hl]
      obtain ⟨x, hx, h1, h2⟩ := byRankScan_of_rankScan _ _ 0 r (le_refl _) hr hne
      refine ⟨x.2, ?_, h1, h2⟩
      have hx2 := (stdSortReversed_perm _ _).mem_iff.1 hx
      unfold rankCandidates at hx2
      rw [List.mem_filterMap] at hx2
      obtain ⟨mn, hmn, hmx⟩ := hx2
      unfold rankEntry at hmx
      repeat' split at hmx
      all_goals first
        | (simp only [Option.some.injEq] at hmx; subst hmx; exact hmn)
        | exact absurd hmx (by simp)
  · intro x hx
    unfold CXnodeMan.GetXnodeRanks at hx
    unfold CXnodeMan.GetXnodeRank
    cases hbh : e.GetBlockHash h with
    | none => rw [hbh] at hx; exact absurd hx (List.not_mem_nil _)
    | some blockHash =>
      rw [hbh] at hx
      simp only [] at hx ⊢
      rw [ranksEntry_eq_rankEntry] at hx
      have hnd1 := rankCandidates_nodup e blockHash p true m.vXnodes hnodup
      have hSperm := stdSortReversed_perm CompareScoreMN (rankCandidates e blockHash p true m.vXnodes)
      have hSnd := ((hSperm.map (fun x => x.2.vin.prevout)).nodup_iff).2 hnd1
      exact rankScan_of_ranksLoop _ 0 hSnd x hx

theorem C30_ranking_functions_agree_witness :
    ({ CXnodeMan.init with vXnodes := [sampleXnode 5 0, sampleXnode 1 0] } : CXnodeMan).GetXnodeRank
        sampleEnv (sampleXnode 1 0).vin 100 0 false = 2
    ∧ (∃ mn ∈ [sampleXnode 5 0, sampleXnode 1 0],
        ({ CXnodeMan.init with vXnodes := [sampleXnode 5 0, sampleXnode 1 0] } :
            CXnodeMan).GetXnodeByRank sampleEnv 2 100 0 false = some mn
          ∧ mn.vin.prevout = (sampleXnode 1 0).vin.prevout)
    ∧ (∀ x ∈ ({ CXnodeMan.init with vXnodes := [sampleXnode 5 0, sampleXnode 1 0] } :
            CXnodeMan).GetXnodeRanks sampleEnv 100 0,
        ({ CXnodeMan.init with vXnodes := [sampleXnode 5 0, sampleXnode 1 0] } :
            CXnodeMan).GetXnodeRank sampleEnv x.2.vin 100 0 true = x.1) :=
  ⟨by decide,
   (C30_ranking_functions_agree sampleEnv
      { CXnodeMan.init with vXnodes := [sampleXnode 5 0, sampleXnode 1 0] } 100 0 (by decide)).1
      (sampleXnode 1 0).vin 2 false (Or.inr (by decide)) (by decide) (by decide),
   (C30_ranking_functions_agree sampleEnv
      { CXnodeMan.init with vXnodes := [sampleXnode 5 0, sampleXnode 1 0] } 100 0 (by decide)).2⟩

theorem addPayeeLoop_payees (payee : CScript) (hash : Nat) (l : List CXnodePayee) :
    (addPayeeLoop payee hash l).map CXnodePayee.GetPayee
      = if payee ∈ l.map CXnodePayee.GetPayee then l.map CXnodePayee.GetPayee
        else l.map CXnodePayee.GetPayee ++ [payee] := by
  induction l with
  | nil => simp [addPayeeLoop, CXnodePayee.GetPayee]
  | cons p rest ih =>
    unfold addPayeeLoop
    by_cases h : p.GetPayee = payee
    · rw [if_pos h]
      simp [CXnodePayee.GetPayee] at h ⊢
      simp [h]
    · rw [if_neg h]
      simp only [List.map_cons, ih, List.mem_cons]
      have h2 : ¬ payee = p.GetPayee := fun hh => h hh.symm
      by_cases hm : payee ∈ rest.map CXnodePayee.GetPayee
      · simp [hm]
      · simp [hm, h2]

theorem addPayeeLoop_nodup (payee : CScript) (hash : Nat) (l : List CXnodePayee)
    (h : (l.map CXnodePayee.GetPayee).Nodup) :
    ((addPayeeLoop payee hash l).map CXnodePayee.GetPayee).Nodup := by
  rw [addPayeeLoop_payees]
  split
  · exact h
  · rename_i hm
    rw [List.nodup_append]
    refine ⟨h, List.nodup_singleton _, ?_⟩
    intro a ha hb
    rw [List.mem_singleton] at hb
    subst hb
    exact hm ha

theorem addPayeeLoop_other (payee : CScript) (hash : Nat) (l : List CXnodePayee)
    (i : Nat) (p : CXnodePayee) (hi : l[i]? = some p) (hp : p.GetPayee ≠ payee) :
    (addPayeeLoop payee hash l)[i]? = some p := by
  induction l generalizing i with
  | nil => simp at hi
  | cons q rest ih =>
    unfold addPayeeLoop
    cases i with
    | zero =>
      simp only [List.getElem?_cons_zero, Option.some.injEq] at hi
      subst hi
      rw [if_neg hp]
      simp
    | succ j =>
      simp only [List.getElem?_cons_succ] at hi
      split
      · simpa using hi
      · simpa using ih j hi

theorem addPayeeLoop_same (payee : CScript) (hash : Nat) (l : List CXnodePayee)
    (hnd : (l.map CXnodePayee.GetPayee).Nodup)
    (i : Nat) (p : CXnodePayee) (hi : l[i]? = some p) (hp : p.GetPayee = payee) :
    (addPayeeLoop payee hash l)[i]?
      = some { p with vecVoteHashes := p.vecVoteHashes ++ [hash] } := by
  induction l generalizing i with
  | nil => simp at hi
  | cons q rest ih =>
    unfold addPayeeLoop
    rw [List.map_cons, List.nodup_cons] at hnd
    cases i with
    | zero =>
      simp only [List.getElem?_cons_zero, Option.some.injEq] at hi
      subst hi
      rw [if_pos hp]
      simp
    | succ j =>
      simp only [List.getElem?_cons_succ] at hi
      have hq : ¬ q.GetPayee = payee := by
        intro hq
        apply hnd.1
        rw [hq, ← hp]
        exact List.mem_map_of_mem _ (List.mem_iff_getElem?.2 ⟨j, hi⟩)
      rw [if_neg hq]
      simpa using ih hnd.2 j hi

theorem addPayeeLoop_absent (payee : CScript) (hash : Nat) (l : List CXnodePayee)
    (h : payee ∉ l.map CXnodePayee.GetPayee) :
    addPayeeLoop payee hash l = l ++ [{ scriptPubKey := payee, vecVoteHashes := [hash] }] := by
  induction l with
  | nil => rfl
  | cons q rest ih =>
    unfold addPayeeLoop
    rw [List.map_cons, List.mem_cons, not_or] at h
    rw [if_neg (fun hh => h.1 hh.symm), ih h.2]
    rfl

theorem addPayeeLoop_total (payee : CScript) (hash : Nat) (l : List CXnodePayee) :
    ((addPayeeLoop payee hash l).map (fun p => p.vecVoteHashes.length)).sum
      = (l.map (fun p => p.vecVoteHashes.length)).sum + 1 := by
  induction l with
  | nil => rfl
  | cons q rest ih =>
    unfold addPayeeLoop
    split
    · simp; omega
    · simp only [List.map_cons, List.sum_cons, ih]; omega

theorem addPayeeLoop_nonempty (payee : CScript) (hash : Nat) (l : List CXnodePayee)
    (h : ∀ p ∈ l, 1 ≤ p.vecVoteHashes.length) :
    ∀ p ∈ addPayeeLoop payee hash l, 1 ≤ p.vecVoteHashes.length := by
  induction l with
  | nil =>
    intro p hp
    simp [addPayeeLoop] at hp
    subst hp
    simp
  | cons q rest ih =>
    unfold addPayeeLoop
    split
    · intro p hp
      rcases List.mem_cons.1 hp with h1 | h1
      · subst h1; simp
      · exact h p (List.mem_cons_of_mem _ h1)
    · intro p hp
      rcases List.mem_cons.1 hp with h1 | h1
      · subst h1; exact h _ (List.mem_cons_self _ _)
      · exact ih (fun p hp => h p (List.mem_cons_of_mem _ hp)) p h1

theorem addPayees_invariant (e : Env) (votes : List CXnodePaymentVote) (B : CXnodeBlockPayees)
    (h1 : (B.vecPayees.map CXnodePayee.GetPayee).Nodup)
    (h2 : ∀ p ∈ B.vecPayees, 1 ≤ p.vecVoteHashes.length) :
    (((B.addPayees e votes).vecPayees.map CXnodePayee.GetPayee).Nodup)
    ∧ (∀ p ∈ (B.addPayees e votes).vecPayees, 1 ≤ p.vecVoteHashes.length) := by
  induction votes generalizing B with
  | nil => exact ⟨h1, h2⟩
  | cons v rest ih =>
    unfold CXnodeBlockPayees.addPayees
    rw [List.foldl_cons]
    exact ih (B.AddPayee e v) (addPayeeLoop_nodup _ _ _ h1) (addPayeeLoop_nonempty _ _ _ h2)

/-- C28: in every tally reached from the empty tally by `AddPayee` calls the
payee scripts are pairwise distinct and every entry holds at least one vote
hash; one more `AddPayee(vote)` raises the total number of vote hashes by one,
appends the entry `(vote.payee, [hash])` at the end when the script was absent
and adds no entry otherwise, and leaves every existing entry at its position,
unchanged unless its script is `vote.payee`, in which case the hash of the
vote is appended to its hashes. -/
theorem C28_AddPayee_invariant (e : Env) (nBlockHeight : Int)
    (votes : List CXnodePaymentVote) (vote : CXnodePaymentVote) :
    let B := ({ nBlockHeight := nBlockHeight, vecPayees := [] } : CXnodeBlockPayees).addPayees e
      votes
    (B.vecPayees.map CXnodePayee.GetPayee).Nodup
    ∧ (∀ p ∈ B.vecPayees, 1 ≤ p.GetVoteCount)
    ∧ (B.AddPayee e vote).totalVoteHashes = B.totalVoteHashes + 1
    ∧ (vote.payee ∉ B.vecPayees.map CXnodePayee.GetPayee →
        (B.AddPayee e vote).vecPayees
          = B.vecPayees ++ [{ scriptPubKey := vote.payee, vecVoteHashes := [vote.GetHash e] }])
    ∧ (vote.payee ∈ B.vecPayees.map CXnodePayee.GetPayee →
        (B.AddPayee e vote).vecPayees.length = B.vecPayees.length)
    ∧ (∀ (i : Nat) (p : CXnodePayee), B.vecPayees[i]? = some p →
        (B.AddPayee e vote).vecPayees[i]?
          = some (if p.GetPayee = vote.payee
                  then { p with vecVoteHashes := p.vecVoteHashes ++ [vote.GetHash e] }
                  else p)) := by
  intro B
  have hinv := addPayees_invariant e votes
    ({ nBlockHeight := nBlockHeight, vecPayees := [] } : CXnodeBlockPayees)
    (by simp) (by simp)
  refine ⟨hinv.1, ?_, ?_, ?_, ?_, ?_⟩
  · intro p hp
    have := hinv.2 p hp
    unfold CXnodePayee.GetVoteCount
    omega
  · exact addPayeeLoop_total _ _ _
  · intro h
    exact addPayeeLoop_absent _ _ _ h
  · intro h
    have := congrArg List.length (addPayeeLoop_payees vote.payee (vote.GetHash e) B.vecPayees)
    rw [if_pos h, List.length_map, List.length_map] at this
    exact this
  · intro i p hi
    by_cases hp : p.GetPayee = vote.payee
    · rw [if_pos hp]
      exact addPayeeLoop_same _ _ _ hinv.1 i p hi hp
    · rw [if_neg hp]
      exact addPayeeLoop_other _ _ _ i p hi hp

theorem C28_AddPayee_invariant_witness :
    (((({ nBlockHeight := 195, vecPayees := [] } : CXnodeBlockPayees).addPayees sampleEnv
        [sampleVote [5] [1], sampleVote [6] [1]]).AddPayee sampleEnv (sampleVote [7] [1])).vecPayees
      = (({ nBlockHeight := 195, vecPayees := [] } : CXnodeBlockPayees).addPayees sampleEnv
          [sampleVote [5] [1], sampleVote [6] [1]]).vecPayees
        ++ [{ scriptPubKey := [7], vecVoteHashes := [(sampleVote [7] [1]).GetHash sampleEnv] }])
    ∧ ((({ nBlockHeight := 195, vecPayees := [] } : CXnodeBlockPayees).addPayees sampleEnv
        [sampleVote [5] [1], sampleVote [6] [1]]).AddPayee sampleEnv
          (sampleVote [5] [2])).vecPayees.length = 2
    ∧ ((({ nBlockHeight := 195, vecPayees := [] } : CXnodeBlockPayees).addPayees sampleEnv
        [sampleVote [5] [1], sampleVote [6] [1]]).AddPayee sampleEnv (sampleVote [5] [2])).vecPayees[0]?
      = some { scriptPubKey := [5], vecVoteHashes := [201, 201] } :=
  ⟨(C28_AddPayee_invariant sampleEnv 195 [sampleVote [5] [1], sampleVote [6] [1]]
      (sampleVote [7] [1])).2.2.2.1 (by decide),
   (C28_AddPayee_invariant sampleEnv 195 [sampleVote [5] [1], sampleVote [6] [1]]
      (sampleVote [5] [2])).2.2.2.2.1 (by decide),
   (C28_AddPayee_invariant sampleEnv 195 [sampleVote [5] [1], sampleVote [6] [1]]
      (sampleVote [5] [2])).2.2.2.2.2 0 { scriptPubKey := [5], vecVoteHashes := [201] }
      (by decide)⟩

theorem AddPaymentVote_cases (e : Env) (p : CXnodePayments) (vote : CXnodePaymentVote) :
    p.AddPaymentVote e vote = (false, p)
    ∨ (p.HasVerifiedPaymentVote (vote.GetHash e) = false
        ∧ p.AddPaymentVote e vote
          = (true, { p with
              mapXnodePaymentVotes := p.mapXnodePaymentVotes.set (vote.GetHash e) vote,
              mapXnodeBlocks := p.mapXnodeBlocks.set vote.nBlockHeight
                ((match p.mapXnodeBlocks vote.nBlockHeight with
                  | some B => B
                  | none => { nBlockHeight := vote.nBlockHeight, vecPayees := [] }).AddPayee e
                    vote) })) := by
  unfold CXnodePayments.AddPaymentVote
  cases e.GetBlockHash (vote.nBlockHeight - 101) with
  | none => left; rfl
  | some bh =>
    simp only []
    by_cases hv : p.HasVerifiedPaymentVote (vote.GetHash e) = true
    · left; rw [if_pos hv]
    · right
      rw [if_neg hv]
      exact ⟨by simpa using hv, rfl⟩

theorem AddPaymentVote_again (e : Env) (p : CXnodePayments) (vote : CXnodePaymentVote)
    (hsig : vote.vchSig ≠ []) :
    (p.AddPaymentVote e vote).2.AddPaymentVote e vote = (false, (p.AddPaymentVote e vote).2) := by
  rcases AddPaymentVote_cases e p vote with h | ⟨_, h⟩
  · rw [h]; exact h
  · rw [h]
    simp only []
    unfold CXnodePayments.AddPaymentVote
    cases e.GetBlockHash (vote.nBlockHeight - 101) with
    | none => rfl
    | some bh =>
      simp only []
      have hv : CXnodePayments.HasVerifiedPaymentVote
          { p with
              mapXnodePaymentVotes := p.mapXnodePaymentVotes.set (vote.GetHash e) vote,
              mapXnodeBlocks := p.mapXnodeBlocks.set vote.nBlockHeight
                ((match p.mapXnodeBlocks vote.nBlockHeight with
                  | some B => B
                  | none => { nBlockHeight := vote.nBlockHeight, vecPayees := [] }).AddPayee e
                    vote) } (vote.GetHash e) = true := by
        unfold CXnodePayments.HasVerifiedPaymentVote
        simp [FMap.set, CXnodePaymentVote.IsVerified, hsig]
      rw [if_pos hv]

theorem acceptedFor_append (h : Int) (payee : CScript) (acc : List CXnodePaymentVote)
    (v : CXnodePaymentVote) :
    acceptedFor h payee (acc ++ [v])
      = acceptedFor h payee acc ++ (if v.nBlockHeight = h ∧ v.payee = payee then [v] else []) := by
  unfold acceptedFor
  rw [List.filter_append]
  congr 1
  by_cases h1 : v.nBlockHeight = h <;> by_cases h2 : v.payee = payee <;>
    simp [List.filter, h1, h2]

theorem addPayeeLoop_mem (payee : CScript) (hash : Nat) (l : List CXnodePayee)
    (hnd : (l.map CXnodePayee.GetPayee).Nodup) (entry : CXnodePayee)
    (h : entry ∈ addPayeeLoop payee hash l) :
    (entry ∈ l ∧ entry.GetPayee ≠ payee)
    ∨ (∃ q ∈ l, q.GetPayee = payee
        ∧ entry = { q with vecVoteHashes := q.vecVoteHashes ++ [hash] })
    ∨ (payee ∉ l.map CXnodePayee.GetPayee
        ∧ entry = { scriptPubKey := payee, vecVoteHashes := [hash] }) := by
  induction l with
  | nil =>
    right; right
    simp [addPayeeLoop] at h
    exact ⟨by simp, h⟩
  | cons q rest ih =>
    unfold addPayeeLoop at h
    rw [List.map_cons, List.nodup_cons] at hnd
    by_cases hq : q.GetPayee = payee
    · rw [if_pos hq] at h
      rcases List.mem_cons.1 h with h1 | h1
      · right; left
        exact ⟨q, List.mem_cons_self _ _, hq, h1⟩
      · left
        refine ⟨List.mem_cons_of_mem _ h1, ?_⟩
        intro hc
        apply hnd.1
        rw [hq, ← hc]
        exact List.mem_map_of_mem _ h1
    · rw [if_neg hq] at h
      rcases List.mem_cons.1 h with h1 | h1
      · left
        subst h1
        exact ⟨List.mem_cons_self _ _, hq⟩
      · rcases ih hnd.2 h1 with h2 | ⟨q2, hq2, h3, h4⟩ | ⟨h5, h6⟩
        · left; exact ⟨List.mem_cons_of_mem _ h2.1, h2.2⟩
        · right; left; exact ⟨q2, List.mem_cons_of_mem _ hq2, h3, h4⟩
        · right; right
          refine ⟨?_, h6⟩
          rw [List.map_cons, List.mem_cons, not_or]
          exact ⟨fun hh => hq hh.symm, h5⟩

theorem addPayeeLoop_payee_mem (payee : CScript) (hash : Nat) (l : List CXnodePayee)
    (x : CScript) (h : x ∈ l.map CXnodePayee.GetPayee ∨ x = payee) :
    x ∈ (addPayeeLoop payee hash l).map CXnodePayee.GetPayee := by
  rw [addPayeeLoop_payees]
  split
  · rename_i hm
    rcases h with h | h
    · exact h
    · rw [h]; exact hm
  · rw [List.mem_append, List.mem_singleton]
    exact h

theorem paymentVotesInv_step (e : Env) (acc : List CXnodePaymentVote) (p : CXnodePayments)
    (vote : CXnodePaymentVote) (hsig : vote.vchSig ≠ []) (hinv : paymentVotesInv e acc p) :
    paymentVotesInv e (addPaymentVoteStep e (acc, p) vote).1
      (addPaymentVoteStep e (acc, p) vote).2 := by
  unfold addPaymentVoteStep
  simp only []
  rcases AddPaymentVote_cases e p vote with h | ⟨hnv, h⟩
  · rw [h]; simpa using hinv
  · rw [h]
    simp only [if_true]
    obtain ⟨i1, i3, i2, i4⟩ := hinv
    have hfresh : vote.GetHash e ∉ acc.map (fun v => v.GetHash e) := by
      intro hm
      have := i1 _ hm
      rw [hnv] at this
      exact absurd this (by simp)
    have habsent : ∀ B0 : CXnodeBlockPayees,
        (match p.mapXnodeBlocks vote.nBlockHeight with
          | some B => B
          | none => { nBlockHeight := vote.nBlockHeight, vecPayees := [] }) = B0 →
        vote.payee ∉ B0.vecPayees.map CXnodePayee.GetPayee →
        acceptedFor vote.nBlockHeight vote.payee acc = [] := by
      intro B0 hB0 hab
      unfold acceptedFor
      rw [List.filter_eq_nil_iff]
      intro v hv hc
      obtain ⟨B1, hB1, hB1m⟩ := i4 v hv
      simp only [Bool.and_eq_true, decide_eq_true_eq] at hc
      rw [hc.1] at hB1
      rw [hB1] at hB0
      simp only [] at hB0
      subst hB0
      rw [hc.2] at hB1m
      exact hab hB1m
    have hold : ∀ B0 : CXnodeBlockPayees,
        (match p.mapXnodeBlocks vote.nBlockHeight with
          | some B => B
          | none => { nBlockHeight := vote.nBlockHeight, vecPayees := [] }) = B0 →
        B0.nBlockHeight = vote.nBlockHeight
        ∧ (B0.vecPayees.map CXnodePayee.GetPayee).Nodup
        ∧ ∀ entry ∈ B0.vecPayees, entry.vecVoteHashes
            = (acceptedFor vote.nBlockHeight entry.GetPayee acc).map (fun v => v.GetHash e) := by
      intro B0 hB0
      cases hm : p.mapXnodeBlocks vote.nBlockHeight with
      | none =>
        rw [hm] at hB0
        simp only [] at hB0
        subst hB0
        exact ⟨rfl, by simp, by simp⟩
      | some B1 =>
        rw [hm] at hB0
        simp only [] at hB0
        subst hB0
        exact i2 _ _ hm
    generalize hB0 : (match p.mapXnodeBlocks vote.nBlockHeight with
          | some B => B
          | none => ({ nBlockHeight := vote.nBlockHeight, vecPayees := [] } :
              CXnodeBlockPayees)) = B0 at habsent hold ⊢
    obtain ⟨j1, j2, j3⟩ := hold B0 rfl
    refine ⟨?_, ?_, ?_, ?_⟩
    · intro k hk
      rw [List.map_append, List.mem_append] at hk
      unfold CXnodePayments.HasVerifiedPaymentVote
      by_cases hkv : k = vote.GetHash e
      · simp [FMap.set, hkv, CXnodePaymentVote.IsVerified, hsig]
      · rcases hk with hk | hk
        · have := i1 k hk
          unfold CXnodePayments.HasVerifiedPaymentVote at this
          simpa [FMap.set, hkv] using this
        · simp at hk; exact absurd hk hkv
    · rw [List.map_append, List.nodup_append]
      refine ⟨i3, List.nodup_singleton _, ?_⟩
      intro a ha hb
      simp at hb
      subst hb
      exact hfresh ha
    · intro h0 B hB
      by_cases hh : h0 = vote.nBlockHeight
      · subst hh
        simp only [FMap.set, if_true, Option.some.injEq] at hB
        subst hB
        refine ⟨j1, addPayeeLoop_nodup _ _ _ j2, ?_⟩
        intro entry hentry
        rw [acceptedFor_append]
        rcases addPayeeLoop_mem _ _ _ j2 entry hentry with ⟨h1, h2⟩ | ⟨q, hq, h3, h4⟩ | ⟨h5, h6⟩
        · rw [if_neg (fun hc => h2 hc.2.symm), List.append_nil]
          exact j3 entry h1
        · subst h4
          have hqp : CXnodePayee.GetPayee
              { q with vecVoteHashes := q.vecVoteHashes ++ [vote.GetHash e] } = q.GetPayee := rfl
          rw [hqp, if_pos ⟨rfl, h3.symm⟩, List.map_append, ← j3 q hq]
          rfl
        · subst h6
          have hqp : CXnodePayee.GetPayee
              { scriptPubKey := vote.payee, vecVoteHashes := [vote.GetHash e] }
                = vote.payee := rfl
          rw [hqp, if_pos ⟨rfl, rfl⟩, habsent B0 rfl h5]
          rfl
      · have hB2 : p.mapXnodeBlocks h0 = some B := by
          simpa [FMap.set, hh] using hB
        obtain ⟨k1, k2, k3⟩ := i2 h0 B hB2
        refine ⟨k1, k2, ?_⟩
        intro entry hentry
        rw [k3 entry hentry, acceptedFor_append]
        have : ¬ (vote.nBlockHeight = h0 ∧ vote.payee = entry.GetPayee) :=
          fun hc => hh hc.1.symm
        rw [if_neg this, List.append_nil]
    · intro v hv
      by_cases hh : v.nBlockHeight = vote.nBlockHeight
      · refine ⟨B0.AddPayee e vote, by simp [FMap.set, hh], ?_⟩
        apply addPayeeLoop_payee_mem
        rcases List.mem_append.1 hv with hv | hv
        · left
          obtain ⟨B1, hB1, hB1m⟩ := i4 v hv
          rw [hh] at hB1
          rw [hB1] at hB0
          simp only [] at hB0
          subst hB0
          exact hB1m
        · right
          simp at hv
          rw [hv]
      · rcases List.mem_append.1 hv with hv | hv
        · obtain ⟨B1, hB1, hB1m⟩ := i4 v hv
          exact ⟨B1, by simpa [FMap.set, hh] using hB1, hB1m⟩
        · simp at hv
          rw [hv] at hh
          exact absurd rfl hh

theorem paymentVotesInv_run (e : Env) (votes : List CXnodePaymentVote)
    (hsig : ∀ v ∈ votes, v.vchSig ≠ [])
    (acc : List CXnodePaymentVote × CXnodePayments) (hinv : paymentVotesInv e acc.1 acc.2) :
    paymentVotesInv e (votes.foldl (addPaymentVoteStep e) acc).1
      (votes.foldl (addPaymentVoteStep e) acc).2 := by
  induction votes generalizing acc with
  | nil => exact hinv
  | cons v rest ih =>
    rw [List.foldl_cons]
    apply ih (fun w hw => hsig w (List.mem_cons_of_mem _ hw))
    exact paymentVotesInv_step e acc.1 acc.2 v (hsig v (List.mem_cons_self _ _)) hinv

theorem paymentVotesInv_init (e : Env) : paymentVotesInv e [] CXnodePayments.init := by
  refine ⟨by simp, by simp, ?_, by simp⟩
  intro h B hB
  simp [CXnodePayments.init, FMap.empty] at hB

theorem tally_hashes_nodup (e : Env) (acc : List CXnodePaymentVote) (h : Int)
    (hnd : (acc.map (fun v => v.GetHash e)).Nodup) (l : List CXnodePayee)
    (hl : (l.map CXnodePayee.GetPayee).Nodup)
    (hent : ∀ entry ∈ l,
      entry.vecVoteHashes = (acceptedFor h entry.GetPayee acc).map (fun v => v.GetHash e)) :
    (l.flatMap (fun entry => entry.vecVoteHashes)).Nodup := by
  rw [List.nodup_flatMap]
  have hinj : ∀ v ∈ acc, ∀ w ∈ acc, v.GetHash e = w.GetHash e → v = w :=
    fun v hv w hw hvw => List.inj_on_of_nodup_map hnd hv hw hvw
  constructor
  · intro entry hentry
    rw [hent entry hentry]
    unfold acceptedFor
    exact (List.Nodup.sublist (List.Sublist.map _ (List.filter_sublist _)) hnd)
  · unfold List.Nodup at hl
    rw [List.pairwise_map] at hl
    have hl2 : l.Pairwise (fun a b => a ∈ l ∧ b ∈ l ∧ a.GetPayee ≠ b.GetPayee) := by
      rw [List.pairwise_iff_forall_sublist]
      intro a b hab
      have h1 := List.pairwise_iff_forall_sublist.1 hl hab
      exact ⟨hab.subset (by simp), hab.subset (by simp), h1⟩
    refine hl2.imp ?_
    rintro a b ⟨ha, hb, hne⟩
    rw [Function.onFun, List.disjoint_left]
    intro k hka hkb
    rw [hent a ha] at hka
    rw [hent b hb] at hkb
    obtain ⟨v, hv, hvk⟩ := List.mem_map.1 hka
    obtain ⟨w, hw, hwk⟩ := List.mem_map.1 hkb
    unfold acceptedFor at hv hw
    rw [List.mem_filter] at hv hw
    have := hinj v hv.1 w hw.1 (hvk.trans hwk.symm)
    subst this
    simp only [Bool.and_eq_true, decide_eq_true_eq] at hv hw
    exact hne (hv.2.2.symm.trans hw.2.2)

/-- The call `AddPaymentVote` returns true exactly when the reference block
hash is known and no verified vote with the hash is stored. -/
theorem AddPaymentVote_accepts_iff (e : Env) (p : CXnodePayments) (vote : CXnodePaymentVote) :
    (p.AddPaymentVote e vote).1 = true
      ↔ ((e.GetBlockHash (vote.nBlockHeight - 101)).isSome = true
        ∧ p.HasVerifiedPaymentVote (vote.GetHash e) = false) := by
  unfold CXnodePayments.AddPaymentVote
  cases hb : e.GetBlockHash (vote.nBlockHeight - 101) with
  | none => simp
  | some b =>
    simp only []
    cases hv : p.HasVerifiedPaymentVote (vote.GetHash e) with
    | true => simp
    | false => simp

/-- C29: for every vote with a non-empty signature, whether its reference
block hash (height − 101) is known or not, a second `AddPaymentVote` of the
same vote returns false and leaves the object, stored votes and per-height
tallies included, exactly as after the first call; a call returns true exactly
when the reference block hash is known and no verified vote with the hash is
stored. After any run of `AddPaymentVote` calls with signed votes from the empty
object: the accepted votes (result true) have pairwise distinct hashes; no
vote hash occurs twice in the tally of any height; the vote count of every
entry of a tally is the number of accepted votes for its payee and height;
and every accepted vote is counted: the tally of its height has an entry for
its payee, which holds the hash of the vote and whose vote count is the
number of accepted votes for that payee and height. -/
theorem C29_AddPaymentVote_once (e : Env) :
    (∀ (p : CXnodePayments) (vote : CXnodePaymentVote), vote.vchSig ≠ [] →
      (p.AddPaymentVote e vote).2.AddPaymentVote e vote = (false, (p.AddPaymentVote e vote).2))
    ∧ (∀ (p : CXnodePayments) (vote : CXnodePaymentVote),
        (p.AddPaymentVote e vote).1 = true
          ↔ ((e.GetBlockHash (vote.nBlockHeight - 101)).isSome = true
            ∧ p.HasVerifiedPaymentVote (vote.GetHash e) = false))
    ∧ (∀ votes : List CXnodePaymentVote, (∀ v ∈ votes, v.vchSig ≠ []) →
        ((CXnodePayments.init.addPaymentVotes e votes).1.map (fun v => v.GetHash e)).Nodup
        ∧ (CXnodePayments.init.addPaymentVotes e votes).1.Nodup
        ∧ (∀ (h : Int) (B : CXnodeBlockPayees),
            (CXnodePayments.init.addPaymentVotes e votes).2.mapXnodeBlocks h = some B →
            (B.vecPayees.flatMap (fun entry => entry.vecVoteHashes)).Nodup
            ∧ ∀ entry ∈ B.vecPayees,
                entry.GetVoteCount
                  = ((acceptedFor h entry.GetPayee
                      (CXnodePayments.init.addPaymentVotes e votes).1).length : Int))
        ∧ (∀ v ∈ (CXnodePayments.init.addPaymentVotes e votes).1,
            ∃ B entry,
              (CXnodePayments.init.addPaymentVotes e votes).2.mapXnodeBlocks v.nBlockHeight
                = some B
              ∧ entry ∈ B.vecPayees
              ∧ entry.GetPayee = v.payee
              ∧ v.GetHash e ∈ entry.vecVoteHashes
              ∧ entry.GetVoteCount
                  = ((acceptedFor v.nBlockHeight v.payee
                      (CXnodePayments.init.addPaymentVotes e votes).1).length : Int)
              ∧ 1 ≤ entry.GetVoteCount)) := by
  refine ⟨fun p vote hsig => AddPaymentVote_again e p vote hsig,
    fun p vote => AddPaymentVote_accepts_iff e p vote, ?_⟩
  intro votes hsig
  obtain ⟨_, i3, i2, i4⟩ := paymentVotesInv_run e votes hsig ([], CXnodePayments.init)
    (paymentVotesInv_init e)
  refine ⟨i3, List.Nodup.of_map _ i3, ?_, ?_⟩
  · intro h B hB
    obtain ⟨_, j2, j3⟩ := i2 h B hB
    refine ⟨tally_hashes_nodup e _ h i3 _ j2 j3, ?_⟩
    intro entry hentry
    unfold CXnodePayee.GetVoteCount
    rw [j3 entry hentry, List.length_map]
    rfl
  · intro v hv
    obtain ⟨B, hB, hpay⟩ := i4 v hv
    obtain ⟨entry, hentry, hpe⟩ := List.mem_map.1 hpay
    obtain ⟨_, _, j3⟩ := i2 v.nBlockHeight B hB
    have hmem : v ∈ acceptedFor v.nBlockHeight v.payee
        (votes.foldl (addPaymentVoteStep e) ([], CXnodePayments.init)).1 := by
      unfold acceptedFor
      rw [List.mem_filter]
      exact ⟨hv, by simp⟩
    have hcount : entry.GetVoteCount
        = ((acceptedFor v.nBlockHeight v.payee
            (votes.foldl (addPaymentVoteStep e) ([], CXnodePayments.init)).1).length : Int) := by
      unfold CXnodePayee.GetVoteCount
      rw [j3 entry hentry, List.length_map, hpe]
    refine ⟨B, entry, hB, hentry, hpe, ?_, hcount, ?_⟩
    · rw [j3 entry hentry, hpe]
      exact List.mem_map_of_mem _ hmem
    · rw [hcount]
      have hpos := List.length_pos_of_mem hmem
      omega

/-- C29 at samples: the second call for a signed vote returns false; of the
three votes for block 195, the third has the hash of the first and is
rejected; the tally of height 195 then counts one vote for the payee `[5]` and
one for the payee `[6]`; with a third vote of another record for the payee
`[6]` it counts two for that payee. -/
theorem C29_AddPaymentVote_once_witness :
    ((CXnodePayments.init.AddPaymentVote sampleEnv (sampleVote [5] [1])).2.AddPaymentVote sampleEnv
        (sampleVote [5] [1])).1 = false
    ∧ (CXnodePayments.init.AddPaymentVote sampleEnv (sampleVote [5] [1])).1 = true
    ∧ ((CXnodePayments.init.addPaymentVotes sampleEnv
          [sampleVote [5] [1], sampleVote [6] [1], sampleVote [5] [2]]).1.map
          (fun v => v.GetHash sampleEnv)).Nodup
    ∧ (CXnodePayments.init.addPaymentVotes sampleEnv
          [sampleVote [5] [1], sampleVote [6] [1], sampleVote [5] [2]]).1
        = [sampleVote [5] [1], sampleVote [6] [1]]
    ∧ ((CXnodePayments.init.addPaymentVotes sampleEnv
          [sampleVote [5] [1], sampleVote [6] [1], sampleVote [5] [2]]).2.mapXnodeBlocks 195).map
          (fun B => B.vecPayees.map (fun entry => (entry.GetPayee, entry.GetVoteCount)))
        = some [([5], 1), ([6], 1)]
    ∧ ((CXnodePayments.init.addPaymentVotes sampleEnv
          [sampleVote [5] [1], sampleVote [6] [1],
            { sampleVote [6] [1] with vinXnode := (sampleXnode 2 0).vin }]).2.mapXnodeBlocks
            195).map
          (fun B => B.vecPayees.map (fun entry => (entry.GetPayee, entry.GetVoteCount)))
        = some [([5], 1), ([6], 2)] :=
  ⟨congrArg Prod.fst ((C29_AddPaymentVote_once sampleEnv).1 CXnodePayments.init
      (sampleVote [5] [1]) (by decide)),
   by decide,
   ((C29_AddPaymentVote_once sampleEnv).2.2
      [sampleVote [5] [1], sampleVote [6] [1], sampleVote [5] [2]] (by decide)).1,
   by decide, by decide, by decide⟩

theorem indexHolds_step (ix : CXnodeIndex) (D : List CTxIn) (v : CTxIn)
    (h : indexHolds ix D) :
    (v.prevout ∈ D.map (fun w => w.prevout) → ix.AddXnodeVIN v = ix ∧ firstByOutpoint D [v] = D)
    ∧ (v.prevout ∉ D.map (fun w => w.prevout) → firstByOutpoint D [v] = D ++ [v])
    ∧ indexHolds (ix.AddXnodeVIN v) (firstByOutpoint D [v]) := by
  obtain ⟨h1, h2, h3, h4, h5⟩ := h
  have hany : D.any (fun w => decide (w.prevout = v.prevout)) = true
      ↔ v.prevout ∈ D.map (fun w => w.prevout) := by
    simp only [List.any_eq_true, decide_eq_true_eq, List.mem_map]
  have hpres : v.prevout ∈ D.map (fun w => w.prevout) →
      ix.AddXnodeVIN v = ix ∧ firstByOutpoint D [v] = D := by
    intro hm
    obtain ⟨w, hw, hwv⟩ := List.mem_map.1 hm
    obtain ⟨k, hk⟩ := List.mem_iff_getElem?.1 hw
    have hc : ix.mapIndex.count v.prevout = true := by
      unfold FMap.count
      rw [← hwv, (h3 k w hk).1]
      rfl
    constructor
    · unfold CXnodeIndex.AddXnodeVIN
      rw [if_pos hc]
    · unfold firstByOutpoint
      simp only [List.foldl_cons, List.foldl_nil]
      rw [if_pos (hany.2 hm)]
  have habs : v.prevout ∉ D.map (fun w => w.prevout) → firstByOutpoint D [v] = D ++ [v] := by
    intro hm
    unfold firstByOutpoint
    simp only [List.foldl_cons, List.foldl_nil]
    rw [if_neg (fun hh => hm (hany.1 hh))]
  refine ⟨hpres, habs, ?_⟩
  by_cases hm : v.prevout ∈ D.map (fun w => w.prevout)
  · rw [(hpres hm).1, (hpres hm).2]
    exact ⟨h1, h2, h3, h4, h5⟩
  · rw [habs hm]
    have hc : ¬ ix.mapIndex.count v.prevout = true := by
      unfold FMap.count
      rw [h4 _ hm]
      simp
    unfold CXnodeIndex.AddXnodeVIN
    rw [if_neg hc]
    refine ⟨?_, ?_, ?_, ?_, ?_⟩
    · simp only [List.length_append, List.length_singleton, h1]
      push_cast
      rfl
    · rw [List.map_append, List.nodup_append]
      refine ⟨h2, List.nodup_singleton _, ?_⟩
      intro a ha hb
      simp at hb
      subst hb
      exact hm ha
    · intro k w hk
      by_cases hkl : k < D.length
      · rw [List.getElem?_append_left hkl] at hk
        obtain ⟨a1, a2⟩ := h3 k w hk
        have hne : w.prevout ≠ v.prevout := by
          intro hc2
          apply hm
          rw [← hc2]
          exact List.mem_map_of_mem (fun w => w.prevout) (List.mem_iff_getElem?.2 ⟨k, hk⟩)
        have hne2 : (k : Int) ≠ ix.nSize := by rw [h1]; omega
        simp only [FMap.set, if_neg hne, if_neg hne2]
        exact ⟨a1, a2⟩
      · have hkl2 : D.length ≤ k := by omega
        rw [List.getElem?_append_right hkl2] at hk
        have hk0 : k - D.length = 0 := by
          by_contra hk0
          obtain ⟨j, hj⟩ := Nat.exists_eq_succ_of_ne_zero hk0
          rw [hj] at hk
          simp at hk
        rw [hk0] at hk
        simp at hk
        subst hk
        have hkk : (k : Int) = ix.nSize := by rw [h1]; omega
        simp [FMap.set, hkk]
    · intro o ho
      rw [List.map_append, List.mem_append, not_or] at ho
      have hne : o ≠ v.prevout := by
        intro hc2
        apply ho.2
        simp [hc2]
      simp only [FMap.set, if_neg hne]
      exact h4 o ho.1
    · intro i hi
      simp only [List.length_append, List.length_singleton] at hi
      have hne : i ≠ ix.nSize := by rw [h1]; omega
      simp only [FMap.set, if_neg hne]
      apply h5
      omega

theorem firstByOutpoint_cons (D : List CTxIn) (v : CTxIn) (rest : List CTxIn) :
    firstByOutpoint D (v :: rest) = firstByOutpoint (firstByOutpoint D [v]) rest := by
  unfold firstByOutpoint
  rfl

theorem indexHolds_run (vins : List CTxIn) (ix : CXnodeIndex) (D : List CTxIn)
    (h : indexHolds ix D) : indexHolds (ix.addXnodeVINs vins) (firstByOutpoint D vins) := by
  induction vins generalizing ix D with
  | nil => exact h
  | cons v rest ih =>
    rw [firstByOutpoint_cons]
    unfold CXnodeIndex.addXnodeVINs
    rw [List.foldl_cons]
    exact ih _ _ (indexHolds_step ix D v h).2.2

theorem indexHolds_Clear : indexHolds CXnodeIndex.Clear [] := by
  refine ⟨rfl, by simp, ?_, ?_, ?_⟩
  · intro k v hk; simp at hk
  · intro o _; rfl
  · intro i _; rfl

theorem firstByOutpoint_prefix (vins : List CTxIn) (D : List CTxIn) :
    ∃ t, firstByOutpoint D vins = D ++ t := by
  induction vins generalizing D with
  | nil => exact ⟨[], by simp [firstByOutpoint]⟩
  | cons v rest ih =>
    rw [firstByOutpoint_cons]
    obtain ⟨t, ht⟩ := ih (firstByOutpoint D [v])
    rw [ht]
    unfold firstByOutpoint
    simp only [List.foldl_cons, List.foldl_nil]
    split
    · exact ⟨t, rfl⟩
    · exact ⟨v :: t, by simp⟩

theorem firstByOutpoint_append (D l1 l2 : List CTxIn) :
    firstByOutpoint D (l1 ++ l2) = firstByOutpoint (firstByOutpoint D l1) l2 := by
  unfold firstByOutpoint
  rw [List.foldl_append]

theorem firstByOutpoint_outpoints (vins : List CTxIn) (D : List CTxIn) (o : COutPoint) :
    o ∈ (firstByOutpoint D vins).map (fun v => v.prevout)
      ↔ o ∈ D.map (fun v => v.prevout) ∨ o ∈ vins.map (fun v => v.prevout) := by
  induction vins generalizing D with
  | nil => simp [firstByOutpoint]
  | cons v rest ih =>
    rw [firstByOutpoint_cons, ih]
    unfold firstByOutpoint
    simp only [List.foldl_cons, List.foldl_nil]
    split
    · rename_i hany
      simp only [List.any_eq_true, decide_eq_true_eq] at hany
      obtain ⟨w, hw, hwv⟩ := hany
      simp only [List.map_cons, List.mem_cons]
      constructor
      · rintro (h | h)
        · exact Or.inl h
        · exact Or.inr (Or.inr h)
      · rintro (h | h | h)
        · exact Or.inl h
        · left; rw [h, ← hwv]; exact List.mem_map_of_mem (fun v => v.prevout) hw
        · exact Or.inr h
    · simp only [List.map_append, List.mem_append, List.map_cons, List.map_nil,
        List.mem_singleton, List.mem_cons]
      tauto

theorem firstByOutpoint_nodup (vins : List CTxIn) (D : List CTxIn)
    (h : ((D ++ vins).map (fun v => v.prevout)).Nodup) : firstByOutpoint D vins = D ++ vins := by
  induction vins generalizing D with
  | nil => simp [firstByOutpoint]
  | cons v rest ih =>
    rw [firstByOutpoint_cons]
    have hv : firstByOutpoint D [v] = D ++ [v] := by
      unfold firstByOutpoint
      simp only [List.foldl_cons, List.foldl_nil]
      split
      · rename_i hany
        simp only [List.any_eq_true, decide_eq_true_eq] at hany
        obtain ⟨w, hw, hwv⟩ := hany
        rw [List.map_append, List.nodup_append] at h
        exact absurd (List.mem_map_of_mem (fun v => v.prevout) hw)
          (fun hm => h.2.2 hm (by simp [hwv]))
      · rfl
    rw [hv, ih (D ++ [v]) (by simpa using h)]
    simp

/-- C26 fails as stated: two inputs that differ in their script and share the
outpoint are two distinct vins, yet the index built from them has size 1 and
`Get(GetXnodeIndex(v))` of the second returns the first. -/
theorem C26_counterexample :
    (sampleXnode 1 0).vin ≠ sampleVinWithScript
    ∧ (CXnodeIndex.Clear.addXnodeVINs [(sampleXnode 1 0).vin, sampleVinWithScript]).GetSize = 1
    ∧ (CXnodeIndex.Clear.addXnodeVINs [(sampleXnode 1 0).vin, sampleVinWithScript]).Get
        ((CXnodeIndex.Clear.addXnodeVINs
            [(sampleXnode 1 0).vin, sampleVinWithScript]).GetXnodeIndex sampleVinWithScript)
        = some (sampleXnode 1 0).vin := by
  decide

/-- C26 (amended): for the index built from the empty index by `AddXnodeVIN`
of the inputs `vins`, with `D` the inputs that bring a new outpoint in the
order of their first occurrence: `GetSize` is the length of `D`, the number of
distinct outpoints added; the `k`-th entry of `D` has index `k - 1`, `Get` of
that index returns it, and it keeps the index under any further additions;
`Get(GetXnodeIndex(v))` returns for every added `v` an input of `D` with the
outpoint of `v`, which is `v` itself when `v` is in `D` (in particular when
the added inputs differ in their outpoints); `GetXnodeIndex` of the input
returned by `Get(i)` is `i` for `0 ≤ i < GetSize`; `GetXnodeIndex` returns
`-1` for an outpoint never added and `Get` returns false outside
`0 ≤ i < GetSize`; adding an input whose outpoint is present changes
nothing. -/
theorem C26_index_bijection (vins : List CTxIn) :
    (CXnodeIndex.Clear.addXnodeVINs vins).GetSize = ((firstByOutpoint [] vins).length : Int)
    ∧ ((firstByOutpoint [] vins).length
        = ((vins.map (fun v => v.prevout)).dedup).length)
    ∧ (∀ (k : Nat) (v : CTxIn), (firstByOutpoint [] vins)[k]? = some v →
        (CXnodeIndex.Clear.addXnodeVINs vins).GetXnodeIndex v = (k : Int)
        ∧ (CXnodeIndex.Clear.addXnodeVINs vins).Get (k : Int) = some v
        ∧ ∀ more : List CTxIn,
            (CXnodeIndex.Clear.addXnodeVINs (vins ++ more)).GetXnodeIndex v = (k : Int))
    ∧ (∀ v ∈ vins, ∃ w ∈ firstByOutpoint [] vins, w.prevout = v.prevout
        ∧ (CXnodeIndex.Clear.addXnodeVINs vins).Get
            ((CXnodeIndex.Clear.addXnodeVINs vins).GetXnodeIndex v) = some w
        ∧ (v ∈ firstByOutpoint [] vins → w = v))
    ∧ ((vins.map (fun v => v.prevout)).Nodup → firstByOutpoint [] vins = vins)
    ∧ (∀ i : Int, 0 ≤ i → i < (CXnodeIndex.Clear.addXnodeVINs vins).GetSize →
        ∃ w, (CXnodeIndex.Clear.addXnodeVINs vins).Get i = some w
          ∧ (CXnodeIndex.Clear.addXnodeVINs vins).GetXnodeIndex w = i)
    ∧ (∀ v : CTxIn, v.prevout ∉ vins.map (fun w => w.prevout) →
        (CXnodeIndex.Clear.addXnodeVINs vins).GetXnodeIndex v = -1)
    ∧ (∀ i : Int, (i < 0 ∨ (CXnodeIndex.Clear.addXnodeVINs vins).GetSize ≤ i) →
        (CXnodeIndex.Clear.addXnodeVINs vins).Get i = none)
    ∧ (∀ v : CTxIn, v.prevout ∈ vins.map (fun w => w.prevout) →
        (CXnodeIndex.Clear.addXnodeVINs vins).AddXnodeVIN v
          = CXnodeIndex.Clear.addXnodeVINs vins) := by
  have hinv := indexHolds_run vins CXnodeIndex.Clear [] indexHolds_Clear
  obtain ⟨h1, h2, h3, h4, h5⟩ := hinv
  have hmemD : ∀ o : COutPoint, o ∈ (firstByOutpoint [] vins).map (fun v => v.prevout)
      ↔ o ∈ vins.map (fun v => v.prevout) := by
    intro o
    rw [firstByOutpoint_outpoints]
    simp
  have hget : ∀ (k : Nat) (v : CTxIn), (firstByOutpoint [] vins)[k]? = some v →
      (CXnodeIndex.Clear.addXnodeVINs vins).GetXnodeIndex v = (k : Int)
      ∧ (CXnodeIndex.Clear.addXnodeVINs vins).Get (k : Int) = some v := by
    intro k v hk
    obtain ⟨a1, a2⟩ := h3 k v hk
    unfold CXnodeIndex.GetXnodeIndex CXnodeIndex.Get
    rw [a1, a2]
    exact ⟨rfl, rfl⟩
  refine ⟨h1, ?_, ?_, ?_, ?_, ?_, ?_, ?_, ?_⟩
  · rw [← List.length_map (firstByOutpoint [] vins) (fun v => v.prevout)]
    apply List.Perm.length_eq
    rw [List.perm_ext_iff_of_nodup h2 (List.nodup_dedup _)]
    intro o
    rw [hmemD, List.mem_dedup]
  · intro k v hk
    refine ⟨(hget k v hk).1, (hget k v hk).2, ?_⟩
    intro more
    have hinv2 := indexHolds_run (vins ++ more) CXnodeIndex.Clear [] indexHolds_Clear
    obtain ⟨t, ht⟩ := firstByOutpoint_prefix more (firstByOutpoint [] vins)
    rw [firstByOutpoint_append, ht] at hinv2
    have hk2 : (firstByOutpoint [] vins ++ t)[k]? = some v := by
      rw [List.getElem?_append_left (List.getElem?_eq_some.1 hk).1]
      exact hk
    have := (hinv2.2.2.1 k v hk2).1
    unfold CXnodeIndex.GetXnodeIndex
    rw [this]
  · intro v hv
    have hm : v.prevout ∈ (firstByOutpoint [] vins).map (fun v => v.prevout) :=
      (hmemD _).2 (List.mem_map_of_mem (fun v => v.prevout) hv)
    obtain ⟨w, hw, hwv⟩ := List.mem_map.1 hm
    obtain ⟨k, hk⟩ := List.mem_iff_getElem?.1 hw
    refine ⟨w, hw, hwv, ?_, ?_⟩
    · have hvi : (CXnodeIndex.Clear.addXnodeVINs vins).GetXnodeIndex v = (k : Int) := by
        unfold CXnodeIndex.GetXnodeIndex
        rw [← hwv, (h3 k w hk).1]
      rw [hvi]
      exact (hget k w hk).2
    · intro hvD
      exact List.inj_on_of_nodup_map h2 hw hvD hwv
  · intro hnd
    simpa using firstByOutpoint_nodup vins [] (by simpa using hnd)
  · intro i hi0 hi1
    have hlt : i.toNat < (firstByOutpoint [] vins).length := by
      unfold CXnodeIndex.GetSize at hi1
      rw [h1] at hi1
      omega
    obtain ⟨w, hw⟩ : ∃ w, (firstByOutpoint [] vins)[i.toNat]? = some w :=
      ⟨_, List.getElem?_eq_getElem hlt⟩
    have := hget i.toNat w hw
    rw [Int.toNat_of_nonneg hi0] at this
    exact ⟨w, this.2, this.1⟩
  · intro v hv
    unfold CXnodeIndex.GetXnodeIndex
    rw [h4 _ (fun hh => hv ((hmemD _).1 hh))]
  · intro i hi
    unfold CXnodeIndex.Get
    unfold CXnodeIndex.GetSize at hi
    rw [h1] at hi
    rw [h5 i hi]
  · intro v hv
    exact ((indexHolds_step _ _ v ⟨h1, h2, h3, h4, h5⟩).1 ((hmemD _).2 hv)).1

theorem C26_index_bijection_witness :
    ((CXnodeIndex.Clear.addXnodeVINs
        [(sampleXnode 1 0).vin, sampleVinWithScript, (sampleXnode 2 0).vin]).GetXnodeIndex
        (sampleXnode 2 0).vin = 1
      ∧ (CXnodeIndex.Clear.addXnodeVINs
          [(sampleXnode 1 0).vin, sampleVinWithScript, (sampleXnode 2 0).vin]).Get 1
          = some (sampleXnode 2 0).vin
      ∧ ∀ more : List CTxIn,
          (CXnodeIndex.Clear.addXnodeVINs
            ([(sampleXnode 1 0).vin, sampleVinWithScript, (sampleXnode 2 0).vin]
              ++ more)).GetXnodeIndex (sampleXnode 2 0).vin = 1)
    ∧ (CXnodeIndex.Clear.addXnodeVINs
          [(sampleXnode 1 0).vin, sampleVinWithScript, (sampleXnode 2 0).vin]).GetXnodeIndex
          (sampleXnode 3 0).vin = -1
    ∧ (CXnodeIndex.Clear.addXnodeVINs
          [(sampleXnode 1 0).vin, sampleVinWithScript, (sampleXnode 2 0).vin]).Get 2 = none :=
  ⟨(C26_index_bijection
      [(sampleXnode 1 0).vin, sampleVinWithScript, (sampleXnode 2 0).vin]).2.2.1 1
      (sampleXnode 2 0).vin (by decide),
   (C26_index_bijection
      [(sampleXnode 1 0).vin, sampleVinWithScript, (sampleXnode 2 0).vin]).2.2.2.2.2.2.1
      (sampleXnode 3 0).vin (by decide),
   (C26_index_bijection
      [(sampleXnode 1 0).vin, sampleVinWithScript, (sampleXnode 2 0).vin]).2.2.2.2.2.2.2.1 2
      (Or.inr (by decide))⟩

/-- C21 (the code as it is): for a broadcast that is not yet seen, not
outdated, with distinct outpoints, a known block hash, a verifier ranked within
`MAX_POSE_RANK`, target and verifier in the registry and the address of the
target, `ProcessVerifyBroadcast` returns without touching a score or relaying
as soon as one of the two signatures verifies; and when neither signature
verifies it decrements the score of the target unless PoSe-verified, relays
the broadcast and increments every other record at the address. -/
theorem C21_ProcessVerifyBroadcast_inverted (e : Env) (pnode : CNode)
    (mnv : CXnodeVerification) (s : State) (nHeight : Int) (blockHash : Nat) (i1 i2 : Nat)
    (pmn1 pmn2 : CXnode)
    (hunseen : s.mnodeman.mapSeenXnodeVerification.count (e.GetHashMnv mnv) = false)
    (htip : s.mnodeman.pCurrentBlockIndex = some nHeight)
    (hrecent : ¬ mnv.nBlockHeight < nHeight - MAX_POSE_BLOCKS)
    (hdistinct : mnv.vin1.prevout ≠ mnv.vin2.prevout)
    (hhash : e.GetBlockHash mnv.nBlockHeight = some blockHash)
    (hranked : s.mnodeman.GetXnodeRank e mnv.vin2 mnv.nBlockHeight MIN_POSE_PROTO_VERSION true
      ≠ -1)
    (hrank : s.mnodeman.GetXnodeRank e mnv.vin2 mnv.nBlockHeight MIN_POSE_PROTO_VERSION true
      ≤ MAX_POSE_RANK)
    (hfind1 : s.mnodeman.Find mnv.vin1 = some i1) (hfind2 : s.mnodeman.Find mnv.vin2 = some i2)
    (hpmn1 : s.getXnode i1 = some pmn1) (hpmn2 : s.getXnode i2 = some pmn2)
    (haddr : pmn1.addr = mnv.addr) :
    ((e.VerifyMessage pmn1.pubKeyXnode mnv.vchSig1
          (e.strService mnv.addr ++ toString mnv.nonce ++ e.strHash blockHash) = true
        ∨ e.VerifyMessage pmn2.pubKeyXnode mnv.vchSig2
          (e.strService mnv.addr ++ toString mnv.nonce ++ e.strHash blockHash ++
            e.strPrevout mnv.vin1.prevout ++ e.strPrevout mnv.vin2.prevout) = true) →
      (CXnodeMan.ProcessVerifyBroadcast e pnode mnv s).map
          (fun r => (r.2.mnodeman.vXnodes, r.2.vRelayed))
        = some (s.mnodeman.vXnodes, s.vRelayed))
    ∧ ((e.VerifyMessage pmn1.pubKeyXnode mnv.vchSig1
          (e.strService mnv.addr ++ toString mnv.nonce ++ e.strHash blockHash) = false
        ∧ e.VerifyMessage pmn2.pubKeyXnode mnv.vchSig2
          (e.strService mnv.addr ++ toString mnv.nonce ++ e.strHash blockHash ++
            e.strPrevout mnv.vin1.prevout ++ e.strPrevout mnv.vin2.prevout) = false) →
      (CXnodeMan.ProcessVerifyBroadcast e pnode mnv s).map
          (fun r => (r.2.mnodeman.vXnodes, r.2.vRelayed))
        = some (CXnodeMan.banOthersAt (s.decreaseUnlessVerified e i1 pmn1).mnodeman.vXnodes mnv,
            s.vRelayed ++ [(InvType.MSG_XNODE_VERIFY, e.GetHashMnv mnv)])) := by
  have hrank2 : ¬ s.mnodeman.GetXnodeRank e mnv.vin2 mnv.nBlockHeight MIN_POSE_PROTO_VERSION true
      > MAX_POSE_RANK := not_lt.2 hrank
  unfold State.getXnode at hpmn1 hpmn2
  unfold CXnodeMan.Find at hfind1 hfind2
  constructor
  · intro hv
    unfold CXnodeMan.ProcessVerifyBroadcast
    simp only [hunseen, htip, hrecent, hdistinct, hhash, Bool.false_eq_true, if_false,
      CXnodeMan.GetXnodeRank, CXnodeMan.Find, State.getXnode] at hranked hrank2 ⊢
    simp only [hranked, hrank2, if_false, hfind1, hfind2, hpmn1, hpmn2, haddr, ne_eq,
      not_true_eq_false]
    rcases hv with hv | hv
    · simp [hv]
    · simp only [hv, if_true]
      split <;> rfl
  · rintro ⟨hv1, hv2⟩
    unfold CXnodeMan.ProcessVerifyBroadcast
    simp only [hunseen, htip, hrecent, hdistinct, hhash, Bool.false_eq_true, if_false,
      CXnodeMan.GetXnodeRank, CXnodeMan.Find, State.getXnode] at hranked hrank2 ⊢
    simp only [hranked, hrank2, if_false, hfind1, hfind2, hpmn1, hpmn2, haddr, ne_eq,
      not_true_eq_false, hv1, hv2, Bool.false_eq_true]
    unfold State.decreaseUnlessVerified CXnodeVerification.Relay State.RelayInv State.modifyXnode
    simp only [Option.map_some']
    split <;> rfl

theorem C21_ProcessVerifyBroadcast_inverted_witness :
    ((CXnodeMan.ProcessVerifyBroadcast sampleEnvKeys samplePeer (sampleVerifyBroadcast [1] [2])
        sampleBroadcastState).map (fun r => (r.2.mnodeman.vXnodes, r.2.vRelayed))
      = some (sampleBroadcastState.mnodeman.vXnodes, sampleBroadcastState.vRelayed))
    ∧ ((CXnodeMan.ProcessVerifyBroadcast sampleEnvKeys samplePeer (sampleVerifyBroadcast [7] [8])
        sampleBroadcastState).map
          (fun r => (r.2.mnodeman.vXnodes.map (fun mn => mn.nPoSeBanScore), r.2.vRelayed))
      = some ([0, 1, 1], [(InvType.MSG_XNODE_VERIFY, 42)]))
    ∧ sampleScoredBroadcastState.mnodeman.vXnodes.map (fun mn => mn.nPoSeBanScore) = [2, 0, 0]
    ∧ ((CXnodeMan.ProcessVerifyBroadcast sampleEnvKeys samplePeer (sampleVerifyBroadcast [7] [8])
        sampleScoredBroadcastState).map
          (fun r => (r.2.mnodeman.vXnodes.map (fun mn => mn.nPoSeBanScore), r.2.vRelayed))
      = some ([1, 1, 1], [(InvType.MSG_XNODE_VERIFY, 42)])) :=
  ⟨(C21_ProcessVerifyBroadcast_inverted sampleEnvKeys samplePeer (sampleVerifyBroadcast [1] [2])
      sampleBroadcastState 200 199 0 1 (sampleKeyedXnode 1 1) (sampleKeyedXnode 2 2)
      (by decide) (by decide) (by decide) (by decide) (by decide) (by decide) (by decide)
      (by decide) (by decide) (by decide) (by decide) (by decide)).1 (Or.inl (by decide)),
   by decide, by decide, by decide⟩

/-- C23: after a `Sign` that returns true, `CheckSignature` of the signed
message with the matching public key returns true with `nDos = 0`, for
`CXnodeBroadcast` (the collateral key of the announcement), `CXnodePing` (the
node key passed to `Sign`) and `CXnodePaymentVote` (the node key of the
controller); and two announcements with the same address, signing time,
protocol version and signature bytes whose collateral keys and node keys have
the same key ids get the same result from `CXnodeBroadcast::CheckSignature`,
`VerifyMessage` reading the public key through its id. -/
theorem C23_sign_then_check (e : Env) :
    (∀ (mnb : CXnodeBroadcast) (sign : String → Option (List Nat)),
        (mnb.Sign e sign).1 = true → (mnb.Sign e sign).2.CheckSignature e = (true, 0))
    ∧ (∀ (mnp : CXnodePing) (sign : String → Option (List Nat)) (pubKeyXnode : CPubKey),
        (mnp.Sign e sign pubKeyXnode).1 = true →
        (mnp.Sign e sign pubKeyXnode).2.CheckSignature e pubKeyXnode = (true, 0))
    ∧ (∀ (vote : CXnodePaymentVote) (activeXnode : CActiveXnode) (nValidationHeight : Int),
        (vote.Sign e activeXnode).1 = true →
        (vote.Sign e activeXnode).2.CheckSignature e activeXnode.pubKeyXnode nValidationHeight
          = (true, 0))
    ∧ ((∀ (k1 k2 : CPubKey) (vchSig : List Nat) (strMessage : String),
          e.strKeyID k1 = e.strKeyID k2 →
          e.VerifyMessage k1 vchSig strMessage = e.VerifyMessage k2 vchSig strMessage) →
        ∀ mnb1 mnb2 : CXnodeBroadcast,
          mnb1.addr = mnb2.addr → mnb1.sigTime = mnb2.sigTime →
          e.strKeyID mnb1.pubKeyCollateralAddress = e.strKeyID mnb2.pubKeyCollateralAddress →
          e.strKeyID mnb1.pubKeyXnode = e.strKeyID mnb2.pubKeyXnode →
          mnb1.nProtocolVersion = mnb2.nProtocolVersion → mnb1.vchSig = mnb2.vchSig →
          mnb1.CheckSignature e = mnb2.CheckSignature e) := by
  refine ⟨?_, ?_, ?_, ?_⟩
  · intro mnb sign h
    unfold CXnodeBroadcast.Sign at h ⊢
    simp only [] at h ⊢
    cases hs : sign (e.strService mnb.addr ++ toString e.GetAdjustedTime ++
        e.strKeyID mnb.pubKeyCollateralAddress ++ e.strKeyID mnb.pubKeyXnode ++
        toString mnb.nProtocolVersion) with
    | none => rw [hs] at h; exact absurd h (by simp)
    | some vchSig =>
      rw [hs] at h
      simp only [] at h ⊢
      split at h
      · exact absurd h (by simp)
      · rename_i hv
        rw [if_neg hv]
        unfold CXnodeBroadcast.CheckSignature
        simp only []
        rw [if_neg hv]
  · intro mnp sign pubKeyXnode h
    unfold CXnodePing.Sign at h ⊢
    simp only [] at h ⊢
    cases hs : sign (e.strTxIn mnp.vin ++ e.strHash mnp.blockHash ++
        toString e.GetAdjustedTime) with
    | none => rw [hs] at h; exact absurd h (by simp)
    | some vchSig =>
      rw [hs] at h
      simp only [] at h ⊢
      split at h
      · exact absurd h (by simp)
      · rename_i hv
        rw [if_neg hv]
        unfold CXnodePing.CheckSignature
        simp only []
        rw [if_neg hv]
  · intro vote activeXnode nValidationHeight h
    unfold CXnodePaymentVote.Sign at h ⊢
    simp only [] at h ⊢
    cases hs : e.SignMessage (e.strPrevout vote.vinXnode.prevout ++ toString vote.nBlockHeight ++
        e.ScriptToAsmStr vote.payee) with
    | none => rw [hs] at h; exact absurd h (by simp)
    | some vchSig =>
      rw [hs] at h
      simp only [] at h ⊢
      split at h
      · exact absurd h (by simp)
      · rename_i hv
        rw [if_neg hv]
        unfold CXnodePaymentVote.CheckSignature
        simp only []
        rw [if_neg hv]
  · intro hid mnb1 mnb2 h1 h2 h3 h4 h5 h6
    unfold CXnodeBroadcast.CheckSignature
    simp only []
    rw [h1, h2, h3, h4, h5, h6, hid _ _ _ _ h3]

theorem C23_sign_then_check_witness :
    (({ sampleNewerMnb with vchSig := [] } : CXnodeBroadcast).Sign sampleEnvSig
        (fun _ => some [1])).2.CheckSignature sampleEnvSig = (true, 0)
    ∧ ((samplePing 0).Sign sampleEnvSig (fun _ => some [1]) [7]).2.CheckSignature sampleEnvSig [7]
        = (true, 0)
    ∧ ((sampleVote [5] []).Sign { sampleEnvSig with SignMessage := fun _ => some [1] }
          sampleVerifyState.activeXnode).2.CheckSignature
          { sampleEnvSig with SignMessage := fun _ => some [1] }
          sampleVerifyState.activeXnode.pubKeyXnode 200 = (true, 0)
    ∧ sampleNewerMnb.CheckSignature sampleEnvSig
        = ({ sampleNewerMnb with vin := (sampleXnode 2 0).vin, lastPing := samplePing 5,
                                 pubKeyXnode := [8] } : CXnodeBroadcast).CheckSignature
            sampleEnvSig
    ∧ sampleNewerMnb.CheckSignature sampleEnvSig = (false, 100) :=
  ⟨(C23_sign_then_check sampleEnvSig).1 _ _ (by decide),
   (C23_sign_then_check sampleEnvSig).2.1 _ _ _ (by decide),
   (C23_sign_then_check { sampleEnvSig with SignMessage := fun _ => some [1] }).2.2.1 _ _ _
     (by decide),
   (C23_sign_then_check sampleEnvSig).2.2.2 (fun _ _ _ _ _ => rfl) _ _ rfl rfl rfl rfl rfl rfl,
   by decide⟩

theorem CompareLastPaidBlock_eq : CompareLastPaidBlock = CompareScoreMN := rfl

theorem stdSort_CompareLastPaidBlock_pairwise (v : List (Int × CXnode)) :
    (stdSort CompareLastPaidBlock v).Pairwise (fun x y => CompareLastPaidBlock y x = false) := by
  rw [CompareLastPaidBlock_eq]
  unfold stdSort
  exact @List.sorted_insertionSort _ (fun a b => CompareScoreMN b a = false) _
    notAfter_CompareScoreMN_total notAfter_CompareScoreMN_trans v

theorem stdSort_perm {α : Type} (comp : α → α → Bool) (v : List α) :
    (stdSort comp v).Perm v := by
  unfold stdSort
  exact List.perm_insertionSort _ _

theorem GetCollateralAge_idem (e : Env) (mn : CXnode) :
    (mn.GetCollateralAge e).2.GetCollateralAge e = mn.GetCollateralAge e := by
  unfold CXnode.GetCollateralAge
  by_cases ht : (!e.hasChainTip) = true
  · simp only [ht, if_true]
  · simp only [ht, if_false, Bool.false_eq_true]
    by_cases hc : mn.nCacheCollateralBlock = 0
    · simp only [hc, if_true]
      by_cases ha : e.GetInputAge mn.vin > 0
      · simp only [ha, if_true]
        by_cases hz : e.chainHeight - e.GetInputAge mn.vin = 0
        · simp only [hz, if_true, ha]
        · simp only [hz, if_false]
      · simp only [ha, if_false, hc, if_true]
    · simp only [hc, if_false]

theorem GetCollateralAge_frame (e : Env) (mn : CXnode) :
    (mn.GetCollateralAge e).2 = mn
    ∨ ∃ c, (mn.GetCollateralAge e).2 = { mn with nCacheCollateralBlock := c } := by
  unfold CXnode.GetCollateralAge
  simp only []
  repeat' split
  all_goals first
    | exact Or.inl rfl
    | exact Or.inr ⟨_, rfl⟩

theorem GetCollateralAge_fields (e : Env) (mn : CXnode) :
    (mn.GetCollateralAge e).2.IsValidForPayment = mn.IsValidForPayment
    ∧ (mn.GetCollateralAge e).2.nProtocolVersion = mn.nProtocolVersion
    ∧ (mn.GetCollateralAge e).2.pubKeyCollateralAddress = mn.pubKeyCollateralAddress
    ∧ (mn.GetCollateralAge e).2.sigTime = mn.sigTime
    ∧ (mn.GetCollateralAge e).2.vin = mn.vin
    ∧ (mn.GetCollateralAge e).2.nBlockLastPaid = mn.nBlockLastPaid
    ∧ (mn.GetCollateralAge e).2.IsEnabled = mn.IsEnabled := by
  rcases GetCollateralAge_frame e mn with h | ⟨c, h⟩
  · rw [h]; simp
  · rw [h]; simp [CXnode.IsValidForPayment, CXnode.IsEnabled]

theorem IsScheduled_congr (e : Env) (p : CXnodePayments) (tip : Option Int) (mn1 mn2 : CXnode)
    (h : Int) (hk : mn1.pubKeyCollateralAddress = mn2.pubKeyCollateralAddress) :
    p.IsScheduled e tip mn1 h = p.IsScheduled e tip mn2 h := by
  unfold CXnodePayments.IsScheduled
  rw [hk]

theorem GetNotQualifyReason_frame (e : Env) (p : CXnodePayments) (tip : Option Int)
    (mn : CXnode) (h : Int) (f : Bool) (n : Int) :
    (CXnodeMan.GetNotQualifyReason e p tip mn h f n).2 = mn
    ∨ ((mn.IsValidForPayment = true ∧ ¬ mn.nProtocolVersion < GetMinXnodePaymentsProto e
          ∧ p.IsScheduled e tip mn h = false)
        ∧ (CXnodeMan.GetNotQualifyReason e p tip mn h f n).2 = (mn.GetCollateralAge e).2) := by
  unfold CXnodeMan.GetNotQualifyReason
  by_cases h1 : mn.IsValidForPayment = true
  · by_cases h2 : mn.nProtocolVersion < GetMinXnodePaymentsProto e
    · simp [h1, h2]
    · by_cases h3 : p.IsScheduled e tip mn h = true
      · simp [h1, h2, h3]
      · by_cases h4 : (f && sigTimeTooNew mn.sigTime n e.GetAdjustedTime) = true
        · simp only [h1, h2, h3, h4]; simp
        · right
          refine ⟨⟨h1, h2, by simpa using h3⟩, ?_⟩
          simp only [h1, h2, h3, h4, Bool.not_true, Bool.false_eq_true, if_false]
          split
          · rw [GetCollateralAge_idem]
          · rfl
  · simp [h1]

theorem GetNotQualifyReason_off (e : Env) (p : CXnodePayments) (tip : Option Int)
    (mn : CXnode) (h : Int) (n : Int)
    (h1 : mn.IsValidForPayment = true) (h2 : ¬ mn.nProtocolVersion < GetMinXnodePaymentsProto e)
    (h3 : p.IsScheduled e tip mn h = false) :
    CXnodeMan.GetNotQualifyReason e p tip mn h false n
      = if (mn.GetCollateralAge e).1 < n
        then (some NotQualifyReason.collateralAge, (mn.GetCollateralAge e).2)
        else (none, (mn.GetCollateralAge e).2) := by
  unfold CXnodeMan.GetNotQualifyReason
  simp only [h1, h2, h3, Bool.not_true, Bool.false_eq_true, if_false, Bool.false_and]
  split
  · rw [GetCollateralAge_idem]
  · rfl

theorem GetNotQualifyReason_again (e : Env) (p : CXnodePayments) (tip : Option Int)
    (mn : CXnode) (h : Int) (f : Bool) (n1 n : Int) :
    CXnodeMan.GetNotQualifyReason e p tip (CXnodeMan.GetNotQualifyReason e p tip mn h f n1).2 h
        false n
      = CXnodeMan.GetNotQualifyReason e p tip mn h false n := by
  rcases GetNotQualifyReason_frame e p tip mn h f n1 with hr | ⟨⟨h1, h2, h3⟩, hr⟩
  · rw [hr]
  · rw [hr]
    obtain ⟨f1, f2, f3, _, _, _, _⟩ := GetCollateralAge_fields e mn
    rw [GetNotQualifyReason_off e p tip mn h n h1 h2 h3,
      GetNotQualifyReason_off e p tip _ h n (by rw [f1]; exact h1) (by rw [f2]; exact h2)
        (by rw [IsScheduled_congr e p tip _ mn h f3]; exact h3),
      GetCollateralAge_idem]

theorem queueEntry_snd (e : Env) (p : CXnodePayments) (tip : Option Int) (h : Int) (f : Bool)
    (n : Int) (mn : CXnode) :
    (queueEntry e p tip h f n mn).2 = (CXnodeMan.GetNotQualifyReason e p tip mn h f n).2 := by
  unfold queueEntry
  simp only []
  split <;> rfl

theorem queueEntry_again (e : Env) (p : CXnodePayments) (tip : Option Int) (h : Int) (f : Bool)
    (n1 n : Int) (mn : CXnode) :
    queueEntry e p tip h false n (queueEntry e p tip h f n1 mn).2
      = queueEntry e p tip h false n mn := by
  rw [queueEntry_snd]
  unfold queueEntry
  rw [GetNotQualifyReason_again]

theorem queueEntry_enabled (e : Env) (p : CXnodePayments) (tip : Option Int) (h : Int) (f : Bool)
    (n : Int) (mn : CXnode) :
    (queueEntry e p tip h f n mn).2.IsEnabled = mn.IsEnabled
    ∧ (queueEntry e p tip h f n mn).2.nProtocolVersion = mn.nProtocolVersion
    ∧ (queueEntry e p tip h f n mn).2.vin = mn.vin := by
  rw [queueEntry_snd]
  rcases GetNotQualifyReason_frame e p tip mn h f n with hr | ⟨_, hr⟩
  · rw [hr]; exact ⟨rfl, rfl, rfl⟩
  · rw [hr]
    obtain ⟨_, f2, _, _, f5, _, f7⟩ := GetCollateralAge_fields e mn
    exact ⟨f7, f2, f5⟩

theorem queueScan_CountEnabled (e : Env) (p : CXnodePayments) (tip : Option Int) (m : CXnodeMan)
    (h : Int) (f : Bool) (n : Int) (v : Int) :
    (m.queueScan e p tip h f n).2.CountEnabled e v = m.CountEnabled e v := by
  unfold CXnodeMan.queueScan CXnodeMan.CountEnabled
  simp only [List.map_map]
  congr 1
  rw [List.filter_map, List.length_map]
  congr 1
  apply List.filter_congr
  intro mn _
  simp only [Function.comp]
  obtain ⟨f1, f2, _⟩ := queueEntry_enabled e p tip h f n mn
  simp only [f1, f2]

theorem queueScan_again (e : Env) (p : CXnodePayments) (tip : Option Int) (m : CXnodeMan)
    (h : Int) (f : Bool) (n1 n : Int) :
    (m.queueScan e p tip h f n1).2.queueScan e p tip h false n
      = ((m.queueScan e p tip h false n).1, (m.queueScan e p tip h false n).2) := by
  unfold CXnodeMan.queueScan
  simp only [List.map_map]
  have hpt : (queueEntry e p tip h false n ∘ (fun r => r.2) ∘ queueEntry e p tip h f n1)
      = queueEntry e p tip h false n := by
    funext mn
    simp only [Function.comp]
    exact queueEntry_again e p tip h f n1 n mn
  rw [hpt]
theorem GetNextXnodeInQueueForPayment_off (e : Env) (p : CXnodePayments) (tip : Option Int)
    (m : CXnodeMan) (h : Int) :
    m.GetNextXnodeInQueueForPayment e p tip h false
      = ((CXnodeMan.queueSelect e (m.CountEnabled e (-1)) h
            (m.queueScan e p tip h false (m.CountEnabled e (-1))).1,
          ((m.queueScan e p tip h false (m.CountEnabled e (-1))).1.length : Int)),
         (m.queueScan e p tip h false (m.CountEnabled e (-1))).2) := by
  unfold CXnodeMan.GetNextXnodeInQueueForPayment
  simp

theorem GetNextXnodeInQueueForPayment_retry (e : Env) (p : CXnodePayments) (tip : Option Int)
    (m : CXnodeMan) (h : Int)
    (hc : ((m.queueScan e p tip h true (m.CountEnabled e (-1))).1.length : Int)
      < m.CountEnabled e (-1) / 3) :
    m.GetNextXnodeInQueueForPayment e p tip h true
      = m.GetNextXnodeInQueueForPayment e p tip h false := by
  rw [GetNextXnodeInQueueForPayment_off]
  unfold CXnodeMan.GetNextXnodeInQueueForPayment
  simp only [Bool.true_and, decide_eq_true_eq, hc, if_true]
  rw [queueScan_CountEnabled, queueScan_again]

theorem queueRecursion_off (e : Env) (p : CXnodePayments) (tip : Option Int)
    (m : CXnodeMan) (h : Int) (fuel : Nat) :
    CXnodeMan.queueRecursion e p tip (fuel + 1) m h false
      = some (m.GetNextXnodeInQueueForPayment e p tip h false) := by
  rw [GetNextXnodeInQueueForPayment_off]
  unfold CXnodeMan.queueRecursion
  simp

theorem queueRecursion_two (e : Env) (p : CXnodePayments) (tip : Option Int)
    (m : CXnodeMan) (h : Int) (f : Bool) (fuel : Nat) :
    CXnodeMan.queueRecursion e p tip (fuel + 2) m h f
      = some (m.GetNextXnodeInQueueForPayment e p tip h f) := by
  cases f with
  | false => exact queueRecursion_off e p tip m h (fuel + 1)
  | true =>
    unfold CXnodeMan.queueRecursion
    simp only [Bool.true_and, decide_eq_true_eq]
    by_cases hc : ((m.queueScan e p tip h true (m.CountEnabled e (-1))).1.length : Int)
        < m.CountEnabled e (-1) / 3
    · rw [if_pos hc, queueRecursion_off, GetNextXnodeInQueueForPayment_retry e p tip m h hc]
      unfold CXnodeMan.GetNextXnodeInQueueForPayment
      simp only [Bool.false_and, Bool.false_eq_true, if_false]
      rw [queueScan_CountEnabled, queueScan_again]
    · rw [if_neg hc]
      unfold CXnodeMan.GetNextXnodeInQueueForPayment
      simp only [Bool.true_and, decide_eq_true_eq, hc, if_false]

/-- C24 fails as stated: the registry has one enabled record and it is too
new, so no record qualifies under the filter, which is fewer than one third of
one; the test `nCount < nMnCount / 3` is `0 < 0` and there is no retry: the
call with the filter returns `NULL` with `nCount = 0`, the call without the
filter returns the record with `nCount = 1`. -/
theorem C24_counterexample :
    sampleNewRegistry.CountEnabled sampleEnv (-1) = 1
    ∧ (sampleNewRegistry.queueScan sampleEnv CXnodePayments.init none 300 true 1).1.length = 0
    ∧ ((sampleNewRegistry.GetNextXnodeInQueueForPayment sampleEnv CXnodePayments.init none 300
          true).1.1.isSome,
       (sampleNewRegistry.GetNextXnodeInQueueForPayment sampleEnv CXnodePayments.init none 300
          true).1.2) = (false, 0)
    ∧ ((sampleNewRegistry.GetNextXnodeInQueueForPayment sampleEnv CXnodePayments.init none 300
          false).1.1.map (fun mn => mn.vin.prevout),
       (sampleNewRegistry.GetNextXnodeInQueueForPayment sampleEnv CXnodePayments.init none 300
          false).1.2) = (some { hash := 1, n := 0 }, 1) := by
  decide

/-- C24 (amended): with `nMnCount` the number of enabled records and `nCount`
the number of records that qualify under the filter, the call
`GetNextXnodeInQueueForPayment(height, true, nCount)` gives the record, the
count and the registry of the call with the filter off when `nCount` is below
the integer quotient `nMnCount / 3`, and otherwise chooses among the records
that qualify under the filter; the retry happens at most once: with its
recursive call kept the method returns within two calls, and within one when
the filter is off. -/
theorem C24_retry_without_filter (e : Env) (p : CXnodePayments) (tip : Option Int)
    (m : CXnodeMan) (h : Int) :
    (((m.queueScan e p tip h true (m.CountEnabled e (-1))).1.length : Int)
        < m.CountEnabled e (-1) / 3 →
      m.GetNextXnodeInQueueForPayment e p tip h true
        = m.GetNextXnodeInQueueForPayment e p tip h false)
    ∧ (¬ ((m.queueScan e p tip h true (m.CountEnabled e (-1))).1.length : Int)
        < m.CountEnabled e (-1) / 3 →
      m.GetNextXnodeInQueueForPayment e p tip h true
        = ((CXnodeMan.queueSelect e (m.CountEnabled e (-1)) h
              (m.queueScan e p tip h true (m.CountEnabled e (-1))).1,
            ((m.queueScan e p tip h true (m.CountEnabled e (-1))).1.length : Int)),
           (m.queueScan e p tip h true (m.CountEnabled e (-1))).2))
    ∧ (∀ (fuel : Nat) (f : Bool), CXnodeMan.queueRecursion e p tip (fuel + 2) m h f
        = some (m.GetNextXnodeInQueueForPayment e p tip h f))
    ∧ (∀ fuel : Nat, CXnodeMan.queueRecursion e p tip (fuel + 1) m h false
        = some (m.GetNextXnodeInQueueForPayment e p tip h false)) := by
  refine ⟨GetNextXnodeInQueueForPayment_retry e p tip m h, ?_,
    fun fuel f => queueRecursion_two e p tip m h f fuel,
    fun fuel => queueRecursion_off e p tip m h fuel⟩
  intro hc
  unfold CXnodeMan.GetNextXnodeInQueueForPayment
  simp only [Bool.true_and, decide_eq_true_eq, hc, if_false]

theorem C24_retry_without_filter_witness :
    (sampleThreeNewRegistry.GetNextXnodeInQueueForPayment sampleEnv CXnodePayments.init none 300
        true
      = sampleThreeNewRegistry.GetNextXnodeInQueueForPayment sampleEnv CXnodePayments.init none
          300 false)
    ∧ ((sampleThreeNewRegistry.GetNextXnodeInQueueForPayment sampleEnv CXnodePayments.init none
          300 true).1.1.map (fun mn => mn.vin.prevout),
       (sampleThreeNewRegistry.GetNextXnodeInQueueForPayment sampleEnv CXnodePayments.init none
          300 true).1.2) = (some { hash := 1, n := 0 }, 3)
    ∧ (sampleNewRegistry.GetNextXnodeInQueueForPayment sampleEnv CXnodePayments.init none 300 true
      = ((CXnodeMan.queueSelect sampleEnv (sampleNewRegistry.CountEnabled sampleEnv (-1)) 300
            (sampleNewRegistry.queueScan sampleEnv CXnodePayments.init none 300 true
              (sampleNewRegistry.CountEnabled sampleEnv (-1))).1,
          ((sampleNewRegistry.queueScan sampleEnv CXnodePayments.init none 300 true
              (sampleNewRegistry.CountEnabled sampleEnv (-1))).1.length : Int)),
         (sampleNewRegistry.queueScan sampleEnv CXnodePayments.init none 300 true
              (sampleNewRegistry.CountEnabled sampleEnv (-1))).2)) :=
  ⟨(C24_retry_without_filter sampleEnv CXnodePayments.init none sampleThreeNewRegistry 300).1
      (by decide),
   by decide,
   (C24_retry_without_filter sampleEnv CXnodePayments.init none sampleNewRegistry 300).2.1
      (by decide)⟩
theorem queueBest_spec (e : Env) (blockHash : Nat) (T : Int) (l : List (Int × CXnode))
    (c : Int) (H : Nat) (b : Option CXnode) :
    (queueBest e blockHash T l c H b = b
        ∧ ∀ x ∈ l.take (max 1 (T - c)).toNat, x.2.CalculateScore e blockHash ≤ H)
    ∨ (∃ x ∈ l.take (max 1 (T - c)).toNat, queueBest e blockHash T l c H b = some x.2
        ∧ H < x.2.CalculateScore e blockHash
        ∧ ∀ y ∈ l.take (max 1 (T - c)).toNat,
            y.2.CalculateScore e blockHash ≤ x.2.CalculateScore e blockHash) := by
  induction l generalizing c H b with
  | nil => left; exact ⟨rfl, by simp⟩
  | cons s rest ih =>
    unfold queueBest
    simp only []
    by_cases hc : c + 1 ≥ T
    · rw [if_pos hc]
      have hk : (max 1 (T - c)).toNat = 1 := by
        have : max 1 (T - c) = 1 := max_eq_left (by omega)
        rw [this]; rfl
      rw [hk]
      simp only [List.take_succ_cons, List.take_zero, List.mem_singleton, forall_eq,
        exists_eq_left]
      by_cases hs : s.2.CalculateScore e blockHash > H
      · right
        rw [if_pos hs]
        exact ⟨rfl, hs, le_refl _⟩
      · left
        rw [if_neg hs]
        exact ⟨rfl, by omega⟩
    · rw [if_neg hc]
      have hk : (max 1 (T - c)).toNat = (max 1 (T - (c + 1))).toNat + 1 := by
        have h1 : max 1 (T - c) = T - c := max_eq_right (by omega)
        have h2 : max 1 (T - (c + 1)) = T - (c + 1) := max_eq_right (by omega)
        rw [h1, h2]
        omega
      rw [hk]
      simp only [List.take_succ_cons, List.mem_cons, forall_eq_or_imp, exists_eq_or_imp]
      by_cases hs : s.2.CalculateScore e blockHash > H
      · simp only [if_pos hs]
        rcases ih (c + 1) (s.2.CalculateScore e blockHash) (some s.2) with ⟨h1, h2⟩ | ⟨x, hx, h1, h2, h3⟩
        · right; left
          exact ⟨h1, hs, le_refl _, h2⟩
        · right; right
          exact ⟨x, hx, h1, by omega, by omega, h3⟩
      · simp only [if_neg hs]
        rcases ih (c + 1) H b with ⟨h1, h2⟩ | ⟨x, hx, h1, h2, h3⟩
        · left
          exact ⟨h1, by omega, h2⟩
        · right; right
          exact ⟨x, hx, h1, h2, by omega, h3⟩

theorem queueScan_vec (e : Env) (p : CXnodePayments) (tip : Option Int) (m : CXnodeMan)
    (h : Int) (f : Bool) (n : Int) :
    (m.queueScan e p tip h f n).1
      = ((m.vXnodes.map (fun mn => CXnodeMan.GetNotQualifyReason e p tip mn h f n)).filter
          (fun r => r.1.isNone)).map (fun r => (r.2.GetLastPaidBlock, r.2)) := by
  unfold CXnodeMan.queueScan
  simp only []
  induction m.vXnodes with
  | nil => rfl
  | cons mn rest ih =>
    simp only [List.map_cons, List.filterMap_cons]
    rw [ih]
    unfold queueEntry
    simp only []
    cases hr : (CXnodeMan.GetNotQualifyReason e p tip mn h f n).1 with
    | none => simp [List.filter_cons, hr]
    | some reason => simp [List.filter_cons, hr]

theorem GetNotQualifyReason_none (e : Env) (p : CXnodePayments) (tip : Option Int)
    (mn : CXnode) (h : Int) (f : Bool) (n : Int)
    (hr : (CXnodeMan.GetNotQualifyReason e p tip mn h f n).1 = none) :
    mn.IsValidForPayment = true
    ∧ ¬ mn.nProtocolVersion < GetMinXnodePaymentsProto e
    ∧ p.IsScheduled e tip mn h = false
    ∧ (f = true → sigTimeTooNew mn.sigTime n e.GetAdjustedTime = false)
    ∧ n ≤ (mn.GetCollateralAge e).1
    ∧ (CXnodeMan.GetNotQualifyReason e p tip mn h f n).2 = (mn.GetCollateralAge e).2 := by
  have hr1 := hr
  unfold CXnodeMan.GetNotQualifyReason at hr1
  by_cases h1 : mn.IsValidForPayment = true
  · by_cases h2 : mn.nProtocolVersion < GetMinXnodePaymentsProto e
    · simp [h1, h2] at hr1
    · by_cases h3 : p.IsScheduled e tip mn h = true
      · simp [h1, h2, h3] at hr1
      · by_cases h4 : (f && sigTimeTooNew mn.sigTime n e.GetAdjustedTime) = true
        · simp only [h1, h2, h3, h4] at hr1; simp at hr1
        · simp only [h1, h2, h3, h4, Bool.not_true, Bool.false_eq_true, if_false] at hr1
          by_cases h5 : (mn.GetCollateralAge e).1 < n
          · simp [h5] at hr1
          · refine ⟨h1, h2, by simpa using h3, ?_, by omega, ?_⟩
            · intro hf
              subst hf
              simpa using h4
            · unfold CXnodeMan.GetNotQualifyReason
              simp only [h1, h2, h3, h4, h5, Bool.not_true, Bool.false_eq_true, if_false]
  · simp [h1] at hr1
/-- C25 fails as stated: of twenty enabled records two qualify (the collateral
age of the others is below the enabled count); the code considers the first
`20 / 10 = 2` entries of the sorted vector, that is both, and returns the
second in (last paid block, outpoint) order, the one with the higher score;
the oldest tenth of the two qualifying records is the first record alone. -/
theorem C25_counterexample :
    sampleTwentyRegistry.CountEnabled sampleEnvAges (-1) = 20
    ∧ (stdSort CompareLastPaidBlock
        (sampleTwentyRegistry.queueScan sampleEnvAges CXnodePayments.init none 300 false 20).1).map
          (fun s => (s.1, s.2.vin.prevout.hash)) = [(0, 1), (0, 2)]
    ∧ ((sampleTwentyRegistry.GetNextXnodeInQueueForPayment sampleEnvAges CXnodePayments.init none
          300 false).1.1.map (fun mn => mn.vin.prevout.hash),
       (sampleTwentyRegistry.GetNextXnodeInQueueForPayment sampleEnvAges CXnodePayments.init none
          300 false).1.2) = (some 2, 2) := by
  decide

/-- C25 (amended): for `GetNextXnodeInQueueForPayment(height, false, nCount)`,
with `nMnCount` the number of enabled records of acceptable protocol and
`vecXnodeLastPaid` the vector of the records for which `GetNotQualifyReason`
returns `NULL`: `nCount` is the number of these records; the sorted vector is
a rearrangement of it in ascending (last paid block, outpoint) order; the
result is `NULL` when the block hash at `height - 101` is unknown; and a
returned record is one of the first `max(1, nMnCount / 10)` entries of the
sorted vector (at least one entry is considered when a record qualifies), its
score against the block hash at `height - 101` is positive and the highest
among these entries, and it is the record left by `GetNotQualifyReason` from a
record of the registry that is `ENABLED`, of acceptable protocol, not
scheduled and of collateral age at least `nMnCount`. -/
theorem C25_queue_choice (e : Env) (p : CXnodePayments) (tip : Option Int) (m : CXnodeMan)
    (h : Int) :
    ((m.GetNextXnodeInQueueForPayment e p tip h false).1.2
        = ((m.queueScan e p tip h false (m.CountEnabled e (-1))).1.length : Int)
      ∧ (m.queueScan e p tip h false (m.CountEnabled e (-1))).1.length
          = (m.vXnodes.filter (fun mn => (CXnodeMan.GetNotQualifyReason e p tip mn h false
              (m.CountEnabled e (-1))).1.isNone)).length)
    ∧ ((stdSort CompareLastPaidBlock (m.queueScan e p tip h false (m.CountEnabled e (-1))).1).Perm
          (m.queueScan e p tip h false (m.CountEnabled e (-1))).1
      ∧ (stdSort CompareLastPaidBlock
          (m.queueScan e p tip h false (m.CountEnabled e (-1))).1).Pairwise
            (fun x y => x.1 < y.1 ∨ (x.1 = y.1 ∧ y.2.vin.prevout.lt x.2.vin.prevout = false)))
    ∧ (e.GetBlockHash (h - 101) = none →
        (m.GetNextXnodeInQueueForPayment e p tip h false).1.1 = none)
    ∧ ((m.queueScan e p tip h false (m.CountEnabled e (-1))).1 ≠ [] →
        (stdSort CompareLastPaidBlock (m.queueScan e p tip h false (m.CountEnabled e (-1))).1).take
          (max 1 (m.CountEnabled e (-1) / 10)).toNat ≠ [])
    ∧ (∀ best : CXnode, (m.GetNextXnodeInQueueForPayment e p tip h false).1.1 = some best →
        ∃ blockHash, e.GetBlockHash (h - 101) = some blockHash
          ∧ (∃ x ∈ (stdSort CompareLastPaidBlock
                (m.queueScan e p tip h false (m.CountEnabled e (-1))).1).take
                  (max 1 (m.CountEnabled e (-1) / 10)).toNat, x.2 = best)
          ∧ 0 < best.CalculateScore e blockHash
          ∧ (∀ y ∈ (stdSort CompareLastPaidBlock
                (m.queueScan e p tip h false (m.CountEnabled e (-1))).1).take
                  (max 1 (m.CountEnabled e (-1) / 10)).toNat,
              y.2.CalculateScore e blockHash ≤ best.CalculateScore e blockHash)
          ∧ ∃ mn0 ∈ m.vXnodes,
              CXnodeMan.GetNotQualifyReason e p tip mn0 h false (m.CountEnabled e (-1))
                = (none, best)
              ∧ mn0.nActiveState = XNODE_ENABLED
              ∧ GetMinXnodePaymentsProto e ≤ mn0.nProtocolVersion
              ∧ p.IsScheduled e tip mn0 h = false
              ∧ m.CountEnabled e (-1) ≤ (mn0.GetCollateralAge e).1) := by
  refine ⟨⟨?_, ?_⟩, ⟨stdSort_perm _ _, ?_⟩, ?_, ?_, ?_⟩
  · rw [GetNextXnodeInQueueForPayment_off]
  · rw [queueScan_vec, List.length_map, List.filter_map, List.length_map]
    rfl
  · refine (stdSort_CompareLastPaidBlock_pairwise _).imp ?_
    intro x y hxy
    unfold CompareLastPaidBlock at hxy
    by_cases h1 : y.1 ≠ x.1
    · rw [if_pos h1] at hxy
      left
      have : ¬ y.1 < x.1 := by simpa using hxy
      omega
    · rw [if_neg h1] at hxy
      right
      exact ⟨(not_not.1 h1).symm, hxy⟩
  · intro hbh
    rw [GetNextXnodeInQueueForPayment_off]
    unfold CXnodeMan.queueSelect
    simp only [hbh]
  · intro hne htake
    have hlen : (stdSort CompareLastPaidBlock
        (m.queueScan e p tip h false (m.CountEnabled e (-1))).1).length ≠ 0 := by
      rw [(stdSort_perm _ _).length_eq]
      exact fun hh => hne (List.length_eq_zero.1 hh)
    have hk : 1 ≤ (max 1 (m.CountEnabled e (-1) / 10)).toNat := by
      have : (1 : Int) ≤ max 1 (m.CountEnabled e (-1) / 10) := le_max_left _ _
      omega
    have := congrArg List.length htake
    rw [List.length_take, List.length_nil] at this
    omega
  · intro best hbest
    rw [GetNextXnodeInQueueForPayment_off] at hbest
    unfold CXnodeMan.queueSelect at hbest
    simp only [] at hbest
    cases hbh : e.GetBlockHash (h - 101) with
    | none => rw [hbh] at hbest; exact absurd hbest (by simp)
    | some blockHash =>
      rw [hbh] at hbest
      simp only [] at hbest
      refine ⟨blockHash, rfl, ?_⟩
      have hspec := queueBest_spec e blockHash (m.CountEnabled e (-1) / 10)
        (stdSort CompareLastPaidBlock (m.queueScan e p tip h false (m.CountEnabled e (-1))).1)
        0 0 none
      rw [sub_zero] at hspec
      rcases hspec with ⟨h1, _⟩ | ⟨x, hx, h1, h2, h3⟩
      · rw [h1] at hbest; exact absurd hbest (by simp)
      · rw [h1] at hbest
        simp only [Option.some.injEq] at hbest
        subst hbest
        refine ⟨⟨x, hx, rfl⟩, h2, h3, ?_⟩
        have hxv : x ∈ (m.queueScan e p tip h false (m.CountEnabled e (-1))).1 :=
          (stdSort_perm _ _).mem_iff.1 (List.mem_of_mem_take hx)
        rw [queueScan_vec] at hxv
        simp only [List.mem_map, List.mem_filter] at hxv
        obtain ⟨r, ⟨⟨mn0, hmn0, hr⟩, hnone⟩, hrx⟩ := hxv
        subst hr
        have hnone2 : (CXnodeMan.GetNotQualifyReason e p tip mn0 h false
            (m.CountEnabled e (-1))).1 = none := by
          simpa using hnone
        obtain ⟨g1, g2, g3, _, g5, _⟩ := GetNotQualifyReason_none e p tip mn0 h false _ hnone2
        refine ⟨mn0, hmn0, ?_, ?_, by omega, g3, g5⟩
        · rw [← hrx]
          exact Prod.ext hnone2 rfl
        · simpa [CXnode.IsValidForPayment] using g1

theorem C25_queue_choice_witness :
    (stdSort CompareLastPaidBlock (sampleTwentyRegistry.queueScan sampleEnvAges
          CXnodePayments.init none 300 false
          (sampleTwentyRegistry.CountEnabled sampleEnvAges (-1))).1).take
        (max 1 (sampleTwentyRegistry.CountEnabled sampleEnvAges (-1) / 10)).toNat ≠ []
    ∧ (sampleTwentyRegistry.GetNextXnodeInQueueForPayment sampleEnvAges CXnodePayments.init none
          300 false).1.1 = some { sampleXnode 2 0 with nCacheCollateralBlock := 100 }
    ∧ (∃ blockHash, sampleEnvAges.GetBlockHash (300 - 101) = some blockHash
        ∧ 0 < CXnode.CalculateScore sampleEnvAges
            { sampleXnode 2 0 with nCacheCollateralBlock := 100 } blockHash) :=
  ⟨(C25_queue_choice sampleEnvAges CXnodePayments.init none sampleTwentyRegistry 300).2.2.2.1
      (by decide),
   by decide,
   ((C25_queue_choice sampleEnvAges CXnodePayments.init none sampleTwentyRegistry 300).2.2.2.2
      { sampleXnode 2 0 with nCacheCollateralBlock := 100 } (by decide)).imp
      (fun _ hb => ⟨hb.1, hb.2.2.1⟩)⟩

theorem bestPayeeScan_max (l : List CXnodePayee) (init : CScript × Int) :
    init.2 ≤ (bestPayeeScan l init).2
    ∧ ∀ q ∈ l, q.GetVoteCount ≤ (bestPayeeScan l init).2 := by
  induction l generalizing init with
  | nil => exact ⟨le_refl _, by simp⟩
  | cons a rest ih =>
    unfold bestPayeeScan
    simp only [List.foldl_cons]
    by_cases h : a.GetVoteCount > init.2
    · simp only [h, if_true]
      obtain ⟨h1, h2⟩ := ih (a.GetPayee, a.GetVoteCount)
      unfold bestPayeeScan at h1 h2
      refine ⟨by simp only [] at h1; omega, ?_⟩
      intro q hq
      rcases List.mem_cons.1 hq with hq | hq
      · subst hq; exact h1
      · exact h2 q hq
    · simp only [h, if_false]
      obtain ⟨h1, h2⟩ := ih init
      unfold bestPayeeScan at h1 h2
      refine ⟨h1, ?_⟩
      intro q hq
      rcases List.mem_cons.1 hq with hq | hq
      · subst hq; omega
      · exact h2 q hq

theorem GetBestPayee_some (B : CXnodeBlockPayees) (payee : CScript)
    (h : B.GetBestPayee = some payee) :
    ∃ P ∈ B.vecPayees, P.GetPayee = payee ∧ ∀ Q ∈ B.vecPayees, Q.GetVoteCount ≤ P.GetVoteCount := by
  unfold CXnodeBlockPayees.GetBestPayee at h
  split at h
  · exact absurd h (by simp)
  · simp only [] at h
    split at h
    · rename_i hgt
      simp only [Option.some.injEq] at h
      rcases bestPayeeScan_spec B.vecPayees ([], -1) with h1 | ⟨P, hP, h1, h2⟩
      · rw [h1] at hgt; exact absurd hgt (by simp)
      · refine ⟨P, hP, h1.trans h, ?_⟩
        intro Q hQ
        rw [h2]
        exact (bestPayeeScan_max B.vecPayees ([], -1)).2 Q hQ
    · exact absurd h (by simp)

theorem GetBestPayee_none (B : CXnodeBlockPayees) (h : B.GetBestPayee = none) :
    B.vecPayees = [] := by
  unfold CXnodeBlockPayees.GetBestPayee at h
  split at h
  · rename_i h0
    exact List.length_eq_zero.1 h0
  · simp only [] at h
    split at h
    · exact absurd h (by simp)
    · rename_i hne hgt
      cases hl : B.vecPayees with
      | nil => rfl
      | cons a rest =>
        have := (bestPayeeScan_max B.vecPayees ([], -1)).2 a (by rw [hl]; exact List.mem_cons_self _ _)
        have hnn : (0 : Int) ≤ a.GetVoteCount := by
          unfold CXnodePayee.GetVoteCount
          exact Int.natCast_nonneg _
        omega

theorem IsTransactionValid_best_paid (pay : Int → Int) (B : CXnodeBlockPayees)
    (tx : CTransaction) (payee : CScript) (h : B.GetBestPayee = some payee)
    (hpaid : ({ nValue := pay B.nBlockHeight, scriptPubKey := payee } : CTxOut) ∈ tx.vout) :
    B.IsTransactionValid pay tx = true := by
  rw [IsTransactionValid_iff]
  obtain ⟨P, hP, hPp, hmax⟩ := GetBestPayee_some B payee h
  by_cases hall : ∀ p ∈ B.vecPayees, p.GetVoteCount < MNPAYMENTS_SIGNATURES_REQUIRED
  · exact Or.inl hall
  · right
    push_neg at hall
    obtain ⟨Q, hQ, hQv⟩ := hall
    exact ⟨P, hP, le_trans hQv (hmax Q hQ), _, hpaid, hPp.symm, rfl⟩

theorem AddPaymentVote_keeps_heights (e : Env) (p : CXnodePayments) (vote : CXnodePaymentVote)
    (hinv : ∀ (h : Int) (B : CXnodeBlockPayees), p.mapXnodeBlocks h = some B →
      B.nBlockHeight = h) :
    ∀ (h : Int) (B : CXnodeBlockPayees), (p.AddPaymentVote e vote).2.mapXnodeBlocks h = some B →
      B.nBlockHeight = h := by
  intro h B hB
  rcases AddPaymentVote_cases e p vote with hc | ⟨_, hc⟩
  · rw [hc] at hB; exact hinv h B hB
  · rw [hc] at hB
    simp only [FMap.set] at hB
    by_cases hh : h = vote.nBlockHeight
    · rw [if_pos hh] at hB
      simp only [Option.some.injEq] at hB
      subst hB
      cases hm : p.mapXnodeBlocks vote.nBlockHeight with
      | none => simp [CXnodeBlockPayees.AddPayee, hh]
      | some B0 =>
        simp only [CXnodeBlockPayees.AddPayee]
        rw [hh]
        exact hinv _ B0 hm
    · rw [if_neg hh] at hB
      exact hinv h B hB

/-- C27: in a state whose tally of height `h` is stored with that height (as
`AddPaymentVote` stores it), for a transaction with at least one output (or
off REGTEST), `FillBlockPayee(tx, h, GetXnodePayment(h), out)` returns, leaves
the payment votes as they are, and the resulting transaction satisfies
`CXnodePayments::IsTransactionValid(tx, h)`; when a best payee exists at `h`
the resulting outputs are those of `tx` followed by the one output
`(GetXnodePayment(h), best payee)`, which is also the value of `out`, and the
state is unchanged. -/
theorem C27_FillBlockPayee_valid (e : Env) (tip : Option Int) (s : State) (txNew : CTransaction)
    (h : Int)
    (hkey : ∀ B : CXnodeBlockPayees, s.mnpayments.mapXnodeBlocks h = some B → B.nBlockHeight = h)
    (hout : txNew.vout ≠ [] ∨ e.network ≠ Network.REGTEST) :
    ∃ r, CXnodePayments.FillBlockPayee e tip s txNew h (e.GetXnodePayment h) = some r
      ∧ r.2.2.mnpayments.mapXnodeBlocks = s.mnpayments.mapXnodeBlocks
      ∧ r.2.2.mnpayments.IsTransactionValid e.GetXnodePayment r.1 h = true
      ∧ (∀ payee : CScript, s.mnpayments.GetBlockPayee h = some payee →
          r.1.vout = txNew.vout ++ [{ nValue := e.GetXnodePayment h, scriptPubKey := payee }]
          ∧ r.2.1 = { nValue := e.GetXnodePayment h, scriptPubKey := payee }
          ∧ r.2.2.mnodeman.vXnodes = s.mnodeman.vXnodes
          ∧ r.2.2.vRelayed = s.vRelayed) := by
  have hnone : s.mnpayments.GetBlockPayee h = none → ∀ tx : CTransaction,
      s.mnpayments.IsTransactionValid e.GetXnodePayment tx h = true := by
    intro hn tx
    unfold CXnodePayments.GetBlockPayee at hn
    unfold CXnodePayments.IsTransactionValid
    cases hm : s.mnpayments.mapXnodeBlocks h with
    | none => rfl
    | some B =>
      rw [hm] at hn
      simp only [] at hn ⊢
      rw [IsTransactionValid_iff]
      left
      rw [GetBestPayee_none B hn]
      simp
  unfold CXnodePayments.FillBlockPayee
  cases hbp : s.mnpayments.GetBlockPayee h with
  | some payee =>
    simp only []
    refine ⟨_, rfl, rfl, ?_, ?_⟩
    · unfold CXnodePayments.GetBlockPayee at hbp
      unfold CXnodePayments.IsTransactionValid
      cases hm : s.mnpayments.mapXnodeBlocks h with
      | none => rfl
      | some B =>
        rw [hm] at hbp
        simp only [] at hbp ⊢
        apply IsTransactionValid_best_paid _ B _ payee hbp
        rw [hkey B hm]
        simp
    · intro payee2 hp2
      simp only [Option.some.injEq] at hp2
      subst hp2
      exact ⟨rfl, rfl, rfl, rfl⟩
  | none =>
    simp only []
    cases hw : (s.mnodeman.GetNextXnodeInQueueForPayment e s.mnpayments tip h true).1.1 with
    | some winningNode =>
      simp only []
      exact ⟨_, rfl, rfl, hnone hbp _, fun payee hp => absurd hp (by simp)⟩
    | none =>
      simp only []
      by_cases hnet : e.network ≠ Network.REGTEST
      · rw [if_pos hnet]
        exact ⟨_, rfl, rfl, hnone hbp _, fun payee hp => absurd hp (by simp)⟩
      · rw [if_neg hnet]
        cases hv : txNew.vout with
        | nil =>
          rcases hout with ho | ho
          · exact absurd hv ho
          · exact absurd ho hnet
        | cons out0 rest =>
          simp only []
          exact ⟨_, rfl, rfl, hnone hbp _, fun payee hp => absurd hp (by simp)⟩

theorem C27_FillBlockPayee_valid_witness :
    (∃ r, CXnodePayments.FillBlockPayee sampleEnv none sampleTallyState { vout := [] }
          sampleSixVotes.nBlockHeight (sampleEnv.GetXnodePayment sampleSixVotes.nBlockHeight)
          = some r
        ∧ r.2.2.mnpayments.IsTransactionValid sampleEnv.GetXnodePayment r.1
            sampleSixVotes.nBlockHeight = true
        ∧ r.1.vout = [{ nValue := 50, scriptPubKey := [1] }])
    ∧ sampleTallyState.mnpayments.GetBlockPayee sampleSixVotes.nBlockHeight = some [1] :=
  ⟨(C27_FillBlockPayee_valid sampleEnv none sampleTallyState { vout := [] }
      sampleSixVotes.nBlockHeight
      (fun B hB => by
        simp only [sampleTallyState, FMap.set, if_true, Option.some.injEq] at hB
        rw [← hB])
      (Or.inr (by decide))).imp
      (fun _ hr => ⟨hr.1, hr.2.2.1, (hr.2.2.2 [1] (by decide)).1⟩),
   by decide⟩

theorem setActiveState_nState (s : State) (n : Int) :
    (s.setActiveState n).activeXnode.nState = n := rfl

theorem ManageStateRemote_eType (e : Env) (a : ActiveEnv) (s : State) :
    (CActiveXnode.ManageStateRemote e a s).activeXnode.eType = s.activeXnode.eType := by
  unfold CActiveXnode.ManageStateRemote State.CheckXnodeByKey
  simp only []
  repeat' split
  all_goals rfl

theorem syncedGuard_frame (e : Env) (s : State) :
    (CActiveXnode.syncedGuard e s).2.mnodeman = s.mnodeman
    ∧ (CActiveXnode.syncedGuard e s).2.mnpayments = s.mnpayments
    ∧ (CActiveXnode.syncedGuard e s).2.activeXnode = s.activeXnode
    ∧ (CActiveXnode.syncedGuard e s).2.vRelayed = s.vRelayed := by
  unfold CActiveXnode.syncedGuard
  split
  · exact IsBlockchainSynced_frame e false s
  · exact ⟨rfl, rfl, rfl, rfl⟩

theorem SetXnodeLastPing_vXnodes (e : Env) (m : CXnodeMan) (vin : CTxIn) (mnp : CXnodePing)
    (i : Nat) (hf : m.Find vin = some i) :
    (m.SetXnodeLastPing e vin mnp).vXnodes
      = updateAt m.vXnodes i (fun mn => { mn with lastPing := mnp }) := by
  obtain ⟨mn, hmn, _⟩ := findXnode_some _ _ _ hf
  unfold CXnodeMan.SetXnodeLastPing
  rw [hf]
  simp only [hmn]
  split
  · unfold CXnodeMan.setSeenLastPing
    split <;> rfl
  · rfl
theorem setManageState_ManageState (e : Env) (F : State → State) :
    (e.setManageState F).ManageState = F := rfl

theorem setManageState_self (e : Env) : e.setManageState e.ManageState = e := rfl

theorem setManageState_fXNode (e : Env) (F : State → State) :
    (e.setManageState F).fXNode = e.fXNode := rfl

theorem setManageState_PROTOCOL_VERSION (e : Env) (F : State → State) :
    (e.setManageState F).PROTOCOL_VERSION = e.PROTOCOL_VERSION := rfl

theorem findLocalFromPeers_set (e : Env) (F : State → State) (l : List (Bool × Option CService))
    (service : CService) :
    findLocalFromPeers (e.setManageState F) l service = findLocalFromPeers e l service := by
  induction l generalizing service with
  | nil => rfl
  | cons p rest ih =>
    unfold findLocalFromPeers
    simp only [ih]
    rfl

theorem detectLocal_set (e : Env) (F : State → State) (a : ActiveEnv) (service : CService) :
    detectLocal (e.setManageState F) a service = detectLocal e a service := by
  unfold detectLocal
  simp only [findLocalFromPeers_set]
  rfl

theorem ManageStateInitial_set (e : Env) (F : State → State) (a : ActiveEnv) (s : State) :
    CActiveXnode.ManageStateInitial (e.setManageState F) a s
      = CActiveXnode.ManageStateInitial e a s := by
  unfold CActiveXnode.ManageStateInitial
  simp only [detectLocal_set]
  rfl

theorem ManageStateRemote_set (e : Env) (F : State → State) (a : ActiveEnv) (s : State) :
    CActiveXnode.ManageStateRemote (e.setManageState F) a s
      = CActiveXnode.ManageStateRemote e a s := rfl

theorem SendXnodePing_set (e : Env) (F : State → State) (a : ActiveEnv) (s : State) :
    CActiveXnode.SendXnodePing (e.setManageState F) a s = CActiveXnode.SendXnodePing e a s := rfl

theorem syncedGuard_set (e : Env) (F : State → State) (s : State) :
    CActiveXnode.syncedGuard (e.setManageState F) s = CActiveXnode.syncedGuard e s := rfl

theorem takeBroadcastPing_set (e : Env) (F : State → State) (i : Nat) (mnb : CXnodeBroadcast)
    (s : State) :
    CXnode.takeBroadcastPing (e.setManageState F) i mnb s = CXnode.takeBroadcastPing e i mnb s :=
  rfl

theorem Create_set (e : Env) (F : State → State) (a : ActiveEnv) (txin : CTxIn)
    (service : CService) (k1 k2 : CPubKey) :
    CXnodeBroadcast.Create (e.setManageState F) a txin service k1 k2
      = CXnodeBroadcast.Create e a txin service k1 k2 := rfl

theorem Find_of_announces_eq (S s : State) (h : S.announces = s.announces) (vin : CTxIn) :
    S.mnodeman.Find vin = s.mnodeman.Find vin := by
  have h2 : S.announces = updateAt s.announces 0 id := by
    rw [h, updateAt_id]
  exact Find_of_announces S s id (fun _ => rfl) 0 h2 vin

theorem AnnouncedSince_of_announces (S s : State) (h : S.announces = s.announces)
    (vin : CTxIn) (T : Int) (hq : s.AnnouncedSince vin T) : S.AnnouncedSince vin T := by
  intro i mn hi hmn
  rw [Find_of_announces_eq S s h] at hi
  cases hmn0 : s.getXnode i with
  | none =>
    have h1 := getXnode_announce s i
    have h2 := getXnode_announce S i
    rw [hmn0] at h1
    rw [hmn, h, ← h1] at h2
    simp at h2
  | some mn0 =>
    have h3 := announce_of_announces_eq s S i mn0 mn h hmn0 hmn
    have h4 : mn.sigTime = mn0.sigTime := congrArg (fun a => a.2.2.1) h3
    have := hq i mn0 hi hmn0
    omega

/-- A state whose announcements are those of `s` with the one at `i` taken
from `mnb`, where `i` is the position found for the input of `mnb`: the
record found for that input is announced at the time of `mnb`. -/
theorem AnnouncedSince_of_take (s S : State) (i : Nat) (mnb : CXnodeBroadcast)
    (hi : s.mnodeman.Find mnb.vin = some i)
    (h : S.announces = updateAt s.announces i (announceTake mnb)) :
    S.AnnouncedSince mnb.vin mnb.sigTime := by
  intro j mn2 hj hmn2
  have hf := Find_of_announces S s (announceTake mnb) (fun _ => rfl) i h mnb.vin
  rw [hf, hi] at hj
  cases hj
  have h2 := getXnode_announce S i
  rw [hmn2, h, updateAt_getElem] at h2
  cases hx : s.announces[i]? with
  | none => rw [hx] at h2; simp at h2
  | some x =>
    rw [hx] at h2
    simp only [Option.map_some', Option.some.injEq] at h2
    have h3 : mn2.sigTime = mnb.sigTime := by
      have := congrArg (fun a => a.2.2.1) h2
      simpa [CXnode.announce, announceTake] using this
    omega

theorem UpdateFromNewBroadcast_set_congr (e : Env) (F G : State → State) (i : Nat)
    (mnb : CXnodeBroadcast) (s : State)
    (hi : s.mnodeman.Find mnb.vin = some i)
    (h : ∀ x : State, x.AnnouncedSince mnb.vin mnb.sigTime → F x = G x) :
    CXnode.UpdateFromNewBroadcast (e.setManageState F) i mnb s
      = CXnode.UpdateFromNewBroadcast (e.setManageState G) i mnb s := by
  unfold CXnode.UpdateFromNewBroadcast
  cases hmn : s.getXnode i with
  | none => rfl
  | some mn =>
    simp only [takeBroadcastPing_set, setManageState_ManageState, setManageState_fXNode,
      setManageState_PROTOCOL_VERSION]
    split
    · rfl
    · split
      · split
        · have hq : (State.modifyXnode (CXnode.takeBroadcastPing e i mnb
              (s.modifyXnode i (CXnode.takeBroadcast mnb))) i
              (fun pmn => { pmn with nPoSeBanScore := -XNODE_POSE_BAN_MAX_SCORE })).AnnouncedSince
              mnb.vin mnb.sigTime := by
            apply AnnouncedSince_of_take s _ i mnb hi
            exact (modifyXnode_announces _ i
                (fun pmn => { pmn with nPoSeBanScore := -XNODE_POSE_BAN_MAX_SCORE })
                (fun x => rfl)).trans
              ((takeBroadcastPing_announces e i mnb _).trans (takeBroadcast_announces s i mnb))
          rw [h _ hq]
        · rfl
      · rfl

theorem UpdateFromNewBroadcast_set_stale (e : Env) (F G : State → State) (i : Nat)
    (mnb : CXnodeBroadcast) (s : State) (hrec : mnb.fRecovery = false)
    (hi : s.mnodeman.Find mnb.vin = some i)
    (hq : s.AnnouncedSince mnb.vin mnb.sigTime) :
    CXnode.UpdateFromNewBroadcast (e.setManageState F) i mnb s
      = CXnode.UpdateFromNewBroadcast (e.setManageState G) i mnb s := by
  cases hmn : s.getXnode i with
  | none =>
    unfold CXnode.UpdateFromNewBroadcast
    rw [hmn]
  | some mn =>
    have hold := hq i mn hi hmn
    rw [UpdateFromNewBroadcast_stale _ i mnb s mn hmn hrec hold,
      UpdateFromNewBroadcast_stale _ i mnb s mn hmn hrec hold]

theorem UpdateXnodeList_set (e : Env) (F : State → State) (mnb : CXnodeBroadcast) (s : State) :
    CXnodeMan.UpdateXnodeList (e.setManageState F) mnb s
      = (let seenPing := s.mnodeman.mapSeenXnodePing.insert (e.GetHashMnp mnb.lastPing) mnb.lastPing
         let seenMnb := s.mnodeman.mapSeenXnodeBroadcast.insert (e.GetHashMnb mnb) (e.GetTime, mnb)
         let m1 : CXnodeMan :=
           { s.mnodeman with mapSeenXnodePing := seenPing, mapSeenXnodeBroadcast := seenMnb }
         let s1 : State := { s with mnodeman := m1 }
         match s1.mnodeman.Find mnb.vin with
         | none =>
           let added := s1.mnodeman.Add (CXnode.ofBroadcast mnb)
           let s2 := { s1 with mnodeman := added.2 }
           if added.1 then s2.AddedXnodeList e else s2
         | some i =>
           match s1.getXnode i with
           | none => s1
           | some pmn =>
             let oldKey := e.GetHashMnb (CXnodeBroadcast.ofXnode pmn)
             let mnbOld := s1.seenBroadcastAt e oldKey
             let s2 := s1.touchSeenBroadcast e oldKey
             let r := CXnode.UpdateFromNewBroadcast (e.setManageState F) i mnb s2
             if r.1 then (r.2.AddedXnodeList e).eraseSeenBroadcast (e.GetHashMnb mnbOld)
             else r.2) := rfl

theorem touchSeenBroadcast_announces (e : Env) (s : State) (k : Nat) :
    (s.touchSeenBroadcast e k).announces = s.announces := rfl

theorem UpdateXnodeList_set_congr (e : Env) (F G : State → State) (mnb : CXnodeBroadcast)
    (s : State)
    (h : ∀ x : State, x.AnnouncedSince mnb.vin mnb.sigTime → F x = G x) :
    CXnodeMan.UpdateXnodeList (e.setManageState F) mnb s
      = CXnodeMan.UpdateXnodeList (e.setManageState G) mnb s := by
  rw [UpdateXnodeList_set, UpdateXnodeList_set]
  simp only []
  split
  · rfl
  · rename_i i hi
    split
    · rfl
    · rename_i pmn hpmn
      have hi2 : (State.touchSeenBroadcast e
          { s with mnodeman := { s.mnodeman with
              mapSeenXnodePing := s.mnodeman.mapSeenXnodePing.insert (e.GetHashMnp mnb.lastPing)
                mnb.lastPing
              mapSeenXnodeBroadcast := s.mnodeman.mapSeenXnodeBroadcast.insert (e.GetHashMnb mnb)
                (e.GetTime, mnb) } }
          (e.GetHashMnb (CXnodeBroadcast.ofXnode pmn))).mnodeman.Find mnb.vin = some i := by
        rw [Find_of_announces_eq _ _ (touchSeenBroadcast_announces e _ _)]
        exact hi
      rw [UpdateFromNewBroadcast_set_congr e F G i mnb _ hi2 h]

theorem UpdateXnodeList_set_stale (e : Env) (F G : State → State) (mnb : CXnodeBroadcast)
    (s : State) (hrec : mnb.fRecovery = false)
    (hq : s.AnnouncedSince mnb.vin mnb.sigTime) :
    CXnodeMan.UpdateXnodeList (e.setManageState F) mnb s
      = CXnodeMan.UpdateXnodeList (e.setManageState G) mnb s := by
  rw [UpdateXnodeList_set, UpdateXnodeList_set]
  simp only []
  split
  · rfl
  · rename_i i hi
    split
    · rfl
    · rename_i pmn hpmn
      have ha : (State.touchSeenBroadcast e
          { s with mnodeman := { s.mnodeman with
              mapSeenXnodePing := s.mnodeman.mapSeenXnodePing.insert (e.GetHashMnp mnb.lastPing)
                mnb.lastPing
              mapSeenXnodeBroadcast := s.mnodeman.mapSeenXnodeBroadcast.insert (e.GetHashMnb mnb)
                (e.GetTime, mnb) } }
          (e.GetHashMnb (CXnodeBroadcast.ofXnode pmn))).announces = s.announces :=
        touchSeenBroadcast_announces e _ _
      have hi2 := (Find_of_announces_eq _ _ ha mnb.vin).trans hi
      have hq2 : (State.touchSeenBroadcast e
          { s with mnodeman := { s.mnodeman with
              mapSeenXnodePing := s.mnodeman.mapSeenXnodePing.insert (e.GetHashMnp mnb.lastPing)
                mnb.lastPing
              mapSeenXnodeBroadcast := s.mnodeman.mapSeenXnodeBroadcast.insert (e.GetHashMnb mnb)
                (e.GetTime, mnb) } }
          (e.GetHashMnb (CXnodeBroadcast.ofXnode pmn))).AnnouncedSince mnb.vin mnb.sigTime :=
        AnnouncedSince_of_announces _ s ha _ _ hq
      rw [UpdateFromNewBroadcast_set_stale e F G i mnb _ hrec hi2 hq2]

theorem Sign_parts (e : Env) (mnb : CXnodeBroadcast) (sign : String → Option (List Nat)) :
    (mnb.Sign e sign).2.vin = mnb.vin ∧ (mnb.Sign e sign).2.sigTime = e.GetAdjustedTime
    ∧ (mnb.Sign e sign).2.fRecovery = mnb.fRecovery
    ∧ (mnb.Sign e sign).2.nPoSeBanScore = mnb.nPoSeBanScore := by
  unfold CXnodeBroadcast.Sign
  simp only []
  repeat' split
  all_goals exact ⟨rfl, rfl, rfl, rfl⟩

theorem Create_parts (e : Env) (a : ActiveEnv) (txin : CTxIn) (service : CService)
    (k1 k2 : CPubKey) (mnb : CXnodeBroadcast)
    (h : CXnodeBroadcast.Create e a txin service k1 k2 = some mnb) :
    mnb.vin = txin ∧ mnb.sigTime = e.GetAdjustedTime ∧ mnb.fRecovery = false
    ∧ mnb.nPoSeBanScore = 0 := by
  unfold CXnodeBroadcast.Create at h
  simp only [] at h
  repeat' split at h
  all_goals first
    | (cases h; done)
    | (simp only [Option.some.injEq] at h
       subst h
       obtain ⟨p1, p2, p3, p4⟩ := Sign_parts e
         { CXnodeBroadcast.ofParts e service txin k1 k2 e.PROTOCOL_VERSION with
           lastPing := (CXnodePing.Sign e (CXnodePing.ofVin e a txin) e.SignMessage k2).2 }
         a.signCollateral
       exact ⟨p1, p2, p3, p4⟩)

theorem ManageStateLocal_set (e : Env) (F : State → State) (a : ActiveEnv) (s : State) :
    CActiveXnode.ManageStateLocal (e.setManageState F) a s
      = (if s.activeXnode.nState = ACTIVE_XNODE_STARTED then some s
         else if !a.hasWallet then none
         else
           match a.GetXnodeVinAndKeys with
           | none => some s
           | some found =>
             let s1 : State := { s with activeXnode := { s.activeXnode with vin := found.1 } }
             let nInputAge := e.GetInputAge s1.activeXnode.vin
             if nInputAge < e.nXnodeMinimumConfirmations then
               some (s1.setActiveState ACTIVE_XNODE_INPUT_TOO_NEW)
             else
               match CXnodeBroadcast.Create e a s1.activeXnode.vin s1.activeXnode.service found.2
                   s1.activeXnode.pubKeyXnode with
               | none => some (s1.setActiveState ACTIVE_XNODE_NOT_CAPABLE)
               | some mnb =>
                 let s2 : State :=
                   { s1 with activeXnode := { s1.activeXnode with fPingerEnabled := true, nState := ACTIVE_XNODE_STARTED } }
                 let s3 := CXnodeMan.UpdateXnodeList (e.setManageState F) mnb s2
                 let s4 : State := { s3 with mnodeman := s3.mnodeman.NotifyXnodeUpdates }
                 some (s4.RelayInv InvType.MSG_XNODE_ANNOUNCE (e.GetHashMnb mnb))) := rfl

theorem ManageStateLocal_set_congr (e : Env) (F G : State → State) (a : ActiveEnv) (s : State)
    (h : ∀ x : State, x.OwnAnnounced e a → F x = G x) :
    CActiveXnode.ManageStateLocal (e.setManageState F) a s
      = CActiveXnode.ManageStateLocal (e.setManageState G) a s := by
  rw [ManageStateLocal_set, ManageStateLocal_set]
  split
  · rfl
  · split
    · rfl
    · split
      · rfl
      · rename_i found hfound
        simp only []
        split
        · rfl
        · split
          · rfl
          · rename_i mnb hmnb
            obtain ⟨c1, c2, _, _⟩ := Create_parts e a _ _ _ _ mnb hmnb
            have hFG : ∀ x : State, x.AnnouncedSince mnb.vin mnb.sigTime → F x = G x := by
              intro x hx
              apply h x
              intro found2 hf2
              rw [hfound] at hf2
              cases hf2
              rw [c1, c2] at hx
              exact hx
            rw [UpdateXnodeList_set_congr e F G mnb _ hFG]

theorem ManageStateLocal_set_stale (e : Env) (F G : State → State) (a : ActiveEnv) (s : State)
    (hq : s.OwnAnnounced e a) :
    CActiveXnode.ManageStateLocal (e.setManageState F) a s
      = CActiveXnode.ManageStateLocal (e.setManageState G) a s := by
  rw [ManageStateLocal_set, ManageStateLocal_set]
  split
  · rfl
  · split
    · rfl
    · split
      · rfl
      · rename_i found hfound
        simp only []
        split
        · rfl
        · split
          · rfl
          · rename_i mnb hmnb
            obtain ⟨c1, c2, c3, _⟩ := Create_parts e a _ _ _ _ mnb hmnb
            have hq2 : State.AnnouncedSince
                { s with activeXnode := { s.activeXnode with vin := found.1, fPingerEnabled := true, nState := ACTIVE_XNODE_STARTED } }
                mnb.vin mnb.sigTime := by
              rw [c1, c2]
              exact hq found hfound
            rw [UpdateXnodeList_set_stale e F G mnb _ c3 hq2]

theorem OwnAnnounced_of_announces (e : Env) (a : ActiveEnv) (S s : State)
    (h : S.announces = s.announces) (hq : s.OwnAnnounced e a) : S.OwnAnnounced e a :=
  fun found hf => AnnouncedSince_of_announces S s h _ _ (hq found hf)

theorem ManageStateInitial_mnodeman (e : Env) (a : ActiveEnv) (s : State) :
    (CActiveXnode.ManageStateInitial e a s).mnodeman = s.mnodeman := by
  unfold CActiveXnode.ManageStateInitial
  simp only []
  repeat' split
  all_goals rfl

theorem CheckXnodeByKey_announces (e : Env) (lockMain : Bool) (k : CPubKey) (fForce : Bool)
    (s : State) : (s.CheckXnodeByKey e lockMain k fForce).announces = s.announces := by
  unfold State.CheckXnodeByKey
  split
  · rfl
  · exact modifyXnode_announces s _ _ (Check_announce e s lockMain fForce)

theorem ManageStateRemote_announces (e : Env) (a : ActiveEnv) (s : State) :
    (CActiveXnode.ManageStateRemote e a s).announces = s.announces := by
  have h := CheckXnodeByKey_announces e a.lockMain s.activeXnode.pubKeyXnode false s
  unfold CActiveXnode.ManageStateRemote
  simp only []
  repeat' split
  all_goals exact h

theorem manageStateSynced_set (e : Env) (F : State → State) (a : ActiveEnv) (s : State) :
    CActiveXnode.manageStateSynced (e.setManageState F) a s
      = (let s1 : State :=
           if s.activeXnode.nState = ACTIVE_XNODE_SYNC_IN_PROCESS then
             s.setActiveState ACTIVE_XNODE_INITIAL
           else s
         let s2 : State :=
           if s1.activeXnode.eType = XNODE_UNKNOWN then CActiveXnode.ManageStateInitial e a s1
           else s1
         if s2.activeXnode.eType = XNODE_REMOTE then
           some (CActiveXnode.ManageStateRemote e a s2)
         else if s2.activeXnode.eType = XNODE_LOCAL then
           let s3 := CActiveXnode.ManageStateRemote e a s2
           if s3.activeXnode.nState ≠ ACTIVE_XNODE_STARTED then
             CActiveXnode.ManageStateLocal (e.setManageState F) a s3
           else some s3
         else some s2) := by
  unfold CActiveXnode.manageStateSynced
  simp only [ManageStateInitial_set]
  rfl

/-- The state in which `ManageStateLocal` is called has the announcements of
the state in which the tick started. -/
theorem manageStateSynced_local_announces (e : Env) (a : ActiveEnv) (s : State) :
    (CActiveXnode.ManageStateRemote e a
      (if (if s.activeXnode.nState = ACTIVE_XNODE_SYNC_IN_PROCESS then
              s.setActiveState ACTIVE_XNODE_INITIAL else s).activeXnode.eType = XNODE_UNKNOWN then
          CActiveXnode.ManageStateInitial e a
            (if s.activeXnode.nState = ACTIVE_XNODE_SYNC_IN_PROCESS then
              s.setActiveState ACTIVE_XNODE_INITIAL else s)
        else (if s.activeXnode.nState = ACTIVE_XNODE_SYNC_IN_PROCESS then
              s.setActiveState ACTIVE_XNODE_INITIAL else s))).announces = s.announces := by
  rw [ManageStateRemote_announces]
  have h1 : (if s.activeXnode.nState = ACTIVE_XNODE_SYNC_IN_PROCESS then
      s.setActiveState ACTIVE_XNODE_INITIAL else s).announces = s.announces := by
    split <;> rfl
  generalize (if s.activeXnode.nState = ACTIVE_XNODE_SYNC_IN_PROCESS then
      s.setActiveState ACTIVE_XNODE_INITIAL else s) = s1 at h1 ⊢
  split
  · unfold State.announces at h1 ⊢
    rw [ManageStateInitial_mnodeman]
    exact h1
  · exact h1

theorem manageStateSynced_set_congr (e : Env) (F G : State → State) (a : ActiveEnv) (s : State)
    (h : ∀ x : State, x.OwnAnnounced e a → F x = G x) :
    CActiveXnode.manageStateSynced (e.setManageState F) a s
      = CActiveXnode.manageStateSynced (e.setManageState G) a s := by
  rw [manageStateSynced_set, manageStateSynced_set]
  simp only [ManageStateLocal_set_congr e F G a _ h]

theorem manageStateSynced_set_stale (e : Env) (F G : State → State) (a : ActiveEnv) (s : State)
    (hq : s.OwnAnnounced e a) :
    CActiveXnode.manageStateSynced (e.setManageState F) a s
      = CActiveXnode.manageStateSynced (e.setManageState G) a s := by
  rw [manageStateSynced_set, manageStateSynced_set]
  have hl := ManageStateLocal_set_stale e F G a _
    (OwnAnnounced_of_announces e a _ s (manageStateSynced_local_announces e a s) hq)
  simp only [hl]

theorem reenter_set (e : Env) (F : State → State) (a : ActiveEnv) (s : State) :
    CActiveXnode.reenter (e.setManageState F) a s
      = (if !e.fXNode then s
         else if !(CActiveXnode.syncedGuard e s).1 then
           (CActiveXnode.syncedGuard e s).2.setActiveState ACTIVE_XNODE_SYNC_IN_PROCESS
         else
           match CActiveXnode.manageStateSynced (e.setManageState F) a
               (CActiveXnode.syncedGuard e s).2 with
           | none => s
           | some s1 => (CActiveXnode.SendXnodePing e a s1).2) := by
  unfold CActiveXnode.reenter CActiveXnode.ManageState CActiveXnode.manageStateBody
  simp only [setManageState_fXNode, syncedGuard_set, SendXnodePing_set]
  by_cases h1 : (!e.fXNode) = true
  · rw [if_pos h1, if_pos h1]
  · rw [if_neg h1, if_neg h1]
    by_cases h2 : (!(CActiveXnode.syncedGuard e s).1) = true
    · rw [if_pos h2, if_pos h2]
    · rw [if_neg h2, if_neg h2]
      cases CActiveXnode.manageStateSynced (e.setManageState F) a (CActiveXnode.syncedGuard e s).2
        <;> rfl

theorem reenter_set_congr (e : Env) (F G : State → State) (a : ActiveEnv) (s : State)
    (h : ∀ x : State, x.OwnAnnounced e a → F x = G x) :
    CActiveXnode.reenter (e.setManageState F) a s
      = CActiveXnode.reenter (e.setManageState G) a s := by
  rw [reenter_set, reenter_set, manageStateSynced_set_congr e F G a _ h]

theorem reenter_set_stale (e : Env) (F G : State → State) (a : ActiveEnv) (s : State)
    (hq : s.OwnAnnounced e a) :
    CActiveXnode.reenter (e.setManageState F) a s
      = CActiveXnode.reenter (e.setManageState G) a s := by
  have hg : (CActiveXnode.syncedGuard e s).2.announces = s.announces := by
    unfold State.announces
    rw [(syncedGuard_frame e s).1]
  rw [reenter_set, reenter_set, manageStateSynced_set_stale e F G a _
    (OwnAnnounced_of_announces e a _ s hg hq)]

/-- A tick of the controller that is entered from the registry code out of a
tick does not enter the registry code's call of `ManageState` again: two
levels of the controller are the whole of it. -/
theorem nest_stable (e : Env) (a : ActiveEnv) (n : Nat) :
    (Env.nest e a (n + 2)).ManageState = (Env.nest e a 2).ManageState := by
  induction n with
  | zero => rfl
  | succ n ih =>
    show CActiveXnode.reenter (Env.nest e a (n + 2)) a = CActiveXnode.reenter (Env.nest e a 1) a
    funext s
    have h1 : Env.nest e a (n + 2) = e.setManageState (Env.nest e a (n + 2)).ManageState := rfl
    have h2 : Env.nest e a 1 = e.setManageState (Env.nest e a 1).ManageState := rfl
    rw [h1, h2, ih]
    apply reenter_set_congr
    intro x hx
    show CActiveXnode.reenter (e.setManageState (Env.nest e a 1).ManageState) a x
      = CActiveXnode.reenter (e.setManageState e.ManageState) a x
    exact reenter_set_stale e _ _ a x hx

/-- The function `e.ManageState` at the bottom is never run. -/
theorem withController_base (e : Env) (a : ActiveEnv) (F : State → State) :
    (e.setManageState F).withController a = e.withController a := by
  show (e.setManageState F).setManageState
      (CActiveXnode.reenter ((e.setManageState F).setManageState
        (CActiveXnode.reenter (e.setManageState F) a)) a)
    = e.setManageState (CActiveXnode.reenter (e.setManageState (CActiveXnode.reenter e a)) a)
  have h : CActiveXnode.reenter (e.setManageState (CActiveXnode.reenter (e.setManageState F) a)) a
      = CActiveXnode.reenter (e.setManageState (CActiveXnode.reenter e a)) a := by
    funext s
    apply reenter_set_congr
    intro x hx
    exact reenter_set_stale e F e.ManageState a x hx
  show e.setManageState
      (CActiveXnode.reenter (e.setManageState (CActiveXnode.reenter (e.setManageState F) a)) a)
    = _
  rw [h]

/-- A relation between the state after and the state before that holds across
every step a tick of the controller takes in the registry, holds across the
tick as the registry code enters it. -/
theorem reenter_rel (R : State → State → Prop) (e : Env) (a : ActiveEnv)
    (hrefl : ∀ s : State, R s s)
    (htrans : ∀ s3 s2 s1 : State, R s3 s2 → R s2 s1 → R s3 s1)
    (hreg : ∀ s2 s1 : State, s2.mnodeman.vXnodes = s1.mnodeman.vXnodes → R s2 s1)
    (hcheck : ∀ (s : State) (lockMain fForce : Bool) (i : Nat),
      R (s.modifyXnode i (CXnode.Check e s lockMain fForce)) s)
    (hping : ∀ (s : State) (i : Nat) (mnp : CXnodePing),
      R (s.modifyXnode i (fun mn => { mn with lastPing := mnp })) s)
    (hupd : ∀ (mnb : CXnodeBroadcast) (s : State), mnb.fRecovery = false →
      mnb.nPoSeBanScore = 0 → R (CXnodeMan.UpdateXnodeList e mnb s) s)
    (s : State) : R (CActiveXnode.reenter e a s) s := by
  have hremote : ∀ x : State, R (CActiveXnode.ManageStateRemote e a x) x := by
    intro x
    have h1 : R (x.CheckXnodeByKey e a.lockMain x.activeXnode.pubKeyXnode false) x := by
      unfold State.CheckXnodeByKey
      split
      · exact hrefl x
      · exact hcheck x _ _ _
    refine htrans _ _ _ (hreg _ _ ?_) h1
    unfold CActiveXnode.ManageStateRemote
    simp only []
    repeat' split
    all_goals rfl
  have hinitial : ∀ x : State, R (CActiveXnode.ManageStateInitial e a x) x := by
    intro x
    apply hreg
    rw [ManageStateInitial_mnodeman]
  have hlocal : ∀ x x1 : State, CActiveXnode.ManageStateLocal e a x = some x1 → R x1 x := by
    intro x x1 h
    unfold CActiveXnode.ManageStateLocal at h
    split at h
    · cases h; exact hrefl x
    · split at h
      · cases h
      · split at h
        · cases h; exact hrefl x
        · rename_i found hfound
          simp only [] at h
          split at h
          · cases h; exact hreg _ _ rfl
          · split at h
            · cases h; exact hreg _ _ rfl
            · rename_i mnb hmnb
              obtain ⟨_, _, c3, c4⟩ := Create_parts e a _ _ _ _ mnb hmnb
              simp only [Option.some.injEq] at h
              subst h
              have hu := hupd mnb
                { x with activeXnode := { x.activeXnode with vin := found.1, fPingerEnabled := true, nState := ACTIVE_XNODE_STARTED } }
                c3 c4
              have h0 : R { x with activeXnode := { x.activeXnode with vin := found.1, fPingerEnabled := true, nState := ACTIVE_XNODE_STARTED } } x :=
                hreg _ _ rfl
              exact htrans _ (CXnodeMan.UpdateXnodeList e mnb
                { x with activeXnode := { x.activeXnode with vin := found.1, fPingerEnabled := true, nState := ACTIVE_XNODE_STARTED } })
                _ (hreg _ _ rfl) (htrans _ _ _ hu h0)
  have hsynced : ∀ x x1 : State, CActiveXnode.manageStateSynced e a x = some x1 → R x1 x := by
    intro x x1 h
    unfold CActiveXnode.manageStateSynced at h
    simp only [] at h
    have h1 : R (if x.activeXnode.nState = ACTIVE_XNODE_SYNC_IN_PROCESS then
        x.setActiveState ACTIVE_XNODE_INITIAL else x) x := by
      split
      · exact hreg _ _ rfl
      · exact hrefl x
    generalize (if x.activeXnode.nState = ACTIVE_XNODE_SYNC_IN_PROCESS then
        x.setActiveState ACTIVE_XNODE_INITIAL else x) = y1 at h h1
    have h2 : R (if y1.activeXnode.eType = XNODE_UNKNOWN then
        CActiveXnode.ManageStateInitial e a y1 else y1) x := by
      split
      · exact htrans _ _ _ (hinitial y1) h1
      · exact h1
    generalize (if y1.activeXnode.eType = XNODE_UNKNOWN then
        CActiveXnode.ManageStateInitial e a y1 else y1) = y2 at h h2
    split at h
    · cases h
      exact htrans _ _ _ (hremote y2) h2
    · split at h
      · split at h
        · exact htrans _ _ _ (hlocal _ _ h) (htrans _ _ _ (hremote y2) h2)
        · cases h
          exact htrans _ _ _ (hremote y2) h2
      · cases h
        exact h2
  have hsend : ∀ x : State, R (CActiveXnode.SendXnodePing e a x).2 x := by
    intro x
    unfold CActiveXnode.SendXnodePing
    split
    · exact hrefl x
    · split
      · exact hreg _ _ rfl
      · simp only []
        split
        · exact hrefl x
        · split
          · exact hrefl x
          · rename_i hhas _ _
            cases hf : x.mnodeman.Find x.activeXnode.vin with
            | none => simp [CXnodeMan.Has, hf] at hhas
            | some i =>
              refine htrans _ _ _ (hreg _ (x.modifyXnode i (fun mn => { mn with lastPing :=
                ((CXnodePing.ofVin e a x.activeXnode.vin).Sign e e.SignMessage
                  x.activeXnode.pubKeyXnode).2 })) ?_) (hping x i _)
              exact SetXnodeLastPing_vXnodes e x.mnodeman x.activeXnode.vin _ i hf
  rw [← setManageState_self e, reenter_set]
  split
  · exact hrefl s
  · have hg : R (CActiveXnode.syncedGuard e s).2 s := by
      apply hreg
      rw [(syncedGuard_frame e s).1]
    split
    · exact htrans _ (CActiveXnode.syncedGuard e s).2 _ (hreg _ _ rfl) hg
    · rw [setManageState_self]
      cases hm : CActiveXnode.manageStateSynced e a (CActiveXnode.syncedGuard e s).2 with
      | none => exact hrefl s
      | some s1 =>
        simp only []
        exact htrans _ _ _ (hsend s1) (htrans _ _ _ (hsynced _ _ hm) hg)

theorem StepRel.after {okTake : CXnodeBroadcast → Prop} {okAdd : CXnode → Prop}
    {R : State → State → Prop} (h : StepRel okTake okAdd R) {s2 s1 s : State} (h1 : R s1 s)
    (hv : s2.mnodeman.vXnodes = s1.mnodeman.vXnodes) : R s2 s :=
  h.trans _ _ _ (h.reg _ _ hv) h1

theorem StepRel.added {okTake : CXnodeBroadcast → Prop} {okAdd : CXnode → Prop}
    {R : State → State → Prop} (h : StepRel okTake okAdd R) {s2 s : State} (e : Env)
    (h1 : R s2 s) : R (s2.AddedXnodeList e) s := h.after h1 rfl

theorem StepRel.erased {okTake : CXnodeBroadcast → Prop} {okAdd : CXnode → Prop}
    {R : State → State → Prop} (h : StepRel okTake okAdd R) {s2 s : State} (k : Nat)
    (h1 : R s2 s) : R (s2.eraseSeenBroadcast k) s := h.after h1 rfl

theorem StepRel.touched {okTake : CXnodeBroadcast → Prop} {okAdd : CXnode → Prop}
    {R : State → State → Prop} (h : StepRel okTake okAdd R) {s2 s : State} (e : Env) (k : Nat)
    (h1 : R s2 s) : R (s2.touchSeenBroadcast e k) s := h.after h1 rfl

theorem pingCheckAndUpdate_rel {okTake : CXnodeBroadcast → Prop} {okAdd : CXnode → Prop}
    {R : State → State → Prop} (h : StepRel okTake okAdd R) (e : Env) (mnp : CXnodePing)
    (pmn : Option Nat) (fFromNewBroadcast : Bool) (s : State) :
    R (mnp.CheckAndUpdate e pmn fFromNewBroadcast s).2 s := by
  have hstep : ∀ (s1 : State) (i hash : Nat), s1.mnodeman.vXnodes = s.mnodeman.vXnodes →
      R (State.CheckAt e true i
        { (s1.modifyXnode i (fun pmn => { pmn with lastPing := mnp })) with
          mnodeman := (s1.modifyXnode i
            (fun pmn => { pmn with lastPing := mnp })).mnodeman.setSeenLastPing hash mnp }) s := by
    intro s1 i hash h1
    refine h.trans _ _ _ (h.check e _ true true i) (h.trans _
      (s1.modifyXnode i (fun pmn => { pmn with lastPing := mnp })) _ (h.reg _ _ ?_)
      (h.trans _ _ _ (h.ping s1 i mnp) (h.reg _ _ h1)))
    unfold CXnodeMan.setSeenLastPing
    split <;> rfl
  have hrelay : ∀ (s4 : State) (inv : InvType) (hash : Nat), R s4 s →
      R (s4.RelayInv inv hash) s :=
    fun s4 inv hash h4 => h.after h4 rfl
  unfold CXnodePing.CheckAndUpdate
  simp only []
  repeat' split
  all_goals first
    | exact h.refl s
    | exact hstep _ _ _ rfl
    | exact hrelay _ _ _ (hstep _ _ _ rfl)

theorem takeBroadcastPing_rel {okTake : CXnodeBroadcast → Prop} {okAdd : CXnode → Prop}
    {R : State → State → Prop} (h : StepRel okTake okAdd R) (e : Env) (i : Nat)
    (mnb : CXnodeBroadcast) (s1 : State) : R (CXnode.takeBroadcastPing e i mnb s1) s1 := by
  have hp := pingCheckAndUpdate_rel h e mnb.lastPing (some i) true s1
  unfold CXnode.takeBroadcastPing
  simp only []
  split
  · split
    · exact h.trans _ (s1.modifyXnode i (fun pmn => { pmn with lastPing := mnb.lastPing })) _
        (h.reg _ _ rfl) (h.ping s1 i _)
    · exact h.refl s1
  · split
    · exact h.trans _ ((mnb.lastPing.CheckAndUpdate e (some i) true s1).2.modifyXnode i
        (fun pmn => { pmn with lastPing := mnb.lastPing })) _
        (h.reg _ _ rfl) (h.trans _ _ _ (h.ping _ i _) hp)
    · exact hp

theorem UpdateFromNewBroadcast_rel {okTake : CXnodeBroadcast → Prop} {okAdd : CXnode → Prop}
    {R : State → State → Prop} (h : StepRel okTake okAdd R) (e : Env)
    (hF : ∀ s : State, R (e.ManageState s) s) (i : Nat) (mnb : CXnodeBroadcast)
    (hok : okTake mnb) (s : State) : R (CXnode.UpdateFromNewBroadcast e i mnb s).2 s := by
  unfold CXnode.UpdateFromNewBroadcast
  split
  · exact h.refl s
  · rename_i mn hmn
    split
    · exact h.refl s
    · rename_i hc
      have hc2 : ¬ (mnb.sigTime ≤ mn.sigTime ∧ mnb.fRecovery = false) := by
        intro hh
        apply hc
        simp [hh.1, hh.2]
      have h1 := h.take mnb s i mn hok hmn hc2
      have h2 : R (CXnode.takeBroadcastPing e i mnb (s.modifyXnode i (CXnode.takeBroadcast mnb))) s :=
        h.trans _ _ _ (takeBroadcastPing_rel h e i mnb _) h1
      simp only []
      split
      · have h3 := h.trans _ _ _ (h.own (CXnode.takeBroadcastPing e i mnb
          (s.modifyXnode i (CXnode.takeBroadcast mnb))) i) h2
        split
        · exact h.trans _ _ _ (hF _) h3
        · exact h3
      · exact h2

theorem UpdateXnodeList_rel {okTake : CXnodeBroadcast → Prop} {okAdd : CXnode → Prop}
    {R : State → State → Prop} (h : StepRel okTake okAdd R) (e : Env)
    (hF : ∀ s : State, R (e.ManageState s) s) (mnb : CXnodeBroadcast)
    (hok : okTake mnb) (hadd : okAdd (CXnode.ofBroadcast mnb)) (s : State) :
    R (CXnodeMan.UpdateXnodeList e mnb s) s := by
  have hU : ∀ (i : Nat) (s2 : State), R s2 s →
      R (CXnode.UpdateFromNewBroadcast e i mnb s2).2 s := by
    intro i s2 h2
    exact h.trans _ _ _ (UpdateFromNewBroadcast_rel h e hF i mnb hok s2) h2
  unfold CXnodeMan.UpdateXnodeList
  simp only []
  split
  · have h1 := h.trans _ _ s (h.add
      { s with mnodeman :=
          { s.mnodeman with
            mapSeenXnodePing :=
              s.mnodeman.mapSeenXnodePing.insert (e.GetHashMnp mnb.lastPing) mnb.lastPing,
            mapSeenXnodeBroadcast :=
              s.mnodeman.mapSeenXnodeBroadcast.insert (e.GetHashMnb mnb) (e.GetTime, mnb) } }
      (CXnode.ofBroadcast mnb) hadd) (h.reg _ _ rfl)
    split
    · exact h.after h1 rfl
    · exact h1
  · split
    · exact h.reg _ _ rfl
    · split
      · exact h.erased _ (h.added _ (hU _ _ (h.touched _ _ (h.reg _ _ rfl))))
      · exact hU _ _ (h.touched _ _ (h.reg _ _ rfl))

theorem Update_rel {okTake : CXnodeBroadcast → Prop} {okAdd : CXnode → Prop}
    {R : State → State → Prop} (h : StepRel okTake okAdd R) (e : Env)
    (hF : ∀ s : State, R (e.ManageState s) s) (i : Nat) (mnb : CXnodeBroadcast)
    (hok : okTake mnb) (s : State) : R (mnb.Update e i s).2 s := by
  have h1 : R (s.CheckAt e false i) s := h.check e s true false i
  have h2 := h.trans _ _ _ (UpdateFromNewBroadcast_rel h e hF i mnb hok (s.CheckAt e false i)) h1
  have h3 : ∀ s2 : State, R s2 s →
      R (((s2.CheckAt e false i).RelayInv InvType.MSG_XNODE_ANNOUNCE (e.GetHashMnb mnb)).AddedXnodeList
        e) s := by
    intro s2 hs2
    exact h.trans _ (s2.CheckAt e false i) _ (h.reg _ _ rfl)
      (h.trans _ _ _ (h.check e s2 true false i) hs2)
  unfold CXnodeBroadcast.Update
  simp only []
  repeat' split
  all_goals first
    | exact h.refl s
    | exact h1
    | exact h3 _ h2
    | exact h.after h2 rfl

theorem addCheckedMnb_rel {okTake : CXnodeBroadcast → Prop} {okAdd : CXnode → Prop}
    {R : State → State → Prop} (h : StepRel okTake okAdd R) (e : Env)
    (hF : ∀ s : State, R (e.ManageState s) s) (mnb : CXnodeBroadcast)
    (hadd : okAdd mnb.toCXnode) (nDos : Int) (s : State) :
    R (CXnodeMan.addCheckedMnb e mnb nDos s).2 s := by
  have h0 : R (mnb.CheckOutpoint e true nDos s).2 s :=
    h.reg _ _ (CheckOutpoint_vXnodes e true mnb nDos s).1
  have h1 := h.add (mnb.CheckOutpoint e true nDos s).2 mnb.toCXnode hadd
  have h2 := h.trans _ _ _ h1 h0
  have h2a : R (State.AddedXnodeList e { (mnb.CheckOutpoint e true nDos s).2 with
      mnodeman := ((mnb.CheckOutpoint e true nDos s).2.mnodeman.Add mnb.toCXnode).2 }) s :=
    h.after h2 rfl
  unfold CXnodeMan.addCheckedMnb
  simp only []
  repeat' split
  all_goals first
    | exact h0
    | exact h2a
    | exact h.after h2a rfl
    | exact h.after (h.trans _ _ _ (hF _) h2a) rfl

theorem CheckMnbAndUpdateXnodeList_rel {okTake : CXnodeBroadcast → Prop} {okAdd : CXnode → Prop}
    {R : State → State → Prop} (h : StepRel okTake okAdd R) (e : Env)
    (hF : ∀ s : State, R (e.ManageState s) s) (pfrom : Option CNetAddr)
    (mnbIn : CXnodeBroadcast) (hok : okTake (mnbIn.SimpleCheck e).2)
    (hadd : okAdd (mnbIn.SimpleCheck e).2.toCXnode) (s : State) :
    R (CXnodeMan.CheckMnbAndUpdateXnodeList e pfrom mnbIn s).2 s := by
  have hA : ∀ (nDos : Int) (s2 : State), R s2 s →
      R (CXnodeMan.addCheckedMnb e (mnbIn.SimpleCheck e).2 nDos s2).2 s := by
    intro nDos s2 h2
    exact h.trans _ _ _ (addCheckedMnb_rel h e hF _ hadd nDos s2) h2
  have hU : ∀ (i : Nat) (s2 : State), R s2 s →
      R ((mnbIn.SimpleCheck e).2.Update e i s2).2 s := by
    intro i s2 h2
    exact h.trans _ _ _ (Update_rel h e hF i _ hok s2) h2
  unfold CXnodeMan.CheckMnbAndUpdateXnodeList
  simp only []
  split
  · exact h.reg _ _ (seenMnb_vXnodes e pfrom mnbIn _ s)
  · split
    · exact h.reg _ _ rfl
    · split
      · exact hA _ _ (h.reg _ _ rfl)
      · split
        · exact hA _ _ (h.reg _ _ rfl)
        · split
          · exact hU _ _ (h.touched _ _ (h.reg _ _ rfl))
          · apply hA
            split
            · exact h.erased _ (hU _ _ (h.touched _ _ (h.reg _ _ rfl)))
            · exact hU _ _ (h.touched _ _ (h.reg _ _ rfl))

/-- A relation that holds across each step on the registry holds across the
controller tick that the registry code enters, whatever announcement the tick
creates. -/
theorem withController_rel {okTake : CXnodeBroadcast → Prop} {okAdd : CXnode → Prop}
    {R : State → State → Prop} (h : StepRel okTake okAdd R) (e : Env) (a : ActiveEnv)
    (hcreated : ∀ mnb : CXnodeBroadcast, mnb.fRecovery = false → mnb.nPoSeBanScore = 0 →
      okTake mnb ∧ okAdd (CXnode.ofBroadcast mnb)) (s : State) :
    R ((e.withController a).ManageState s) s := by
  have hstep : ∀ e1 : Env, (∀ x, R (e1.ManageState x) x) →
      ∀ x, R (CActiveXnode.reenter e1 a x) x := by
    intro e1 hF x
    exact reenter_rel R e1 a h.refl h.trans h.reg (h.check e1) h.ping
      (fun mnb y c3 c4 => UpdateXnodeList_rel h e1 hF mnb (hcreated mnb c3 c4).1
        (hcreated mnb c3 c4).2 y) x
  rw [← withController_base e a id]
  exact hstep _ (hstep _ (fun x => h.refl x)) s

theorem getXnode_of_vXnodes (s2 s1 : State) (h : s2.mnodeman.vXnodes = s1.mnodeman.vXnodes)
    (i : Nat) : s2.getXnode i = s1.getXnode i := by
  unfold State.getXnode
  rw [h]

/-! ### The registry grows -/

theorem stepRel_grows : StepRel (fun _ => True) (fun _ => True) State.Grows where
  refl := State.Grows.refl
  trans := fun _ _ _ h1 h2 => State.Grows.trans h1 h2
  reg := fun s2 s1 h => State.Grows.of_outpoints (by unfold State.outpoints; rw [h])
  check := fun e s lockMain fForce i =>
    State.Grows.of_announces (modifyXnode_announces s i _ (Check_announce e s lockMain fForce))
  ping := fun s i mnp => modifyXnode_grows s i _ (fun _ => rfl)
  take := fun mnb s i _ _ _ _ => modifyXnode_grows s i _ (fun _ => rfl)
  own := fun s i => modifyXnode_grows s i _ (fun _ => rfl)
  add := fun s mn _ => State.Grows.of_Add s mn

/-- The embedded controller removes or reorders no record of the registry and
keeps the outpoints pairwise distinct. -/
theorem withController_keepsRegistry (e : Env) (a : ActiveEnv) :
    (e.withController a).ManageStateKeepsRegistry :=
  fun s => withController_rel stepRel_grows e a (fun _ _ _ => ⟨trivial, trivial⟩) s

/-! ### Announce times are not lowered -/

theorem modifyXnode_notOlder (s : State) (i : Nat) (g : CXnode → CXnode)
    (hg : ∀ mn, s.getXnode i = some mn → mn.sigTime ≤ (g mn).sigTime) :
    (s.modifyXnode i g).NotOlder s := by
  intro j mn1 h1
  by_cases hj : j = i
  · subst hj
    refine ⟨g mn1, ?_, hg mn1 h1⟩
    rw [modifyXnode_getXnode, h1]
    rfl
  · refine ⟨mn1, ?_, le_refl _⟩
    have h2 : (s.modifyXnode i g).getXnode j = s.getXnode j :=
      updateAt_getElem_ne g s.mnodeman.vXnodes j i hj
    rw [h2, h1]

theorem Add_notOlder (s : State) (mn : CXnode) :
    State.NotOlder { s with mnodeman := (s.mnodeman.Add mn).2 } s := by
  intro j mn1 h1
  refine ⟨mn1, ?_, le_refl _⟩
  obtain ⟨added, h⟩ := Add_extends s.mnodeman mn
  show (s.mnodeman.Add mn).2.vXnodes[j]? = some mn1
  rw [h]
  have h2 : s.mnodeman.vXnodes[j]? = some mn1 := h1
  have hlt : j < s.mnodeman.vXnodes.length := by
    by_contra hc
    rw [List.getElem?_eq_none (by omega)] at h2
    cases h2
  rw [List.getElem?_append_left hlt]
  exact h2

theorem stepRel_notOlder :
    StepRel (fun mnb => mnb.fRecovery = false) (fun _ => True) State.NotOlder where
  refl := fun s i mn1 h => ⟨mn1, h, le_refl _⟩
  trans := fun s3 s2 s1 h32 h21 i mn1 h1 => by
    obtain ⟨mn2, h2, hle2⟩ := h21 i mn1 h1
    obtain ⟨mn3, h3, hle3⟩ := h32 i mn2 h2
    exact ⟨mn3, h3, le_trans hle2 hle3⟩
  reg := fun s2 s1 h i mn1 h1 => ⟨mn1, by rw [getXnode_of_vXnodes s2 s1 h]; exact h1, le_refl _⟩
  check := fun e s lockMain fForce i => modifyXnode_notOlder s i _ (fun mn _ => by
    have h := congrArg (fun a => a.2.2.1) (Check_announce e s lockMain fForce mn)
    exact le_of_eq h.symm)
  ping := fun s i mnp => modifyXnode_notOlder s i _ (fun _ _ => le_refl _)
  take := fun mnb s i mn hrec hmn hnew => modifyXnode_notOlder s i _ (fun mn1 h1 => by
    rw [hmn] at h1
    cases h1
    show mn.sigTime ≤ mnb.sigTime
    by_contra hc
    exact hnew ⟨by omega, hrec⟩)
  own := fun s i => modifyXnode_notOlder s i _ (fun _ _ => le_refl _)
  add := fun s mn _ => Add_notOlder s mn

/-! ### The PoSe scores stay in range -/

theorem mem_updateAt {α : Type} (g : α → α) (l : List α) (i : Nat) (x : α)
    (h : x ∈ updateAt l i g) : x ∈ l ∨ ∃ y ∈ l, x = g y := by
  induction l generalizing i with
  | nil => cases i <;> cases h
  | cons a rest ih =>
    cases i with
    | zero =>
      rcases List.mem_cons.mp h with h1 | h1
      · exact Or.inr ⟨a, List.mem_cons_self _ _, h1⟩
      · exact Or.inl (List.mem_cons_of_mem _ h1)
    | succ i =>
      rcases List.mem_cons.mp h with h1 | h1
      · exact Or.inl (by rw [h1]; exact List.mem_cons_self _ _)
      · rcases ih i h1 with h2 | ⟨y, hy, h2⟩
        · exact Or.inl (List.mem_cons_of_mem _ h2)
        · exact Or.inr ⟨y, List.mem_cons_of_mem _ hy, h2⟩

theorem modifyXnode_keepsScores (s : State) (i : Nat) (g : CXnode → CXnode)
    (hg : ∀ mn : CXnode, mn.ScoreInRange → (g mn).ScoreInRange) :
    (s.modifyXnode i g).KeepsScores s := by
  intro h mn hmn
  rcases mem_updateAt g s.mnodeman.vXnodes i mn hmn with h1 | ⟨y, hy, h1⟩
  · exact h mn h1
  · rw [h1]
    exact hg y (h y hy)

theorem ScoreInRange_of_score (mn mn1 : CXnode) (h : mn1.nPoSeBanScore = mn.nPoSeBanScore)
    (hr : mn.ScoreInRange) : mn1.ScoreInRange := by
  unfold CXnode.ScoreInRange at hr ⊢
  rw [h]
  exact hr

theorem ScoreInRange_zero (mn : CXnode) (h : mn.nPoSeBanScore = 0) : mn.ScoreInRange := by
  unfold CXnode.ScoreInRange XNODE_POSE_BAN_MAX_SCORE
  rw [h]
  omega

theorem DecreasePoSeBanScore_range (mn : CXnode) (hr : mn.ScoreInRange) :
    mn.DecreasePoSeBanScore.ScoreInRange := by
  unfold CXnode.ScoreInRange XNODE_POSE_BAN_MAX_SCORE at hr ⊢
  unfold CXnode.DecreasePoSeBanScore
  split
  · show -5 ≤ mn.nPoSeBanScore - 1 ∧ mn.nPoSeBanScore - 1 ≤ 5
    omega
  · exact hr

theorem IncreasePoSeBanScore_range (mn : CXnode) (hr : mn.ScoreInRange) :
    mn.IncreasePoSeBanScore.ScoreInRange := by
  unfold CXnode.ScoreInRange at hr ⊢
  unfold CXnode.IncreasePoSeBanScore
  split
  · rename_i hlt
    unfold XNODE_POSE_BAN_MAX_SCORE at hr hlt ⊢
    show -5 ≤ mn.nPoSeBanScore + 1 ∧ mn.nPoSeBanScore + 1 ≤ 5
    omega
  · exact hr

theorem Check_range (e : Env) (s : State) (lockMain fForce : Bool) (mn : CXnode)
    (hr : mn.ScoreInRange) : (CXnode.Check e s lockMain fForce mn).ScoreInRange := by
  rcases Check_score_near e s lockMain fForce mn with h | ⟨_, h⟩
  · exact ScoreInRange_of_score mn _ h hr
  · exact ScoreInRange_of_score _ _ h (DecreasePoSeBanScore_range mn hr)

theorem stepRel_keepsScores :
    StepRel (fun _ => True) (fun mn => mn.ScoreInRange) State.KeepsScores where
  refl := fun s h => h
  trans := fun s3 s2 s1 h32 h21 h => h32 (h21 h)
  reg := fun s2 s1 h hr => by
    unfold State.ScoresInRange at hr ⊢
    rw [h]
    exact hr
  check := fun e s lockMain fForce i =>
    modifyXnode_keepsScores s i _ (Check_range e s lockMain fForce)
  ping := fun s i mnp => modifyXnode_keepsScores s i _
    (fun mn hr => ScoreInRange_of_score mn _ rfl hr)
  take := fun mnb s i _ _ _ _ => modifyXnode_keepsScores s i _
    (fun mn _ => ScoreInRange_zero _ rfl)
  own := fun s i => modifyXnode_keepsScores s i _ (fun mn _ => by
    unfold CXnode.ScoreInRange XNODE_POSE_BAN_MAX_SCORE
    show -5 ≤ (-5 : Int) ∧ (-5 : Int) ≤ 5
    omega)
  add := fun s mn hok hr => by
    intro x hx
    obtain ⟨added, h⟩ := Add_extends s.mnodeman mn
    cases hf : s.mnodeman.Find mn.vin with
    | none =>
      have h2 : x ∈ (s.mnodeman.Add mn).2.vXnodes := hx
      rw [Add_none s.mnodeman mn hf] at h2
      rcases List.mem_append.mp h2 with h3 | h3
      · exact hr x h3
      · rw [List.mem_singleton.mp h3]
        exact hok
    | some j =>
      have h2 : x ∈ (s.mnodeman.Add mn).2.vXnodes := hx
      rw [Add_some s.mnodeman mn j hf] at h2
      exact hr x h2

theorem SimpleCheck_score (e : Env) (mnb : CXnodeBroadcast) :
    (mnb.SimpleCheck e).2.nPoSeBanScore = mnb.nPoSeBanScore := by
  rcases SimpleCheck_snd e mnb with h | h
  · rw [h]
  · rw [h]

theorem range_of_steps (r cur after : Option CXnode)
    (hcur : cur = r ∨ cur = r.map CXnode.DecreasePoSeBanScore)
    (hafter : after = cur ∨ after = cur.map CXnode.IncreasePoSeBanScore)
    (hr : ∀ r0, r = some r0 → r0.ScoreInRange) :
    ∀ r1, after = some r1 → r1.ScoreInRange := by
  intro r1 h1
  cases r with
  | none =>
    rcases hcur with h | h <;> rcases hafter with h2 | h2 <;> subst h <;> subst h2 <;> cases h1
  | some r0 =>
    have h0 := hr r0 rfl
    rcases hcur with h | h <;> rcases hafter with h2 | h2 <;> subst h <;> subst h2 <;> cases h1
    · exact h0
    · exact IncreasePoSeBanScore_range _ h0
    · exact DecreasePoSeBanScore_range _ h0
    · exact IncreasePoSeBanScore_range _ (DecreasePoSeBanScore_range _ h0)

theorem KeepsScores_of_steps (s2 s : State)
    (h : ∀ j : Nat, ∃ cur : Option CXnode,
      (cur = s.mnodeman.vXnodes[j]?
        ∨ cur = (s.mnodeman.vXnodes[j]?).map CXnode.DecreasePoSeBanScore)
      ∧ (s2.mnodeman.vXnodes[j]? = cur
        ∨ s2.mnodeman.vXnodes[j]? = cur.map CXnode.IncreasePoSeBanScore)) :
    s2.KeepsScores s := by
  intro hr mn hmn
  obtain ⟨j, hj⟩ := List.mem_iff_getElem?.mp hmn
  obtain ⟨cur, hc, ha⟩ := h j
  exact range_of_steps (s.mnodeman.vXnodes[j]?) cur _ hc ha
    (fun r0 h0 => hr r0 (List.mem_iff_getElem?.mpr ⟨j, h0⟩)) mn hj

theorem CheckSameAddr_keepsScores (e : Env) (s : State) (hr : s.ScoresInRange) :
    ∀ mn ∈ (s.mnodeman.CheckSameAddr e).vXnodes, mn.ScoreInRange := by
  intro mn hmn
  obtain ⟨j, hj⟩ := List.mem_iff_getElem?.mp hmn
  exact range_of_steps (s.mnodeman.vXnodes[j]?) (s.mnodeman.vXnodes[j]?) _ (Or.inl rfl)
    (CheckSameAddr_score e s.mnodeman j)
    (fun r0 h0 => hr r0 (List.mem_iff_getElem?.mpr ⟨j, h0⟩)) mn hj

/-- With a wallet the tick of the controller has a state after it. -/
theorem ManageStateLocal_isSome (e : Env) (a : ActiveEnv) (s : State)
    (hw : a.hasWallet = true) : (CActiveXnode.ManageStateLocal e a s).isSome = true := by
  unfold CActiveXnode.ManageStateLocal
  simp only [hw, Bool.not_true, Bool.false_eq_true, if_false]
  repeat' split
  all_goals rfl

theorem ManageState_isSome (e : Env) (a : ActiveEnv) (s : State)
    (hw : a.hasWallet = true) : (CActiveXnode.ManageState e a s).isSome = true := by
  have hl := ManageStateLocal_isSome e a
  have hsy : ∀ x, (CActiveXnode.manageStateSynced e a x).isSome = true := by
    intro x
    unfold CActiveXnode.manageStateSynced
    simp only []
    repeat' split
    all_goals first | rfl | exact hl _ hw
  unfold CActiveXnode.ManageState CActiveXnode.manageStateBody
  split
  · rename_i h
    split at h
    · cases h
    · simp only [] at h
      split at h
      · cases h
      · have h2 := hsy (CActiveXnode.syncedGuard e s).2
        rw [Option.isSome_iff_exists] at h2
        obtain ⟨x, hx⟩ := h2
        rw [hx] at h
        cases h
  · rfl
  · rfl


/-! ### Announce times under the controller (C6) -/

/-- C6: for a stored record `mn` at position `i` and an announcement `mnb` not
flagged as a recovery response, in the environment `e.withController a` in
which `activeXnode.ManageState()` is the embedded controller: when
`mnb.sigTime ≤ mn.sigTime`, both `CXnode::UpdateFromNewBroadcast` and
`CXnodeBroadcast::Update` return false and leave the whole state, hence every
field of the record, unchanged; and whatever the time of `mnb`, the node's own
announcements included, after each of the two calls every record stored before
is still at its position with an announce time that is not lower. -/
theorem C6_stale_broadcast_rejected (e : Env) (a : ActiveEnv) (i : Nat) (mnb : CXnodeBroadcast)
    (s : State) (mn : CXnode) (hmn : s.getXnode i = some mn) (hrec : mnb.fRecovery = false) :
    (mnb.sigTime ≤ mn.sigTime →
        CXnode.UpdateFromNewBroadcast (e.withController a) i mnb s = (false, s) ∧
        mnb.Update (e.withController a) i s = ((false, 0), s) ∧
        (CXnode.UpdateFromNewBroadcast (e.withController a) i mnb s).2.getXnode i = some mn ∧
        (mnb.Update (e.withController a) i s).2.getXnode i = some mn)
    ∧ (∀ (j : Nat) (mn1 : CXnode), s.getXnode j = some mn1 →
        ∃ mn2, (CXnode.UpdateFromNewBroadcast (e.withController a) i mnb s).2.getXnode j
            = some mn2 ∧ mn1.sigTime ≤ mn2.sigTime)
    ∧ (∀ (j : Nat) (mn1 : CXnode), s.getXnode j = some mn1 →
        ∃ mn2, (mnb.Update (e.withController a) i s).2.getXnode j = some mn2
          ∧ mn1.sigTime ≤ mn2.sigTime) := by
  have hF : ∀ x : State, ((e.withController a).ManageState x).NotOlder x :=
    withController_rel stepRel_notOlder e a (fun _ c3 _ => ⟨c3, trivial⟩)
  refine ⟨?_, ?_, ?_⟩
  · intro hold
    have h1 := UpdateFromNewBroadcast_stale (e.withController a) i mnb s mn hmn hrec hold
    have h2 := Update_stale (e.withController a) i mnb s mn hmn hrec hold
    refine ⟨h1, h2, ?_, ?_⟩
    · rw [h1]; exact hmn
    · rw [h2]; exact hmn
  · exact UpdateFromNewBroadcast_rel stepRel_notOlder (e.withController a) hF i mnb hrec s
  · exact Update_rel stepRel_notOlder (e.withController a) hF i mnb hrec s

/-- C6 at samples: the record announced at 90000 rejects an announcement made
at 89999; and on a service node that runs from its wallet, the node's own
announcement made at 99950 is taken, the controller entered by the call
announces the node again, and the record is left with the announce time
100000. -/
theorem C6_stale_broadcast_rejected_witness :
    (sampleState [sampleXnode 1 0]).getXnode 0 = some (sampleXnode 1 0)
    ∧ CXnode.UpdateFromNewBroadcast (sampleEnv.withController sampleWalletEnv) 0
        { toCXnode := { sampleXnode 1 0 with sigTime := 89999 }, fRecovery := false }
        (sampleState [sampleXnode 1 0])
      = (false, sampleState [sampleXnode 1 0])
    ∧ (sampleLocalState [sampleXnode 1 0]).mnodeman.vXnodes.map (fun mn => mn.sigTime) = [90000]
    ∧ (CXnode.UpdateFromNewBroadcast (sampleEnvXNode.withController sampleWalletEnv) 0
        sampleNewerMnb (sampleLocalState [sampleXnode 1 0])).2.mnodeman.vXnodes.map
          (fun mn => mn.sigTime) = [100000]
    ∧ ∃ mn2, (CXnode.UpdateFromNewBroadcast (sampleEnvXNode.withController sampleWalletEnv) 0
        sampleNewerMnb (sampleLocalState [sampleXnode 1 0])).2.getXnode 0 = some mn2
        ∧ (sampleXnode 1 0).sigTime ≤ mn2.sigTime :=
  ⟨rfl, ((C6_stale_broadcast_rejected sampleEnv sampleWalletEnv 0
      { toCXnode := { sampleXnode 1 0 with sigTime := 89999 }, fRecovery := false }
      (sampleState [sampleXnode 1 0]) (sampleXnode 1 0) rfl rfl).1 (by decide)).1,
    by decide, by decide,
    (C6_stale_broadcast_rejected sampleEnvXNode sampleWalletEnv 0 sampleNewerMnb
      (sampleLocalState [sampleXnode 1 0]) (sampleXnode 1 0) rfl rfl).2.1 0 (sampleXnode 1 0) rfl⟩

/-! ### Uniqueness of outpoints under the controller (C8) -/

/-- C8: in the environment `e.withController a`, in which
`activeXnode.ManageState()` is the embedded controller, the outpoints of
`vXnodes` are pairwise distinct in the empty registry, and stay so under
`CXnodeMan::Add`, `UpdateXnodeList`, `CheckAndRemove` and `Clear`; `Add`
returns true and appends the record when no stored record has its outpoint,
and otherwise returns false and changes nothing of the manager, registry and
index included. -/
theorem C8_unique_outpoints (e : Env) (a : ActiveEnv) :
    (∀ s : State, s.mnodeman.vXnodes = [] → s.UniqueOutpoints)
    ∧ (∀ (s : State) (mn : CXnode), s.UniqueOutpoints →
        State.UniqueOutpoints { s with mnodeman := (s.mnodeman.Add mn).2 })
    ∧ (∀ (s : State) (mnb : CXnodeBroadcast), s.UniqueOutpoints →
        (CXnodeMan.UpdateXnodeList (e.withController a) mnb s).UniqueOutpoints)
    ∧ (∀ s : State, s.UniqueOutpoints →
        (CXnodeMan.CheckAndRemove (e.withController a) s).UniqueOutpoints)
    ∧ (∀ s : State, State.UniqueOutpoints { s with mnodeman := s.mnodeman.Clear })
    ∧ (∀ (m : CXnodeMan) (mn : CXnode),
        ((∀ x ∈ m.vXnodes, x.vin.prevout ≠ mn.vin.prevout) →
          (m.Add mn).1 = true ∧ (m.Add mn).2.vXnodes = m.vXnodes ++ [mn])
        ∧ ((∃ x ∈ m.vXnodes, x.vin.prevout = mn.vin.prevout) → m.Add mn = (false, m))) :=
  unique_outpoints_kept (e.withController a) (withController_keepsRegistry e a)

/-- C8 at samples: the sweep of a registry of two records with distinct
outpoints leaves distinct outpoints; and on a service node that runs from its
wallet, `UpdateXnodeList` for the node's own announcement, which enters the
controller, leaves the one outpoint of the registry. -/
theorem C8_unique_outpoints_witness :
    (sampleState [sampleXnode 1 0, sampleXnode 2 0]).outpoints.Nodup
    ∧ (CXnodeMan.CheckAndRemove (sampleEnv.withController sampleWalletEnv)
        (sampleState [sampleXnode 1 0, sampleXnode 2 0])).UniqueOutpoints
    ∧ (CXnodeMan.UpdateXnodeList (sampleEnvXNode.withController sampleWalletEnv) sampleNewerMnb
        (sampleLocalState [sampleXnode 1 0])).outpoints = [(sampleXnode 1 0).vin.prevout]
    ∧ (CXnodeMan.UpdateXnodeList (sampleEnvXNode.withController sampleWalletEnv) sampleNewerMnb
        (sampleLocalState [sampleXnode 1 0])).UniqueOutpoints :=
  ⟨by unfold State.outpoints; decide,
    (C8_unique_outpoints sampleEnv sampleWalletEnv).2.2.2.1
      (sampleState [sampleXnode 1 0, sampleXnode 2 0])
      (by unfold State.UniqueOutpoints State.outpoints; decide),
    by unfold State.outpoints; decide,
    (C8_unique_outpoints sampleEnvXNode sampleWalletEnv).2.2.1
      (sampleLocalState [sampleXnode 1 0]) sampleNewerMnb
      (by unfold State.UniqueOutpoints State.outpoints; decide)⟩

/-! ### The sweep under the controller (C9) -/

/-- C9 (amended): in the environment `e.withController a`, in which
`activeXnode.ManageState()` is the embedded controller, after `CheckAndRemove`
runs with the node list synced: every record whose collateral UTXO is absent
and whose `Check` runs (no shutdown requested, last checked at least
`XNODE_CHECK_SECONDS` ago, not a unit-test record) is put in state
`OUTPOINT_SPENT` by `Check` and erased by the removal loop; the registry after
the removal loop, and at the end of the call when no recovery replies are
pending, holds exactly the records that are not in state `OUTPOINT_SPENT`
after their `Check`, in their order, so none in state `OUTPOINT_SPENT`; and in
every case the outpoints of those records are still in the registry at the end
of the call, in the same order, before any added. -/
theorem C9_CheckAndRemove_sweeps (e : Env) (a : ActiveEnv) (s : State)
    (hsync : e.IsXnodeListSynced = true) :
    (∀ mn ∈ s.mnodeman.vXnodes, e.ShutdownRequested = false →
        ¬ (e.GetTime - mn.nTimeLastChecked < e.XNODE_CHECK_SECONDS) → mn.fUnitTest = false →
        e.getUTXO mn.vin.prevout = none →
        (mn.Check (e.withController a) s true false).nActiveState = XNODE_OUTPOINT_SPENT ∧
        mn.Check (e.withController a) s true false
          ∉ (CXnodeMan.removeSpent (e.withController a) s).mnodeman.vXnodes)
    ∧ (CXnodeMan.removeSpent (e.withController a) s).mnodeman.vXnodes
        = (s.mnodeman.vXnodes.map (CXnode.Check (e.withController a) s true false)).filter
            (fun mn => !mn.IsOutpointSpent)
    ∧ (s.mnodeman.mMnbRecoveryGoodReplies = [] →
        (CXnodeMan.CheckAndRemove (e.withController a) s).mnodeman.vXnodes
          = (s.mnodeman.vXnodes.map (CXnode.Check (e.withController a) s true false)).filter
              (fun mn => !mn.IsOutpointSpent)
        ∧ ∀ mn ∈ (CXnodeMan.CheckAndRemove (e.withController a) s).mnodeman.vXnodes,
            mn.nActiveState ≠ XNODE_OUTPOINT_SPENT)
    ∧ (∃ added, (CXnodeMan.CheckAndRemove (e.withController a) s).outpoints
        = ((s.mnodeman.vXnodes.map (CXnode.Check (e.withController a) s true false)).filter
            (fun mn => !mn.IsOutpointSpent)).map (fun mn => mn.vin.prevout) ++ added) :=
  CheckAndRemove_sweeps_kept (e.withController a) s hsync (withController_keepsRegistry e a)

/-- C9 (amended) at a sample: with an empty UTXO set and no replies pending,
the sweep leaves the one record that is not spent after its check, the record
checked two seconds before, and erases the other. -/
theorem C9_CheckAndRemove_sweeps_witness :
    sampleEnvNoCoins.IsXnodeListSynced = true
    ∧ (CXnodeMan.CheckAndRemove (sampleEnvNoCoins.withController sampleWalletEnv)
        (sampleState [sampleXnode 2 0, sampleJustChecked])).mnodeman.vXnodes
      = ((sampleState [sampleXnode 2 0, sampleJustChecked]).mnodeman.vXnodes.map
          (CXnode.Check (sampleEnvNoCoins.withController sampleWalletEnv)
            (sampleState [sampleXnode 2 0, sampleJustChecked])
            true false)).filter (fun mn => !mn.IsOutpointSpent)
    ∧ (CXnodeMan.CheckAndRemove (sampleEnvNoCoins.withController sampleWalletEnv)
        (sampleState [sampleXnode 2 0, sampleJustChecked])).outpoints
      = [sampleJustChecked.vin.prevout] :=
  ⟨rfl,
    ((C9_CheckAndRemove_sweeps sampleEnvNoCoins sampleWalletEnv
      (sampleState [sampleXnode 2 0, sampleJustChecked]) rfl).2.2.1 rfl).1,
    by unfold State.outpoints; decide⟩

/-! ### The range of the PoSe score (C13) -/

/-- C13 as stated fails: on a service node, `UpdateFromNewBroadcast` for the
node's own announcement leaves the stored record with the PoSe score `-5`,
that is `-XNODE_POSE_BAN_MAX_SCORE`, below 0; so it does with the embedded
controller as `activeXnode.ManageState()`, whether the controller then
announces the node again or not. -/
theorem C13_counterexample :
    (sampleOwnState [sampleXnode 1 0]).mnodeman.vXnodes.map (fun mn => mn.nPoSeBanScore) = [0]
    ∧ (CXnode.UpdateFromNewBroadcast sampleEnvXNode 0 sampleNewerMnb
        (sampleOwnState [sampleXnode 1 0])).1 = true
    ∧ (CXnode.UpdateFromNewBroadcast sampleEnvXNode 0 sampleNewerMnb
        (sampleOwnState [sampleXnode 1 0])).2.mnodeman.vXnodes.map (fun mn => mn.nPoSeBanScore)
      = [-5]
    ∧ (CXnode.UpdateFromNewBroadcast (sampleEnvXNode.withController sampleActiveEnv) 0
        sampleNewerMnb (sampleOwnState [sampleXnode 1 0])).2.mnodeman.vXnodes.map
          (fun mn => mn.nPoSeBanScore) = [-5]
    ∧ (sampleLocalState [sampleXnode 1 0]).mnodeman.vXnodes.map (fun mn => mn.nPoSeBanScore) = [0]
    ∧ (CXnode.UpdateFromNewBroadcast (sampleEnvXNode.withController sampleWalletEnv) 0
        sampleNewerMnb (sampleLocalState [sampleXnode 1 0])).2.mnodeman.vXnodes.map
          (fun mn => mn.nPoSeBanScore) = [-5]
    ∧ XNODE_POSE_BAN_MAX_SCORE = 5 := by
  decide

/-- C13 (amended): the PoSe score `nPoSeBanScore` of every record is an integer
in `[-XNODE_POSE_BAN_MAX_SCORE, XNODE_POSE_BAN_MAX_SCORE]` after construction
and after every operation that modifies it. In the environment
`e.withController a`, in which `activeXnode.ManageState()` is the embedded
controller, and from a registry `s` whose scores are in that range: a
constructed record has the score 0 and the empty registry is in the range;
after `UpdateFromNewBroadcast`, after
`CheckMnbAndUpdateXnodeList` for an announcement whose own score is in the
range, after `Check` of a record and after a `CheckSameAddr` sweep every score
is in the range; `ProcessVerifyReply` returns on a node with an active service
node and `ProcessVerifyBroadcast` returns when the tip is known, and whenever
they return every score is in the range. -/
theorem C13_pose_score (e : Env) (a : ActiveEnv) (s : State) (hs : s.ScoresInRange) :
    ((CXnode.init e).nPoSeBanScore = 0 ∧ (CXnode.init e).ScoreInRange
      ∧ (∀ mnb, (CXnode.ofBroadcast mnb).nPoSeBanScore = 0
          ∧ (CXnode.ofBroadcast mnb).ScoreInRange)
      ∧ ∀ s0 : State, s0.mnodeman.vXnodes = [] → s0.ScoresInRange)
    ∧ (∀ (i : Nat) (mnb : CXnodeBroadcast),
        (CXnode.UpdateFromNewBroadcast (e.withController a) i mnb s).2.ScoresInRange)
    ∧ (∀ (pfrom : Option CNetAddr) (mnb : CXnodeBroadcast), mnb.ScoreInRange →
        (CXnodeMan.CheckMnbAndUpdateXnodeList (e.withController a) pfrom mnb s).2.ScoresInRange)
    ∧ (∀ (lockMain fForce : Bool), ∀ mn ∈ s.mnodeman.vXnodes,
        (CXnode.Check (e.withController a) s lockMain fForce mn).ScoreInRange)
    ∧ (∀ mn ∈ (s.mnodeman.CheckSameAddr (e.withController a)).vXnodes, mn.ScoreInRange)
    ∧ (∀ (pnode : CNode) (mnv : CXnodeVerification),
        (s.activeXnode.vin ≠ CTxIn.null →
          (CXnodeMan.ProcessVerifyReply (e.withController a) pnode mnv s).isSome = true)
        ∧ ∀ res, CXnodeMan.ProcessVerifyReply (e.withController a) pnode mnv s = some res →
            res.2.1.ScoresInRange)
    ∧ (∀ (pnode : CNode) (mnv : CXnodeVerification),
        (s.mnodeman.pCurrentBlockIndex.isSome = true →
          (CXnodeMan.ProcessVerifyBroadcast (e.withController a) pnode mnv s).isSome = true)
        ∧ ∀ res, CXnodeMan.ProcessVerifyBroadcast (e.withController a) pnode mnv s = some res →
            res.2.ScoresInRange) := by
  have hF : ∀ x : State, ((e.withController a).ManageState x).KeepsScores x :=
    withController_rel stepRel_keepsScores e a
      (fun mnb _ c4 => ⟨trivial, ScoreInRange_zero _ rfl⟩)
  refine ⟨⟨rfl, ScoreInRange_zero _ rfl, fun mnb => ⟨rfl, ScoreInRange_zero _ rfl⟩,
      fun s0 h0 mn hmn => by rw [h0] at hmn; cases hmn⟩,
    ?_, ?_, ?_, ?_, ?_, ?_⟩
  · intro i mnb
    exact UpdateFromNewBroadcast_rel stepRel_keepsScores (e.withController a) hF i mnb trivial s hs
  · intro pfrom mnb hmnb
    exact CheckMnbAndUpdateXnodeList_rel stepRel_keepsScores (e.withController a) hF pfrom mnb
      trivial (ScoreInRange_of_score mnb.toCXnode _ (SimpleCheck_score _ mnb) hmnb) s hs
  · intro lockMain fForce mn hmn
    exact Check_range (e.withController a) s lockMain fForce mn (hs mn hmn)
  · exact CheckSameAddr_keepsScores (e.withController a) s hs
  · intro pnode mnv
    refine ⟨ProcessVerifyReply_returns (e.withController a) pnode mnv s, ?_⟩
    intro res hres
    exact KeepsScores_of_steps res.2.1 s
      (ProcessVerifyReply_steps (e.withController a) pnode mnv s res hres) hs
  · intro pnode mnv
    refine ⟨ProcessVerifyBroadcast_returns (e.withController a) pnode mnv s, ?_⟩
    intro res hres
    exact KeepsScores_of_steps res.2 s
      (ProcessVerifyBroadcast_steps (e.withController a) pnode mnv s res hres) hs

/-- C13 (amended) at samples: an active service node receives the reply it
asked for; the call returns, the record that signed the reply stays at score 0
and the other record at the address goes from 0 to 1, both in the range; and
the node's own announcement leaves the record at -5, in the range. -/
theorem C13_pose_score_witness :
    sampleVerifyState.ScoresInRange
    ∧ sampleVerifyState.activeXnode.vin ≠ CTxIn.null
    ∧ (CXnodeMan.ProcessVerifyReply (sampleEnvKeys.withController sampleWalletEnv) samplePeer
        sampleVerifyReply sampleVerifyState).isSome = true
    ∧ sampleVerifyState.mnodeman.vXnodes.map (fun mn => mn.nPoSeBanScore) = [0, 0]
    ∧ (CXnodeMan.ProcessVerifyReply (sampleEnvKeys.withController sampleWalletEnv) samplePeer
        sampleVerifyReply sampleVerifyState).map
          (fun res => res.2.1.mnodeman.vXnodes.map (fun mn => mn.nPoSeBanScore))
      = some [0, 1]
    ∧ (sampleLocalState [sampleXnode 1 0]).ScoresInRange
    ∧ (CXnode.UpdateFromNewBroadcast (sampleEnvXNode.withController sampleWalletEnv) 0
        sampleNewerMnb (sampleLocalState [sampleXnode 1 0])).2.ScoresInRange :=
  ⟨by unfold State.ScoresInRange CXnode.ScoreInRange; decide,
    by decide,
    ((C13_pose_score sampleEnvKeys sampleWalletEnv sampleVerifyState
      (by unfold State.ScoresInRange CXnode.ScoreInRange; decide)).2.2.2.2.2.1 samplePeer
      sampleVerifyReply).1 (by decide),
    by decide, by decide,
    by unfold State.ScoresInRange CXnode.ScoreInRange; decide,
    (C13_pose_score sampleEnvXNode sampleWalletEnv (sampleLocalState [sampleXnode 1 0])
      (by unfold State.ScoresInRange CXnode.ScoreInRange; decide)).2.1 0 sampleNewerMnb⟩

end GravityCoin
